import Mathlib

/-!
ObjCryst indexing core: the reciprocal unit cell, the score of a cell against a
peak list, the dichotomy test and the reduction of the solutions.

A shallow embedding of `RecUnitCell` from `ObjCryst/Indexing.cpp`
(`hkl2d`, `hkl2d_delta`, `DirectUnitCell`), of the functions `Score`,
`DichoIndexed`, `SimilarRUC` and of `CellExplorer::ReduceSolutions`, and theorems
about them.

Conventions of the embedding.

* The C++ `float`/`REAL` values are read as elements of a linearly ordered
  field `K` (exact arithmetic, no rounding).  The definitions are computable
  and can be evaluated at `K = ℚ`; statements about derivatives, square roots
  and arccosines are made at `K = ℝ`.
* `par[0..6]` are the seven fields `par0 .. par6`; `RecUnitCell.par c i` reads
  slot `i` as the C++ expression `par[i]` does.
* The pointer argument `REAL *derivpar` of `hkl2d` is an `Option Nat`:
  `none` is `NULL`, `some i` is the address `par+i` (an `i` above 6 stands for
  a pointer that is none of `par+0 .. par+6`).
* `throw 0` is `Except.error 0`.
* `sqrt` and `acos` of `<cmath>` are parameters of `DirectUnitCell`; the theorems
  instantiate them with `Real.sqrt` and `Real.arccos`.  Division is the field's
  (`x / 0 = 0`); the theorems that evaluate `DirectUnitCell` do so where no
  divisor is zero.
* The peak vector `mvHKL` is a list; a function that writes on the peaks returns
  them with its value.  A read of the vector outside its range is
  `Fault.outOfRange`.
* The loops `for(h=0;;++h)`, `for(k=0;;++k)`, `for(;;++l)` of `Score` and
  `DichoIndexed` have no bound in the source; each gets a budget of iterations
  (`fh`, `fk`, `fl`), and a run that uses one up is `none` or `Fault.outOfFuel`.
  `int` indices are unbounded integers.
* `std::list::sort` is the stable sort `listSort`.
* `std::sort` on the peak vector is the sort `vectorSort`.
* The class `CellExplorer` is the structure of the members that the embedded
  functions read or write (`PeakList::AddPeak`, `RemovePeak`, `Init`,
  `BeginOptimization`, `GetLSQCalc`, `GetLSQDeriv`, the selection of
  `Evolution`, `RDicVol`); a member function takes the object and returns it.
  `unsigned int` arithmetic that can wrap is written modulo 2^32.
* The draws of `rand()` in `Evolution` are not modelled: the selection is given
  the trials as they are handed to `Score`.
* The least-squares refinement `LSQRefine` is done by `LSQNumObj`, which is not
  among the sources: it is a parameter `lsq` of the leaf handling of `RDicVol`.
* The recursion of `RDicVol` gets a budget for its depth; a run that uses it up
  is `none`.
* `fmod` of `<cmath>` is the function `fmod` on the field (the quotient cut
  towards zero); the mutation of `Evolution` takes the members drawn and the
  draw of the mutated index as arguments.
* `Score.fitPeak` and `Score.scanAll` are written after the specification (a
  peak scan with no early exit), to be compared with `Score.scanPeaks`.
* `CellExplorer.DicVol.setup` is the start of `DicVol` up to the first root call
  of `RDicVol`; the root calls pass no `vdepth`, which is an empty vector.
  `RDicVol.Calls` relates a call of `RDicVol` to the recursive calls it makes.
-/

namespace ObjCryst

/-- The seven crystal systems, enum `CrystalSystem` (spelling of the source). -/
inductive CrystalSystem where
  | TRICLINIC
  | MONOCLINIC
  | ORTHOROMBIC
  | HEXAGONAL
  | RHOMBOEDRAL
  | TETRAGONAL
  | CUBIC
  deriving DecidableEq, Repr

open CrystalSystem

/-- Light-weight class storing the reciprocal space unit cell: `par[7]` and `mlattice`. -/
structure RecUnitCell (K : Type) where
  par0 : K
  par1 : K
  par2 : K
  par3 : K
  par4 : K
  par5 : K
  par6 : K
  mlattice : CrystalSystem

section Defs

variable {K : Type} [LinearOrderedField K]

/-- Array read `par[i]` (slots above 6 do not exist and read as 0). -/
def RecUnitCell.par (c : RecUnitCell K) (i : Nat) : K :=
  match i with
  | 0 => c.par0
  | 1 => c.par1
  | 2 => c.par2
  | 3 => c.par3
  | 4 => c.par4
  | 5 => c.par5
  | 6 => c.par6
  | _ => 0

/-- Array write `par[i] = x` (no effect above slot 6). -/
def RecUnitCell.setPar (c : RecUnitCell K) (i : Nat) (x : K) : RecUnitCell K :=
  match i with
  | 0 => { c with par0 := x }
  | 1 => { c with par1 := x }
  | 2 => { c with par2 := x }
  | 3 => { c with par3 := x }
  | 4 => { c with par4 := x }
  | 5 => { c with par5 := x }
  | 6 => { c with par6 := x }
  | _ => c

/-- The function `RecUnitCell::hkl2d(h,k,l,derivpar,derivhkl)`, Indexing.cpp lines 103-450. -/
def RecUnitCell.hkl2d (c : RecUnitCell K) (h k l : K)
    (derivpar : Option Nat) (derivhkl : Nat) : Except Int K :=
  if derivpar = none ∧ derivhkl = 0 then
    match c.mlattice with
    | TRICLINIC =>
      .ok (c.par0 + c.par1*c.par1*h*h + c.par2*c.par2*k*k + c.par3*c.par3*l*l
            + 2*c.par1*c.par2*c.par4*h*k + 2*c.par2*c.par3*c.par5*k*l + 2*c.par1*c.par3*c.par6*h*l)
    | MONOCLINIC =>
      .ok (c.par0 + c.par1*c.par1*h*h + c.par2*c.par2*k*k + c.par3*c.par3*l*l
            + 2*c.par1*c.par3*c.par4*h*l)
    | ORTHOROMBIC =>
      .ok (c.par0 + c.par1*c.par1*h*h + c.par2*c.par2*k*k + c.par3*c.par3*l*l)
    | HEXAGONAL =>
      .ok (c.par0 + c.par1*c.par1*(h*h + k*k + h*k) + c.par2*c.par2*l*l)
    | RHOMBOEDRAL =>
      .ok (c.par0 + c.par1*c.par1*(h*h + k*k + l*l + 2*c.par2*(h*k + k*l + h*l)))
    | TETRAGONAL =>
      .ok (c.par0 + c.par1*c.par1*(h*h + k*k) + c.par2*c.par2*l*l)
    | CUBIC =>
      .ok (c.par0 + c.par1*c.par1*(h*h + k*k + l*l))
  else if derivhkl = 1 then
    match c.mlattice with
    | TRICLINIC => .ok (2*c.par1*c.par1*h + 2*c.par1*c.par2*c.par4*k + 2*c.par1*c.par3*c.par6*l)
    | MONOCLINIC => .ok (2*c.par1*c.par1*h + 2*c.par1*c.par3*c.par4*l)
    | ORTHOROMBIC => .ok (2*c.par1*c.par1*h)
    | HEXAGONAL => .ok (c.par1*c.par1*(2*h + k))
    | RHOMBOEDRAL => .ok (c.par1*c.par1*(2*h + 2*c.par2*(k + l)))
    | TETRAGONAL => .ok (2*c.par1*c.par1*h)
    | CUBIC => .ok (2*c.par1*c.par1*h)
  else if derivhkl = 2 then
    match c.mlattice with
    | TRICLINIC => .ok (2*c.par2*c.par2*k + 2*c.par1*c.par2*c.par4*h + 2*c.par2*c.par3*c.par5*l)
    | MONOCLINIC => .ok (2*c.par2*c.par2*k)
    | ORTHOROMBIC => .ok (2*c.par2*c.par2*k)
    | HEXAGONAL => .ok (c.par1*c.par1*(2*k + h))
    | RHOMBOEDRAL => .ok (c.par1*c.par1*(2*k + l*l + 2*c.par2*(h + l)))
    | TETRAGONAL => .ok (2*c.par1*c.par1*k)
    | CUBIC => .ok (2*c.par1*c.par1*k)
  else if derivhkl = 3 then
    match c.mlattice with
    | TRICLINIC => .ok (2*c.par3*c.par3*l + 2*c.par2*c.par3*c.par5*k + 2*c.par1*c.par3*c.par6*h)
    | MONOCLINIC => .ok (2*c.par3*c.par3*l + 2*c.par1*c.par3*c.par4*h)
    | ORTHOROMBIC => .ok (2*c.par3*c.par3*l)
    | HEXAGONAL => .ok (2*c.par2*c.par2*l)
    | RHOMBOEDRAL => .ok (c.par1*c.par1*(2*l + 2*c.par2*(k + h)))
    | TETRAGONAL => .ok (2*c.par2*c.par2*l)
    | CUBIC => .ok (2*c.par1*c.par1*l)
  else if derivpar = some 0 then .ok 1
  else if derivpar = some 1 then
    match c.mlattice with
    | TRICLINIC => .ok (2*c.par1*h*h + 2*c.par2*c.par4*h*k + 2*c.par3*c.par6*h*l)
    | MONOCLINIC => .ok (2*c.par1*h*h + 2*c.par3*c.par4*h*l)
    | ORTHOROMBIC => .ok (2*c.par1*h*h)
    | HEXAGONAL => .ok (2*c.par1*(h*h + k*k + h*k))
    | RHOMBOEDRAL => .ok (2*c.par1*(h*h + k*k + l*l + 2*c.par2*(h*k + k*l + h*l)))
    | TETRAGONAL => .ok (2*c.par1*(h*h + k*k))
    | CUBIC => .ok (2*c.par1*(h*h + k*k + l*l))
  else if derivpar = some 2 then
    match c.mlattice with
    | TRICLINIC => .ok (2*c.par2*k*k + 2*c.par1*c.par4*h*k + 2*c.par2*c.par5*k*l)
    | MONOCLINIC => .ok (2*c.par2*k*k)
    | ORTHOROMBIC => .ok (2*c.par2*k*k)
    | HEXAGONAL => .ok (2*c.par2*l*l)
    | RHOMBOEDRAL => .ok (c.par1*c.par1*(h*h + k*k + l*l + 2*(h*k + k*l + h*l)))
    | TETRAGONAL => .ok (2*c.par2*l*l)
    | CUBIC => .error 0
  else if derivpar = some 3 then
    match c.mlattice with
    | TRICLINIC => .ok (2*c.par3*l*l + 2*c.par2*c.par5*k*l + 2*c.par1*c.par6*h*l)
    | MONOCLINIC => .ok (2*c.par3*l*l + 2*c.par1*c.par4*h*l)
    | ORTHOROMBIC => .ok (2*c.par3*l*l)
    | HEXAGONAL => .error 0
    | RHOMBOEDRAL => .error 0
    | TETRAGONAL => .error 0
    | CUBIC => .error 0
  else if derivpar = some 4 then
    match c.mlattice with
    | TRICLINIC => .ok (2*c.par1*c.par2*h*k)
    | MONOCLINIC => .ok (2*c.par1*c.par3*h*l)
    | _ => .error 0
  else if derivpar = some 5 then
    match c.mlattice with
    | TRICLINIC => .ok (2*c.par2*c.par3*k*l)
    | _ => .error 0
  else if derivpar = some 6 then
    match c.mlattice with
    | TRICLINIC => .ok (2*c.par1*c.par3*h*l)
    | _ => .error 0
  else .error 0

/-- The function `RecUnitCell::hkl2d_delta(h,k,l,delta,dmin,dmax)`, Indexing.cpp lines 452-554.
The two output references are returned as the pair `(dmin, dmax)`. -/
def RecUnitCell.hkl2d_delta (c : RecUnitCell K) (h k l : K) (delta : RecUnitCell K) : K × K :=
  let p0m := c.par0 - delta.par0
  let p0p := c.par0 + delta.par0
  let p1m := c.par1 - delta.par1
  let p1p := c.par1 + delta.par1
  let p2m := c.par2 - delta.par2
  let p2p := c.par2 + delta.par2
  let p3m := c.par3 - delta.par3
  let p3p := c.par3 + delta.par3
  let p4m := c.par4 - delta.par4
  let p4p := c.par4 + delta.par4
  let p5m := c.par5 - delta.par5
  let p5p := c.par5 + delta.par5
  let p6m := c.par6 - delta.par6
  let p6p := c.par6 + delta.par6
  match c.mlattice with
  | TRICLINIC =>
    let p1mm := if h*(c.par1*h + c.par2*c.par4*k + c.par3*c.par6*l) > 0 then p1m else p1p
    let p1pp := if h*(c.par1*h + c.par2*c.par4*k + c.par3*c.par6*l) > 0 then p1p else p1m
    let p2mm := if k*(c.par2*k + c.par1*c.par4*h + c.par3*c.par5*l) > 0 then p2m else p2p
    let p2pp := if k*(c.par2*k + c.par1*c.par4*h + c.par3*c.par5*l) > 0 then p2p else p2m
    let p3mm := if l*(c.par3*l + c.par2*c.par5*k + c.par1*c.par6*h) > 0 then p3m else p3p
    let p3pp := if l*(c.par3*l + c.par2*c.par5*k + c.par1*c.par6*h) > 0 then p3p else p3m
    let p4mm := if h*k > 0 then p4m else p4p
    let p4pp := if h*k > 0 then p4p else p4m
    let p5mm := if k*l > 0 then p5m else p5p
    let p5pp := if k*l > 0 then p5p else p5m
    let p6mm := if h*l > 0 then p6m else p6p
    let p6pp := if h*l > 0 then p6p else p6m
    (p0m + p1mm*p1mm*h*h + p2mm*p2mm*k*k + p3mm*p3mm*l*l
        + 2*p1mm*p2mm*p4mm*h*k + 2*p2mm*p3mm*p5mm*k*l + 2*p1mm*p3mm*p6mm*h*l,
     p0p + p1pp*p1pp*h*h + p2pp*p2pp*k*k + p3pp*p3pp*l*l
        + 2*p1pp*p2pp*p4pp*h*k + 2*p2pp*p3pp*p5pp*k*l + 2*p1pp*p3pp*p6pp*h*l)
  | MONOCLINIC =>
    if h*l > 0 then
      (p0m + p1m*p1m*h*h + p2m*p2m*k*k + p3m*p3m*l*l + 2*p1m*p3m*p4m*h*l,
       p0p + p1p*p1p*h*h + p2p*p2p*k*k + p3p*p3p*l*l + 2*p1p*p3p*p4p*h*l)
    else
      let b1 : Bool := decide (h*(c.par1*h + c.par3*c.par4*l) > 0)
      let b3 : Bool := decide (l*(c.par3*l + c.par1*c.par4*h) > 0)
      if b1 && b3 then
        (p0m + p1m*p1m*h*h + p2m*p2m*k*k + p3m*p3m*l*l + 2*p1m*p3m*p4p*h*l,
         p0p + p1p*p1p*h*h + p2p*p2p*k*k + p3p*p3p*l*l + 2*p1p*p3p*p4m*h*l)
      else if b1 && (!b3) then
        (p0m + p1m*p1m*h*h + p2m*p2m*k*k + p3p*p3p*l*l + 2*p1m*p3p*p4p*h*l,
         p0p + p1p*p1p*h*h + p2p*p2p*k*k + p3m*p3m*l*l + 2*p1p*p3m*p4m*h*l)
      else if (!b1) && b3 then
        (p0m + p1p*p1p*h*h + p2m*p2m*k*k + p3m*p3m*l*l + 2*p1p*p3m*p4p*h*l,
         p0p + p1m*p1m*h*h + p2p*p2p*k*k + p3p*p3p*l*l + 2*p1m*p3p*p4m*h*l)
      else
        (p0m + p1p*p1p*h*h + p2m*p2m*k*k + p3p*p3p*l*l + 2*p1p*p3p*p4p*h*l,
         p0p + p1m*p1m*h*h + p2p*p2p*k*k + p3m*p3m*l*l + 2*p1m*p3m*p4m*h*l)
  | ORTHOROMBIC =>
    (p0m + p1m*p1m*h*h + p2m*p2m*k*k + p3m*p3m*l*l,
     p0p + p1p*p1p*h*h + p2p*p2p*k*k + p3p*p3p*l*l)
  | HEXAGONAL =>
    (p0m + p1m*p1m*(h*h + k*k + h*k) + p2m*p2m*l*l,
     p0p + p1p*p1p*(h*h + k*k + h*k) + p2p*p2p*l*l)
  | RHOMBOEDRAL =>
    if h*k + k*l + h*l ≥ 0 then
      (p0m + p1m*p1m*(h*h + k*k + l*l + 2*p2m*(h*k + k*l + h*l)),
       p0p + p1p*p1p*(h*h + k*k + l*l + 2*p2p*(h*k + k*l + h*l)))
    else
      (p0m + p1m*p1m*(h*h + k*k + l*l + 2*p2p*(h*k + k*l + h*l)),
       p0p + p1p*p1p*(h*h + k*k + l*l + 2*p2m*(h*k + k*l + h*l)))
  | TETRAGONAL =>
    (p0m + p1m*p1m*(h*h + k*k) + p2m*p2m*l*l,
     p0p + p1p*p1p*(h*h + k*k) + p2p*p2p*l*l)
  | CUBIC =>
    (p0m + p1m*p1m*(h*h + k*k + l*l),
     p0p + p1p*p1p*(h*h + k*k + l*l))

/-- The local variables set by the `switch(mlattice)` of `DirectUnitCell`
(Indexing.cpp lines 559-653): reciprocal lengths, cosines and sines. -/
structure RecipMetric (K : Type) where
  aa : K
  bb : K
  cc : K
  calphaa : K
  cbetaa : K
  cgammaa : K
  salphaa : K
  sbetaa : K
  sgammaa : K

/-- The `switch(mlattice)` of `RecUnitCell::DirectUnitCell`, Indexing.cpp lines 560-653.
The literal `0.8660254037844386` of the source is kept as a decimal fraction. -/
def RecUnitCell.recipMetric (sqrt : K → K) (c : RecUnitCell K) : RecipMetric K :=
  match c.mlattice with
  | TRICLINIC =>
    { aa := c.par1, bb := c.par2, cc := c.par3,
      calphaa := c.par5, cbetaa := c.par6, cgammaa := c.par4,
      salphaa := sqrt |1 - c.par5*c.par5|,
      sbetaa := sqrt |1 - c.par6*c.par6|,
      sgammaa := sqrt |1 - c.par4*c.par4| }
  | MONOCLINIC =>
    { aa := c.par1, bb := c.par2, cc := c.par3,
      calphaa := 0, cbetaa := c.par4, cgammaa := 0,
      salphaa := 1,
      sbetaa := sqrt |1 - c.par4*c.par4|,
      sgammaa := 1 }
  | ORTHOROMBIC =>
    { aa := c.par1, bb := c.par2, cc := c.par3,
      calphaa := 0, cbetaa := 0, cgammaa := 0,
      salphaa := 1, sbetaa := 1, sgammaa := 1 }
  | HEXAGONAL =>
    { aa := c.par1, bb := c.par1, cc := c.par2,
      calphaa := 0, cbetaa := 0, cgammaa := 1/2,
      salphaa := 1, sbetaa := 1, sgammaa := 8660254037844386 / 10000000000000000 }
  | RHOMBOEDRAL =>
    { aa := c.par1, bb := c.par1, cc := c.par1,
      calphaa := c.par4, cbetaa := c.par4, cgammaa := c.par4,
      salphaa := sqrt |1 - c.par4*c.par4|,
      sbetaa := sqrt |1 - c.par4*c.par4|,
      sgammaa := sqrt |1 - c.par4*c.par4| }
  | TETRAGONAL =>
    { aa := c.par1, bb := c.par1, cc := c.par2,
      calphaa := 0, cbetaa := 0, cgammaa := 0,
      salphaa := 1, sbetaa := 1, sgammaa := 1 }
  | CUBIC =>
    { aa := c.par1, bb := c.par1, cc := c.par1,
      calphaa := 0, cbetaa := 0, cgammaa := 0,
      salphaa := 1, sbetaa := 1, sgammaa := 1 }

/-- The argument of the square root giving the reciprocal volume factor `vv`
(Indexing.cpp line 655), before the `abs`. -/
def RecipMetric.vvArg (m : RecipMetric K) : K :=
  1 - m.calphaa*m.calphaa - m.cbetaa*m.cbetaa - m.cgammaa*m.cgammaa
    + 2*m.calphaa*m.cbetaa*m.cgammaa

/-- The direct-space cosines `calpha`, `cbeta`, `cgamma` handed to `acos`
(Indexing.cpp lines 661-663). -/
def RecipMetric.directCosines (m : RecipMetric K) : K × K × K :=
  ((m.cbetaa*m.cgammaa - m.calphaa) / (m.sbetaa*m.sgammaa),
   (m.calphaa*m.cgammaa - m.cbetaa) / (m.salphaa*m.sgammaa),
   (m.calphaa*m.cbetaa - m.cgammaa) / (m.salphaa*m.sbetaa))

/-- The argument of the last square root, in the direct volume `v` (Indexing.cpp line 669). -/
def RecipMetric.volArg (m : RecipMetric K) : K :=
  let calpha := m.directCosines.1
  let cbeta := m.directCosines.2.1
  let cgamma := m.directCosines.2.2
  1 - calpha*calpha - cbeta*cbeta - cgamma*cgamma + 2*calpha*cbeta*cgamma

/-- The function `RecUnitCell::DirectUnitCell()`, Indexing.cpp lines 556-680: the vector
`(a, b, c, alpha, beta, gamma, v)`, with `sqrt` and `acos` of the C library as parameters. -/
def RecUnitCell.DirectUnitCell (sqrt acos : K → K) (c : RecUnitCell K) : List K :=
  let m := c.recipMetric sqrt
  let vv := sqrt |m.vvArg|
  let a := m.salphaa / (m.aa*vv)
  let b := m.sbetaa / (m.bb*vv)
  let c' := m.sgammaa / (m.cc*vv)
  let calpha := m.directCosines.1
  let cbeta := m.directCosines.2.1
  let cgamma := m.directCosines.2.2
  let alpha := acos calpha
  let beta := acos cbeta
  let gamma := acos cgamma
  let v := a*b*c'*sqrt m.volArg
  [a, b, c', alpha, beta, gamma, v]

/-- The metric slots of `par` that belong to a lattice system (slot 0, the
zero shift, belongs to all of them and is not listed). -/
def metricSlots : CrystalSystem → List Nat
  | TRICLINIC => [1, 2, 3, 4, 5, 6]
  | MONOCLINIC => [1, 2, 3, 4]
  | ORTHOROMBIC => [1, 2, 3]
  | HEXAGONAL => [1, 2]
  | RHOMBOEDRAL => [1, 2]
  | TETRAGONAL => [1, 2]
  | CUBIC => [1]

/-- The general reciprocal quadratic form
`par0 + a*² h² + b*² k² + c*² l² + 2 a* b* cos γ* hk + 2 b* c* cos α* kl + 2 a* c* cos β* hl`,
written after the specification. -/
def generalForm (par0 as bs cs cosGs cosAs cosBs h k l : K) : K :=
  par0 + as^2*h^2 + bs^2*k^2 + cs^2*l^2
    + 2*as*bs*cosGs*h*k + 2*bs*cs*cosAs*k*l + 2*as*cs*cosBs*h*l

/-- The parameter sharing of the specification: the tuple
`(a*, b*, c*, cos γ*, cos α*, cos β*)` that a lattice system reads from `par[1..6]`. -/
def sharedParameters (c : RecUnitCell K) : K × K × K × K × K × K :=
  match c.mlattice with
  | TRICLINIC => (c.par1, c.par2, c.par3, c.par4, c.par5, c.par6)
  | MONOCLINIC => (c.par1, c.par2, c.par3, 0, 0, c.par4)
  | ORTHOROMBIC => (c.par1, c.par2, c.par3, 0, 0, 0)
  | HEXAGONAL => (c.par1, c.par1, c.par2, 1/2, 0, 0)
  | RHOMBOEDRAL => (c.par1, c.par1, c.par1, c.par2, c.par2, c.par2)
  | TETRAGONAL => (c.par1, c.par1, c.par2, 0, 0, 0)
  | CUBIC => (c.par1, c.par1, c.par1, 0, 0, 0)

/-- The cell at the all-minus corner of the box `c ± delta`. -/
def RecUnitCell.minusCorner (c delta : RecUnitCell K) : RecUnitCell K :=
  { par0 := c.par0 - delta.par0, par1 := c.par1 - delta.par1, par2 := c.par2 - delta.par2,
    par3 := c.par3 - delta.par3, par4 := c.par4 - delta.par4, par5 := c.par5 - delta.par5,
    par6 := c.par6 - delta.par6, mlattice := c.mlattice }

/-- The cell at the all-plus corner of the box `c ± delta`. -/
def RecUnitCell.plusCorner (c delta : RecUnitCell K) : RecUnitCell K :=
  { par0 := c.par0 + delta.par0, par1 := c.par1 + delta.par1, par2 := c.par2 + delta.par2,
    par3 := c.par3 + delta.par3, par4 := c.par4 + delta.par4, par5 := c.par5 + delta.par5,
    par6 := c.par6 + delta.par6, mlattice := c.mlattice }

/-- The cell `c'` lies in the box `c ± delta`: same lattice, and the zero shift and every
metric slot of the lattice within `delta` of the centre. -/
def RecUnitCell.inBox (c delta c' : RecUnitCell K) : Prop :=
  c'.mlattice = c.mlattice ∧
    ∀ i ∈ 0 :: metricSlots c.mlattice,
      c.par i - delta.par i ≤ c'.par i ∧ c'.par i ≤ c.par i + delta.par i

/-- The value carried by a returned result (0 for a thrown error). -/
def okValue (r : Except Int K) : K :=
  match r with
  | .ok v => v
  | .error _ => 0

/-- The first slot `i ≥ 1` that is not a metric parameter of a lattice system, after the
specification: a `derivpar` request on slot `i` is unsupported from this slot on. -/
def firstUnsupportedSlot : CrystalSystem → Nat
  | TRICLINIC => 7
  | MONOCLINIC => 5
  | ORTHOROMBIC => 4
  | HEXAGONAL => 3
  | RHOMBOEDRAL => 3
  | TETRAGONAL => 3
  | CUBIC => 2

/-- The clamped sine of the specification, `sqrt(max(0, 1 - cos²))`. -/
def clampedSine (sqrt : K → K) (cosine : K) : K :=
  sqrt (max 0 (1 - cosine*cosine))

/-- Side condition under which the interval of `hkl2d_delta` is shown to widen with the
half-widths: no negative product of two indices in a cross term (triclinic, monoclinic),
and a rhombohedral cosine that stays at most 1 on the box when the index sum
`h*k + k*l + h*l` is negative. -/
def widenAdmissible (c delta' : RecUnitCell K) (h k l : K) : Prop :=
  match c.mlattice with
  | TRICLINIC => 0 ≤ h*k ∧ 0 ≤ k*l ∧ 0 ≤ h*l
  | MONOCLINIC => 0 ≤ h*l
  | RHOMBOEDRAL => h*k + k*l + h*l < 0 → c.par2 + delta'.par2 ≤ 1
  | _ => True

end Defs

/-- An outcome of a run that is not a returned value. -/
inductive Fault where
  | outOfFuel
  | outOfRange
  deriving DecidableEq, Repr

/-- Miller indices stored as candidates for a peak, struct `PeakList::hkl0`. -/
structure PeakList.hkl0 where
  h : Int
  k : Int
  l : Int
  deriving DecidableEq, Repr

/-- An observed peak with its indexing state, struct `PeakList::hkl`. -/
structure PeakList.hkl (K : Type) where
  dobs : K
  dobssigma : K
  d2obs : K
  d2obsmin : K
  d2obsmax : K
  iobs : K
  iobssigma : K
  h : Int
  k : Int
  l : Int
  isIndexed : Bool
  isSpurious : Bool
  stats : Nat
  d2calc : K
  d2diff : K
  vDicVolHKL : List PeakList.hkl0
  deriving DecidableEq, Repr

/-- The peak list, class `PeakList`: the vector `mvHKL` and the list `mvPredictedHKL`. -/
structure PeakList (K : Type) where
  mvHKL : List (PeakList.hkl K)
  mvPredictedHKL : List (PeakList.hkl K)
  deriving DecidableEq, Repr


section Model

variable {K : Type} [LinearOrderedField K]

/-- The constructor `PeakList::hkl::hkl(d,i,ds,is,h0,k0,l0,dc0)`, Indexing.cpp lines 687-692. -/
def PeakList.hkl.new (d i ds is : K) (h0 k0 l0 : Int) (dc0 : K) : PeakList.hkl K :=
  { dobs := d, dobssigma := ds, d2obs := d*d,
    d2obsmin := (d - ds/2)*(d - ds/2), d2obsmax := (d + ds/2)*(d + ds/2),
    iobs := i, iobssigma := is, h := h0, k := k0, l := l0,
    isIndexed := false, isSpurious := false, stats := 0,
    d2calc := dc0, d2diff := 0, vDicVolHKL := [] }

/-- The call `hkl2d(h,k,l)` on integer indices (no derivative requested). -/
def RecUnitCell.hkl2dInt (c : RecUnitCell K) (h k l : Int) : K :=
  okValue (c.hkl2d (h : K) (k : K) (l : K) none 0)

/-- The call `hkl2d(h,k,l,NULL,derivhkl)` on integer indices. -/
def RecUnitCell.hkl2dDeriv (c : RecUnitCell K) (h k l : Int) (derivhkl : Nat) : K :=
  okValue (c.hkl2d (h : K) (k : K) (l : K) none derivhkl)

/-- The start value `sk0` of the sign of k, from the `switch(mlattice)` of `Score` and
`DichoIndexed` (Indexing.cpp lines 876-899 and 1484-1509). -/
def signK0 : CrystalSystem → Int
  | TRICLINIC => -1
  | MONOCLINIC => 1
  | ORTHOROMBIC => 1
  | HEXAGONAL => -1
  | RHOMBOEDRAL => -1
  | TETRAGONAL => 1
  | CUBIC => 1

/-- The start value `sl0` of the sign of l, from the same `switch`. -/
def signL0 : CrystalSystem → Int
  | TRICLINIC => -1
  | MONOCLINIC => -1
  | ORTHOROMBIC => 1
  | HEXAGONAL => 1
  | RHOMBOEDRAL => -1
  | TETRAGONAL => 1
  | CUBIC => 1

/-- The values of `sl` and of the first `l` set at the top of the body of the `sl` loop of
`Score` (Indexing.cpp lines 913-931). -/
def Score.slStart (lattice : CrystalSystem) (h k : Nat) (sk sl : Int) : Int × Nat :=
  if h + k = 0 then (1, 1)
  else if h = 0 then
    let sl1 := if lattice = MONOCLINIC then 1 else sl
    if sk < 0 ∨ sl1 < 0 then (sl1, 1) else (sl1, 0)
  else if sl < 0 then (sl, 1) else (sl, 0)

/-- The counters and the mutable data of `Score` while it enumerates: `nbCalc`, `nbCalcK`,
`nbCalcH`, the peaks of `dhkl.mvHKL` and `dhkl.mvPredictedHKL`. -/
structure ScoreState (K : Type) where
  nbCalc : Nat
  nbCalcK : Nat
  nbCalcH : Nat
  peaks : List (PeakList.hkl K)
  predicted : List (PeakList.hkl K)

/-- The writes on a peak that a reflection fits better than the ones before, Indexing.cpp
lines 956-964: `d2diff` always, the indices, `isIndexed` and `d2calc` when `storehkl`. -/
def Score.assign (storehkl : Bool) (tmp d2 : K) (h k l : Int) (p : PeakList.hkl K) :
    PeakList.hkl K :=
  if storehkl then
    { p with d2diff := tmp, h := h, k := k, l := l, isIndexed := true, d2calc := d2 }
  else { p with d2diff := tmp }

/-- The scan of the peaks for one reflection, Indexing.cpp lines 948-972 (`first` and `last`
are the ends of the peak vector throughout `Score`). -/
def Score.scanPeaks (storehkl : Bool) (d2 : K) (h k l : Int) :
    List (PeakList.hkl K) → List (PeakList.hkl K)
  | [] => []
  | p :: ps =>
    if d2 - p.d2obs < 1/10 then
      if d2 - p.d2obs < -(1/10) then p :: ps
      else if |d2 - p.d2obs| < |p.d2diff| then
        Score.assign storehkl (d2 - p.d2obs) d2 h k l p :: Score.scanPeaks storehkl d2 h k l ps
      else p :: Score.scanPeaks storehkl d2 h k l ps
    else p :: Score.scanPeaks storehkl d2 h k l ps

/-- The body of the `l` loop of `Score` for a reflection with `d2 <= dmax`, Indexing.cpp
lines 942-972: the three counters, the predicted list and the scan of the peaks. -/
def Score.visit (storehkl storePredictedHKL : Bool) (d2 : K) (h k l : Int)
    (s : ScoreState K) : ScoreState K :=
  { nbCalc := s.nbCalc + 1, nbCalcK := s.nbCalcK + 1, nbCalcH := s.nbCalcH + 1,
    peaks := Score.scanPeaks storehkl d2 h k l s.peaks,
    predicted :=
      if storePredictedHKL then s.predicted ++ [PeakList.hkl.new 0 0 0 0 h k l d2]
      else s.predicted }

/-- The loop `for(;;++l)` of `Score`, Indexing.cpp lines 932-973, with a budget of
iterations (`none` when the budget runs out). -/
def Score.loopL (ruc : RecUnitCell K) (dmax : K) (storehkl storePredictedHKL : Bool)
    (h : Nat) (sk : Int) (k : Nat) (sl : Int) :
    Nat → Nat → ScoreState K → Option (ScoreState K)
  | 0, _, _ => none
  | fuel + 1, l, s =>
    if ruc.hkl2dInt h (sk*k) (sl*l) > dmax then
      if sl * ruc.hkl2dDeriv h (sk*k) (sl*l) 3 ≥ 0 then some s
      else Score.loopL ruc dmax storehkl storePredictedHKL h sk k sl fuel (l + 1) s
    else
      Score.loopL ruc dmax storehkl storePredictedHKL h sk k sl fuel (l + 1)
        (Score.visit storehkl storePredictedHKL (ruc.hkl2dInt h (sk*k) (sl*l)) h (sk*k) (sl*l) s)

/-- The loop `for(int sl=sl0;sl<=1;sl+=2)` of `Score`, Indexing.cpp lines 911-974.  As `sl0`
is -1 or 1 and the body only ever resets `sl` to 1, the body runs once or twice. -/
def Score.loopSL (ruc : RecUnitCell K) (dmax : K) (storehkl storePredictedHKL : Bool)
    (fl : Nat) (h : Nat) (sk : Int) (k : Nat) (s : ScoreState K) : Option (ScoreState K) :=
  let sl0 := signL0 ruc.mlattice
  let st1 := Score.slStart ruc.mlattice h k sk sl0
  match Score.loopL ruc dmax storehkl storePredictedHKL h sk k st1.1 fl st1.2 s with
  | none => none
  | some s1 =>
    if st1.1 + 2 ≤ 1 then
      let st2 := Score.slStart ruc.mlattice h k sk (st1.1 + 2)
      Score.loopL ruc dmax storehkl storePredictedHKL h sk k st2.1 fl st2.2 s1
    else some s1

/-- The loop `for(k=0;;++k)` of `Score`, Indexing.cpp lines 908-980, with a budget. -/
def Score.loopK (ruc : RecUnitCell K) (dmax : K) (storehkl storePredictedHKL : Bool)
    (fl : Nat) (h : Nat) (sk : Int) : Nat → Nat → ScoreState K → Option (ScoreState K)
  | 0, _, _ => none
  | fuel + 1, k, s =>
    match Score.loopSL ruc dmax storehkl storePredictedHKL fl h sk k { s with nbCalcK := 0 } with
    | none => none
    | some s1 =>
      if s1.nbCalcK = 0 then
        if sk * ruc.hkl2dDeriv h (sk*k) 0 2 ≥ 0 then some s1
        else Score.loopK ruc dmax storehkl storePredictedHKL fl h sk fuel (k + 1) s1
      else Score.loopK ruc dmax storehkl storePredictedHKL fl h sk fuel (k + 1) s1

/-- The loop `for(int sk=sk0;sk<=1;sk+=2)` of `Score`, Indexing.cpp lines 905-981; its
body starts with `if(h==0) sk=1`.  As `sk0` is -1 or 1, the body runs once or twice. -/
def Score.loopSK (ruc : RecUnitCell K) (dmax : K) (storehkl storePredictedHKL : Bool)
    (fk fl : Nat) (h : Nat) (s : ScoreState K) : Option (ScoreState K) :=
  let sk0 := signK0 ruc.mlattice
  let sk1 := if h = 0 then 1 else sk0
  match Score.loopK ruc dmax storehkl storePredictedHKL fl h sk1 fk 0 s with
  | none => none
  | some s1 =>
    if sk1 + 2 ≤ 1 then
      let sk2 := if h = 0 then 1 else sk1 + 2
      Score.loopK ruc dmax storehkl storePredictedHKL fl h sk2 fk 0 s1
    else some s1

/-- The loop `for(h=0;;++h)` of `Score`, Indexing.cpp lines 902-983, with a budget. -/
def Score.loopH (ruc : RecUnitCell K) (dmax : K) (storehkl storePredictedHKL : Bool)
    (fk fl : Nat) : Nat → Nat → ScoreState K → Option (ScoreState K)
  | 0, _, _ => none
  | fuel + 1, h, s =>
    match Score.loopSK ruc dmax storehkl storePredictedHKL fk fl h { s with nbCalcH := 0 } with
    | none => none
    | some s1 =>
      if s1.nbCalcH = 0 then some s1
      else Score.loopH ruc dmax storehkl storePredictedHKL fk fl fuel (h + 1) s1

/-- The comparison `comparePairFirst`, Indexing.cpp lines 773-776. -/
def comparePairFirst {α β : Type} [LT α] [DecidableRel (fun a b : α => a < b)]
    (p1 p2 : α × β) : Bool :=
  decide (p1.1 < p2.1)

/-- The member `std::list::sort(comp)`: the stable sort by the strict order `comp`, here
by insertion, each element going before the first one that does not precede it. -/
def listSort {α : Type} (comp : α → α → Bool) (l : List α) : List α :=
  l.insertionSort (fun a b => comp b a = false)

/-- The write `v[i] = f(v[i])` on a vector (no effect outside its range). -/
def modifyAt {α : Type} (f : α → α) : Nat → List α → List α
  | _, [] => []
  | 0, a :: l => f a :: l
  | i + 1, a :: l => a :: modifyAt f i l

/-- The writes `if(storehkl) isIndexed=false; stats++` on a peak removed as spurious,
Indexing.cpp lines 1005-1006. -/
def Score.markSpurious (storehkl : Bool) (p : PeakList.hkl K) : PeakList.hkl K :=
  { p with isIndexed := if storehkl then false else p.isIndexed, stats := p.stats + 1 }

/-- One turn of the loop that removes the worst fitting peaks, Indexing.cpp lines 1002-1008,
on the pair of `epsilon` and the peaks, for the list element `rpos` (`zero` is 0). -/
def Score.dropWorst (storehkl : Bool) (acc : K × List (PeakList.hkl K)) (rpos : K × Nat) :
    K × List (PeakList.hkl K) :=
  (acc.1 - |rpos.1 - 0|, modifyAt (Score.markSpurious storehkl) rpos.2 acc.2)

/-- The list `vdiff_idx` of `Score` after its sort, Indexing.cpp lines 996-1000: the pairs
of `|d2diff|` and position, by ascending `|d2diff|`. -/
def Score.sortedDiffs (peaks : List (PeakList.hkl K)) : List (K × Nat) :=
  listSort comparePairFirst (peaks.enum.map (fun ip => (|ip.2.d2diff|, ip.1)))

/-- The end of `Score`, Indexing.cpp lines 984-1009: the error sum `epsilon` over the
peaks (`autozero` is false, so `zero` is 0), then, when `nbSpurious > 0`, the removal of
the worst fitting peaks, from the end of the sorted list until `nbSpurious` are removed.
Returns `epsilon` and the peaks. -/
def Score.spurious (nbSpurious : Nat) (storehkl : Bool) (peaks : List (PeakList.hkl K)) :
    K × List (PeakList.hkl K) :=
  let epsilon := peaks.foldl (fun e p => e + |p.d2diff - 0|) 0
  if nbSpurious > 0 then
    ((Score.sortedDiffs peaks).reverse.take nbSpurious).foldl (Score.dropWorst storehkl)
      (epsilon, peaks)
  else (epsilon, peaks)

/-- The first loop of `Score`, Indexing.cpp lines 861-866: `isIndexed` is cleared when
`storehkl` is set, `d2calc` and `d2diff` are reset for every peak. -/
def Score.reset (storehkl : Bool) (peaks : List (PeakList.hkl K)) : List (PeakList.hkl K) :=
  peaks.map (fun p =>
    { p with isIndexed := if storehkl then false else p.isIndexed, d2calc := 0, d2diff := 1000 })

/-- The cutoff `dmax` of `Score`, Indexing.cpp lines 867-874: `mvHKL[nb-1].d2obs` times
`predict_coeff` times 1.05; the read is out of range when the peak vector is empty. -/
def Score.cutoff (storePredictedHKL : Bool) (peaks : List (PeakList.hkl K)) : Except Fault K :=
  let nb := peaks.length
  let predict_coeff : K := if storePredictedHKL then 2 else 1
  if nb = 0 then .error Fault.outOfRange
  else
    match peaks[nb - 1]? with
    | none => .error Fault.outOfRange
    | some plast => .ok (plast.d2obs * predict_coeff * (105/100))

/-- The enumeration of `Score`, Indexing.cpp lines 900-983, from the counters at 0. -/
def Score.enumerate (ruc : RecUnitCell K) (dmax : K) (storehkl storePredictedHKL : Bool)
    (fh fk fl : Nat) (peaks predicted : List (PeakList.hkl K)) : Option (ScoreState K) :=
  Score.loopH ruc dmax storehkl storePredictedHKL fk fl fh 0
    { nbCalc := 0, nbCalcK := 0, nbCalcH := 0, peaks := peaks, predicted := predicted }

/-- The function `Score(dhkl,ruc,nbSpurious,verbose,storehkl,storePredictedHKL)`,
Indexing.cpp lines 856-1041.  The three unbounded loops get the budgets `fh`, `fk`, `fl`;
`verbose` only prints and is left out; the result is the score and the peak list as the
call leaves it. -/
def Score (sqrt : K → K) (fh fk fl : Nat) (dhkl : PeakList K) (ruc : RecUnitCell K)
    (nbSpurious : Nat) (storehkl storePredictedHKL : Bool) :
    Except Fault (K × PeakList K) :=
  let peaks0 := Score.reset storehkl dhkl.mvHKL
  let nb := peaks0.length
  let predicted0 := if storePredictedHKL then [] else dhkl.mvPredictedHKL
  match Score.cutoff storePredictedHKL peaks0 with
  | .error e => .error e
  | .ok dmax =>
    match Score.enumerate ruc dmax storehkl storePredictedHKL fh fk fl peaks0 predicted0 with
    | none => .error Fault.outOfFuel
    | some s =>
      let fin := Score.spurious nbSpurious storehkl s.peaks
      if s.nbCalc = 0 then .ok (0, { mvHKL := fin.2, mvPredictedHKL := s.predicted })
      else .ok (sqrt dmax * nb / (2 * fin.1 * s.nbCalc),
                { mvHKL := fin.2, mvPredictedHKL := s.predicted })

/-- What a loop body hands back: `ret b s` when the function returned `b`, `go s` when the
run goes on from state `s`. -/
inductive Flow (σ : Type) where
  | ret (b : Bool) (s : σ)
  | go (s : σ)

/-- The mutable data of `DichoIndexed` while it enumerates: the peaks, `nbIndexed`, the
iterators `first` and `last` as positions in the peak vector, `dmin` and `dmax`. -/
structure DichoState (K : Type) where
  peaks : List (PeakList.hkl K)
  nbIndexed : Int
  first : Nat
  last : Nat
  dmin : K
  dmax : K

/-- The test `(d2obsmax >= d0) && (d1 >= d2obsmin)` of `DichoIndexed`. -/
def DichoIndexed.overlaps (p : PeakList.hkl K) (d0 d1 : K) : Bool :=
  decide (p.d2obsmax ≥ d0) && decide (d1 ≥ p.d2obsmin)

/-- The loop over the peaks in stored-candidate mode (`useStoredHKL==1`), Indexing.cpp lines
1448-1465: the returned value and the peaks as the call leaves them. -/
def DichoIndexed.storedLoop (uc duc : RecUnitCell K) (nbUnindexed : Nat) :
    List (PeakList.hkl K) → Int → Int → Bool × List (PeakList.hkl K)
  | [], _, _ => (false, [])
  | p :: ps, nbIndexed, nbUnIx =>
    match p.vDicVolHKL.find? (fun c =>
        DichoIndexed.overlaps p (uc.hkl2d_delta (c.h : K) (c.k : K) (c.l : K) duc).1
          (uc.hkl2d_delta (c.h : K) (c.k : K) (c.l : K) duc).2) with
    | some c =>
      let d := uc.hkl2d_delta (c.h : K) (c.k : K) (c.l : K) duc
      let p1 := { p with d2calc := (d.1 + d.2)/2, isIndexed := true }
      if nbIndexed - 1 = 0 then (true, p1 :: ps)
      else
        let r := DichoIndexed.storedLoop uc duc nbUnindexed ps (nbIndexed - 1) nbUnIx
        (r.1, p1 :: r.2)
    | none =>
      let p0 := { p with isIndexed := false }
      if nbUnIx + 1 > (nbUnindexed : Int) then (false, p0 :: ps)
      else
        let r := DichoIndexed.storedLoop uc duc nbUnindexed ps nbIndexed (nbUnIx + 1)
        (r.1, p0 :: r.2)

/-- The loop `for(pos=first;pos!=end;++pos)` of `DichoIndexed`, Indexing.cpp lines 1560-1583,
for the reflection `(h,k,l)` with interval `[d0,d1]`; `n` counts the positions left before
`end`, `pos` is the current position. -/
def DichoIndexed.peakLoop (storePossibleHKL : Bool) (h k l : Int) (d0 d1 : K) :
    Nat → Nat → DichoState K → Except Fault (Flow (DichoState K))
  | 0, _, s => .ok (Flow.go s)
  | n + 1, pos, s =>
    if pos = s.last then .ok (Flow.go s)
    else
      match s.peaks[pos]? with
      | none => .error Fault.outOfRange
      | some p =>
        if (!storePossibleHKL) && p.isIndexed then
          DichoIndexed.peakLoop storePossibleHKL h k l d0 d1 n (pos + 1) s
        else if DichoIndexed.overlaps p d0 d1 then
          let p1 := if !p.isIndexed then { p with d2calc := (d0 + d1)/2, isIndexed := true } else p
          let nbIndexed1 := if !p.isIndexed then s.nbIndexed - 1 else s.nbIndexed
          if storePossibleHKL then
            DichoIndexed.peakLoop storePossibleHKL h k l d0 d1 n (pos + 1)
              { s with
                peaks := s.peaks.set pos
                  ({ p1 with vDicVolHKL := p1.vDicVolHKL ++ [PeakList.hkl0.mk h k l] }),
                nbIndexed := nbIndexed1 }
          else
            let s1 := { s with peaks := s.peaks.set pos p1, nbIndexed := nbIndexed1 }
            if nbIndexed1 = 0 then .ok (Flow.ret true s1)
            else
              let afterFirst : Except Fault (DichoState K) :=
                if pos = s1.first then
                  match s1.peaks[s1.first + 1]? with
                  | none => .error Fault.outOfRange
                  | some q => .ok { s1 with first := s1.first + 1, dmin := q.d2obsmin }
                else .ok s1
              match afterFirst with
              | .error e => .error e
              | .ok s2 =>
                let afterLast : Except Fault (DichoState K) :=
                  if pos = s2.last then
                    if s2.last = 0 then .error Fault.outOfRange
                    else
                      match s2.peaks[s2.last - 1]? with
                      | none => .error Fault.outOfRange
                      | some q => .ok { s2 with last := s2.last - 1, dmax := q.d2obsmax }
                  else .ok s2
                match afterLast with
                | .error e => .error e
                | .ok s3 => DichoIndexed.peakLoop storePossibleHKL h k l d0 d1 n (pos + 1) s3
        else DichoIndexed.peakLoop storePossibleHKL h k l d0 d1 n (pos + 1) s

/-- The loop `for(l=l0;;++l)` of `DichoIndexed`, Indexing.cpp lines 1550-1584, with a budget:
the flow and whether `break_l` was set. -/
def DichoIndexed.loopL (uc duc : RecUnitCell K) (storePossibleHKL : Bool)
    (h : Nat) (sk : Int) (k : Nat) (sl : Int) (l0 : Nat) :
    Nat → Nat → DichoState K → Except Fault (Flow (DichoState K) × Bool)
  | 0, _, _ => .error Fault.outOfFuel
  | fuel + 1, l, s =>
    let d := uc.hkl2d_delta ((h : Int) : K) ((sk*k : Int) : K) ((sl*l : Int) : K) duc
    if d.2 < s.dmin then
      DichoIndexed.loopL uc duc storePossibleHKL h sk k sl l0 fuel (l + 1) s
    else if d.1 > s.dmax then .ok (Flow.go s, decide (l = l0))
    else
      match DichoIndexed.peakLoop storePossibleHKL h (sk*k) (sl*l) d.1 d.2
          (s.peaks.length - s.first) s.first s with
      | .error e => .error e
      | .ok (Flow.ret b s1) => .ok (Flow.ret b s1, false)
      | .ok (Flow.go s1) =>
        DichoIndexed.loopL uc duc storePossibleHKL h sk k sl l0 fuel (l + 1) s1

/-- The loop `for(int sl=sl0;sl<=1;sl+=2)` of `DichoIndexed`, Indexing.cpp lines 1526-1585:
`sl` is reset as in `Score`, and `l0` ends as 1 when `h+k==0` and as 0 otherwise (line
1548).  Returns the flow and whether `break_l` was set. -/
def DichoIndexed.loopSL (uc duc : RecUnitCell K) (storePossibleHKL : Bool)
    (fl : Nat) (h : Nat) (sk : Int) (k : Nat) (s : DichoState K) :
    Except Fault (Flow (DichoState K) × Bool) :=
  let sl0 := signL0 uc.mlattice
  let l0 : Nat := if h + k = 0 then 1 else 0
  let sl1 := (Score.slStart uc.mlattice h k sk sl0).1
  match DichoIndexed.loopL uc duc storePossibleHKL h sk k sl1 l0 fl l0 s with
  | .error e => .error e
  | .ok (Flow.ret b s1, bl) => .ok (Flow.ret b s1, bl)
  | .ok (Flow.go s1, bl1) =>
    if sl1 + 2 ≤ 1 then
      let sl2 := (Score.slStart uc.mlattice h k sk (sl1 + 2)).1
      match DichoIndexed.loopL uc duc storePossibleHKL h sk k sl2 l0 fl l0 s1 with
      | .error e => .error e
      | .ok (f, bl2) => .ok (f, bl1 || bl2)
    else .ok (Flow.go s1, bl1)

/-- The loop `for(k=0;;++k)` of `DichoIndexed`, Indexing.cpp lines 1523-1591, with a budget:
the flow and whether `break_k` was set. -/
def DichoIndexed.loopK (uc duc : RecUnitCell K) (storePossibleHKL : Bool)
    (fl : Nat) (h : Nat) (sk : Int) :
    Nat → Nat → DichoState K → Except Fault (Flow (DichoState K) × Bool)
  | 0, _, _ => .error Fault.outOfFuel
  | fuel + 1, k, s =>
    match DichoIndexed.loopSL uc duc storePossibleHKL fl h sk k s with
    | .error e => .error e
    | .ok (Flow.ret b s1, _) => .ok (Flow.ret b s1, false)
    | .ok (Flow.go s1, break_l) =>
      if break_l then .ok (Flow.go s1, decide (k = 0))
      else DichoIndexed.loopK uc duc storePossibleHKL fl h sk fuel (k + 1) s1

/-- The loop `for(int sk=sk0;sk<=1;sk+=2)` of `DichoIndexed`, Indexing.cpp lines 1520-1592.
Returns the flow and whether `break_k` was set. -/
def DichoIndexed.loopSK (uc duc : RecUnitCell K) (storePossibleHKL : Bool)
    (fk fl : Nat) (h : Nat) (s : DichoState K) :
    Except Fault (Flow (DichoState K) × Bool) :=
  let sk0 := signK0 uc.mlattice
  let sk1 := if h = 0 then 1 else sk0
  match DichoIndexed.loopK uc duc storePossibleHKL fl h sk1 fk 0 s with
  | .error e => .error e
  | .ok (Flow.ret b s1, bk) => .ok (Flow.ret b s1, bk)
  | .ok (Flow.go s1, bk1) =>
    if sk1 + 2 ≤ 1 then
      let sk2 := if h = 0 then 1 else sk1 + 2
      match DichoIndexed.loopK uc duc storePossibleHKL fl h sk2 fk 0 s1 with
      | .error e => .error e
      | .ok (f, bk2) => .ok (f, bk1 || bk2)
    else .ok (Flow.go s1, bk1)

/-- The loop `for(h=0;;++h)` of `DichoIndexed`, Indexing.cpp lines 1517-1594, with a budget. -/
def DichoIndexed.loopH (uc duc : RecUnitCell K) (storePossibleHKL : Bool) (fk fl : Nat) :
    Nat → Nat → DichoState K → Except Fault (Flow (DichoState K))
  | 0, _, _ => .error Fault.outOfFuel
  | fuel + 1, h, s =>
    match DichoIndexed.loopSK uc duc storePossibleHKL fk fl h s with
    | .error e => .error e
    | .ok (Flow.ret b s1, _) => .ok (Flow.ret b s1)
    | .ok (Flow.go s1, break_k) =>
      if break_k then .ok (Flow.go s1)
      else DichoIndexed.loopH uc duc storePossibleHKL fk fl fuel (h + 1) s1

/-- The function `DichoIndexed(dhkl,uc,duc,nbUnindexed,verbose,useStoredHKL)`, Indexing.cpp
lines 1438-1600.  The three unbounded loops get the budgets `fh`, `fk`, `fl`; `verbose`
only prints and is left out, as are the unused locals `uc0`, `uc1`; the result is the
returned value and the peak list as the call leaves it. -/
def DichoIndexed (fh fk fl : Nat) (dhkl : PeakList K) (uc duc : RecUnitCell K)
    (nbUnindexed : Nat) (useStoredHKL : Nat) : Except Fault (Bool × PeakList K) :=
  let nb := dhkl.mvHKL.length
  let nbIndexed : Int := (nb : Int) - (nbUnindexed : Int)
  if useStoredHKL = 1 then
    let r := DichoIndexed.storedLoop uc duc nbUnindexed dhkl.mvHKL nbIndexed 0
    .ok (r.1, { dhkl with mvHKL := r.2 })
  else
    let storePossibleHKL : Bool := decide (useStoredHKL = 2)
    let peaks0 :=
      if storePossibleHKL then
        dhkl.mvHKL.map (fun p => { p with isIndexed := false, vDicVolHKL := [] })
      else dhkl.mvHKL.map (fun p => { p with isIndexed := false })
    if nb = 0 then .error Fault.outOfRange
    else
      match peaks0[nb - 1]?, peaks0[0]? with
      | some plast, some pfirst =>
        match DichoIndexed.loopH uc duc storePossibleHKL fk fl fh 0
            { peaks := peaks0, nbIndexed := nbIndexed, first := 0, last := nb,
              dmin := pfirst.d2obs, dmax := plast.d2obs } with
        | .error e => .error e
        | .ok (Flow.ret b s) => .ok (b, { dhkl with mvHKL := s.peaks })
        | .ok (Flow.go s) => .ok (decide (s.nbIndexed ≤ 0), { dhkl with mvHKL := s.peaks })
      | _, _ => .error Fault.outOfRange

/-- Modelled from the spec: the numeric value of an enumerator of `CrystalSystem`, which
Indexing.h declares and which is not among the sources; the order is the one in which the
`switch` statements of Indexing.cpp list the cases, from the least symmetric lattice
(triclinic) to the most symmetric one (cubic). -/
def CrystalSystem.toNat : CrystalSystem → Nat
  | TRICLINIC => 0
  | MONOCLINIC => 1
  | ORTHOROMBIC => 2
  | HEXAGONAL => 3
  | RHOMBOEDRAL => 4
  | TETRAGONAL => 5
  | CUBIC => 6

/-- The function `SimilarRUC(c0,c1,delta)`, Indexing.cpp lines 2261-2268 (the default of
`delta` is 0.005). -/
def SimilarRUC (sqrt acos : K → K) (c0 c1 : RecUnitCell K) (delta : K) : Bool :=
  let uc0 := c0.DirectUnitCell sqrt acos
  let uc1 := c1.DirectUnitCell sqrt acos
  let diff := (List.range 6).foldl (fun d i => d + |uc0.getD i 0 - uc1.getD i 0|) 0
  decide (diff / 6 < delta)

/-- The comparison `compareRUCScore`, Indexing.cpp lines 2270-2273. -/
def compareRUCScore (p1 p2 : RecUnitCell K × K) : Bool :=
  decide (p1.2 > p2.2)

/-- The inner loop of `ReduceSolutions`, Indexing.cpp lines 2288-2313: `back` is
`vSolution2.back()`, the list is what is left of `mvSolution`; returns the final `back` and
the solutions that were not erased (never more than there were). -/
def CellExplorer.ReduceSolutions.inner (sqrt acos : K → K) (back : RecUnitCell K × K) :
    (l : List (RecUnitCell K × K)) →
      (RecUnitCell K × K) × { r : List (RecUnitCell K × K) // r.length ≤ l.length }
  | [] => (back, ⟨[], Nat.le_refl _⟩)
  | pos :: rest =>
    if SimilarRUC sqrt acos pos.1 back.1 (5/1000) then
      let back1 :=
        if back.1.mlattice = pos.1.mlattice then
          (if pos.2 > back.2 then pos else back)
        else if back.1.mlattice.toNat < pos.1.mlattice.toNat then pos
        else back
      let r := CellExplorer.ReduceSolutions.inner sqrt acos back1 rest
      (r.1, ⟨r.2.1, Nat.le_succ_of_le r.2.2⟩)
    else
      let r := CellExplorer.ReduceSolutions.inner sqrt acos back rest
      (r.1, ⟨pos :: r.2.1, Nat.succ_le_succ r.2.2⟩)

/-- The loop `while(mvSolution.size()>0)` of `ReduceSolutions`, Indexing.cpp lines 2279-2314:
from `mvSolution` and `vSolution2` to the final `vSolution2`. -/
def CellExplorer.ReduceSolutions.loop (sqrt acos : K → K) :
    List (RecUnitCell K × K) → List (RecUnitCell K × K) → List (RecUnitCell K × K)
  | [], vSolution2 => vSolution2
  | front :: rest, vSolution2 =>
    let r := CellExplorer.ReduceSolutions.inner sqrt acos front rest
    have : r.2.1.length < (front :: rest).length := Nat.lt_succ_of_le r.2.2
    CellExplorer.ReduceSolutions.loop sqrt acos r.2.1 (vSolution2 ++ [r.1])
termination_by mv => mv.length

/-- The function `CellExplorer::ReduceSolutions()`, Indexing.cpp lines 2275-2317, from the
member `mvSolution` before the call to `mvSolution` after it. -/
def CellExplorer.ReduceSolutions (sqrt acos : K → K) (mvSolution : List (RecUnitCell K × K)) :
    List (RecUnitCell K × K) :=
  listSort compareRUCScore (CellExplorer.ReduceSolutions.loop sqrt acos mvSolution [])

/-- The sum of the `n` smallest values of a list, after the specification. -/
def sumSmallest (n : Nat) (xs : List K) : K :=
  ((xs.insertionSort (fun a b => a ≤ b)).take n).sum

/-- Whether a peak has a stored candidate `(h,k,l)` in `vDicVolHKL` whose `hkl2d_delta`
interval overlaps the peak's observed interval, after the specification. -/
def hasStoredMatch (uc duc : RecUnitCell K) (p : PeakList.hkl K) : Bool :=
  p.vDicVolHKL.any (fun c =>
    DichoIndexed.overlaps p (uc.hkl2d_delta (c.h : K) (c.k : K) (c.l : K) duc).1
      (uc.hkl2d_delta (c.h : K) (c.k : K) (c.l : K) duc).2)

/-- The part of a peak that `Score` is shown to leave alone when `storehkl` is false: the
observed data, the assigned indices, the two flags and the candidate list. -/
def PeakList.hkl.assigned (p : PeakList.hkl K) :
    (K × K × K × K × K × K × K) × (Int × Int × Int) × Bool × Bool × List PeakList.hkl0 :=
  ((p.dobs, p.dobssigma, p.d2obs, p.d2obsmin, p.d2obsmax, p.iobs, p.iobssigma),
    (p.h, p.k, p.l), p.isIndexed, p.isSpurious, p.vDicVolHKL)

end Model

/-- The members of class `CellExplorer` that the functions below read or write. -/
structure CellExplorer (K : Type) where
  mnpar : Nat
  mpPeakList : PeakList K
  mLengthMin : K
  mLengthMax : K
  mAngleMin : K
  mAngleMax : K
  mVolumeMin : K
  mVolumeMax : K
  mZeroShiftMin : K
  mZeroShiftMax : K
  mlattice : CrystalSystem
  mNbSpurious : Nat
  mObs : List K
  mCalc : List K
  mWeight : List K
  mDeriv : List K
  mBestScore : K
  mMinScoreReport : K
  mMaxDicVolDepth : Nat
  mDicVolDepthReport : Nat
  mRecUnitCell : RecUnitCell K
  mMin : List K
  mAmp : List K
  mvSolution : List (RecUnitCell K × K)
  mvNbSolutionDepth : List Nat

/-- The population of `Evolution` and its best-candidate tracking: the peak list that the
calls of `Score` write on, the vector `vRUC`, `bestScore`, and the iterator `bestpos` as a
position in `vRUC`. -/
structure Evolution.State (K : Type) where
  peaks : PeakList K
  vRUC : List (RecUnitCell K × K)
  bestScore : K
  bestpos : Nat

/-- The local data of a call of `RDicVol` once the feasibility of its box is known: the flag
`indexed`, the box `uc0`, `duc`, the depth and the per-parameter depths as the axis fast
path leaves them, and the peak list as the calls of `DichoIndexed` leave it. -/
structure RDicVol.Node (K : Type) where
  indexed : Bool
  uc0 : RecUnitCell K
  duc : RecUnitCell K
  depth : Nat
  vdepth : List Nat
  peaks : PeakList K

/-- The vector `vq0` of the axis fast path of `RDicVol`: for each of the three axes the
number of peaks whose only candidate is a reflection of that axis, and the sum of their
`dobs/h`. -/
structure RDicVol.AxisSums (K : Type) where
  n0 : Nat
  q0 : K
  n1 : Nat
  q1 : K
  n2 : Nat
  q2 : K

section Search

variable {K : Type} [LinearOrderedField K]

/-- The comparison `compareHKL_d`, Indexing.cpp lines 694-697. -/
def compareHKL_d (d1 d2 : PeakList.hkl K) : Bool :=
  decide (d1.dobs < d2.dobs)

/-- The algorithm `std::sort(first,last,comp)`: it leaves a permutation of the range that
is sorted by `comp`, and leaves open in which order equivalent elements come; this
definition sorts by insertion, and the theorems use only what holds for every such
permutation. -/
def vectorSort {α : Type} (comp : α → α → Bool) (l : List α) : List α :=
  l.insertionSort (fun a b => comp b a = false)

/-- The function `PeakList::AddPeak(d,iobs,dobssigma,iobssigma,h,k,l,d2calc)`, Indexing.cpp
lines 807-821 (the final `Print` left out). -/
def PeakList.AddPeak (self : PeakList K) (d iobs dobssigma iobssigma : K) (h k l : Int)
    (d2calc : K) : PeakList K :=
  if dobssigma ≤ 0 then
    let s := self.mvHKL.foldl (fun s pos => s + pos.dobssigma) 0
    { self with
      mvHKL := vectorSort compareHKL_d
        (self.mvHKL ++ [PeakList.hkl.new d iobs (s / (self.mvHKL.length : K)) iobssigma h k l
          d2calc]) }
  else
    { self with
      mvHKL := vectorSort compareHKL_d
        (self.mvHKL ++ [PeakList.hkl.new d iobs dobssigma iobssigma h k l d2calc]) }

/-- The loop `for(i=idx;i<(mvHKL.size()-1);++i) mvHKL[i]=mvHKL[i+1]` of `RemovePeak`: `n` is
the number of turns left, `i` the current index. -/
def PeakList.RemovePeak.shift {α : Type} : Nat → Nat → List α → Except Fault (List α)
  | 0, _, v => .ok v
  | n + 1, i, v =>
    match v[i + 1]? with
    | none => .error Fault.outOfRange
    | some x =>
      if i < v.length then PeakList.RemovePeak.shift n (i + 1) (v.set i x)
      else .error Fault.outOfRange

/-- The function `PeakList::RemovePeak(idx)`, Indexing.cpp lines 823-827.  On an empty
vector the bound `mvHKL.size()-1` wraps around and the first turn reads outside the
vector. -/
def PeakList.RemovePeak (self : PeakList K) (idx : Nat) : Except Fault (PeakList K) :=
  if self.mvHKL.length = 0 then .error Fault.outOfRange
  else
    match PeakList.RemovePeak.shift (self.mvHKL.length - 1 - idx) idx self.mvHKL with
    | .error e => .error e
    | .ok v => .ok { self with mvHKL := v.dropLast }

/-- The write `v(j) = x` on a vector of fixed length; outside the length it is a fault. -/
def vecWrite {α : Type} (v : List α) (j : Nat) (x : α) : Except Fault (List α) :=
  if j < v.length then .ok (v.set j x) else .error Fault.outOfRange

/-- The threshold `thres` of `BeginOptimization`, Indexing.cpp lines 1380-1384: a tenth of
the largest `iobs` (of 0 when no `iobs` is positive). -/
def CellExplorer.BeginOptimization.threshold (peaks : List (PeakList.hkl K)) : K :=
  peaks.foldl (fun thres pos => if thres < pos.iobs then pos.iobs else thres) 0 / 10

/-- The second loop of `BeginOptimization`, Indexing.cpp lines 1388-1412: the entries
`mObs(j)` and `mWeight(j)` of the indexed peaks; returns `j` and the two vectors. -/
def CellExplorer.BeginOptimization.fill (thres : K) :
    List (PeakList.hkl K) → Nat → List K → List K → Except Fault (Nat × List K × List K)
  | [], j, mObs, mWeight => .ok (j, mObs, mWeight)
  | pos :: rest, j, mObs, mWeight =>
    if pos.isIndexed then
      match vecWrite mObs j pos.d2obs with
      | .error e => .error e
      | .ok mObs1 =>
        match vecWrite mWeight j (if pos.d2obs > thres then 1 else pos.d2obs / thres) with
        | .error e => .error e
        | .ok mWeight1 => CellExplorer.BeginOptimization.fill thres rest (j + 1) mObs1 mWeight1
    else CellExplorer.BeginOptimization.fill thres rest j mObs mWeight

/-- The function `CellExplorer::BeginOptimization`, Indexing.cpp lines 1371-1416: the call
`Score(*mpPeakList,mRecUnitCell,mNbSpurious,false,true,false)`, the four vectors resized to
`nb-mNbSpurious` (unsigned 32-bit arithmetic; the entries are taken as 0 after the resize),
and the two loops.  The closing call of `RefinableObj::BeginOptimization`, whose code is in
another library, is left out. -/
def CellExplorer.BeginOptimization (sqrt : K → K) (fh fk fl : Nat) (self : CellExplorer K) :
    Except Fault (CellExplorer K) :=
  match Score sqrt fh fk fl self.mpPeakList self.mRecUnitCell self.mNbSpurious true false with
  | .error e => .error e
  | .ok r =>
    let nb := r.2.mvHKL.length
    let size := (nb + 4294967296 - self.mNbSpurious) % 4294967296
    let thres := CellExplorer.BeginOptimization.threshold r.2.mvHKL
    match CellExplorer.BeginOptimization.fill thres r.2.mvHKL 0
        (List.replicate size 0) (List.replicate size 0) with
    | .error e => .error e
    | .ok out =>
      .ok { self with
            mpPeakList := r.2, mCalc := List.replicate size 0, mObs := out.2.1,
            mWeight := out.2.2, mDeriv := List.replicate size 0 }

/-- The loop of `GetLSQCalc`, Indexing.cpp lines 1320-1325: `mCalc(j++)=hkl2d(h,k,l)` for
the indexed peaks. -/
def CellExplorer.GetLSQCalc.fill (ruc : RecUnitCell K) :
    List (PeakList.hkl K) → Nat → List K → Except Fault (List K)
  | [], _, mCalc => .ok mCalc
  | pos :: rest, j, mCalc =>
    if pos.isIndexed then
      match vecWrite mCalc j (ruc.hkl2dInt pos.h pos.k pos.l) with
      | .error e => .error e
      | .ok mCalc1 => CellExplorer.GetLSQCalc.fill ruc rest (j + 1) mCalc1
    else CellExplorer.GetLSQCalc.fill ruc rest j mCalc

/-- The function `CellExplorer::GetLSQCalc`, Indexing.cpp lines 1317-1329. -/
def CellExplorer.GetLSQCalc (self : CellExplorer K) : Except Fault (CellExplorer K) :=
  match CellExplorer.GetLSQCalc.fill self.mRecUnitCell self.mpPeakList.mvHKL 0 self.mCalc with
  | .error e => .error e
  | .ok mCalc => .ok { self with mCalc := mCalc }

/-- The loop of `GetLSQDeriv`, Indexing.cpp lines 1358-1365:
`mDeriv(j++)=hkl2d(h,k,l,par)` for the indexed peaks; `hkl2d` may throw. -/
def CellExplorer.GetLSQDeriv.fill (ruc : RecUnitCell K) (par : Option Nat) :
    List (PeakList.hkl K) → Nat → List K → Except (Fault ⊕ Int) (List K)
  | [], _, mDeriv => .ok mDeriv
  | pos :: rest, j, mDeriv =>
    if pos.isIndexed then
      match ruc.hkl2d (pos.h : K) (pos.k : K) (pos.l : K) par 0 with
      | .error e => .error (Sum.inr e)
      | .ok x =>
        match vecWrite mDeriv j x with
        | .error e => .error (Sum.inl e)
        | .ok mDeriv1 => CellExplorer.GetLSQDeriv.fill ruc par rest (j + 1) mDeriv1
    else CellExplorer.GetLSQDeriv.fill ruc par rest j mDeriv

/-- The function `CellExplorer::GetLSQDeriv`, Indexing.cpp lines 1338-1369; `par` is the
pointer that the name of the refined parameter selects (`none` when no name matches). -/
def CellExplorer.GetLSQDeriv (self : CellExplorer K) (par : Option Nat) :
    Except (Fault ⊕ Int) (CellExplorer K) :=
  match CellExplorer.GetLSQDeriv.fill self.mRecUnitCell par self.mpPeakList.mvHKL 0
      self.mDeriv with
  | .error e => .error e
  | .ok mDeriv => .ok { self with mDeriv := mDeriv }

/-- The start of `CellExplorer::Init`, Indexing.cpp lines 2320-2375: the arrays `mMin`,
`mAmp` and the number `mnpar` of parameters of the lattice (`cos` of the C library is a
parameter).  The rest of `Init` registers the refinable parameters with `RefinableObj`,
whose code is in another library, and is left out. -/
def CellExplorer.Init (cos : K → K) (self : CellExplorer K) : CellExplorer K :=
  let min_latt : K := 1 / self.mLengthMax
  let max_latt : K := 1 / self.mLengthMin
  let amp_crossp : K := |cos self.mAngleMax|
  let mMin0 := self.mMin.set 0 0
  let mAmp0 := self.mAmp.set 0 0
  match self.mlattice with
  | TRICLINIC =>
    { self with
      mMin := (((((mMin0.set 1 min_latt).set 2 min_latt).set 3 min_latt).set 4 0).set 5 0).set 6 0,
      mAmp := (((((mAmp0.set 1 (max_latt - min_latt)).set 2 (max_latt - min_latt)).set 3
        (max_latt - min_latt)).set 4 amp_crossp).set 5 amp_crossp).set 6 amp_crossp,
      mnpar := 7 }
  | MONOCLINIC =>
    { self with
      mMin := (((mMin0.set 1 min_latt).set 2 min_latt).set 3 min_latt).set 4 0,
      mAmp := (((mAmp0.set 1 (max_latt - min_latt)).set 2 (max_latt - min_latt)).set 3
        (max_latt - min_latt)).set 4 amp_crossp,
      mnpar := 5 }
  | ORTHOROMBIC =>
    { self with
      mMin := ((mMin0.set 1 min_latt).set 2 min_latt).set 3 min_latt,
      mAmp := ((mAmp0.set 1 (max_latt - min_latt)).set 2 (max_latt - min_latt)).set 3
        (max_latt - min_latt),
      mnpar := 4 }
  | HEXAGONAL =>
    { self with
      mMin := (mMin0.set 1 min_latt).set 2 min_latt,
      mAmp := (mAmp0.set 1 (max_latt - min_latt)).set 2 (max_latt - min_latt),
      mnpar := 3 }
  | RHOMBOEDRAL =>
    { self with
      mMin := (mMin0.set 1 min_latt).set 2 (-amp_crossp),
      mAmp := (mAmp0.set 1 (max_latt - min_latt)).set 2 (2 * amp_crossp),
      mnpar := 3 }
  | TETRAGONAL =>
    { self with
      mMin := (mMin0.set 1 min_latt).set 2 min_latt,
      mAmp := (mAmp0.set 1 (max_latt - min_latt)).set 2 (max_latt - min_latt),
      mnpar := 3 }
  | CUBIC =>
    { self with
      mMin := mMin0.set 1 min_latt,
      mAmp := mAmp0.set 1 (max_latt - min_latt),
      mnpar := 2 }

/-- The copy `for(k=0;k<mnpar;++k) *p1++ = *p0++` of the first `mnpar` parameters of the
trial `p0` into the member `p1`, Indexing.cpp lines 1187-1189. -/
def Evolution.copyPar (mnpar : Nat) (p0 p1 : RecUnitCell K) : RecUnitCell K :=
  (List.range mnpar).foldl (fun c k => c.setPar k (p0.par k)) p1

/-- The body of the selection loop of `Evolution` for one member, Indexing.cpp lines
1183-1209, from the call of `Score` on; `trial` is `posTrial->first` as it is handed to
`Score` (after the mutation, the write `par[0]=0` and the volume correction of the
monoclinic case, which all draw on `rand()`), `pos` is the position of the member. -/
def Evolution.select (sqrt : K → K) (fh fk fl : Nat) (mnpar mNbSpurious : Nat) (pos : Nat)
    (trial : RecUnitCell K) (s : Evolution.State K) : Except Fault (Evolution.State K) :=
  match Score sqrt fh fk fl s.peaks trial mNbSpurious false false with
  | .error e => .error e
  | .ok r =>
    match s.vRUC[pos]? with
    | none => .error Fault.outOfRange
    | some member =>
      if r.1 > member.2 then
        if r.1 > s.bestScore then
          .ok { peaks := r.2,
                vRUC := s.vRUC.set pos (Evolution.copyPar mnpar trial member.1, r.1),
                bestScore := r.1, bestpos := pos }
        else
          .ok { s with
                peaks := r.2,
                vRUC := s.vRUC.set pos (Evolution.copyPar mnpar trial member.1, r.1) }
      else .ok { s with peaks := r.2 }

/-- The selection loop `for(;posTrial!=vTrial.end();)` of one generation of `Evolution`,
Indexing.cpp lines 1145-1210, over the trials as they are handed to `Score`. -/
def Evolution.selection (sqrt : K → K) (fh fk fl : Nat) (mnpar mNbSpurious : Nat) :
    List (RecUnitCell K) → Nat → Evolution.State K → Except Fault (Evolution.State K)
  | [], _, s => .ok s
  | trial :: rest, pos, s =>
    match Evolution.select sqrt fh fk fl mnpar mNbSpurious pos trial s with
    | .error e => .error e
    | .ok s1 => Evolution.selection sqrt fh fk fl mnpar mNbSpurious rest (pos + 1) s1

/-- The loop `for(i=ng;i>0;--i)` of `Evolution`, Indexing.cpp lines 1082-1227, given for
each generation the trials as they are handed to `Score`. -/
def Evolution.generations (sqrt : K → K) (fh fk fl : Nat) (mnpar mNbSpurious : Nat) :
    List (List (RecUnitCell K)) → Evolution.State K → Except Fault (Evolution.State K)
  | [], s => .ok s
  | trials :: rest, s =>
    match Evolution.selection sqrt fh fk fl mnpar mNbSpurious trials 0 s with
    | .error e => .error e
    | .ok s1 => Evolution.generations sqrt fh fk fl mnpar mNbSpurious rest s1

/-- The start of the tracking in `Evolution`, Indexing.cpp lines 1067-1070:
`bestScore=-1e20` and `bestpos=vRUC.begin()`, on the population `vRUC` as the
initialisation leaves it. -/
def Evolution.start (peaks : PeakList K) (vRUC : List (RecUnitCell K × K)) :
    Evolution.State K :=
  { peaks := peaks, vRUC := vRUC, bestScore := -(10^20), bestpos := 0 }

/-- The candidate taken as best, `mRecUnitCell=bestpos->first`, Indexing.cpp line 1242,
with its stored score `bestpos->second`. -/
def Evolution.best (s : Evolution.State K) : Except Fault (RecUnitCell K × K) :=
  match s.vRUC[s.bestpos]? with
  | none => .error Fault.outOfRange
  | some member => .ok member

/-- The candidate that `Evolution` takes as best, Indexing.cpp lines 1067-1242: the start
of the tracking, the generations, and `mRecUnitCell=bestpos->first`. -/
def Evolution.taken (sqrt : K → K) (fh fk fl : Nat) (mnpar mNbSpurious : Nat)
    (gens : List (List (RecUnitCell K))) (peaks : PeakList K)
    (vRUC : List (RecUnitCell K × K)) : Except Fault (RecUnitCell K × K) :=
  match Evolution.generations sqrt fh fk fl mnpar mNbSpurious gens
      (Evolution.start peaks vRUC) with
  | .error e => .error e
  | .ok s => Evolution.best s

/-- The cell `uc0` with `sign*duc.par[i]` added to `par[i]` for `i < 6`, the loops
`for(i=0;i<6;++i) {ucm.par[i]-=duc.par[i];ucp.par[i]+=duc.par[i];}` of `RDicVol`. -/
def RDicVol.corner (sign : K) (uc0 duc : RecUnitCell K) : RecUnitCell K :=
  { uc0 with
    par0 := uc0.par0 + sign * duc.par0, par1 := uc0.par1 + sign * duc.par1,
    par2 := uc0.par2 + sign * duc.par2, par3 := uc0.par3 + sign * duc.par3,
    par4 := uc0.par4 + sign * duc.par4, par5 := uc0.par5 + sign * duc.par5 }

/-- The volume pre-check of `RDicVol`, Indexing.cpp lines 1608-1615: whether the call
returns 0 at once. -/
def RDicVol.volumeRejected (sqrt acos : K → K) (uc0 duc : RecUnitCell K) (depth : Nat)
    (minV maxV : K) : Bool :=
  if 0 < depth ∧ depth ≤ 2 then
    decide (((RDicVol.corner 1 uc0 duc).DirectUnitCell sqrt acos).getD 6 0 > maxV)
      || decide (((RDicVol.corner (-1) uc0 duc).DirectUnitCell sqrt acos).getD 6 0 < minV)
  else false

/-- The per-parameter depths at the start of a call of `RDicVol`, Indexing.cpp lines
1620-1627: `mnpar-1` (unsigned) entries `depth` when the vector is empty, else every entry
raised to `depth`. -/
def RDicVol.initDepths (mnpar depth : Nat) (vdepth : List Nat) : List Nat :=
  if vdepth.length = 0 then List.replicate ((mnpar + 4294967295) % 4294967296) depth
  else vdepth.map (fun d => if d < depth then depth else d)

/-- The loop over the peaks of the axis fast path, Indexing.cpp lines 1634-1645. -/
def RDicVol.axisSums (peaks : List (PeakList.hkl K)) : RDicVol.AxisSums K :=
  peaks.foldl (fun vq0 pos =>
    if pos.vDicVolHKL.length = 1 then
      match pos.vDicVolHKL.head? with
      | none => vq0
      | some h0 =>
        if h0.k = 0 ∧ h0.l = 0 then { vq0 with n0 := vq0.n0 + 1, q0 := vq0.q0 + pos.dobs / (h0.h : K) }
        else if h0.h = 0 ∧ h0.l = 0 then
          { vq0 with n1 := vq0.n1 + 1, q1 := vq0.q1 + pos.dobs / (h0.k : K) }
        else if h0.h = 0 ∧ h0.k = 0 then
          { vq0 with n2 := vq0.n2 + 1, q2 := vq0.q2 + pos.dobs / (h0.l : K) }
        else vq0
    else vq0) { n0 := 0, q0 := 0, n1 := 0, q1 := 0, n2 := 0, q2 := 0 }

/-- One line of the `switch` of the axis fast path, Indexing.cpp lines 1650-1667:
`if(vq0[a].first>0) {uc0.par[i]=vq0[a].second/vq0[a].first; vdepth[v]=mDicVolDepthReport;
duc.par[i]*=.0625;}` on the triple of `uc0`, `duc` and `vdepth`. -/
def RDicVol.jump (report : Nat) (n : Nat) (q : K) (i v : Nat)
    (st : RecUnitCell K × RecUnitCell K × List Nat) :
    Except Fault (RecUnitCell K × RecUnitCell K × List Nat) :=
  if n > 0 then
    match vecWrite st.2.2 v report with
    | .error e => .error e
    | .ok vdepth1 =>
      .ok (st.1.setPar i (q / (n : K)), st.2.1.setPar i (st.2.1.par i * (625/10000)), vdepth1)
  else .ok st

/-- The three lines of a case of the `switch` of the axis fast path, with the first entry
`v0` of `vdepth` that the case writes (1 for the triclinic case, 0 for the monoclinic and
orthorhombic ones). -/
def RDicVol.jumps (report : Nat) (vq0 : RDicVol.AxisSums K) (v0 : Nat)
    (st : RecUnitCell K × RecUnitCell K × List Nat) :
    Except Fault (RecUnitCell K × RecUnitCell K × List Nat) :=
  match RDicVol.jump report vq0.n0 vq0.q0 1 v0 st with
  | .error e => .error e
  | .ok st1 =>
    match RDicVol.jump report vq0.n1 vq0.q1 2 (v0 + 1) st1 with
    | .error e => .error e
    | .ok st2 => RDicVol.jump report vq0.n2 vq0.q2 3 (v0 + 2) st2

/-- The `switch(mlattice)` of the axis fast path, Indexing.cpp lines 1646-1672. -/
def RDicVol.axisJump (lattice : CrystalSystem) (report : Nat) (vq0 : RDicVol.AxisSums K)
    (st : RecUnitCell K × RecUnitCell K × List Nat) :
    Except Fault (RecUnitCell K × RecUnitCell K × List Nat) :=
  match lattice with
  | TRICLINIC => RDicVol.jumps report vq0 1 st
  | MONOCLINIC => RDicVol.jumps report vq0 0 st
  | ORTHOROMBIC => RDicVol.jumps report vq0 0 st
  | HEXAGONAL => .ok st
  | RHOMBOEDRAL => .ok st
  | TETRAGONAL => .ok st
  | CUBIC => .ok st

/-- The start of a call of `RDicVol` after the volume pre-check, Indexing.cpp lines
1616-1680: the call of `DichoIndexed`, the per-parameter depths, and at depth 0 with
`mNbSpurious==0` the axis fast path with its depth jump and second call of
`DichoIndexed`. -/
def RDicVol.prepare (fh fk fl : Nat) (self : CellExplorer K) (uc0 duc : RecUnitCell K)
    (depth : Nat) (vdepth : List Nat) : Except Fault (RDicVol.Node K) :=
  let useStoredHKL : Nat := if depth = 0 then 2 else 1
  match DichoIndexed fh fk fl self.mpPeakList uc0 duc self.mNbSpurious useStoredHKL with
  | .error e => .error e
  | .ok r =>
    let vdepth1 := RDicVol.initDepths self.mnpar depth vdepth
    if useStoredHKL = 2 ∧ self.mNbSpurious = 0 then
      let vq0 := RDicVol.axisSums r.2.mvHKL
      match RDicVol.axisJump self.mlattice self.mDicVolDepthReport vq0 (uc0, duc, vdepth1) with
      | .error e => .error e
      | .ok st =>
        let newdepth := st.2.2.foldl (fun nd d => if d < nd then d else nd) 40
        let depth1 := if newdepth > depth then newdepth else depth
        if vq0.n0 > 0 ∨ vq0.n1 > 0 ∨ vq0.n2 > 0 then
          match DichoIndexed fh fk fl r.2 st.1 st.2.1 self.mNbSpurious 1 with
          | .error e => .error e
          | .ok r1 =>
            .ok { indexed := r1.1, uc0 := st.1, duc := st.2.1, depth := depth1,
                  vdepth := st.2.2, peaks := r1.2 }
        else
          .ok { indexed := r.1, uc0 := st.1, duc := st.2.1, depth := depth1,
                vdepth := st.2.2, peaks := r.2 }
    else
      .ok { indexed := r.1, uc0 := uc0, duc := duc, depth := depth, vdepth := vdepth1,
            peaks := r.2 }

/-- The halving of the half-widths before the subdivision, Indexing.cpp lines 1757-1761:
`duc.par[0]=0.5*duc.par[0]`, then `duc.par[i]*=(0.5+0.5*(vdepth[i-1]>depth))` for
`1 <= i < mnpar`. -/
def RDicVol.halve (mnpar depth : Nat) (vdepth : List Nat) (duc : RecUnitCell K) :
    Except Fault (RecUnitCell K) :=
  (List.range (mnpar - 1)).foldl (fun acc i0 =>
    match acc with
    | .error e => .error e
    | .ok d =>
      match vdepth[i0]? with
      | none => .error Fault.outOfRange
      | some v =>
        .ok (d.setPar (i0 + 1) (d.par (i0 + 1) * (1/2 + 1/2 * (if v > depth then 1 else 0)))))
    (.ok (duc.setPar 0 (1/2 * duc.par 0)))

/-- One of the nested loops `for(int i=-1;i<=1;i+=2)` of the subdivision: when `active` the
body runs with `uc.par[i]=uc0.par[i]-duc.par[i]`, then with `uc.par[i]=uc0.par[i]+duc.par[i]`;
else (`i=2` is set in the body) it runs once with `uc` as it is.  `inner` gives the calls
of `RDicVol` that the body makes, as the list of their first arguments. -/
def RDicVol.branch (active : Bool) (i : Nat) (uc0 duc uc : RecUnitCell K)
    (inner : RecUnitCell K → List (RecUnitCell K)) : List (RecUnitCell K) :=
  if active then
    inner (uc.setPar i (uc0.par i + (-1) * duc.par i))
      ++ inner (uc.setPar i (uc0.par i + 1 * duc.par i))
  else inner uc

/-- The nested loops of the subdivision, Indexing.cpp lines 1763-1808: the first arguments
`uc` of the recursive calls of `RDicVol`, in the order of the calls. -/
def RDicVol.childBoxes (mnpar depth : Nat) (vdepth : List Nat) (uc0 duc : RecUnitCell K) :
    Except Fault (List (RecUnitCell K)) :=
  match vdepth[0]? with
  | none => .error Fault.outOfRange
  | some v0 =>
    if mnpar = 2 then
      .ok (RDicVol.branch (decide (v0 = depth)) 1 uc0 duc uc0 fun uc => [uc])
    else
      match vdepth[1]? with
      | none => .error Fault.outOfRange
      | some v1 =>
        if mnpar = 3 then
          .ok (RDicVol.branch (decide (v0 = depth)) 1 uc0 duc uc0 fun uc =>
            RDicVol.branch (decide (v1 = depth)) 2 uc0 duc uc fun uc => [uc])
        else
          match vdepth[2]? with
          | none => .error Fault.outOfRange
          | some v2 =>
            .ok (RDicVol.branch (decide (v0 = depth)) 1 uc0 duc uc0 fun uc =>
              RDicVol.branch (decide (v1 = depth)) 2 uc0 duc uc fun uc =>
                RDicVol.branch (decide (v2 = depth)) 3 uc0 duc uc fun uc =>
                  if mnpar = 4 then [uc]
                  else
                    RDicVol.branch true 4 uc0 duc uc fun uc =>
                      if mnpar = 5 then [uc]
                      else
                        RDicVol.branch true 5 uc0 duc uc fun uc =>
                          if mnpar = 7 then [uc]
                          else RDicVol.branch true 6 uc0 duc uc fun uc => [uc])

/-- The calls of `RDicVol` on the child boxes, one after the other: `call` is the
recursive call, the first number is `deeperSolutions` (an `unsigned int`, so that
`deeperSolutions+=...` is taken modulo 2^32), the second `nbCalc`.  `none` stands for a
recursion that did not end within its budget. -/
def RDicVol.descend
    (call : RecUnitCell K → Nat → CellExplorer K →
      Option (Except Fault (Nat × Nat × CellExplorer K))) :
    List (RecUnitCell K) → Nat → Nat → CellExplorer K →
      Option (Except Fault (Nat × Nat × CellExplorer K))
  | [], deeperSolutions, nbCalc, self => some (.ok (deeperSolutions, nbCalc, self))
  | uc :: rest, deeperSolutions, nbCalc, self =>
    match call uc nbCalc self with
    | none => none
    | some (.error e) => some (.error e)
    | some (.ok r) =>
      RDicVol.descend call rest ((deeperSolutions + r.1) % 4294967296) r.2.1 r.2.2

/-- The values that the calls of `RDicVol` on the child boxes return, in the order of the
calls, with `nbCalc` and the object as the last call leaves them. -/
def RDicVol.childValues
    (call : RecUnitCell K → Nat → CellExplorer K →
      Option (Except Fault (Nat × Nat × CellExplorer K))) :
    List (RecUnitCell K) → Nat → CellExplorer K →
      Option (Except Fault (List Nat × Nat × CellExplorer K))
  | [], nbCalc, self => some (.ok ([], nbCalc, self))
  | uc :: rest, nbCalc, self =>
    match call uc nbCalc self with
    | none => none
    | some (.error e) => some (.error e)
    | some (.ok r) =>
      match RDicVol.childValues call rest r.2.1 r.2.2 with
      | none => none
      | some (.error e) => some (.error e)
      | some (.ok out) => some (.ok (r.1 :: out.1, out.2.1, out.2.2))

/-- The call `LSQRefine(10,true,true)`: the refinement is done by `LSQNumObj`, whose code is
in another library; `lsq` stands for it, and what it leaves in the peak list, in
`mRecUnitCell` and in the four vectors is taken over. -/
def CellExplorer.LSQRefine (lsq : CellExplorer K → CellExplorer K) (self : CellExplorer K) :
    CellExplorer K :=
  { self with
    mpPeakList := (lsq self).mpPeakList, mRecUnitCell := (lsq self).mRecUnitCell,
    mObs := (lsq self).mObs, mCalc := (lsq self).mCalc, mWeight := (lsq self).mWeight,
    mDeriv := (lsq self).mDeriv }

/-- The handling of a leaf in `RDicVol`, Indexing.cpp lines 1812-1836, the body of
`if((deeperSolutions==0) &&(depth>=mDicVolDepthReport))`. -/
def RDicVol.leaf (sqrt : K → K) (lsq : CellExplorer K → CellExplorer K) (fh fk fl : Nat)
    (uc0 : RecUnitCell K) (depth : Nat) (self : CellExplorer K) :
    Except Fault (CellExplorer K) :=
  match Score sqrt fh fk fl self.mpPeakList uc0 self.mNbSpurious true false with
  | .error e => .error e
  | .ok r1 =>
    if (r1.1 > self.mMinScoreReport * (1/2) ∧ depth ≥ self.mDicVolDepthReport)
        ∨ depth ≥ self.mMaxDicVolDepth then
      let refined := CellExplorer.LSQRefine lsq { self with mRecUnitCell := uc0, mpPeakList := r1.2 }
      match Score sqrt fh fk fl refined.mpPeakList refined.mRecUnitCell refined.mNbSpurious
          true false with
      | .error e => .error e
      | .ok r2 =>
        if r2.1 > refined.mMinScoreReport ∨ depth ≥ refined.mDicVolDepthReport then
          match refined.mvNbSolutionDepth[depth]? with
          | none => .error Fault.outOfRange
          | some count =>
            .ok { refined with
                  mpPeakList := r2.2,
                  mBestScore := if r2.1 > refined.mBestScore then r2.1 else refined.mBestScore,
                  mvSolution := refined.mvSolution ++ [(refined.mRecUnitCell, r2.1)],
                  mvNbSolutionDepth :=
                    refined.mvNbSolutionDepth.set depth ((count + 1) % 4294967296) }
        else .ok { refined with mpPeakList := r2.2 }
    else .ok { self with mRecUnitCell := uc0, mpPeakList := r1.2 }

/-- The function `CellExplorer::RDicVol(uc0,duc,depth,nbCalc,minV,maxV,vdepth)`,
Indexing.cpp lines 1606-1841: the returned value, `nbCalc` and the object as the call
leaves them.  The first argument is a budget for the depth of the recursion (`none` when
it runs out); `fh`, `fk`, `fl` are the budgets of the loops of `DichoIndexed` and
`Score`.  The returned value is an `unsigned int`: `deeperSolutions+1` is taken modulo
2^32. -/
def CellExplorer.RDicVol (sqrt acos : K → K) (lsq : CellExplorer K → CellExplorer K)
    (fh fk fl : Nat) :
    Nat → RecUnitCell K → RecUnitCell K → Nat → Nat → K → K → List Nat → CellExplorer K →
      Option (Except Fault (Nat × Nat × CellExplorer K))
  | 0, _, _, _, _, _, _, _, _ => none
  | gas + 1, uc0, duc, depth, nbCalc, minV, maxV, vdepth, self =>
    if RDicVol.volumeRejected sqrt acos uc0 duc depth minV maxV then some (.ok (0, nbCalc, self))
    else
      match RDicVol.prepare fh fk fl self uc0 duc depth vdepth with
      | .error e => some (.error e)
      | .ok node =>
        if node.indexed then
          let deeper : Option (Except Fault (Nat × Nat × CellExplorer K)) :=
            if node.depth < self.mMaxDicVolDepth then
              match RDicVol.halve self.mnpar node.depth node.vdepth node.duc with
              | .error e => some (.error e)
              | .ok duc1 =>
                match RDicVol.childBoxes self.mnpar node.depth node.vdepth node.uc0 duc1 with
                | .error e => some (.error e)
                | .ok boxes =>
                  RDicVol.descend
                    (fun uc n s =>
                      CellExplorer.RDicVol sqrt acos lsq fh fk fl gas uc duc1 (node.depth + 1)
                        n minV maxV node.vdepth s)
                    boxes 0 (nbCalc + 1) { self with mpPeakList := node.peaks }
            else some (.ok (0, nbCalc + 1, { self with mpPeakList := node.peaks }))
          match deeper with
          | none => none
          | some (.error e) => some (.error e)
          | some (.ok d) =>
            if d.1 = 0 ∧ node.depth ≥ self.mDicVolDepthReport then
              match RDicVol.leaf sqrt lsq fh fk fl node.uc0 node.depth d.2.2 with
              | .error e => some (.error e)
              | .ok self1 => some (.ok ((d.1 + 1) % 4294967296, d.2.1, self1))
            else some (.ok ((d.1 + 1) % 4294967296, d.2.1, d.2.2))
        else some (.ok (0, nbCalc + 1, { self with mpPeakList := node.peaks }))

end Search

section Evolve

variable {K : Type} [LinearOrderedField K]

/-- The function `fmod(x,y)` of `<cmath>`: `x - n*y` where `n` is the quotient `x/y` with
its fractional part cut off, so that the result has the sign of `x` and a magnitude below
that of `y`.  (For `y = 0` the C function has no value; here the field's `x/0 = 0` gives
`x`.) -/
def fmod [FloorRing K] (x y : K) : K :=
  x - ((if 0 ≤ x / y then ⌊x / y⌋ else ⌈x / y⌉ : Int) : K) * y

/-- The DE/rand/1/exp mutation of `Evolution` for one member, Indexing.cpp lines 1088-1107
(`ncr` is 1, so the loop on `k` runs once): `t0` is the trial `vTrial[j].first` as it stands
before, `c0` the member `vRUC[j].first`, `c1`, `c2`, `c3` the three other members drawn, and
`ncr0` the draw `rand()%mnpar`.  The arrays `mMin` and `mAmp` are read as lists. -/
def Evolution.mutate [FloorRing K] (mMin mAmp : List K) (mnpar : Nat) (f : K) (ncr0 : Nat)
    (t0 c0 c1 c2 c3 : RecUnitCell K) : RecUnitCell K :=
  let t1 := (List.range 6).foldl (fun t k => t.setPar k (c0.par k)) t0
  let l := (ncr0 + 0) % mnpar
  let v1 := c1.par l - mMin.getD l 0
  let v2 := c2.par l - mMin.getD l 0
  let v3 := c3.par l - mMin.getD l 0
  t1.setPar l (mMin.getD l 0 + fmod (v1 + f * (v2 - v3) + 3 * mAmp.getD l 0) (mAmp.getD l 0))

/-- The start of `DicVol`, Indexing.cpp lines 1845-1850: the two thresholds, the call of
`Init`, `if(minDepth>mMaxDicVolDepth) mMaxDicVolDepth=minDepth`, and the per-depth counters
resized to `mMaxDicVolDepth+1` (unsigned 32-bit arithmetic) and set to 0 by a loop over
`i <= mMaxDicVolDepth`, whose first write is out of range when the new size is 0. -/
def CellExplorer.DicVol.setup (cos : K → K) (minScore : K) (minDepth : Nat)
    (self : CellExplorer K) : Except Fault (CellExplorer K) :=
  let s1 := CellExplorer.Init cos
    { self with mDicVolDepthReport := minDepth, mMinScoreReport := minScore }
  let maxDepth := if minDepth > s1.mMaxDicVolDepth then minDepth else s1.mMaxDicVolDepth
  let size := (maxDepth + 1) % 4294967296
  if size = 0 then .error Fault.outOfRange
  else .ok { s1 with mMaxDicVolDepth := maxDepth, mvNbSolutionDepth := List.replicate size 0 }

/-- The update of one peak by one reflection of squared distance `d2`, after the
specification: when `-0.1 <= d2 - d2obs < 0.1` and `|d2 - d2obs|` is below the `|d2diff|`
that the peak holds, the peak gets the writes of `Score.assign`. -/
def Score.fitPeak (storehkl : Bool) (d2 : K) (h k l : Int) (p : PeakList.hkl K) :
    PeakList.hkl K :=
  if -(1/10) ≤ d2 - p.d2obs ∧ d2 - p.d2obs < 1/10 ∧ |d2 - p.d2obs| < |p.d2diff| then
    Score.assign storehkl (d2 - p.d2obs) d2 h k l p
  else p

/-- The peak scan of `Score` without its early exit, after the specification: every peak
is updated by the reflection. -/
def Score.scanAll (storehkl : Bool) (d2 : K) (h k l : Int) (peaks : List (PeakList.hkl K)) :
    List (PeakList.hkl K) :=
  peaks.map (Score.fitPeak storehkl d2 h k l)

/-- The arguments of a call of `RDicVol` and the object it is made on. -/
structure RDicVol.Call (K : Type) where
  uc0 : RecUnitCell K
  duc : RecUnitCell K
  depth : Nat
  nbCalc : Nat
  vdepth : List Nat
  self : CellExplorer K

/-- The call `parent` of `RDicVol` makes the recursive call `child`: the box of `parent`
passes the volume pre-check and is feasible, the depth is below `mMaxDicVolDepth`, and
`child` is the call on one of the boxes of the subdivision, with `nbCalc` and the object as
the calls on the boxes before it have left them. -/
def RDicVol.Calls (sqrt acos : K → K) (lsq : CellExplorer K → CellExplorer K)
    (fh fk fl gas : Nat) (minV maxV : K) (parent child : RDicVol.Call K) : Prop :=
  RDicVol.volumeRejected sqrt acos parent.uc0 parent.duc parent.depth minV maxV = false ∧
  ∃ (node : RDicVol.Node K) (duc1 : RecUnitCell K) (before after : List (RecUnitCell K))
      (uc : RecUnitCell K) (rs : List Nat) (n : Nat) (s : CellExplorer K),
    RDicVol.prepare fh fk fl parent.self parent.uc0 parent.duc parent.depth parent.vdepth
      = .ok node ∧
    node.indexed = true ∧ node.depth < parent.self.mMaxDicVolDepth ∧
    RDicVol.halve parent.self.mnpar node.depth node.vdepth node.duc = .ok duc1 ∧
    RDicVol.childBoxes parent.self.mnpar node.depth node.vdepth node.uc0 duc1
      = .ok (before ++ uc :: after) ∧
    RDicVol.childValues
      (fun uc n s =>
        CellExplorer.RDicVol sqrt acos lsq fh fk fl gas uc duc1 (node.depth + 1) n minV maxV
          node.vdepth s)
      before (parent.nbCalc + 1) { parent.self with mpPeakList := node.peaks }
      = some (.ok (rs, n, s)) ∧
    child = { uc0 := uc, duc := duc1, depth := node.depth + 1, nbCalc := n,
              vdepth := node.vdepth, self := s }

end Evolve

section Depths

variable {K : Type} [LinearOrderedField K]

/-- The members of the object that bound the recursion of `RDicVol` and its per-depth
counters: `mMaxDicVolDepth`, `mDicVolDepthReport`, the size of `mvNbSolutionDepth`, and
`mnpar`. -/
def CellExplorer.depthFrame (self : CellExplorer K) : Nat × Nat × Nat × Nat :=
  (self.mMaxDicVolDepth, self.mDicVolDepthReport, self.mvNbSolutionDepth.length, self.mnpar)

end Depths

section Examples

/-- A monoclinic cell: a* = b* = c* = 1, cos β* = 9/10, no zero shift. -/
def monoclinicCentre : RecUnitCell ℚ := ⟨0, 1, 1, 1, 9/10, 0, 0, MONOCLINIC⟩

/-- Half-widths for `monoclinicCentre`: only a* varies, by its full value. -/
def monoclinicHalfWidth : RecUnitCell ℚ := ⟨0, 1, 0, 0, 0, 0, 0, MONOCLINIC⟩

/-- A monoclinic cell: a* = b* = 1, c* = 4/5, cos β* = 3/5. -/
def monoclinicOblique : RecUnitCell ℚ := ⟨0, 1, 1, 4/5, 3/5, 0, 0, MONOCLINIC⟩

/-- Half-widths for `monoclinicOblique`: a* varies by a fifth of its value. -/
def monoclinicFifth : RecUnitCell ℚ := ⟨0, 1/5, 0, 0, 0, 0, 0, MONOCLINIC⟩

/-- A triclinic cell: a* = b* = c* = 1, cos γ* = cos α* = 0, cos β* = 9/10. -/
def triclinicCentre : RecUnitCell ℚ := ⟨0, 1, 1, 1, 0, 0, 9/10, TRICLINIC⟩

/-- Half-widths for `triclinicCentre`: only a* varies, by its full value. -/
def triclinicHalfWidth : RecUnitCell ℚ := ⟨0, 1, 0, 0, 0, 0, 0, TRICLINIC⟩

/-- The zero half-width vector of a lattice system. -/
def zeroHalfWidth (lat : CrystalSystem) : RecUnitCell ℚ := ⟨0, 0, 0, 0, 0, 0, 0, lat⟩

/-- A rhombohedral cell: a* = 1, cos α* = 4/5. -/
def rhombohedralCentre : RecUnitCell ℚ := ⟨0, 1, 4/5, 0, 0, 0, 0, RHOMBOEDRAL⟩

/-- Half-widths for `rhombohedralCentre`: only the cosine varies, by its full value. -/
def rhombohedralNarrow : RecUnitCell ℚ := ⟨0, 0, 4/5, 0, 0, 0, 0, RHOMBOEDRAL⟩

/-- Half-widths for `rhombohedralCentre`: a* and the cosine vary by their full values. -/
def rhombohedralWide : RecUnitCell ℚ := ⟨0, 1, 4/5, 0, 0, 0, 0, RHOMBOEDRAL⟩

/-- An orthorhombic cell with a* = 1/7, b* = 1/8, c* = 1/9. -/
def orthorhombicCentre : RecUnitCell ℚ := ⟨0, 1/7, 1/8, 1/9, 0, 0, 0, ORTHOROMBIC⟩

/-- Half-widths 1/100 on the three lengths of `orthorhombicCentre`. -/
def orthorhombicHalfWidth : RecUnitCell ℚ := ⟨1/1000, 1/100, 1/100, 1/100, 0, 0, 0, ORTHOROMBIC⟩

/-- A rhombohedral cell with a* = 1 and cos α* = 0. -/
def rhombohedralUnit (K : Type) [LinearOrderedField K] : RecUnitCell K :=
  ⟨0, 1, 0, 0, 0, 0, 0, RHOMBOEDRAL⟩

/-- A triclinic cell with a* = b* = 1, c* = 2, cos α* = 1 and the other cosines 0. -/
def triclinicSkew (K : Type) [LinearOrderedField K] : RecUnitCell K :=
  ⟨0, 1, 1, 2, 0, 1, 0, TRICLINIC⟩

/-- A cubic cell with a* = 1/5. -/
def cubicCell (K : Type) [LinearOrderedField K] : RecUnitCell K :=
  ⟨0, 1/5, 0, 0, 0, 0, 0, CUBIC⟩

/-- A monoclinic cell with a* = b* = c* = 1 whose cosine slot holds 5/3. -/
def monoclinicWideCosine (K : Type) [LinearOrderedField K] : RecUnitCell K :=
  ⟨0, 1, 1, 1, 5/3, 0, 0, MONOCLINIC⟩

/-- The cell `rhombohedralUnit` with 3/5 stored in slot 4, which is not a rhombohedral
metric slot. -/
def rhombohedralStray (K : Type) [LinearOrderedField K] : RecUnitCell K :=
  ⟨0, 1, 0, 0, 3/5, 0, 0, RHOMBOEDRAL⟩

/-- Half-widths 1 on a* and 1/5 on the cosine of `rhombohedralCentre`. -/
def rhombohedralModerate : RecUnitCell ℚ := ⟨0, 1, 1/5, 0, 0, 0, 0, RHOMBOEDRAL⟩

/-- A peak at `dobs = d` with no width, as the constructor builds it. -/
def sharpPeak (d : ℚ) : PeakList.hkl ℚ := PeakList.hkl.new d 1 0 0 0 0 0 0

/-- A peak at `dobs = d` with width `ds`, as the constructor builds it. -/
def broadPeak (d ds : ℚ) : PeakList.hkl ℚ := PeakList.hkl.new d 1 ds 0 0 0 0 0

/-- A peak at `dobs = d` with no width, built with `d2calc = 5`. -/
def usedPeak (d : ℚ) : PeakList.hkl ℚ := PeakList.hkl.new d 1 0 0 0 0 0 5

/-- A peak at `dobs = 1` with the stored candidate (0,0,1). -/
def storedPeak : PeakList.hkl ℚ := { sharpPeak 1 with vDicVolHKL := [⟨0, 0, 1⟩] }

/-- An orthorhombic cell with a long reciprocal c axis: a* = b* = 1/10, c* = 1. -/
def longAxisCell : RecUnitCell ℚ := ⟨0, 1/10, 1/10, 1, 0, 0, 0, ORTHOROMBIC⟩

/-- An orthorhombic cell with a* = b* = 2 and c* = 19/20. -/
def shortAxisCell : RecUnitCell ℚ := ⟨0, 2, 2, 19/20, 0, 0, 0, ORTHOROMBIC⟩

/-- The cubic cell with a* = 1. -/
def cubicUnit : RecUnitCell ℚ := ⟨0, 1, 0, 0, 0, 0, 0, CUBIC⟩

/-- The orthorhombic cell with a* = b* = c* = 1/5. -/
def orthorhombicFifth (K : Type) [LinearOrderedField K] : RecUnitCell K :=
  ⟨0, 1/5, 1/5, 1/5, 0, 0, 0, ORTHOROMBIC⟩

/-- The cubic cell with a* = 1/4. -/
def cubicQuarter (K : Type) [LinearOrderedField K] : RecUnitCell K :=
  ⟨0, 1/4, 0, 0, 0, 0, 0, CUBIC⟩

/-- Three peaks at dobs = 3/5, 1 and 6/5. -/
def shiftedPeaks : PeakList ℚ := ⟨[sharpPeak (3/5), sharpPeak 1, sharpPeak (6/5)], []⟩

/-- A peak at `dobs = 1` with no width and intensity 100. -/
def brightPeak : PeakList.hkl ℚ := PeakList.hkl.new 1 100 0 0 0 0 0 0

/-- A `CellExplorer` object on a peak list and a cell, for `nbSpurious` spurious peaks; the
other members as the constructor sets them (22/7 and 44/21 for the two angles), with the
thresholds and depths given, and empty arrays and vectors. -/
def explorerOn (peaks : PeakList ℚ) (cell : RecUnitCell ℚ) (nbSpurious mnpar : Nat)
    (maxDepth report : Nat) (counters : List Nat) : CellExplorer ℚ :=
  { mnpar := mnpar, mpPeakList := peaks, mLengthMin := 4, mLengthMax := 25,
    mAngleMin := 22/7, mAngleMax := 44/21, mVolumeMin := 0, mVolumeMax := 1600,
    mZeroShiftMin := 0, mZeroShiftMax := 0, mlattice := cell.mlattice,
    mNbSpurious := nbSpurious, mObs := [], mCalc := [], mWeight := [], mDeriv := [],
    mBestScore := 0, mMinScoreReport := 10, mMaxDicVolDepth := maxDepth,
    mDicVolDepthReport := report, mRecUnitCell := cell, mMin := List.replicate 7 0,
    mAmp := List.replicate 7 0, mvSolution := [], mvNbSolutionDepth := counters }

/-- A peak at `dobs = d` with no width, as a call of `Score` that found no reflection
within its cutoff leaves it: `d2diff = 1000`. -/
def leftPeak (d : ℚ) : PeakList.hkl ℚ := { sharpPeak d with d2diff := 1000 }

/-- A population of four cubic cells a* = 1/4 with stored score 0. -/
def idlePopulation : List (RecUnitCell ℚ × ℚ) := List.replicate 4 (cubicQuarter ℚ, 0)

/-- A population of four cubic cells: a* = 1/4 with stored score 0 three times, and
a* = 1/5 with stored score `s` in the second place. -/
def unevenPopulation (s : ℚ) : List (RecUnitCell ℚ × ℚ) :=
  [(cubicQuarter ℚ, 0), (cubicCell ℚ, s), (cubicQuarter ℚ, 0), (cubicQuarter ℚ, 0)]

/-- The cubic cell with a* = 2. -/
def wideCell : RecUnitCell ℚ := ⟨0, 2, 0, 0, 0, 0, 0, CUBIC⟩

/-- The half-width 3/2 on a* of a cubic cell. -/
def wideHalfWidth : RecUnitCell ℚ := ⟨0, 3/2, 0, 0, 0, 0, 0, CUBIC⟩

/-- A `CellExplorer` object for the cubic lattice on the single peak `storedPeak`, with
`mMaxDicVolDepth = mDicVolDepthReport = 3` and four per-depth counters at 0. -/
def leafExplorer : CellExplorer ℚ :=
  explorerOn ⟨[storedPeak], []⟩ wideCell 0 2 3 3 [0, 0, 0, 0]

/-- A triclinic cell with a* = b* = c* = 1/10 and 3/10 in `par[6]`. -/
def triclinicParent : RecUnitCell ℚ := ⟨0, 1/10, 1/10, 1/10, 0, 0, 3/10, TRICLINIC⟩

/-- A triclinic cell with a* = b* = c* = 1/10 and 0 in `par[6]`. -/
def triclinicTrial : RecUnitCell ℚ := ⟨0, 1/10, 1/10, 1/10, 0, 0, 0, TRICLINIC⟩

/-- The cubic cell with a* = `x`. -/
def cubicOf (x : ℚ) : RecUnitCell ℚ := ⟨0, x, 0, 0, 0, 0, 0, CUBIC⟩

/-- The hexagonal cell with a* = c* = 1. -/
def hexagonalUnit : RecUnitCell ℚ := ⟨0, 1, 1, 0, 0, 0, 0, HEXAGONAL⟩

/-- The monoclinic cell with a* = 1, b* = c* = 9/10 and cos β* = 0. -/
def monoclinicUpright : RecUnitCell ℚ := ⟨0, 1, 9/10, 9/10, 0, 0, 0, MONOCLINIC⟩

/-- Half-widths 1/10 on the three lengths of an orthorhombic cell. -/
def tenthHalfWidth (K : Type) [LinearOrderedField K] : RecUnitCell K :=
  ⟨0, 1/10, 1/10, 1/10, 0, 0, 0, ORTHOROMBIC⟩

/-- The cubic cell of direct length `a`: a* = 1/a. -/
def cubicDirect (K : Type) [LinearOrderedField K] (a : K) : RecUnitCell K :=
  ⟨0, 1/a, 0, 0, 0, 0, 0, CUBIC⟩

/-- The orthorhombic cell with a* = b* = 3 and c* = 1. -/
def tallCell : RecUnitCell ℚ := ⟨0, 3, 3, 1, 0, 0, 0, ORTHOROMBIC⟩

/-- The half-width 1/5 on c* of an orthorhombic cell. -/
def tallHalfWidth : RecUnitCell ℚ := ⟨0, 0, 0, 1/5, 0, 0, 0, ORTHOROMBIC⟩

/-- The orthorhombic cell with a* = b* = 3 and c* = 23/20. -/
def tallCellOff : RecUnitCell ℚ := ⟨0, 3, 3, 23/20, 0, 0, 0, ORTHOROMBIC⟩

/-- A `CellExplorer` object for the orthorhombic lattice on one peak at `dobs = 1` of width
1/2, with `mMaxDicVolDepth = 7`, `mDicVolDepthReport = 6` and no spurious peak. -/
def tallExplorer : CellExplorer ℚ :=
  explorerOn ⟨[broadPeak 1 (1/2)], []⟩ tallCell 0 4 7 6 (List.replicate 8 0)

end Examples

section Lemmas

variable {K : Type} [LinearOrderedField K]

theorem RecUnitCell.par_beyond (c : RecUnitCell K) (i : Nat) :
    c.par (i + 1 + 1 + 1 + 1 + 1 + 1 + 1) = 0 := rfl

theorem sq_mul_sq_mono {a b x : K} (ha : 0 ≤ a) (hab : a ≤ b) : a*a*x*x ≤ b*b*x*x := by
  have h1 : 0 ≤ (b - a) * (b + a) := mul_nonneg (sub_nonneg.2 hab) (add_nonneg (ha.trans hab) ha)
  nlinarith [mul_nonneg h1 (mul_self_nonneg x)]

theorem sq_mul_nonneg_mono {a b x : K} (ha : 0 ≤ a) (hab : a ≤ b) (hx : 0 ≤ x) :
    a*a*x ≤ b*b*x := by
  have h1 : 0 ≤ (b - a) * (b + a) := mul_nonneg (sub_nonneg.2 hab) (add_nonneg (ha.trans hab) ha)
  nlinarith [mul_nonneg h1 hx]

theorem hex_form_nonneg (h k : K) : 0 ≤ h*h + k*k + h*k := by
  nlinarith [mul_self_nonneg (h + k), mul_self_nonneg h, mul_self_nonneg k]

theorem mul_nonpos_antitone {a b t : K} (hab : a ≤ b) (ht : t ≤ 0) : b*t ≤ a*t := by
  have := mul_nonneg (sub_nonneg.2 hab) (neg_nonneg.2 ht)
  nlinarith

theorem index_sum_sq (h k l : K) : 0 ≤ h*h + k*k + l*l + 2*(h*k + k*l + h*l) := by
  have e : h*h + k*k + l*l + 2*(h*k + k*l + h*l) = (h + k + l)*(h + k + l) := by ring
  rw [e]
  exact mul_self_nonneg _

theorem sq_mul_mono_both {a b x y : K} (ha : 0 ≤ a) (hab : a ≤ b) (hx : 0 ≤ x) (hxy : x ≤ y) :
    a*a*x ≤ b*b*y :=
  mul_le_mul (mul_self_le_mul_self ha hab) hxy hx (mul_self_nonneg b)

theorem cross_term_mono {a a' b b' c c' h k : K} (ha : 0 ≤ a) (haa : a ≤ a')
    (hb : 0 ≤ b) (hbb : b ≤ b') (hc : 0 ≤ c) (hcc : c ≤ c') (hhk : 0 ≤ h*k) :
    2*a*b*c*h*k ≤ 2*a'*b'*c'*h*k := by
  have h1 : a*b ≤ a'*b' := mul_le_mul haa hbb hb (ha.trans haa)
  have h2 : a*b*c ≤ a'*b'*c' :=
    mul_le_mul h1 hcc hc (mul_nonneg (ha.trans haa) (hb.trans hbb))
  have h3 := mul_le_mul_of_nonneg_right h2 hhk
  have e1 : 2*a*b*c*h*k = 2*(a*b*c*(h*k)) := by ring
  have e2 : 2*a'*b'*c'*h*k = 2*(a'*b'*c'*(h*k)) := by ring
  rw [e1, e2]
  linarith

/-- The value selected by a sign test, times a factor, when the two candidates agree on
that factor as soon as the test fails. -/
theorem ite_pos_mul_left {t a b x : K} (hx : ¬ 0 < t → a*x = b*x) :
    (if t > 0 then a else b) * x = a * x := by
  by_cases ht : 0 < t
  · simp only [gt_iff_lt, ht, if_true]
  · simp only [gt_iff_lt, ht, if_false]
    exact (hx ht).symm

theorem ite_pos_mul_right {t a b x : K} (hx : ¬ 0 < t → a*x = b*x) :
    (if t > 0 then b else a) * x = b * x := by
  by_cases ht : 0 < t
  · simp only [gt_iff_lt, ht, if_true]
  · simp only [gt_iff_lt, ht, if_false]
    exact hx ht

/-- When the first-derivative test of a length fails although no cross term is negative,
the length is zero or its index is: both ends of its interval give the same product. -/
theorem length_test_fails {p d x r : K} (hd : 0 ≤ d) (hdp : d ≤ p) (hr : 0 ≤ r)
    (ht : ¬ 0 < p*(x*x) + r) : (p - d)*x = (p + d)*x := by
  have hp : 0 ≤ p := hd.trans hdp
  have h1 : p*(x*x) = 0 :=
    le_antisymm (by linarith [not_lt.1 ht]) (mul_nonneg hp (mul_self_nonneg x))
  rcases mul_eq_zero.1 h1 with h2 | h2
  · have : d = 0 := le_antisymm (by linarith) hd
    rw [this]; ring
  · have : x = 0 := mul_self_eq_zero.1 h2
    rw [this]; ring

theorem index_test_fails {a b x : K} (hx : 0 ≤ x) (ht : ¬ 0 < x) : a*x = b*x := by
  have : x = 0 := le_antisymm (not_lt.1 ht) hx
  rw [this]; ring

theorem triclinic_form_eq (p0 X1 X2 X3 X4 X5 X6 q1 q2 q3 q4 q5 q6 h k l : K)
    (e1 : X1*h = q1*h) (e2 : X2*k = q2*k) (e3 : X3*l = q3*l)
    (e4 : X4*(h*k) = q4*(h*k)) (e5 : X5*(k*l) = q5*(k*l)) (e6 : X6*(h*l) = q6*(h*l)) :
    p0 + X1*X1*h*h + X2*X2*k*k + X3*X3*l*l
        + 2*X1*X2*X4*h*k + 2*X2*X3*X5*k*l + 2*X1*X3*X6*h*l
      = p0 + q1*q1*h*h + q2*q2*k*k + q3*q3*l*l
        + 2*q1*q2*q4*h*k + 2*q2*q3*q5*k*l + 2*q1*q3*q6*h*l := by
  linear_combination (X1*h + q1*h + 2*X4*X2*k + 2*X6*X3*l) * e1
    + (X2*k + q2*k + 2*X4*q1*h + 2*X5*X3*l) * e2
    + (X3*l + q3*l + 2*X5*q2*k + 2*X6*q1*h) * e3
    + 2*q1*q2 * e4 + 2*q2*q3 * e5 + 2*q1*q3 * e6

theorem triclinic_form_mono {q0 q1 q2 q3 q4 q5 q6 r0 r1 r2 r3 r4 r5 r6 : K} (h k l : K)
    (h0 : q0 ≤ r0) (a1 : 0 ≤ q1) (b1 : q1 ≤ r1) (a2 : 0 ≤ q2) (b2 : q2 ≤ r2)
    (a3 : 0 ≤ q3) (b3 : q3 ≤ r3) (a4 : 0 ≤ q4) (b4 : q4 ≤ r4) (a5 : 0 ≤ q5) (b5 : q5 ≤ r5)
    (a6 : 0 ≤ q6) (b6 : q6 ≤ r6) (hhk : 0 ≤ h*k) (hkl : 0 ≤ k*l) (hhl : 0 ≤ h*l) :
    q0 + q1*q1*h*h + q2*q2*k*k + q3*q3*l*l
        + 2*q1*q2*q4*h*k + 2*q2*q3*q5*k*l + 2*q1*q3*q6*h*l
      ≤ r0 + r1*r1*h*h + r2*r2*k*k + r3*r3*l*l
        + 2*r1*r2*r4*h*k + 2*r2*r3*r5*k*l + 2*r1*r3*r6*h*l := by
  have e1 := sq_mul_sq_mono (x := h) a1 b1
  have e2 := sq_mul_sq_mono (x := k) a2 b2
  have e3 := sq_mul_sq_mono (x := l) a3 b3
  have e4 := cross_term_mono a1 b1 a2 b2 a4 b4 hhk
  have e5 := cross_term_mono a2 b2 a3 b3 a5 b5 hkl
  have e6 := cross_term_mono a1 b1 a3 b3 a6 b6 hhl
  linarith

/-- Triclinic `hkl2d_delta` when no product of two indices is negative: the bounds are the
triclinic form at the all-minus and all-plus corners. -/
theorem hkl2d_delta_triclinic_corners (c delta : RecUnitCell K) (h k l : K)
    (hl : c.mlattice = TRICLINIC) (hhk : 0 ≤ h*k) (hkl : 0 ≤ k*l) (hhl : 0 ≤ h*l)
    (d1 : 0 ≤ delta.par1 ∧ delta.par1 ≤ c.par1) (d2 : 0 ≤ delta.par2 ∧ delta.par2 ≤ c.par2)
    (d3 : 0 ≤ delta.par3 ∧ delta.par3 ≤ c.par3) (d4 : 0 ≤ delta.par4 ∧ delta.par4 ≤ c.par4)
    (d5 : 0 ≤ delta.par5 ∧ delta.par5 ≤ c.par5) (d6 : 0 ≤ delta.par6 ∧ delta.par6 ≤ c.par6) :
    c.hkl2d_delta h k l delta =
      (c.par0 - delta.par0 + (c.par1 - delta.par1)*(c.par1 - delta.par1)*h*h
          + (c.par2 - delta.par2)*(c.par2 - delta.par2)*k*k
          + (c.par3 - delta.par3)*(c.par3 - delta.par3)*l*l
          + 2*(c.par1 - delta.par1)*(c.par2 - delta.par2)*(c.par4 - delta.par4)*h*k
          + 2*(c.par2 - delta.par2)*(c.par3 - delta.par3)*(c.par5 - delta.par5)*k*l
          + 2*(c.par1 - delta.par1)*(c.par3 - delta.par3)*(c.par6 - delta.par6)*h*l,
       c.par0 + delta.par0 + (c.par1 + delta.par1)*(c.par1 + delta.par1)*h*h
          + (c.par2 + delta.par2)*(c.par2 + delta.par2)*k*k
          + (c.par3 + delta.par3)*(c.par3 + delta.par3)*l*l
          + 2*(c.par1 + delta.par1)*(c.par2 + delta.par2)*(c.par4 + delta.par4)*h*k
          + 2*(c.par2 + delta.par2)*(c.par3 + delta.par3)*(c.par5 + delta.par5)*k*l
          + 2*(c.par1 + delta.par1)*(c.par3 + delta.par3)*(c.par6 + delta.par6)*h*l) := by
  have p1 : 0 ≤ c.par1 := d1.1.trans d1.2
  have p2 : 0 ≤ c.par2 := d2.1.trans d2.2
  have p3 : 0 ≤ c.par3 := d3.1.trans d3.2
  have p4 : 0 ≤ c.par4 := d4.1.trans d4.2
  have p5 : 0 ≤ c.par5 := d5.1.trans d5.2
  have p6 : 0 ≤ c.par6 := d6.1.trans d6.2
  have t1 : ¬ 0 < h*(c.par1*h + c.par2*c.par4*k + c.par3*c.par6*l) →
      (c.par1 - delta.par1)*h = (c.par1 + delta.par1)*h := by
    intro ht
    refine length_test_fails (r := c.par2*c.par4*(h*k) + c.par3*c.par6*(h*l)) d1.1 d1.2
      (add_nonneg (mul_nonneg (mul_nonneg p2 p4) hhk) (mul_nonneg (mul_nonneg p3 p6) hhl)) ?_
    intro hpos
    apply ht
    calc (0 : K) < c.par1*(h*h) + (c.par2*c.par4*(h*k) + c.par3*c.par6*(h*l)) := hpos
      _ = h*(c.par1*h + c.par2*c.par4*k + c.par3*c.par6*l) := by ring
  have t2 : ¬ 0 < k*(c.par2*k + c.par1*c.par4*h + c.par3*c.par5*l) →
      (c.par2 - delta.par2)*k = (c.par2 + delta.par2)*k := by
    intro ht
    refine length_test_fails (r := c.par1*c.par4*(h*k) + c.par3*c.par5*(k*l)) d2.1 d2.2
      (add_nonneg (mul_nonneg (mul_nonneg p1 p4) hhk) (mul_nonneg (mul_nonneg p3 p5) hkl)) ?_
    intro hpos
    apply ht
    calc (0 : K) < c.par2*(k*k) + (c.par1*c.par4*(h*k) + c.par3*c.par5*(k*l)) := hpos
      _ = k*(c.par2*k + c.par1*c.par4*h + c.par3*c.par5*l) := by ring
  have t3 : ¬ 0 < l*(c.par3*l + c.par2*c.par5*k + c.par1*c.par6*h) →
      (c.par3 - delta.par3)*l = (c.par3 + delta.par3)*l := by
    intro ht
    refine length_test_fails (r := c.par2*c.par5*(k*l) + c.par1*c.par6*(h*l)) d3.1 d3.2
      (add_nonneg (mul_nonneg (mul_nonneg p2 p5) hkl) (mul_nonneg (mul_nonneg p1 p6) hhl)) ?_
    intro hpos
    apply ht
    calc (0 : K) < c.par3*(l*l) + (c.par2*c.par5*(k*l) + c.par1*c.par6*(h*l)) := hpos
      _ = l*(c.par3*l + c.par2*c.par5*k + c.par1*c.par6*h) := by ring
  simp only [RecUnitCell.hkl2d_delta, hl]
  refine Prod.ext ?_ ?_
  · exact triclinic_form_eq _ _ _ _ _ _ _ _ _ _ _ _ _ h k l
      (ite_pos_mul_left t1) (ite_pos_mul_left t2) (ite_pos_mul_left t3)
      (ite_pos_mul_left (index_test_fails hhk)) (ite_pos_mul_left (index_test_fails hkl))
      (ite_pos_mul_left (index_test_fails hhl))
  · exact triclinic_form_eq _ _ _ _ _ _ _ _ _ _ _ _ _ h k l
      (ite_pos_mul_right t1) (ite_pos_mul_right t2) (ite_pos_mul_right t3)
      (ite_pos_mul_right (index_test_fails hhk)) (ite_pos_mul_right (index_test_fails hkl))
      (ite_pos_mul_right (index_test_fails hhl))

theorem monoclinic_form_eq (p0 p2 X1 X3 X4 q1 q3 q4 h k l : K)
    (e1 : X1*h = q1*h) (e3 : X3*l = q3*l) (e4 : X4*(h*l) = q4*(h*l)) :
    p0 + X1*X1*h*h + p2*p2*k*k + X3*X3*l*l + 2*X1*X3*X4*h*l
      = p0 + q1*q1*h*h + p2*p2*k*k + q3*q3*l*l + 2*q1*q3*q4*h*l := by
  linear_combination (X1*h + q1*h + 2*X4*X3*l) * e1
    + (X3*l + q3*l + 2*X4*q1*h) * e3 + 2*q1*q3 * e4

theorem monoclinic_form_mono {q0 q1 q2 q3 q4 r0 r1 r2 r3 r4 : K} (h k l : K)
    (h0 : q0 ≤ r0) (a1 : 0 ≤ q1) (b1 : q1 ≤ r1) (a2 : 0 ≤ q2) (b2 : q2 ≤ r2)
    (a3 : 0 ≤ q3) (b3 : q3 ≤ r3) (a4 : 0 ≤ q4) (b4 : q4 ≤ r4) (hhl : 0 ≤ h*l) :
    q0 + q1*q1*h*h + q2*q2*k*k + q3*q3*l*l + 2*q1*q3*q4*h*l
      ≤ r0 + r1*r1*h*h + r2*r2*k*k + r3*r3*l*l + 2*r1*r3*r4*h*l := by
  have e1 := sq_mul_sq_mono (x := h) a1 b1
  have e2 := sq_mul_sq_mono (x := k) a2 b2
  have e3 := sq_mul_sq_mono (x := l) a3 b3
  have e6 := cross_term_mono a1 b1 a3 b3 a4 b4 hhl
  linarith

/-- Monoclinic `hkl2d_delta` when `h*l` is not negative: the bounds are the monoclinic form
at the all-minus and all-plus corners. -/
theorem hkl2d_delta_monoclinic_corners (c delta : RecUnitCell K) (h k l : K)
    (hl : c.mlattice = MONOCLINIC) (hhl : 0 ≤ h*l)
    (d1 : 0 ≤ delta.par1 ∧ delta.par1 ≤ c.par1)
    (d3 : 0 ≤ delta.par3 ∧ delta.par3 ≤ c.par3) (d4 : 0 ≤ delta.par4 ∧ delta.par4 ≤ c.par4) :
    c.hkl2d_delta h k l delta =
      (c.par0 - delta.par0 + (c.par1 - delta.par1)*(c.par1 - delta.par1)*h*h
          + (c.par2 - delta.par2)*(c.par2 - delta.par2)*k*k
          + (c.par3 - delta.par3)*(c.par3 - delta.par3)*l*l
          + 2*(c.par1 - delta.par1)*(c.par3 - delta.par3)*(c.par4 - delta.par4)*h*l,
       c.par0 + delta.par0 + (c.par1 + delta.par1)*(c.par1 + delta.par1)*h*h
          + (c.par2 + delta.par2)*(c.par2 + delta.par2)*k*k
          + (c.par3 + delta.par3)*(c.par3 + delta.par3)*l*l
          + 2*(c.par1 + delta.par1)*(c.par3 + delta.par3)*(c.par4 + delta.par4)*h*l) := by
  have p1 : 0 ≤ c.par1 := d1.1.trans d1.2
  have p3 : 0 ≤ c.par3 := d3.1.trans d3.2
  have p4 : 0 ≤ c.par4 := d4.1.trans d4.2
  have t1 : ¬ 0 < h*(c.par1*h + c.par3*c.par4*l) →
      (c.par1 - delta.par1)*h = (c.par1 + delta.par1)*h := by
    intro ht
    refine length_test_fails (r := c.par3*c.par4*(h*l)) d1.1 d1.2
      (mul_nonneg (mul_nonneg p3 p4) hhl) ?_
    intro hpos
    apply ht
    calc (0 : K) < c.par1*(h*h) + c.par3*c.par4*(h*l) := hpos
      _ = h*(c.par1*h + c.par3*c.par4*l) := by ring
  have t3 : ¬ 0 < l*(c.par3*l + c.par1*c.par4*h) →
      (c.par3 - delta.par3)*l = (c.par3 + delta.par3)*l := by
    intro ht
    refine length_test_fails (r := c.par1*c.par4*(h*l)) d3.1 d3.2
      (mul_nonneg (mul_nonneg p1 p4) hhl) ?_
    intro hpos
    apply ht
    calc (0 : K) < c.par3*(l*l) + c.par1*c.par4*(h*l) := hpos
      _ = l*(c.par3*l + c.par1*c.par4*h) := by ring
  by_cases hpos : 0 < h*l
  · simp only [RecUnitCell.hkl2d_delta, hl, gt_iff_lt, hpos, if_true]
  · have hz : ∀ a b : K, a*(h*l) = b*(h*l) := fun a b => index_test_fails hhl hpos
    by_cases c1 : 0 < h*(c.par1*h + c.par3*c.par4*l) <;>
      by_cases c3 : 0 < l*(c.par3*l + c.par1*c.par4*h) <;>
      simp only [RecUnitCell.hkl2d_delta, hl, gt_iff_lt, hpos, c1, c3, if_true, if_false,
        decide_True, decide_False, Bool.and_self, Bool.and_true, Bool.and_false,
        Bool.not_true, Bool.not_false, Bool.false_eq_true] <;>
      refine Prod.ext ?_ ?_ <;>
      first
        | exact monoclinic_form_eq _ _ _ _ _ _ _ _ h k l rfl rfl (hz _ _)
        | exact monoclinic_form_eq _ _ _ _ _ _ _ _ h k l rfl (t3 c3).symm (hz _ _)
        | exact monoclinic_form_eq _ _ _ _ _ _ _ _ h k l rfl (t3 c3) (hz _ _)
        | exact monoclinic_form_eq _ _ _ _ _ _ _ _ h k l (t1 c1).symm rfl (hz _ _)
        | exact monoclinic_form_eq _ _ _ _ _ _ _ _ h k l (t1 c1) rfl (hz _ _)
        | exact monoclinic_form_eq _ _ _ _ _ _ _ _ h k l (t1 c1).symm (t3 c3).symm (hz _ _)
        | exact monoclinic_form_eq _ _ _ _ _ _ _ _ h k l (t1 c1) (t3 c3) (hz _ _)

theorem sqrt_sixteen_ninths : Real.sqrt (16/9) = 4/3 := by
  rw [show (16/9 : ℝ) = (4/3)^2 by norm_num]
  exact Real.sqrt_sq (by norm_num)

theorem abs_sine_arg_of_le {x : ℝ} (hx : |x| ≤ 1) : |1 - x*x| = max 0 (1 - x*x) := by
  have h1 : x*x ≤ 1 := by
    have := abs_le.1 hx
    nlinarith [this.1, this.2]
  rw [abs_of_nonneg (by linarith), max_eq_right (by linarith)]

theorem abs_sine_arg_of_gt {x : ℝ} (hx : 1 < |x|) : |1 - x*x| = x*x - 1 ∧ 0 < x*x - 1 := by
  have h1 : 1 < x*x := by
    have h2 : |x| * |x| = x*x := abs_mul_abs_self x
    nlinarith [abs_nonneg x]
  constructor
  · rw [abs_of_neg (by linarith)]; ring
  · linarith

theorem sine_cases (x : ℝ) :
    0 ≤ |1 - x*x| ∧
    (|x| ≤ 1 → Real.sqrt |1 - x*x| = clampedSine Real.sqrt x) ∧
    (1 < |x| → Real.sqrt |1 - x*x| = Real.sqrt (x*x - 1) ∧ 0 < Real.sqrt |1 - x*x|) := by
  refine ⟨abs_nonneg _, ?_, ?_⟩
  · intro hx
    rw [abs_sine_arg_of_le hx]; rfl
  · intro hx
    obtain ⟨e, hpos⟩ := abs_sine_arg_of_gt hx
    rw [e]
    exact ⟨rfl, Real.sqrt_pos.2 hpos⟩

theorem listSort_perm {α : Type} (comp : α → α → Bool) (l : List α) :
    (listSort comp l).Perm l :=
  List.perm_insertionSort _ l

theorem ReduceSolutions_inner_dissimilar (sqrt acos : K → K) (back : RecUnitCell K × K)
    (l : List (RecUnitCell K × K))
    (h : ∀ pos ∈ l, SimilarRUC sqrt acos pos.1 back.1 (5/1000) = false) :
    (CellExplorer.ReduceSolutions.inner sqrt acos back l).1 = back ∧
    (CellExplorer.ReduceSolutions.inner sqrt acos back l).2.1 = l := by
  induction l with
  | nil => exact ⟨rfl, rfl⟩
  | cons pos rest ih =>
    have hpos := h pos (List.mem_cons_self _ _)
    have ih' := ih (fun q hq => h q (List.mem_cons_of_mem _ hq))
    simp only [CellExplorer.ReduceSolutions.inner, hpos, Bool.false_eq_true, if_false]
    exact ⟨ih'.1, by rw [ih'.2]⟩

theorem ReduceSolutions_loop_dissimilar (sqrt acos : K → K) (mv : List (RecUnitCell K × K))
    (h : mv.Pairwise (fun a b => SimilarRUC sqrt acos b.1 a.1 (5/1000) = false)) :
    ∀ v2, CellExplorer.ReduceSolutions.loop sqrt acos mv v2 = v2 ++ mv := by
  induction mv with
  | nil => intro v2; simp [CellExplorer.ReduceSolutions.loop]
  | cons front rest ih =>
    intro v2
    obtain ⟨hfront, hrest⟩ := List.pairwise_cons.1 h
    have hin := ReduceSolutions_inner_dissimilar sqrt acos front rest hfront
    rw [CellExplorer.ReduceSolutions.loop]
    simp only [hin.1, hin.2]
    rw [ih hrest]
    simp

theorem ReduceSolutions_pair (sqrt acos : K → K) (s1 s2 : RecUnitCell K × K)
    (hsim : SimilarRUC sqrt acos s2.1 s1.1 (5/1000) = true) :
    CellExplorer.ReduceSolutions sqrt acos [s1, s2] =
      [if s1.1.mlattice = s2.1.mlattice then (if s2.2 > s1.2 then s2 else s1)
        else if s1.1.mlattice.toNat < s2.1.mlattice.toNat then s2 else s1] := by
  simp only [CellExplorer.ReduceSolutions]
  rw [CellExplorer.ReduceSolutions.loop]
  simp only [CellExplorer.ReduceSolutions.inner, hsim, if_true]
  rw [CellExplorer.ReduceSolutions.loop]
  simp [listSort]

/-- Peaks with a stored match, counted. -/
theorem storedLoop_true_iff (uc duc : RecUnitCell K) (nbUnindexed : Nat) :
    ∀ (ps : List (PeakList.hkl K)) (nbIndexed nbUnIx : Int),
      1 ≤ nbIndexed → 0 ≤ nbUnIx → nbUnIx ≤ nbUnindexed →
      nbIndexed + ((nbUnindexed : Int) - nbUnIx) = ps.length →
      ((DichoIndexed.storedLoop uc duc nbUnindexed ps nbIndexed nbUnIx).1 = true ↔
        nbIndexed ≤ ((ps.filter (hasStoredMatch uc duc)).length : Int)) := by
  intro ps
  induction ps with
  | nil =>
    intro nbIndexed nbUnIx h1 h0 hle hsum
    simp only [List.length_nil, Nat.cast_zero] at hsum
    omega
  | cons p ps ih =>
    intro nbIndexed nbUnIx h1 h0 hle hsum
    simp only [List.length_cons, Nat.cast_add, Nat.cast_one] at hsum
    have hcount : ((ps.filter (hasStoredMatch uc duc)).length : Int) ≤ ps.length := by
      exact_mod_cast List.length_filter_le _ _
    cases hfind : p.vDicVolHKL.find? (fun c =>
        DichoIndexed.overlaps p (uc.hkl2d_delta (c.h : K) (c.k : K) (c.l : K) duc).1
          (uc.hkl2d_delta (c.h : K) (c.k : K) (c.l : K) duc).2) with
    | none =>
      have hm : hasStoredMatch uc duc p = false := by
        simp only [hasStoredMatch]
        rw [Bool.eq_false_iff]
        intro hany
        rw [List.any_eq_true] at hany
        obtain ⟨c, hc, hov⟩ := hany
        have := List.find?_eq_none.1 hfind c hc
        exact this hov
      simp only [DichoIndexed.storedLoop, hfind, List.filter_cons, hm, Bool.false_eq_true, if_false]
      by_cases hgt : nbUnIx + 1 > (nbUnindexed : Int)
      · simp only [hgt, if_true, Bool.false_eq_true, false_iff, not_le]
        omega
      · simp only [hgt, if_false]
        exact ih nbIndexed (nbUnIx + 1) h1 (by omega) (by omega) (by omega)
    | some c =>
      have hm : hasStoredMatch uc duc p = true := by
        simp only [hasStoredMatch]
        rw [List.any_eq_true]
        have hov := List.find?_some hfind
        exact ⟨c, List.mem_of_find?_eq_some hfind, hov⟩
      simp only [DichoIndexed.storedLoop, hfind, List.filter_cons, hm, if_true,
        List.length_cons, Nat.cast_add, Nat.cast_one]
      by_cases hz : nbIndexed - 1 = 0
      · simp only [hz, if_true, true_iff]
        have : (0 : Int) ≤ ((ps.filter (hasStoredMatch uc duc)).length : Int) := Int.natCast_nonneg _
        omega
      · simp only [hz, if_false]
        rw [ih (nbIndexed - 1) nbUnIx (by omega) h0 hle (by omega)]
        omega

theorem Score.loopL_inv (Inv : ScoreState K → Prop) (ruc : RecUnitCell K) (dmax : K)
    (storehkl sp : Bool) (h : Nat) (sk : Int) (k : Nat) (sl : Int)
    (hvisit : ∀ d2 h k l s, Inv s → Inv (Score.visit storehkl sp d2 h k l s)) :
    ∀ (fuel l : Nat) (s s' : ScoreState K), Inv s →
      Score.loopL ruc dmax storehkl sp h sk k sl fuel l s = some s' → Inv s' := by
  intro fuel
  induction fuel with
  | zero => intro l s s' _ hrun; simp [Score.loopL] at hrun
  | succ n ih =>
    intro l s s' hs hrun
    simp only [Score.loopL] at hrun
    split_ifs at hrun with h1 h2
    · cases hrun; exact hs
    · exact ih _ _ _ hs hrun
    · exact ih _ _ _ (hvisit _ _ _ _ _ hs) hrun

theorem Score.loopSL_inv (Inv : ScoreState K → Prop) (ruc : RecUnitCell K) (dmax : K)
    (storehkl sp : Bool) (fl : Nat) (h : Nat) (sk : Int) (k : Nat)
    (hvisit : ∀ d2 h k l s, Inv s → Inv (Score.visit storehkl sp d2 h k l s))
    (s s' : ScoreState K) (hs : Inv s)
    (hrun : Score.loopSL ruc dmax storehkl sp fl h sk k s = some s') : Inv s' := by
  simp only [Score.loopSL] at hrun
  split at hrun
  · simp at hrun
  · rename_i s1 h1
    have hs1 := Score.loopL_inv Inv ruc dmax storehkl sp h sk k _ hvisit _ _ _ _ hs h1
    split_ifs at hrun
    all_goals
      first
        | exact Score.loopL_inv Inv ruc dmax storehkl sp h sk k _ hvisit _ _ _ _ hs1 hrun
        | (cases hrun; exact hs1)

theorem Score.loopK_inv (Inv : ScoreState K → Prop) (ruc : RecUnitCell K) (dmax : K)
    (storehkl sp : Bool) (fl : Nat) (h : Nat) (sk : Int)
    (hvisit : ∀ d2 h k l s, Inv s → Inv (Score.visit storehkl sp d2 h k l s))
    (hK : ∀ s, Inv s → Inv { s with nbCalcK := 0 }) :
    ∀ (fuel k : Nat) (s s' : ScoreState K), Inv s →
      Score.loopK ruc dmax storehkl sp fl h sk fuel k s = some s' → Inv s' := by
  intro fuel
  induction fuel with
  | zero => intro k s s' _ hrun; simp [Score.loopK] at hrun
  | succ n ih =>
    intro k s s' hs hrun
    simp only [Score.loopK] at hrun
    split at hrun
    · simp at hrun
    · rename_i s1 h1
      have hs1 := Score.loopSL_inv Inv ruc dmax storehkl sp fl h sk k hvisit _ _ (hK s hs) h1
      split_ifs at hrun
      · cases hrun; exact hs1
      · exact ih _ _ _ hs1 hrun
      · exact ih _ _ _ hs1 hrun

theorem Score.loopSK_inv (Inv : ScoreState K → Prop) (ruc : RecUnitCell K) (dmax : K)
    (storehkl sp : Bool) (fk fl : Nat) (h : Nat)
    (hvisit : ∀ d2 h k l s, Inv s → Inv (Score.visit storehkl sp d2 h k l s))
    (hK : ∀ s, Inv s → Inv { s with nbCalcK := 0 })
    (s s' : ScoreState K) (hs : Inv s)
    (hrun : Score.loopSK ruc dmax storehkl sp fk fl h s = some s') : Inv s' := by
  simp only [Score.loopSK] at hrun
  split at hrun
  · simp at hrun
  · rename_i s1 h1
    have hs1 := Score.loopK_inv Inv ruc dmax storehkl sp fl h _ hvisit hK _ _ _ _ hs h1
    split_ifs at hrun
    all_goals
      first
        | exact Score.loopK_inv Inv ruc dmax storehkl sp fl h _ hvisit hK _ _ _ _ hs1 hrun
        | (cases hrun; exact hs1)

theorem Score.loopH_inv (Inv : ScoreState K → Prop) (ruc : RecUnitCell K) (dmax : K)
    (storehkl sp : Bool) (fk fl : Nat)
    (hvisit : ∀ d2 h k l s, Inv s → Inv (Score.visit storehkl sp d2 h k l s))
    (hK : ∀ s, Inv s → Inv { s with nbCalcK := 0 })
    (hH : ∀ s, Inv s → Inv { s with nbCalcH := 0 }) :
    ∀ (fuel h : Nat) (s s' : ScoreState K), Inv s →
      Score.loopH ruc dmax storehkl sp fk fl fuel h s = some s' → Inv s' := by
  intro fuel
  induction fuel with
  | zero => intro h s s' _ hrun; simp [Score.loopH] at hrun
  | succ n ih =>
    intro h s s' hs hrun
    simp only [Score.loopH] at hrun
    split at hrun
    · simp at hrun
    · rename_i s1 h1
      have hs1 := Score.loopSK_inv Inv ruc dmax storehkl sp fk fl h hvisit hK _ _ (hH s hs) h1
      split_ifs at hrun
      · cases hrun; exact hs1
      · exact ih _ _ _ hs1 hrun

theorem Score.scanPeaks_map_eq {β : Type} (g : PeakList.hkl K → β) (storehkl : Bool)
    (hg : ∀ (tmp d2 : K) (h k l : Int) (p : PeakList.hkl K),
      g (Score.assign storehkl tmp d2 h k l p) = g p)
    (d2 : K) (h k l : Int) (ps : List (PeakList.hkl K)) :
    (Score.scanPeaks storehkl d2 h k l ps).map g = ps.map g := by
  induction ps with
  | nil => rfl
  | cons p ps ih =>
    simp only [Score.scanPeaks]
    split_ifs <;> simp [List.map_cons, ih, hg]

theorem Score.enumerate_map_eq {β : Type} (g : PeakList.hkl K → β) (storehkl sp : Bool)
    (hg : ∀ (tmp d2 : K) (h k l : Int) (p : PeakList.hkl K),
      g (Score.assign storehkl tmp d2 h k l p) = g p)
    (ruc : RecUnitCell K) (dmax : K) (fh fk fl : Nat) (peaks predicted : List (PeakList.hkl K))
    (s : ScoreState K)
    (hrun : Score.enumerate ruc dmax storehkl sp fh fk fl peaks predicted = some s) :
    s.peaks.map g = peaks.map g := by
  refine Score.loopH_inv (fun t => t.peaks.map g = peaks.map g) ruc dmax storehkl sp fk fl
    ?_ ?_ ?_ fh 0 _ s rfl hrun
  · intro d2 h k l t ht
    simp only [Score.visit]
    rw [Score.scanPeaks_map_eq g storehkl hg, ht]
  · intro t ht; exact ht
  · intro t ht; exact ht

theorem Score.enumerate_predicted (storehkl : Bool)
    (ruc : RecUnitCell K) (dmax : K) (fh fk fl : Nat) (peaks : List (PeakList.hkl K))
    (s : ScoreState K)
    (hrun : Score.enumerate ruc dmax storehkl true fh fk fl peaks [] = some s) :
    s.predicted.length = s.nbCalc := by
  refine Score.loopH_inv (fun t => t.predicted.length = t.nbCalc) ruc dmax storehkl true fk fl
    ?_ ?_ ?_ fh 0 _ s rfl hrun
  · intro d2 h k l t ht
    simp only [Score.visit, if_true, List.length_append, List.length_singleton, ht]
  · intro t ht; exact ht
  · intro t ht; exact ht

theorem modifyAt_map_eq {α β : Type} (f : α → α) (g : α → β) (hfg : ∀ a, g (f a) = g a) :
    ∀ (i : Nat) (l : List α), (modifyAt f i l).map g = l.map g := by
  intro i l
  induction l generalizing i with
  | nil => cases i <;> rfl
  | cons a l ih =>
    cases i with
    | zero => simp [modifyAt, hfg]
    | succ i => simp [modifyAt, ih]

theorem Score.spurious_map_eq {β : Type} (g : PeakList.hkl K → β) (nbSpurious : Nat)
    (storehkl : Bool) (hg : ∀ p : PeakList.hkl K, g (Score.markSpurious storehkl p) = g p)
    (ps : List (PeakList.hkl K)) :
    (Score.spurious nbSpurious storehkl ps).2.map g = ps.map g := by
  have key : ∀ (removed : List (K × Nat)) (acc : K × List (PeakList.hkl K)),
      (List.foldl (Score.dropWorst storehkl) acc removed).2.map g = acc.2.map g := by
    intro removed
    induction removed with
    | nil => intro acc; rfl
    | cons r rs ih =>
      intro acc
      simp only [List.foldl_cons]
      rw [ih]
      exact modifyAt_map_eq _ g hg _ _
  simp only [Score.spurious]
  by_cases hnb : nbSpurious > 0
  · simp only [hnb, if_true]
    exact key _ _
  · simp only [hnb, if_false]

/-- The `l` loop with both signs 1 stops at once at a reflection beyond `dmax`. -/
theorem Score.loopL_beyond (ruc : RecUnitCell K) (dmax : K) (storehkl sp : Bool)
    (h k : Nat) (n l : Nat) (s : ScoreState K)
    (hd3 : ∀ h k l : Nat, 0 ≤ ruc.hkl2dDeriv h k l 3)
    (hb : dmax < ruc.hkl2dInt h k l) :
    Score.loopL ruc dmax storehkl sp h 1 k 1 (n + 1) l s = some s := by
  simp only [Score.loopL, one_mul, gt_iff_lt, hb, if_true, Int.cast_one, ge_iff_le, hd3]

/-- The `l` loop with both signs 1 ends within its budget once every `l` from `Lb` on is
beyond `dmax`. -/
theorem Score.loopL_terminates (ruc : RecUnitCell K) (dmax : K) (storehkl sp : Bool)
    (h k Lb : Nat)
    (hd3 : ∀ h k l : Nat, 0 ≤ ruc.hkl2dDeriv h k l 3)
    (hL : ∀ l : Nat, Lb ≤ l → dmax < ruc.hkl2dInt h k l) :
    ∀ (n l : Nat) (s : ScoreState K), Lb ≤ l + n →
      ∃ s', Score.loopL ruc dmax storehkl sp h 1 k 1 (n + 1) l s = some s' := by
  intro n
  induction n with
  | zero =>
    intro l s hle
    exact ⟨s, Score.loopL_beyond ruc dmax storehkl sp h k 0 l s hd3 (hL l (by omega))⟩
  | succ n ih =>
    intro l s hle
    by_cases hb : dmax < ruc.hkl2dInt h k l
    · exact ⟨s, Score.loopL_beyond ruc dmax storehkl sp h k (n + 1) l s hd3 hb⟩
    · rw [Score.loopL]
      simp only [one_mul, gt_iff_lt, hb, if_false]
      exact ih (l + 1) _ (by omega)

/-- For a lattice that explores l >= 0 only, the `sl` loop is a single `l` loop. -/
theorem Score.loopSL_single (ruc : RecUnitCell K) (dmax : K) (storehkl sp : Bool)
    (fl h k : Nat) (s : ScoreState K) (hl0 : signL0 ruc.mlattice = 1) :
    Score.loopSL ruc dmax storehkl sp fl h 1 k s =
      Score.loopL ruc dmax storehkl sp h 1 k 1 fl (if h + k = 0 then 1 else 0) s := by
  have hst : Score.slStart ruc.mlattice h k 1 1 = (1, if h + k = 0 then 1 else 0) := by
    simp only [Score.slStart]
    by_cases h1 : h + k = 0
    · simp [h1]
    · by_cases h2 : h = 0
      · have h3 : k ≠ 0 := by omega
        simp [h2, h3]
      · simp [h1, h2]
  simp only [Score.loopSL, hl0, hst]
  cases hrun : Score.loopL ruc dmax storehkl sp h 1 k 1 fl (if h + k = 0 then 1 else 0) s with
  | none => rfl
  | some s1 => simp

theorem Score.loopK_beyond (ruc : RecUnitCell K) (dmax : K) (storehkl sp : Bool)
    (fl h k n : Nat) (s : ScoreState K) (hl0 : signL0 ruc.mlattice = 1)
    (hd3 : ∀ h k l : Nat, 0 ≤ ruc.hkl2dDeriv h k l 3)
    (hd2 : ∀ h k : Nat, 0 ≤ ruc.hkl2dDeriv h k 0 2)
    (hb : dmax < ruc.hkl2dInt h k ((if h + k = 0 then 1 else 0 : Nat) : Int)) :
    Score.loopK ruc dmax storehkl sp (fl + 1) h 1 (n + 1) k s
      = some { s with nbCalcK := 0 } := by
  rw [Score.loopK]
  rw [Score.loopSL_single ruc dmax storehkl sp (fl + 1) h k _ hl0,
    Score.loopL_beyond ruc dmax storehkl sp h k fl _ _ hd3 hb]
  have := hd2 h k
  simp only [one_mul, Int.cast_one, ge_iff_le, if_true, this, Int.cast_zero]

theorem Score.loopK_terminates (ruc : RecUnitCell K) (dmax : K) (storehkl sp : Bool)
    (h Kb Lb : Nat) (hl0 : signL0 ruc.mlattice = 1)
    (hd3 : ∀ h k l : Nat, 0 ≤ ruc.hkl2dDeriv h k l 3)
    (hd2 : ∀ h k : Nat, 0 ≤ ruc.hkl2dDeriv h k 0 2)
    (hL : ∀ k l : Nat, Lb ≤ l → dmax < ruc.hkl2dInt h k l)
    (hK : ∀ k l : Nat, Kb ≤ k → dmax < ruc.hkl2dInt h k l) :
    ∀ (n k : Nat) (s : ScoreState K), Kb ≤ k + n →
      ∃ s', Score.loopK ruc dmax storehkl sp (Lb + 1) h 1 (n + 1) k s = some s' := by
  intro n
  induction n with
  | zero =>
    intro k s hle
    exact ⟨_, Score.loopK_beyond ruc dmax storehkl sp Lb h k 0 s hl0 hd3 hd2
      (hK k _ (by omega))⟩
  | succ n ih =>
    intro k s hle
    rw [Score.loopK, Score.loopSL_single ruc dmax storehkl sp (Lb + 1) h k _ hl0]
    obtain ⟨s1, hs1⟩ := Score.loopL_terminates ruc dmax storehkl sp h k Lb hd3 (hL k) Lb
      (if h + k = 0 then 1 else 0) { s with nbCalcK := 0 } (by omega)
    rw [hs1]
    have hd := hd2 h k
    simp only [one_mul, Int.cast_one, ge_iff_le, hd, if_true]
    by_cases hz : s1.nbCalcK = 0
    · exact ⟨s1, by simp [hz]⟩
    · simp only [hz, if_false]
      exact ih (k + 1) s1 (by omega)

theorem Score.loopSK_single (ruc : RecUnitCell K) (dmax : K) (storehkl sp : Bool)
    (fk fl h : Nat) (s : ScoreState K) (hk0 : signK0 ruc.mlattice = 1) :
    Score.loopSK ruc dmax storehkl sp fk fl h s =
      Score.loopK ruc dmax storehkl sp fl h 1 fk 0 s := by
  simp only [Score.loopSK, hk0, ite_self]
  cases hrun : Score.loopK ruc dmax storehkl sp fl h 1 fk 0 s with
  | none => rfl
  | some s1 => simp

theorem Score.loopH_terminates (ruc : RecUnitCell K) (dmax : K) (storehkl sp : Bool)
    (Hb Kb Lb : Nat) (hk0 : signK0 ruc.mlattice = 1) (hl0 : signL0 ruc.mlattice = 1)
    (hd3 : ∀ h k l : Nat, 0 ≤ ruc.hkl2dDeriv h k l 3)
    (hd2 : ∀ h k : Nat, 0 ≤ ruc.hkl2dDeriv h k 0 2)
    (hL : ∀ h k l : Nat, Lb ≤ l → dmax < ruc.hkl2dInt h k l)
    (hK : ∀ h k l : Nat, Kb ≤ k → dmax < ruc.hkl2dInt h k l)
    (hH : ∀ h k l : Nat, Hb ≤ h → dmax < ruc.hkl2dInt h k l) :
    ∀ (n h : Nat) (s : ScoreState K), Hb ≤ h + n →
      ∃ s', Score.loopH ruc dmax storehkl sp (Kb + 1) (Lb + 1) (n + 1) h s = some s' := by
  intro n
  induction n with
  | zero =>
    intro h s hle
    rw [Score.loopH, Score.loopSK_single ruc dmax storehkl sp _ _ h _ hk0]
    have hb : dmax < ruc.hkl2dInt h (0 : Nat) ((if h + 0 = 0 then 1 else 0 : Nat) : Int) :=
      hH h 0 _ (by omega)
    rw [Score.loopK_beyond ruc dmax storehkl sp Lb h 0 Kb _ hl0 hd3 hd2 hb]
    simp
  | succ n ih =>
    intro h s hle
    rw [Score.loopH, Score.loopSK_single ruc dmax storehkl sp _ _ h _ hk0]
    obtain ⟨s1, hs1⟩ := Score.loopK_terminates ruc dmax storehkl sp h Kb Lb hl0 hd3 hd2
      (hL h) (hK h) Kb 0 { s with nbCalcH := 0 } (by omega)
    rw [hs1]
    by_cases hz : s1.nbCalcH = 0
    · exact ⟨s1, by simp [hz]⟩
    · simp only [hz, if_false]
      exact ih (h + 1) s1 (by omega)

theorem modifyAt_getElem? {α : Type} (f : α → α) :
    ∀ (i : Nat) (l : List α) (j : Nat),
      (modifyAt f i l)[j]? = if j = i then (l[j]?).map f else l[j]? := by
  intro i l
  induction l generalizing i with
  | nil => intro j; cases i <;> simp [modifyAt]
  | cons a l ih =>
    intro j
    cases i with
    | zero =>
      cases j with
      | zero => simp [modifyAt]
      | succ j => simp [modifyAt]
    | succ i =>
      cases j with
      | zero => simp [modifyAt]
      | succ j => simp [modifyAt, ih]

theorem modifyAt_length {α : Type} (f : α → α) :
    ∀ (i : Nat) (l : List α), (modifyAt f i l).length = l.length := by
  intro i l
  induction l generalizing i with
  | nil => cases i <;> rfl
  | cons a l ih => cases i <;> simp [modifyAt, ih]

theorem Score.foldl_dropWorst_fst (storehkl : Bool) :
    ∀ (removed : List (K × Nat)) (acc : K × List (PeakList.hkl K)),
      (removed.foldl (Score.dropWorst storehkl) acc).1
        = acc.1 - (removed.map (fun r => |r.1 - 0|)).sum := by
  intro removed
  induction removed with
  | nil => intro acc; simp
  | cons r rs ih =>
    intro acc
    simp only [List.foldl_cons, List.map_cons, List.sum_cons]
    rw [ih]
    simp only [Score.dropWorst]
    ring

theorem Score.foldl_dropWorst_snd (storehkl : Bool) :
    ∀ (removed : List (K × Nat)) (acc : K × List (PeakList.hkl K)),
      (removed.foldl (Score.dropWorst storehkl) acc).2
        = (removed.map Prod.snd).foldl
            (fun l i => modifyAt (Score.markSpurious storehkl) i l) acc.2 := by
  intro removed
  induction removed with
  | nil => intro acc; rfl
  | cons r rs ih =>
    intro acc
    simp only [List.foldl_cons, List.map_cons]
    rw [ih]
    rfl

omit [LinearOrderedField K] in
theorem Score.foldl_mark_length (storehkl : Bool) :
    ∀ (idxs : List Nat) (ps : List (PeakList.hkl K)),
      (idxs.foldl (fun l i => modifyAt (Score.markSpurious storehkl) i l) ps).length
        = ps.length := by
  intro idxs
  induction idxs with
  | nil => intro ps; rfl
  | cons i rest ih =>
    intro ps
    simp only [List.foldl_cons]
    rw [ih, modifyAt_length]

omit [LinearOrderedField K] in
theorem Score.foldl_mark_stats (storehkl : Bool) :
    ∀ (idxs : List Nat) (ps : List (PeakList.hkl K)), idxs.Nodup → ∀ j : Nat,
      ((idxs.foldl (fun l i => modifyAt (Score.markSpurious storehkl) i l) ps)[j]?).map
          (fun p => p.stats)
        = (ps[j]?).map (fun p => p.stats + if j ∈ idxs then 1 else 0) := by
  intro idxs
  induction idxs with
  | nil => intro ps _ j; simp
  | cons i rest ih =>
    intro ps hnd j
    obtain ⟨hi, hrest⟩ := List.nodup_cons.1 hnd
    simp only [List.foldl_cons]
    rw [ih _ hrest j, modifyAt_getElem?]
    by_cases hji : j = i
    · subst hji
      simp only [if_true, List.mem_cons, true_or, hi, if_false, Option.map_map]
      congr 1
    · have hne : ¬ i = j := fun h => hji h.symm
      simp only [hji, if_false, List.mem_cons, false_or]

/-- The order by which `listSort comparePairFirst` sorts. -/
theorem comparePairFirst_false_iff (a b : K × Nat) :
    comparePairFirst b a = false ↔ a.1 ≤ b.1 := by
  simp [comparePairFirst]

theorem Score.sortedDiffs_perm (peaks : List (PeakList.hkl K)) :
    (Score.sortedDiffs peaks).Perm (peaks.enum.map (fun ip => (|ip.2.d2diff|, ip.1))) :=
  List.perm_insertionSort _ _

theorem Score.sortedDiffs_sorted (peaks : List (PeakList.hkl K)) :
    (Score.sortedDiffs peaks).Sorted (fun a b => a.1 ≤ b.1) := by
  have heq : (fun a b : K × Nat => comparePairFirst b a = false) = (fun a b => a.1 ≤ b.1) := by
    funext a b
    exact propext (comparePairFirst_false_iff a b)
  haveI : IsTotal (K × Nat) (fun a b => a.1 ≤ b.1) := ⟨fun a b => le_total a.1 b.1⟩
  haveI : IsTrans (K × Nat) (fun a b => a.1 ≤ b.1) := ⟨fun a b c hab hbc => le_trans hab hbc⟩
  have h := List.sorted_insertionSort (fun a b : K × Nat => a.1 ≤ b.1)
    (peaks.enum.map (fun ip => (|ip.2.d2diff|, ip.1)))
  simp only [Score.sortedDiffs, listSort]
  convert h using 2

theorem Score.sortedDiffs_length (peaks : List (PeakList.hkl K)) :
    (Score.sortedDiffs peaks).length = peaks.length := by
  rw [(Score.sortedDiffs_perm peaks).length_eq]
  simp

theorem Score.sortedDiffs_mem (peaks : List (PeakList.hkl K)) (x : K) (i : Nat) :
    (x, i) ∈ Score.sortedDiffs peaks ↔ ∃ q, peaks[i]? = some q ∧ x = |q.d2diff| := by
  rw [(Score.sortedDiffs_perm peaks).mem_iff]
  simp only [List.mem_map, Prod.mk.injEq, Prod.exists]
  constructor
  · rintro ⟨j, q, hmem, hx, hj⟩
    subst hj
    exact ⟨q, List.mk_mem_enum_iff_getElem?.1 hmem, hx.symm⟩
  · rintro ⟨q, hq, hx⟩
    exact ⟨i, q, List.mk_mem_enum_iff_getElem?.2 hq, hx.symm, rfl⟩

theorem Score.sortedDiffs_map_snd (peaks : List (PeakList.hkl K)) :
    ((Score.sortedDiffs peaks).map Prod.snd).Perm (List.range peaks.length) := by
  have h := (Score.sortedDiffs_perm peaks).map Prod.snd
  refine h.trans ?_
  rw [List.map_map]
  have : (Prod.snd ∘ fun ip : Nat × PeakList.hkl K => (|ip.2.d2diff|, ip.1)) = Prod.fst := by
    funext ip; rfl
  rw [this, List.enum_map_fst]

theorem Score.sortedDiffs_map_fst (peaks : List (PeakList.hkl K)) :
    (Score.sortedDiffs peaks).map Prod.fst
      = (peaks.map (fun p => |p.d2diff|)).insertionSort (fun a b => a ≤ b) := by
  have hperm : ((Score.sortedDiffs peaks).map Prod.fst).Perm (peaks.map (fun p => |p.d2diff|)) := by
    have h := (Score.sortedDiffs_perm peaks).map Prod.fst
    refine h.trans ?_
    rw [List.map_map]
    have : (Prod.fst ∘ fun ip : Nat × PeakList.hkl K => (|ip.2.d2diff|, ip.1))
        = (fun p : PeakList.hkl K => |p.d2diff|) ∘ Prod.snd := by
      funext ip; rfl
    rw [this, ← List.map_map, List.enum_map_snd]
  have hs1 : ((Score.sortedDiffs peaks).map Prod.fst).Sorted (fun a b => a ≤ b) := by
    have := Score.sortedDiffs_sorted peaks
    exact List.pairwise_map.2 this
  have hs2 := List.sorted_insertionSort (fun a b : K => a ≤ b) (peaks.map (fun p => |p.d2diff|))
  exact List.eq_of_perm_of_sorted
    (hperm.trans (List.perm_insertionSort _ _).symm) hs1 hs2

theorem Score.epsilon_eq_sum (peaks : List (PeakList.hkl K)) :
    peaks.foldl (fun e p => e + |p.d2diff - 0|) 0 = (peaks.map (fun p => |p.d2diff|)).sum := by
  have key : ∀ (ps : List (PeakList.hkl K)) (e : K),
      ps.foldl (fun e p => e + |p.d2diff - 0|) e = e + (ps.map (fun p => |p.d2diff|)).sum := by
    intro ps
    induction ps with
    | nil => intro e; simp
    | cons p ps ih =>
      intro e
      simp only [List.foldl_cons, List.map_cons, List.sum_cons]
      rw [ih, sub_zero]
      ring
  rw [key, zero_add]

theorem Score.removed_sum (l : List (K × Nat)) (hnn : ∀ r ∈ l, 0 ≤ r.1) :
    (l.map (fun r => |r.1 - 0|)).sum = (l.map Prod.fst).sum := by
  induction l with
  | nil => rfl
  | cons r rs ih =>
    simp only [List.map_cons, List.sum_cons]
    rw [ih (fun q hq => hnn q (List.mem_cons_of_mem _ hq)), sub_zero,
      abs_of_nonneg (hnn r (List.mem_cons_self _ _))]

/-- What the removal of the worst fitting peaks does, for `0 < nbSpurious <= N`. -/
theorem Score.spurious_spec (nbSpurious : Nat) (storehkl : Bool) (peaks : List (PeakList.hkl K))
    (hpos : 0 < nbSpurious) (hle : nbSpurious ≤ peaks.length) :
    ∃ removed : List Nat,
      removed = ((Score.sortedDiffs peaks).reverse.take nbSpurious).map Prod.snd ∧
      (Score.spurious nbSpurious storehkl peaks).1
        = sumSmallest (peaks.length - nbSpurious) (peaks.map (fun p => |p.d2diff|)) ∧
      (Score.spurious nbSpurious storehkl peaks).2.length = peaks.length ∧
      removed.Nodup ∧ removed.length = nbSpurious ∧ (∀ i ∈ removed, i < peaks.length) ∧
      (∀ i ∈ removed, ∀ j, j ∉ removed → ∀ p q, peaks[i]? = some p → peaks[j]? = some q →
        |q.d2diff| ≤ |p.d2diff|) ∧
      (∀ j, ((Score.spurious nbSpurious storehkl peaks).2[j]?).map (fun p => p.stats)
        = (peaks[j]?).map (fun p => p.stats + if j ∈ removed then 1 else 0)) := by
  set sorted := Score.sortedDiffs peaks with hsorted
  have hlen : sorted.length = peaks.length := Score.sortedDiffs_length peaks
  set m := peaks.length - nbSpurious with hm
  have hrev : sorted.reverse.take nbSpurious = (sorted.drop m).reverse := by
    rw [List.take_reverse, hlen]
  have hsplit : sorted = sorted.take m ++ sorted.drop m := (List.take_append_drop m sorted).symm
  have hspur : Score.spurious nbSpurious storehkl peaks
      = (sorted.reverse.take nbSpurious).foldl (Score.dropWorst storehkl)
          (peaks.foldl (fun e p => e + |p.d2diff - 0|) 0, peaks) := by
    simp only [Score.spurious, gt_iff_lt, hpos, if_true, hsorted]
  have hnodup : (sorted.map Prod.snd).Nodup :=
    (Score.sortedDiffs_map_snd peaks).nodup_iff.2 (List.nodup_range _)
  have hnodup_drop : ((sorted.drop m).map Prod.snd).Nodup :=
    hnodup.sublist ((List.drop_sublist m sorted).map Prod.snd)
  refine ⟨(sorted.reverse.take nbSpurious).map Prod.snd, rfl, ?_, ?_, ?_, ?_, ?_, ?_, ?_⟩
  · -- the error sum
    rw [hspur, Score.foldl_dropWorst_fst, Score.epsilon_eq_sum, hrev]
    have hnn : ∀ r ∈ (sorted.drop m).reverse, (0 : K) ≤ r.1 := by
      intro r hr
      have hr' : r ∈ sorted := List.mem_of_mem_drop (List.mem_reverse.1 hr)
      obtain ⟨q, _, hx⟩ := (Score.sortedDiffs_mem peaks r.1 r.2).1 hr'
      rw [hx]; exact abs_nonneg _
    rw [Score.removed_sum _ hnn, List.map_reverse, List.sum_reverse]
    have htot : (peaks.map (fun p => |p.d2diff|)).sum = (sorted.map Prod.fst).sum := by
      rw [Score.sortedDiffs_map_fst]
      exact ((List.perm_insertionSort _ _).sum_eq).symm
    have hparts : (sorted.map Prod.fst).sum
        = ((sorted.take m).map Prod.fst).sum + ((sorted.drop m).map Prod.fst).sum := by
      conv_lhs => rw [hsplit]
      rw [List.map_append, List.sum_append]
    rw [htot, hparts]
    simp only [sumSmallest]
    rw [← Score.sortedDiffs_map_fst, List.map_take]
    ring
  · rw [hspur, Score.foldl_dropWorst_snd, Score.foldl_mark_length]
  · rw [hrev, List.map_reverse]
    exact List.nodup_reverse.2 hnodup_drop
  · rw [List.length_map, List.length_take, List.length_reverse, hlen]
    omega
  · intro i hi
    obtain ⟨r, hr, hri⟩ := List.mem_map.1 hi
    have hr' : r ∈ sorted := List.mem_reverse.1 (List.mem_of_mem_take hr)
    obtain ⟨q, hq, _⟩ := (Score.sortedDiffs_mem peaks r.1 r.2).1 hr'
    rw [← hri]
    by_contra hcon
    rw [List.getElem?_eq_none (not_lt.1 hcon)] at hq
    cases hq
  · intro i hi j hj p q hp hq
    rw [hrev, List.map_reverse, List.mem_reverse] at hi hj
    obtain ⟨r, hr, hri⟩ := List.mem_map.1 hi
    have hr' : r ∈ sorted := List.mem_of_mem_drop hr
    obtain ⟨p', hp', hx⟩ := (Score.sortedDiffs_mem peaks r.1 r.2).1 hr'
    rw [hri, hp] at hp'
    cases hp'
    have hjmem : (|q.d2diff|, j) ∈ sorted :=
      (Score.sortedDiffs_mem peaks _ _).2 ⟨q, hq, rfl⟩
    rw [hsplit, List.mem_append] at hjmem
    rcases hjmem with hjt | hjd
    · have hs := Score.sortedDiffs_sorted peaks
      rw [← hsorted, hsplit] at hs
      have := (List.pairwise_append.1 hs).2.2 _ hjt _ hr
      rw [hx] at this
      exact this
    · exact absurd (List.mem_map.2 ⟨_, hjd, rfl⟩) hj
  · intro j
    rw [hspur, Score.foldl_dropWorst_snd]
    have hnd : ((sorted.reverse.take nbSpurious).map Prod.snd).Nodup := by
      rw [hrev, List.map_reverse]
      exact List.nodup_reverse.2 hnodup_drop
    exact Score.foldl_mark_stats storehkl _ peaks hnd j

/-- The error sum that the end of `Score` leaves, for every `nbSpurious`. -/
theorem Score.spurious_fst (nbSpurious : Nat) (storehkl : Bool) (peaks : List (PeakList.hkl K)) :
    (Score.spurious nbSpurious storehkl peaks).1
      = sumSmallest (peaks.length - nbSpurious) (peaks.map (fun p => |p.d2diff|)) := by
  set sorted := Score.sortedDiffs peaks with hsorted
  have hlen : sorted.length = peaks.length := Score.sortedDiffs_length peaks
  have htot : (peaks.map (fun p => |p.d2diff|)).sum = (sorted.map Prod.fst).sum := by
    rw [Score.sortedDiffs_map_fst]
    exact ((List.perm_insertionSort _ _).sum_eq).symm
  by_cases hpos : nbSpurious > 0
  · set m := peaks.length - nbSpurious with hm
    have hrev : sorted.reverse.take nbSpurious = (sorted.drop m).reverse := by
      rw [List.take_reverse, hlen]
    have hsplit : sorted = sorted.take m ++ sorted.drop m := (List.take_append_drop m sorted).symm
    have hspur : Score.spurious nbSpurious storehkl peaks
        = (sorted.reverse.take nbSpurious).foldl (Score.dropWorst storehkl)
            (peaks.foldl (fun e p => e + |p.d2diff - 0|) 0, peaks) := by
      simp only [Score.spurious, hpos, if_true, hsorted]
    rw [hspur, Score.foldl_dropWorst_fst, Score.epsilon_eq_sum, hrev]
    have hnn : ∀ r ∈ (sorted.drop m).reverse, (0 : K) ≤ r.1 := by
      intro r hr
      have hr' : r ∈ sorted := List.mem_of_mem_drop (List.mem_reverse.1 hr)
      obtain ⟨q, _, hx⟩ := (Score.sortedDiffs_mem peaks r.1 r.2).1 hr'
      rw [hx]; exact abs_nonneg _
    rw [Score.removed_sum _ hnn, List.map_reverse, List.sum_reverse]
    have hparts : (sorted.map Prod.fst).sum
        = ((sorted.take m).map Prod.fst).sum + ((sorted.drop m).map Prod.fst).sum := by
      conv_lhs => rw [hsplit]
      rw [List.map_append, List.sum_append]
    rw [htot, hparts]
    simp only [sumSmallest]
    rw [← Score.sortedDiffs_map_fst, List.map_take]
    ring
  · have hz : nbSpurious = 0 := by omega
    subst hz
    simp only [Score.spurious, gt_iff_lt, lt_self_iff_false, if_false, Nat.sub_zero, sumSmallest]
    rw [Score.epsilon_eq_sum, ← Score.sortedDiffs_map_fst, ← hsorted,
      List.take_of_length_le (by rw [List.length_map, hlen]), htot]

omit [LinearOrderedField K] in
/-- In a list sorted by `R` the last element is `R`-above every other one. -/
theorem pairwise_last_max {α : Type} (R : α → α → Prop) (hrefl : ∀ a, R a a) :
    ∀ (l : List α) (x : α), l.Pairwise R → l[l.length - 1]? = some x →
      x ∈ l ∧ ∀ p ∈ l, R p x := by
  intro l
  induction l with
  | nil => intro x _ hx; simp at hx
  | cons a l ih =>
    intro x hp hx
    obtain ⟨ha, hl⟩ := List.pairwise_cons.1 hp
    cases l with
    | nil =>
      simp at hx
      subst hx
      exact ⟨List.mem_singleton.2 rfl, fun p hp => by rw [List.mem_singleton.1 hp]; exact hrefl _⟩
    | cons b l =>
      have hx' : (b :: l)[(b :: l).length - 1]? = some x := by
        simpa using hx
      obtain ⟨hmem, hmax⟩ := ih x hl hx'
      refine ⟨List.mem_cons_of_mem _ hmem, ?_⟩
      intro p hp
      rcases List.mem_cons.1 hp with rfl | hp
      · exact ha x hmem
      · exact hmax p hp

theorem Score.reset_length (storehkl : Bool) (peaks : List (PeakList.hkl K)) :
    (Score.reset storehkl peaks).length = peaks.length := by
  simp [Score.reset]

/-- The cutoff of `Score` on a non-empty list: 1.05 times the `d2obs` of the last peak
(2.1 times when the predicted reflections are stored). -/
theorem Score.cutoff_reset (storehkl sp : Bool) (peaks : List (PeakList.hkl K))
    (hne : peaks ≠ []) :
    ∃ plast, peaks[peaks.length - 1]? = some plast ∧
      Score.cutoff sp (Score.reset storehkl peaks)
        = .ok (plast.d2obs * (if sp then 2 else 1) * (105/100)) := by
  have hpos : 0 < peaks.length := List.length_pos.2 hne
  have hlt : peaks.length - 1 < peaks.length := by omega
  refine ⟨peaks[peaks.length - 1], List.getElem?_eq_getElem hlt, ?_⟩
  have hz : ¬ peaks.length = 0 := by omega
  simp only [Score.cutoff, Score.reset_length, hz, if_false]
  simp only [Score.reset, List.length_map, List.getElem?_map, List.getElem?_eq_getElem hlt,
    Option.map_some']

/-- What a returning call of `Score` is made of. -/
theorem Score_ok (sqrt : K → K) (fh fk fl : Nat) (dhkl : PeakList K) (ruc : RecUnitCell K)
    (nbSpurious : Nat) (storehkl sp : Bool) (r : K × PeakList K)
    (hrun : Score sqrt fh fk fl dhkl ruc nbSpurious storehkl sp = .ok r) :
    ∃ (dmax : K) (s : ScoreState K),
      Score.cutoff sp (Score.reset storehkl dhkl.mvHKL) = .ok dmax ∧
      Score.enumerate ruc dmax storehkl sp fh fk fl (Score.reset storehkl dhkl.mvHKL)
        (if sp then [] else dhkl.mvPredictedHKL) = some s ∧
      r.1 = (if s.nbCalc = 0 then 0
        else sqrt dmax * (dhkl.mvHKL.length : K)
          / (2 * (Score.spurious nbSpurious storehkl s.peaks).1 * (s.nbCalc : K))) ∧
      r.2 = ⟨(Score.spurious nbSpurious storehkl s.peaks).2, s.predicted⟩ := by
  simp only [Score] at hrun
  split at hrun
  · cases hrun
  · rename_i dmax hcut
    split at hrun
    · cases hrun
    · rename_i s hen
      refine ⟨dmax, s, hcut, hen, ?_, ?_⟩
      · split_ifs at hrun with hz
        · cases hrun; simp [hz]
        · cases hrun; simp [hz, Score.reset_length]
      · split_ifs at hrun with hz <;> cases hrun <;> rfl

/-- A call of `Score` returns as soon as the cutoff is read and the enumeration ends. -/
theorem Score_of_enumerate (sqrt : K → K) (fh fk fl : Nat) (dhkl : PeakList K)
    (ruc : RecUnitCell K) (nbSpurious : Nat) (storehkl sp : Bool) (dmax : K) (s : ScoreState K)
    (hcut : Score.cutoff sp (Score.reset storehkl dhkl.mvHKL) = .ok dmax)
    (hen : Score.enumerate ruc dmax storehkl sp fh fk fl (Score.reset storehkl dhkl.mvHKL)
        (if sp then [] else dhkl.mvPredictedHKL) = some s) :
    ∃ r, Score sqrt fh fk fl dhkl ruc nbSpurious storehkl sp = .ok r := by
  simp only [Score, hcut, hen]
  split_ifs <;> exact ⟨_, rfl⟩

theorem hkl2dInt_orthorhombic (ruc : RecUnitCell K) (hlat : ruc.mlattice = ORTHOROMBIC)
    (h k l : Int) :
    ruc.hkl2dInt h k l
      = ruc.par0 + ruc.par1*ruc.par1*h*h + ruc.par2*ruc.par2*k*k + ruc.par3*ruc.par3*l*l := by
  simp [RecUnitCell.hkl2dInt, RecUnitCell.hkl2d, hlat, okValue]

theorem hkl2dDeriv3_orthorhombic (ruc : RecUnitCell K) (hlat : ruc.mlattice = ORTHOROMBIC)
    (h k l : Int) : ruc.hkl2dDeriv h k l 3 = 2*ruc.par3*ruc.par3*l := by
  simp [RecUnitCell.hkl2dDeriv, RecUnitCell.hkl2d, hlat, okValue]

theorem hkl2dDeriv2_orthorhombic (ruc : RecUnitCell K) (hlat : ruc.mlattice = ORTHOROMBIC)
    (h k l : Int) : ruc.hkl2dDeriv h k l 2 = 2*ruc.par2*ruc.par2*k := by
  simp [RecUnitCell.hkl2dDeriv, RecUnitCell.hkl2d, hlat, okValue]

/-- A square term `a*a*n*n` with `a > 0` passes every bound `x` from some `n` on. -/
theorem sq_term_unbounded [Archimedean K] (a x : K) (ha : 0 < a) :
    ∃ B : Nat, ∀ n : Nat, B ≤ n → x < a*a*n*n := by
  obtain ⟨B, hB⟩ := exists_nat_gt (x / (a*a))
  refine ⟨B + 1, ?_⟩
  intro n hn
  have haa : 0 < a*a := mul_pos ha ha
  have h1 : (1 : K) ≤ n := by exact_mod_cast (by omega : 1 ≤ n)
  have hBn : (B : K) ≤ n := by exact_mod_cast (by omega : B ≤ n)
  have h2 : x < a*a*n := by
    have := (div_lt_iff₀ haa).1 (lt_of_lt_of_le hB hBn)
    linarith
  have h3 : a*a*n ≤ a*a*n*n := by
    have : 0 ≤ a*a*n := by positivity
    nlinarith
  linarith

/-- The enumeration of `Score` ends for an orthorhombic cell with positive a*, b*, c*. -/
theorem Score.enumerate_terminates_orthorhombic [Archimedean K] (ruc : RecUnitCell K) (dmax : K)
    (storehkl sp : Bool) (hlat : ruc.mlattice = ORTHOROMBIC)
    (h1 : 0 < ruc.par1) (h2 : 0 < ruc.par2) (h3 : 0 < ruc.par3) :
    ∃ B : Nat, ∀ fh fk fl : Nat, B < fh → B < fk → B < fl →
      ∀ peaks predicted, ∃ s,
        Score.enumerate ruc dmax storehkl sp fh fk fl peaks predicted = some s := by
  obtain ⟨B1, hB1⟩ := sq_term_unbounded ruc.par1 (dmax - ruc.par0) h1
  obtain ⟨B2, hB2⟩ := sq_term_unbounded ruc.par2 (dmax - ruc.par0) h2
  obtain ⟨B3, hB3⟩ := sq_term_unbounded ruc.par3 (dmax - ruc.par0) h3
  refine ⟨B1 + B2 + B3, ?_⟩
  intro fh fk fl hfh hfk hfl peaks predicted
  have hk0 : signK0 ruc.mlattice = 1 := by rw [hlat]; rfl
  have hl0 : signL0 ruc.mlattice = 1 := by rw [hlat]; rfl
  have hd3 : ∀ h k l : Nat, 0 ≤ ruc.hkl2dDeriv h k l 3 := by
    intro h k l
    rw [hkl2dDeriv3_orthorhombic ruc hlat]
    have : (0 : K) ≤ ((l : Int) : K) := by exact_mod_cast Int.natCast_nonneg l
    positivity
  have hd2 : ∀ h k : Nat, 0 ≤ ruc.hkl2dDeriv h k 0 2 := by
    intro h k
    rw [hkl2dDeriv2_orthorhombic ruc hlat]
    have : (0 : K) ≤ ((k : Int) : K) := by exact_mod_cast Int.natCast_nonneg k
    positivity
  have hval : ∀ h k l : Nat, ruc.hkl2dInt h k l
      = ruc.par0 + ruc.par1*ruc.par1*h*h + ruc.par2*ruc.par2*k*k + ruc.par3*ruc.par3*l*l := by
    intro h k l
    rw [hkl2dInt_orthorhombic ruc hlat]
    push_cast
    ring
  have hnn : ∀ (a : K) (n : Nat), 0 ≤ a*a*n*n := by
    intro a n
    have : 0 ≤ (a*n)*(a*n) := mul_self_nonneg _
    nlinarith
  have hL : ∀ h k l : Nat, fl - 1 ≤ l → dmax < ruc.hkl2dInt h k l := by
    intro h k l hl
    rw [hval]
    have := hB3 l (by omega)
    have := hnn ruc.par1 h
    have := hnn ruc.par2 k
    linarith
  have hK : ∀ h k l : Nat, fk - 1 ≤ k → dmax < ruc.hkl2dInt h k l := by
    intro h k l hk
    rw [hval]
    have := hB2 k (by omega)
    have := hnn ruc.par1 h
    have := hnn ruc.par3 l
    linarith
  have hH : ∀ h k l : Nat, fh - 1 ≤ h → dmax < ruc.hkl2dInt h k l := by
    intro h k l hh
    rw [hval]
    have := hB1 h (by omega)
    have := hnn ruc.par2 k
    have := hnn ruc.par3 l
    linarith
  have key := Score.loopH_terminates ruc dmax storehkl sp (fh - 1) (fk - 1) (fl - 1) hk0 hl0
    hd3 hd2 hL hK hH (fh - 1) 0
    { nbCalc := 0, nbCalcK := 0, nbCalcH := 0, peaks := peaks, predicted := predicted }
    (by omega)
  have e1 : fh - 1 + 1 = fh := by omega
  have e2 : fk - 1 + 1 = fk := by omega
  have e3 : fl - 1 + 1 = fl := by omega
  rw [e1, e2, e3] at key
  exact key

/-- The call of `Score` returns, given enough budget, for a non-empty peak list and an
orthorhombic cell with positive a*, b*, c*. -/
theorem Score_returns_orthorhombic [Archimedean K] (sqrt : K → K) (dhkl : PeakList K)
    (ruc : RecUnitCell K) (nbSpurious : Nat) (storehkl sp : Bool) (hne : dhkl.mvHKL ≠ [])
    (hlat : ruc.mlattice = ORTHOROMBIC)
    (h1 : 0 < ruc.par1) (h2 : 0 < ruc.par2) (h3 : 0 < ruc.par3) :
    ∃ B : Nat, ∀ fh fk fl : Nat, B < fh → B < fk → B < fl →
      ∃ r, Score sqrt fh fk fl dhkl ruc nbSpurious storehkl sp = .ok r := by
  obtain ⟨plast, _, hcut⟩ := Score.cutoff_reset storehkl sp dhkl.mvHKL hne
  obtain ⟨B, hB⟩ := Score.enumerate_terminates_orthorhombic ruc
    (plast.d2obs * (if sp then 2 else 1) * (105/100)) storehkl sp hlat h1 h2 h3
  refine ⟨B, ?_⟩
  intro fh fk fl hfh hfk hfl
  obtain ⟨s, hs⟩ := hB fh fk fl hfh hfk hfl (Score.reset storehkl dhkl.mvHKL)
    (if sp then [] else dhkl.mvPredictedHKL)
  exact Score_of_enumerate sqrt fh fk fl dhkl ruc nbSpurious storehkl sp _ s hcut hs

/-- When every reflection is within the cutoff the `l` loop of `Score` uses up any budget. -/
theorem Score.loopL_never (ruc : RecUnitCell K) (dmax : K) (storehkl sp : Bool)
    (h : Nat) (sk : Int) (k : Nat) (sl : Int)
    (hin : ∀ h k l : Int, ¬ ruc.hkl2dInt h k l > dmax) :
    ∀ (fuel l : Nat) (s : ScoreState K),
      Score.loopL ruc dmax storehkl sp h sk k sl fuel l s = none := by
  intro fuel
  induction fuel with
  | zero => intro l s; rfl
  | succ n ih =>
    intro l s
    rw [Score.loopL]
    simp only [hin, if_false]
    exact ih _ _

theorem Score.enumerate_never (ruc : RecUnitCell K) (dmax : K) (storehkl sp : Bool)
    (hin : ∀ h k l : Int, ¬ ruc.hkl2dInt h k l > dmax)
    (fh fk fl : Nat) (peaks predicted : List (PeakList.hkl K)) :
    Score.enumerate ruc dmax storehkl sp fh fk fl peaks predicted = none := by
  have hSL : ∀ (h : Nat) (sk : Int) (k : Nat) (s : ScoreState K),
      Score.loopSL ruc dmax storehkl sp fl h sk k s = none := by
    intro h sk k s
    simp only [Score.loopSL, Score.loopL_never ruc dmax storehkl sp h sk k _ hin]
  have hK : ∀ (h : Nat) (sk : Int) (fuel k : Nat) (s : ScoreState K),
      Score.loopK ruc dmax storehkl sp fl h sk fuel k s = none := by
    intro h sk fuel k s
    cases fuel with
    | zero => rfl
    | succ n => simp only [Score.loopK, hSL]
  have hSK : ∀ (h : Nat) (s : ScoreState K),
      Score.loopSK ruc dmax storehkl sp fk fl h s = none := by
    intro h s
    simp only [Score.loopSK, hK]
  cases fh with
  | zero => rfl
  | succ n => simp only [Score.enumerate, Score.loopH, hSK]

theorem Score.scanPeaks_bound (storehkl : Bool) (d2 : K) (h k l : Int) :
    ∀ ps : List (PeakList.hkl K), (∀ p ∈ ps, |p.d2diff| ≤ 1000) →
      ∀ p ∈ Score.scanPeaks storehkl d2 h k l ps, |p.d2diff| ≤ 1000 := by
  intro ps
  induction ps with
  | nil => intro _ p hp; simp [Score.scanPeaks] at hp
  | cons q qs ih =>
    intro hall p hp
    have hq := hall q (List.mem_cons_self _ _)
    have hqs : ∀ p ∈ qs, |p.d2diff| ≤ 1000 := fun p hp => hall p (List.mem_cons_of_mem _ hp)
    simp only [Score.scanPeaks] at hp
    split_ifs at hp with h1 h2 h3
    · exact hall p hp
    · rcases List.mem_cons.1 hp with rfl | hp
      · have : (Score.assign storehkl (d2 - q.d2obs) d2 h k l q).d2diff = d2 - q.d2obs := by
          cases storehkl <;> rfl
        rw [this]
        exact le_of_lt (lt_of_lt_of_le h3 hq)
      · exact ih hqs p hp
    · rcases List.mem_cons.1 hp with rfl | hp
      · exact hq
      · exact ih hqs p hp
    · rcases List.mem_cons.1 hp with rfl | hp
      · exact hq
      · exact ih hqs p hp

/-- The peaks after a call of `Score`: as many as before, with the `d2diff` the enumeration
left and the `stats` of the input, one more for the removed ones. -/
theorem Score.enumerate_length (storehkl sp : Bool) (ruc : RecUnitCell K) (dmax : K)
    (fh fk fl : Nat) (peaks predicted : List (PeakList.hkl K)) (s : ScoreState K)
    (hen : Score.enumerate ruc dmax storehkl sp fh fk fl peaks predicted = some s) :
    s.peaks.length = peaks.length := by
  have h0 := Score.enumerate_map_eq (fun _ : PeakList.hkl K => ()) storehkl sp
    (fun _ _ _ _ _ _ => rfl) ruc dmax fh fk fl _ _ s hen
  have := congrArg List.length h0
  simpa using this

theorem Score.enumerate_stats (storehkl sp : Bool) (ruc : RecUnitCell K) (dmax : K)
    (fh fk fl : Nat) (peaks predicted : List (PeakList.hkl K)) (s : ScoreState K)
    (hen : Score.enumerate ruc dmax storehkl sp fh fk fl (Score.reset storehkl peaks) predicted
      = some s) :
    s.peaks.map (fun p => p.stats) = peaks.map (fun p => p.stats) := by
  have h0 := Score.enumerate_map_eq (fun p : PeakList.hkl K => p.stats) storehkl sp
    (fun _ _ _ _ _ p => by cases storehkl <;> rfl) ruc dmax fh fk fl _ _ s hen
  rw [h0]
  simp only [Score.reset, List.map_map]
  rfl

theorem SimilarRUC_self (sqrt acos : K → K) (c : RecUnitCell K) :
    SimilarRUC sqrt acos c c (5/1000) = true := by
  simp only [SimilarRUC, sub_self, abs_zero, add_zero, decide_eq_true_eq]
  have : (List.range 6).foldl (fun (d : K) _ => d) 0 = 0 := by
    simp [List.range, List.range.loop]
  rw [this]
  norm_num

theorem DirectUnitCell_orthorhombicFifth :
    (orthorhombicFifth ℝ).DirectUnitCell Real.sqrt Real.arccos
      = (cubicCell ℝ).DirectUnitCell Real.sqrt Real.arccos := by
  simp [RecUnitCell.DirectUnitCell, RecUnitCell.recipMetric, RecipMetric.vvArg,
      RecipMetric.directCosines, RecipMetric.volArg, orthorhombicFifth, cubicCell]

theorem DirectUnitCell_cubic (a : ℝ) :
    (⟨0, a, 0, 0, 0, 0, 0, CUBIC⟩ : RecUnitCell ℝ).DirectUnitCell Real.sqrt Real.arccos
      = [1/a, 1/a, 1/a, Real.pi/2, Real.pi/2, Real.pi/2, 1/a*(1/a)*(1/a)] := by
  simp [RecUnitCell.DirectUnitCell, RecUnitCell.recipMetric, RecipMetric.vvArg,
      RecipMetric.directCosines, RecipMetric.volArg]

/-- The order by which `listSort compareRUCScore` sorts. -/
theorem listSort_compareRUCScore_sorted (l : List (RecUnitCell K × K)) :
    (listSort compareRUCScore l).Sorted (fun a b => b.2 ≤ a.2) := by
  have heq : (fun a b : RecUnitCell K × K => compareRUCScore b a = false)
      = (fun a b => b.2 ≤ a.2) := by
    funext a b
    simp [compareRUCScore]
  haveI : IsTotal (RecUnitCell K × K) (fun a b => b.2 ≤ a.2) := ⟨fun a b => le_total b.2 a.2⟩
  haveI : IsTrans (RecUnitCell K × K) (fun a b => b.2 ≤ a.2) :=
    ⟨fun a b c hab hbc => le_trans hbc hab⟩
  have h := List.sorted_insertionSort (fun a b : RecUnitCell K × K => b.2 ≤ a.2) l
  simp only [listSort]
  convert h using 2

theorem ReduceSolutions_inner_mem (sqrt acos : K → K) :
    ∀ (l : List (RecUnitCell K × K)) (back : RecUnitCell K × K),
      ((CellExplorer.ReduceSolutions.inner sqrt acos back l).1 = back ∨
        (CellExplorer.ReduceSolutions.inner sqrt acos back l).1 ∈ l) ∧
      ∀ e ∈ (CellExplorer.ReduceSolutions.inner sqrt acos back l).2.1, e ∈ l := by
  intro l
  induction l with
  | nil => intro back; simp [CellExplorer.ReduceSolutions.inner]
  | cons pos rest ih =>
    intro back
    simp only [CellExplorer.ReduceSolutions.inner]
    split_ifs with h1 h2 h3 h4
    all_goals
      first
      | (obtain ⟨ha, hb⟩ := ih pos
         refine ⟨Or.inr ?_, fun e he => List.mem_cons_of_mem _ (hb e he)⟩
         rcases ha with ha | ha
         · rw [ha]; exact List.mem_cons_self _ _
         · exact List.mem_cons_of_mem _ ha)
      | (obtain ⟨ha, hb⟩ := ih back
         refine ⟨?_, ?_⟩
         · rcases ha with ha | ha
           · exact Or.inl ha
           · exact Or.inr (List.mem_cons_of_mem _ ha)
         · intro e he
           first
           | exact List.mem_cons_of_mem _ (hb e he)
           | (rcases List.mem_cons.1 he with rfl | he
              · exact List.mem_cons_self _ _
              · exact List.mem_cons_of_mem _ (hb e he)))

theorem ReduceSolutions_loop_mem (sqrt acos : K → K) :
    ∀ (n : Nat) (mv v2 : List (RecUnitCell K × K)), mv.length ≤ n →
      ∀ e ∈ CellExplorer.ReduceSolutions.loop sqrt acos mv v2, e ∈ v2 ∨ e ∈ mv := by
  intro n
  induction n with
  | zero =>
    intro mv v2 hlen e he
    have : mv = [] := List.length_eq_zero.1 (by omega)
    subst this
    rw [CellExplorer.ReduceSolutions.loop] at he
    exact Or.inl he
  | succ n ih =>
    intro mv v2 hlen e he
    cases mv with
    | nil =>
      rw [CellExplorer.ReduceSolutions.loop] at he
      exact Or.inl he
    | cons front rest =>
      rw [CellExplorer.ReduceSolutions.loop] at he
      obtain ⟨ha, hb⟩ := ReduceSolutions_inner_mem sqrt acos rest front
      have hl := (CellExplorer.ReduceSolutions.inner sqrt acos front rest).2.2
      have hl' : (CellExplorer.ReduceSolutions.inner sqrt acos front rest).2.1.length ≤ n := by
        simp only [List.length_cons] at hlen
        omega
      rcases ih _ _ hl' e he with h | h
      · rcases List.mem_append.1 h with h | h
        · exact Or.inl h
        · rw [List.mem_singleton.1 h]
          rcases ha with ha | ha
          · rw [ha]; exact Or.inr (List.mem_cons_self _ _)
          · exact Or.inr (List.mem_cons_of_mem _ ha)
      · exact Or.inr (List.mem_cons_of_mem _ (hb e h))

/-- The order by which `vectorSort compareHKL_d` sorts. -/
theorem vectorSort_compareHKL_d_sorted (l : List (PeakList.hkl K)) :
    (vectorSort compareHKL_d l).Sorted (fun a b => a.dobs ≤ b.dobs) := by
  have heq : (fun a b : PeakList.hkl K => compareHKL_d b a = false)
      = (fun a b => a.dobs ≤ b.dobs) := by
    funext a b
    simp [compareHKL_d]
  haveI : IsTotal (PeakList.hkl K) (fun a b => a.dobs ≤ b.dobs) :=
    ⟨fun a b => le_total a.dobs b.dobs⟩
  haveI : IsTrans (PeakList.hkl K) (fun a b => a.dobs ≤ b.dobs) :=
    ⟨fun a b c hab hbc => le_trans hab hbc⟩
  have h := List.sorted_insertionSort (fun a b : PeakList.hkl K => a.dobs ≤ b.dobs) l
  simp only [vectorSort]
  convert h using 2

omit [LinearOrderedField K] in
theorem vectorSort_perm {α : Type} (comp : α → α → Bool) (l : List α) :
    (vectorSort comp l).Perm l :=
  List.perm_insertionSort _ l

omit [LinearOrderedField K] in
/-- The loop of `RemovePeak` moves the elements after position `i` one place down. -/
theorem RemovePeak_shift_spec {α : Type} :
    ∀ (n i : Nat) (v : List α), i + n < v.length →
      ∃ w, PeakList.RemovePeak.shift n i v = .ok w ∧ w.length = v.length ∧
        ∀ j, w[j]? = if i ≤ j ∧ j < i + n then v[j + 1]? else v[j]? := by
  intro n
  induction n with
  | zero =>
    intro i v _
    refine ⟨v, rfl, rfl, ?_⟩
    intro j
    have : ¬ (i ≤ j ∧ j < i + 0) := by omega
    simp only [this, if_false]
  | succ n ih =>
    intro i v hlt
    have h1 : i + 1 < v.length := by omega
    have h0 : i < v.length := by omega
    obtain ⟨w, hw, hlen, hget⟩ := ih (i + 1) (v.set i v[i + 1]) (by rw [List.length_set]; omega)
    refine ⟨w, ?_, ?_, ?_⟩
    · simp only [PeakList.RemovePeak.shift, List.getElem?_eq_getElem h1, h0, if_true]
      exact hw
    · rw [hlen, List.length_set]
    · intro j
      rw [hget j]
      simp only [List.getElem?_set, h0, if_true]
      by_cases hj : j = i
      · subst hj
        have c1 : ¬ (j + 1 ≤ j ∧ j < j + 1 + n) := by omega
        have c2 : j ≤ j ∧ j < j + (n + 1) := by omega
        simp only [c1, c2, if_false, if_true, and_self]
        exact (List.getElem?_eq_getElem h1).symm
      · by_cases hr : i + 1 ≤ j ∧ j < i + 1 + n
        · have c2 : i ≤ j ∧ j < i + (n + 1) := by omega
          have c3 : ¬ i = j + 1 := by omega
          simp only [hr, c2, c3, if_true, if_false, and_self]
        · have c2 : ¬ (i ≤ j ∧ j < i + (n + 1)) := by omega
          have c3 : ¬ i = j := fun h => hj h.symm
          simp only [hr, c2, c3, if_false]

omit [LinearOrderedField K] in
theorem RemovePeak_eq_eraseIdx (self : PeakList K) (idx : Nat)
    (hidx : idx < self.mvHKL.length) :
    self.RemovePeak idx = .ok { self with mvHKL := self.mvHKL.eraseIdx idx } := by
  have hne : ¬ self.mvHKL.length = 0 := by omega
  obtain ⟨w, hw, hlen, hget⟩ := RemovePeak_shift_spec (self.mvHKL.length - 1 - idx) idx
    self.mvHKL (by omega)
  simp only [PeakList.RemovePeak, hne, if_false, hw]
  congr 2
  apply List.ext_getElem?
  intro j
  rw [List.getElem?_dropLast, List.getElem?_eraseIdx, hlen, hget j]
  by_cases h1 : j < self.mvHKL.length - 1
  · by_cases h2 : j < idx
    · have c : ¬ (idx ≤ j ∧ j < idx + (self.mvHKL.length - 1 - idx)) := by omega
      simp only [h1, h2, c, if_true, if_false]
    · have c : idx ≤ j ∧ j < idx + (self.mvHKL.length - 1 - idx) := by omega
      simp only [h1, h2, c, if_true, if_false, and_self]
  · have h2 : ¬ j < idx := by omega
    simp only [h1, h2, if_false]
    exact (List.getElem?_eq_none (by omega)).symm

theorem Score.reset_isSpurious (storehkl : Bool) (peaks : List (PeakList.hkl K)) :
    (Score.reset storehkl peaks).map (fun p => p.isSpurious)
      = peaks.map (fun p => p.isSpurious) := by
  simp only [Score.reset, List.map_map]
  rfl

/-- A returning call of `Score` leaves `isSpurious` of every peak as it was. -/
theorem Score_isSpurious (sqrt : K → K) (fh fk fl : Nat) (dhkl : PeakList K)
    (ruc : RecUnitCell K) (nbSpurious : Nat) (storehkl sp : Bool) (r : K × PeakList K)
    (hrun : Score sqrt fh fk fl dhkl ruc nbSpurious storehkl sp = .ok r) :
    r.2.mvHKL.map (fun p => p.isSpurious) = dhkl.mvHKL.map (fun p => p.isSpurious) := by
  obtain ⟨dmax, s, _, hen, _, hout⟩ :=
    Score_ok sqrt fh fk fl dhkl ruc nbSpurious storehkl sp r hrun
  rw [hout]
  show (Score.spurious nbSpurious storehkl s.peaks).2.map (fun p => p.isSpurious) = _
  rw [Score.spurious_map_eq (fun p : PeakList.hkl K => p.isSpurious) nbSpurious storehkl
      (fun p => rfl),
    Score.enumerate_map_eq (fun p : PeakList.hkl K => p.isSpurious) storehkl sp
      (fun _ _ _ _ _ p => by cases storehkl <;> rfl) ruc dmax fh fk fl _ _ s hen,
    Score.reset_isSpurious]

/-- The peaks of a returning call of `Score`: their `stats`, for `0 < nbSpurious <= N`. -/
theorem Score_stats (sqrt : K → K) (fh fk fl : Nat) (dhkl : PeakList K)
    (ruc : RecUnitCell K) (nbSpurious : Nat) (storehkl sp : Bool) (r : K × PeakList K)
    (hpos : 0 < nbSpurious) (hle : nbSpurious ≤ dhkl.mvHKL.length)
    (hrun : Score sqrt fh fk fl dhkl ruc nbSpurious storehkl sp = .ok r) :
    ∃ removed : List Nat, removed.Nodup ∧ removed.length = nbSpurious ∧
      (∀ i ∈ removed, i < dhkl.mvHKL.length) ∧
      (∀ i ∈ removed, ∀ j, j ∉ removed → ∀ p q, r.2.mvHKL[i]? = some p →
        r.2.mvHKL[j]? = some q → |q.d2diff| ≤ |p.d2diff|) ∧
      (∀ j, (r.2.mvHKL[j]?).map (fun p => p.stats)
        = (dhkl.mvHKL[j]?).map (fun p => p.stats + if j ∈ removed then 1 else 0)) := by
  obtain ⟨dmax, s, hcut, hen, hval, hout⟩ :=
    Score_ok sqrt fh fk fl dhkl ruc nbSpurious storehkl sp r hrun
  have hl : s.peaks.length = dhkl.mvHKL.length := by
    rw [Score.enumerate_length storehkl sp ruc _ fh fk fl _ _ s hen, Score.reset_length]
  have hmv : r.2.mvHKL = (Score.spurious nbSpurious storehkl s.peaks).2 := by rw [hout]
  have hd : r.2.mvHKL.map (fun p => p.d2diff) = s.peaks.map (fun p => p.d2diff) := by
    rw [hmv]
    exact Score.spurious_map_eq (fun p : PeakList.hkl K => p.d2diff) nbSpurious storehkl
      (fun p => rfl) s.peaks
  have hget : ∀ (i : Nat) (p : PeakList.hkl K), r.2.mvHKL[i]? = some p →
      ∃ q, s.peaks[i]? = some q ∧ q.d2diff = p.d2diff := by
    intro i p hp
    have h1 := congrArg (fun l => l[i]?) hd
    simp only [List.getElem?_map, hp, Option.map_some'] at h1
    cases hq : s.peaks[i]? with
    | none => rw [hq] at h1; simp at h1
    | some q =>
      rw [hq] at h1
      simp only [Option.map_some', Option.some.injEq] at h1
      exact ⟨q, rfl, h1.symm⟩
  obtain ⟨removed, _, _, _, hnd, hrl, hrlt, hworst, hstats⟩ :=
    Score.spurious_spec nbSpurious storehkl s.peaks hpos (by rw [hl]; exact hle)
  refine ⟨removed, hnd, hrl, ?_, ?_, ?_⟩
  · intro i hi
    rw [← hl]
    exact hrlt i hi
  · intro i hi j hj p q hp hq
    obtain ⟨p', hp', hpe⟩ := hget i p hp
    obtain ⟨q', hq', hqe⟩ := hget j q hq
    rw [← hpe, ← hqe]
    exact hworst i hi j hj p' q' hp' hq'
  · intro j
    rw [hmv, hstats j]
    have hs := Score.enumerate_stats storehkl sp ruc dmax fh fk fl _ _ s hen
    have h1 := congrArg (fun l => l[j]?) hs
    simp only [List.getElem?_map] at h1
    cases hq : s.peaks[j]? with
    | none =>
      rw [hq] at h1
      cases hd0 : dhkl.mvHKL[j]? with
      | none => rfl
      | some d => rw [hd0] at h1; simp at h1
    | some q =>
      rw [hq] at h1
      cases hd0 : dhkl.mvHKL[j]? with
      | none => rw [hd0] at h1; simp at h1
      | some d =>
        rw [hd0] at h1
        simp only [Option.map_some', Option.some.injEq] at h1
        simp only [Option.map_some', h1]

omit [LinearOrderedField K] in
/-- Distinct positions of a list that all hold an element failing `P` leave at most the
other positions to the elements passing `P`. -/
theorem filter_length_add_le {α : Type} (P : α → Bool) (l : List α) (removed : List Nat)
    (hnd : removed.Nodup) (hrem : ∀ i ∈ removed, ∃ p, l[i]? = some p ∧ P p = false) :
    (l.filter P).length + removed.length ≤ l.length := by
  have hM : ∀ (rs : List Nat), (∀ i ∈ rs, ∃ p, l[i]? = some p ∧ P p = false) →
      ∃ M : List (Nat × α), M.map Prod.fst = rs ∧
        ∀ e ∈ M, e ∈ l.enum.filter (fun ip => !P ip.2) := by
    intro rs
    induction rs with
    | nil => intro _; exact ⟨[], rfl, by simp⟩
    | cons i rs ih =>
      intro h
      obtain ⟨M, hm, hsub⟩ := ih (fun j hj => h j (List.mem_cons_of_mem _ hj))
      obtain ⟨p, hp, hP⟩ := h i (List.mem_cons_self _ _)
      refine ⟨(i, p) :: M, by simp [hm], ?_⟩
      intro e he
      rcases List.mem_cons.1 he with rfl | he
      · exact List.mem_filter.2 ⟨List.mk_mem_enum_iff_getElem?.2 hp, by simp [hP]⟩
      · exact hsub e he
  obtain ⟨M, hm, hsub⟩ := hM removed hrem
  have hMnd : M.Nodup := List.Nodup.of_map Prod.fst (by rw [hm]; exact hnd)
  have h1 : M.length ≤ (l.enum.filter (fun ip => !P ip.2)).length :=
    (hMnd.subperm hsub).length_le
  have h2 : (l.enum.filter (fun ip => !P ip.2)).length = (l.filter (fun p => !P p)).length := by
    have := List.filter_map (p := fun p => !P p) Prod.snd l.enum
    rw [List.enum_map_snd] at this
    rw [this, List.length_map]
    rfl
  have h3 := List.length_eq_length_filter_add (l := l) P
  have h4 : M.length = removed.length := by rw [← hm, List.length_map]
  omega

omit [LinearOrderedField K] in
theorem Score.foldl_mark_isIndexed :
    ∀ (idxs : List Nat) (ps : List (PeakList.hkl K)) (j : Nat),
      ((idxs.foldl (fun l i => modifyAt (Score.markSpurious true) i l) ps)[j]?).map
          (fun p => p.isIndexed)
        = (ps[j]?).map (fun p => if j ∈ idxs then false else p.isIndexed) := by
  intro idxs
  induction idxs with
  | nil => intro ps j; simp
  | cons i rest ih =>
    intro ps j
    simp only [List.foldl_cons]
    rw [ih, modifyAt_getElem?]
    by_cases hji : j = i
    · subst hji
      cases hq : ps[j]? with
      | none => simp
      | some q => simp [Score.markSpurious]
    · simp [hji]

/-- After a returning call of `Score` with `storehkl` set and `nbSpurious <= N`, at least
`nbSpurious` peaks are not indexed: the ones removed as the worst fitting. -/
theorem Score_indexed_count (sqrt : K → K) (fh fk fl : Nat) (dhkl : PeakList K)
    (ruc : RecUnitCell K) (nbSpurious : Nat) (sp : Bool) (r : K × PeakList K)
    (hle : nbSpurious ≤ dhkl.mvHKL.length)
    (hrun : Score sqrt fh fk fl dhkl ruc nbSpurious true sp = .ok r) :
    r.2.mvHKL.length = dhkl.mvHKL.length ∧
    ∃ removed : List Nat, removed.Nodup ∧ removed.length = nbSpurious ∧
      (∀ i ∈ removed, ∀ j, j ∉ removed → ∀ p q, r.2.mvHKL[i]? = some p →
        r.2.mvHKL[j]? = some q → |q.d2diff| ≤ |p.d2diff|) ∧
      (∀ i ∈ removed, ∃ p, r.2.mvHKL[i]? = some p ∧ p.isIndexed = false) ∧
      (r.2.mvHKL.filter (fun p => p.isIndexed)).length + nbSpurious ≤ dhkl.mvHKL.length := by
  obtain ⟨dmax, s, hcut, hen, hval, hout⟩ :=
    Score_ok sqrt fh fk fl dhkl ruc nbSpurious true sp r hrun
  have hl : s.peaks.length = dhkl.mvHKL.length := by
    rw [Score.enumerate_length true sp ruc _ fh fk fl _ _ s hen, Score.reset_length]
  have hmv : r.2.mvHKL = (Score.spurious nbSpurious true s.peaks).2 := by rw [hout]
  by_cases hpos : 0 < nbSpurious
  · obtain ⟨removed, hdef, _, hlen, hnd, hrl, hrlt, hworst, _⟩ :=
      Score.spurious_spec nbSpurious true s.peaks hpos (by rw [hl]; exact hle)
    have hlen' : r.2.mvHKL.length = dhkl.mvHKL.length := by rw [hmv, hlen, hl]
    have hd : r.2.mvHKL.map (fun p => p.d2diff) = s.peaks.map (fun p => p.d2diff) := by
      rw [hmv]
      exact Score.spurious_map_eq (fun p : PeakList.hkl K => p.d2diff) nbSpurious true
        (fun p => rfl) s.peaks
    have hget : ∀ (i : Nat) (p : PeakList.hkl K), r.2.mvHKL[i]? = some p →
        ∃ q, s.peaks[i]? = some q ∧ q.d2diff = p.d2diff := by
      intro i p hp
      have h1 := congrArg (fun l => l[i]?) hd
      simp only [List.getElem?_map, hp, Option.map_some'] at h1
      cases hq : s.peaks[i]? with
      | none => rw [hq] at h1; simp at h1
      | some q =>
        rw [hq] at h1
        simp only [Option.map_some', Option.some.injEq] at h1
        exact ⟨q, rfl, h1.symm⟩
    have hidx : ∀ i ∈ removed, ∃ p, r.2.mvHKL[i]? = some p ∧ p.isIndexed = false := by
      intro i hi
      have hlt : i < r.2.mvHKL.length := by rw [hlen', ← hl]; exact hrlt i hi
      refine ⟨r.2.mvHKL[i], List.getElem?_eq_getElem hlt, ?_⟩
      have hspur : Score.spurious nbSpurious true s.peaks
          = ((Score.sortedDiffs s.peaks).reverse.take nbSpurious).foldl (Score.dropWorst true)
              (s.peaks.foldl (fun e p => e + |p.d2diff - 0|) 0, s.peaks) := by
        simp only [Score.spurious, gt_iff_lt, hpos, if_true]
      have h1 := Score.foldl_mark_isIndexed removed s.peaks i
      rw [hdef, ← Score.foldl_dropWorst_snd true _ (_, s.peaks), ← hspur, ← hmv,
        List.getElem?_eq_getElem hlt] at h1
      rw [← hdef] at h1
      have hlt' : i < s.peaks.length := hrlt i hi
      rw [List.getElem?_eq_getElem hlt'] at h1
      simpa [hi] using h1
    refine ⟨hlen', removed, hnd, hrl, ?_, hidx, ?_⟩
    · intro i hi j hj p q hp hq
      obtain ⟨p', hp', hpe⟩ := hget i p hp
      obtain ⟨q', hq', hqe⟩ := hget j q hq
      rw [← hpe, ← hqe]
      exact hworst i hi j hj p' q' hp' hq'
    · have := filter_length_add_le (fun p : PeakList.hkl K => p.isIndexed) r.2.mvHKL removed
        hnd hidx
      rw [hrl, hlen'] at this
      exact this
  · have hz : nbSpurious = 0 := by omega
    subst hz
    have hlen' : r.2.mvHKL.length = dhkl.mvHKL.length := by
      rw [hmv]
      simp only [Score.spurious, gt_iff_lt, lt_self_iff_false, if_false]
      exact hl
    refine ⟨hlen', [], List.nodup_nil, rfl, by simp, by simp, ?_⟩
    have := List.length_filter_le (fun p : PeakList.hkl K => p.isIndexed) r.2.mvHKL
    omega

omit [LinearOrderedField K] in
theorem vecWrite_ok {α : Type} (v : List α) (j : Nat) (x : α) (h : j < v.length) :
    vecWrite v j x = .ok (v.set j x) := by
  simp [vecWrite, h]

/-- The second loop of `BeginOptimization` stays in range when the two vectors have room
for the indexed peaks, and writes their entries in order. -/
theorem BeginOptimization_fill_spec (thres : K) :
    ∀ (ps : List (PeakList.hkl K)) (j : Nat) (mObs mWeight : List K),
      mWeight.length = mObs.length →
      j + (ps.filter (fun p => p.isIndexed)).length ≤ mObs.length →
      ∃ o w, CellExplorer.BeginOptimization.fill thres ps j mObs mWeight
          = .ok (j + (ps.filter (fun p => p.isIndexed)).length, o, w) ∧
        o.length = mObs.length ∧ w.length = mObs.length ∧
        (∀ k, o[k]? = if j ≤ k ∧ k < j + (ps.filter (fun p => p.isIndexed)).length then
            ((ps.filter (fun p => p.isIndexed)).map (fun p => p.d2obs))[k - j]?
          else mObs[k]?) ∧
        (∀ k, w[k]? = if j ≤ k ∧ k < j + (ps.filter (fun p => p.isIndexed)).length then
            ((ps.filter (fun p => p.isIndexed)).map
              (fun p => if p.d2obs > thres then 1 else p.d2obs / thres))[k - j]?
          else mWeight[k]?) := by
  intro ps
  induction ps with
  | nil =>
    intro j mObs mWeight hw _
    refine ⟨mObs, mWeight, rfl, rfl, hw, ?_, ?_⟩ <;>
    · intro k
      have : ¬ (j ≤ k ∧ k < j) := by omega
      simp [this]
  | cons p ps ih =>
    intro j mObs mWeight hw hroom
    by_cases hp : p.isIndexed = true
    · simp only [List.filter_cons, hp, if_true, List.length_cons] at hroom ⊢
      have hj : j < mObs.length := by omega
      have hjw : j < mWeight.length := by omega
      obtain ⟨o, w, hrun, hol, hwl, ho, hww⟩ := ih (j + 1) (mObs.set j p.d2obs)
        (mWeight.set j (if p.d2obs > thres then 1 else p.d2obs / thres))
        (by simp [hw]) (by simp; omega)
      refine ⟨o, w, ?_, by simpa using hol, by simpa using hwl, ?_, ?_⟩
      · simp only [CellExplorer.BeginOptimization.fill, hp, if_true, vecWrite_ok _ _ _ hj,
          vecWrite_ok _ _ _ hjw]
        rw [hrun]
        congr 2
        omega
      · intro k
        rw [ho k]
        by_cases hk : k = j
        · subst hk
          have c1 : ¬ (k + 1 ≤ k ∧ k < k + 1 + (ps.filter (fun p => p.isIndexed)).length) := by
            omega
          have c2 : k ≤ k ∧ k < k + ((ps.filter (fun p => p.isIndexed)).length + 1) := by omega
          simp [c1, c2, hj]
        · by_cases hr : j + 1 ≤ k ∧ k < j + 1 + (ps.filter (fun p => p.isIndexed)).length
          · have c2 : j ≤ k ∧ k < j + ((ps.filter (fun p => p.isIndexed)).length + 1) := by
              omega
            have e : k - j = (k - (j + 1)) + 1 := by omega
            simp only [hr, c2, if_true, and_self, List.map_cons, e, List.getElem?_cons_succ]
          · have c2 : ¬ (j ≤ k ∧ k < j + ((ps.filter (fun p => p.isIndexed)).length + 1)) := by
              omega
            have c3 : ¬ j = k := fun h => hk h.symm
            simp only [hr, c2, if_false, List.getElem?_set, c3]
      · intro k
        rw [hww k]
        by_cases hk : k = j
        · subst hk
          have c1 : ¬ (k + 1 ≤ k ∧ k < k + 1 + (ps.filter (fun p => p.isIndexed)).length) := by
            omega
          have c2 : k ≤ k ∧ k < k + ((ps.filter (fun p => p.isIndexed)).length + 1) := by omega
          simp [c1, c2, hjw]
        · by_cases hr : j + 1 ≤ k ∧ k < j + 1 + (ps.filter (fun p => p.isIndexed)).length
          · have c2 : j ≤ k ∧ k < j + ((ps.filter (fun p => p.isIndexed)).length + 1) := by
              omega
            have e : k - j = (k - (j + 1)) + 1 := by omega
            simp only [hr, c2, if_true, and_self, List.map_cons, e, List.getElem?_cons_succ]
          · have c2 : ¬ (j ≤ k ∧ k < j + ((ps.filter (fun p => p.isIndexed)).length + 1)) := by
              omega
            have c3 : ¬ j = k := fun h => hk h.symm
            simp only [hr, c2, if_false, List.getElem?_set, c3]
    · have hp' : p.isIndexed = false := by simpa using hp
      simp only [List.filter_cons, hp', Bool.false_eq_true, if_false] at hroom ⊢
      obtain ⟨o, w, hrun, hol, hwl, ho, hww⟩ := ih j mObs mWeight hw hroom
      refine ⟨o, w, ?_, hol, hwl, ho, hww⟩
      simp only [CellExplorer.BeginOptimization.fill, hp', Bool.false_eq_true, if_false]
      exact hrun

/-- The loop of `GetLSQCalc` stays in range when `mCalc` has room for the indexed peaks. -/
theorem GetLSQCalc_fill_ok (ruc : RecUnitCell K) :
    ∀ (ps : List (PeakList.hkl K)) (j : Nat) (mCalc : List K),
      j + (ps.filter (fun p => p.isIndexed)).length ≤ mCalc.length →
      ∃ o, CellExplorer.GetLSQCalc.fill ruc ps j mCalc = .ok o ∧ o.length = mCalc.length := by
  intro ps
  induction ps with
  | nil => intro j mCalc _; exact ⟨mCalc, rfl, rfl⟩
  | cons p ps ih =>
    intro j mCalc hroom
    by_cases hp : p.isIndexed = true
    · simp only [List.filter_cons, hp, if_true, List.length_cons] at hroom
      have hj : j < mCalc.length := by omega
      obtain ⟨o, hrun, hol⟩ := ih (j + 1) (mCalc.set j (ruc.hkl2dInt p.h p.k p.l))
        (by simp; omega)
      refine ⟨o, ?_, by simpa using hol⟩
      simp only [CellExplorer.GetLSQCalc.fill, hp, if_true, vecWrite_ok _ _ _ hj]
      exact hrun
    · have hp' : p.isIndexed = false := by simpa using hp
      simp only [List.filter_cons, hp', Bool.false_eq_true, if_false] at hroom
      obtain ⟨o, hrun, hol⟩ := ih j mCalc hroom
      refine ⟨o, ?_, hol⟩
      simp only [CellExplorer.GetLSQCalc.fill, hp', Bool.false_eq_true, if_false]
      exact hrun

/-- The loop of `GetLSQDeriv` never writes out of range when `mDeriv` has room for the
indexed peaks (it may stop on a `throw` of `hkl2d`). -/
theorem GetLSQDeriv_fill_in_range (ruc : RecUnitCell K) (par : Option Nat) :
    ∀ (ps : List (PeakList.hkl K)) (j : Nat) (mDeriv : List K),
      j + (ps.filter (fun p => p.isIndexed)).length ≤ mDeriv.length →
      ∀ f : Fault, CellExplorer.GetLSQDeriv.fill ruc par ps j mDeriv ≠ .error (Sum.inl f) := by
  intro ps
  induction ps with
  | nil => intro j mDeriv _ f h; simp [CellExplorer.GetLSQDeriv.fill] at h
  | cons p ps ih =>
    intro j mDeriv hroom f
    by_cases hp : p.isIndexed = true
    · simp only [List.filter_cons, hp, if_true, List.length_cons] at hroom
      have hj : j < mDeriv.length := by omega
      simp only [CellExplorer.GetLSQDeriv.fill, hp, if_true]
      cases hv : ruc.hkl2d (p.h : K) (p.k : K) (p.l : K) par 0 with
      | error e => simp
      | ok x =>
        simp only [vecWrite_ok _ _ _ hj]
        exact ih (j + 1) _ (by simp; omega) f
    · have hp' : p.isIndexed = false := by simpa using hp
      simp only [List.filter_cons, hp', Bool.false_eq_true, if_false] at hroom
      simp only [CellExplorer.GetLSQDeriv.fill, hp', Bool.false_eq_true, if_false]
      exact ih j mDeriv hroom f

/-- The entries that the second loop of `BeginOptimization` writes, from position 0. -/
theorem BeginOptimization_fill_take (thres : K) (ps : List (PeakList.hkl K)) (size : Nat)
    (hroom : (ps.filter (fun p => p.isIndexed)).length ≤ size) :
    ∃ o w, CellExplorer.BeginOptimization.fill thres ps 0 (List.replicate size 0)
          (List.replicate size 0)
        = .ok ((ps.filter (fun p => p.isIndexed)).length, o, w) ∧
      o.length = size ∧ w.length = size ∧
      o.take (ps.filter (fun p => p.isIndexed)).length
        = (ps.filter (fun p => p.isIndexed)).map (fun p => p.d2obs) ∧
      w.take (ps.filter (fun p => p.isIndexed)).length
        = (ps.filter (fun p => p.isIndexed)).map
            (fun p => if p.d2obs > thres then 1 else p.d2obs / thres) := by
  obtain ⟨o, w, hrun, hol, hwl, ho, hw⟩ := BeginOptimization_fill_spec thres ps 0
    (List.replicate size 0) (List.replicate size 0) rfl (by simpa using hroom)
  simp only [zero_add, List.length_replicate] at hrun hol hwl
  refine ⟨o, w, hrun, hol, hwl, ?_, ?_⟩
  · apply List.ext_getElem?
    intro k
    rw [List.getElem?_take, ho k]
    by_cases hk : k < (ps.filter (fun p => p.isIndexed)).length
    · simp [hk]
    · simp only [hk, if_false]
      exact (List.getElem?_eq_none (by simp; omega)).symm
  · apply List.ext_getElem?
    intro k
    rw [List.getElem?_take, hw k]
    by_cases hk : k < (ps.filter (fun p => p.isIndexed)).length
    · simp [hk]
    · simp only [hk, if_false]
      exact (List.getElem?_eq_none (by simp; omega)).symm

omit [LinearOrderedField K] in
/-- A mapped run that returns comes from a run that returns. -/
theorem Except_map_eq_ok {ε α β : Type} (f : α → β) (x : Except ε α) (y : β)
    (h : x.map f = .ok y) : ∃ a, x = .ok a ∧ f a = y := by
  cases x with
  | error e => simp [Except.map] at h
  | ok a => exact ⟨a, rfl, by simpa [Except.map] using h⟩

/-- The function `BeginOptimization` after its call of `Score` has returned. -/
theorem BeginOptimization_of_score (sqrt : K → K)
    (fh fk fl : Nat) (self : CellExplorer K) (r : K × PeakList K)
    (h : Score sqrt fh fk fl self.mpPeakList self.mRecUnitCell self.mNbSpurious true false
      = .ok r) :
    CellExplorer.BeginOptimization sqrt fh fk fl self =
      match CellExplorer.BeginOptimization.fill
          (CellExplorer.BeginOptimization.threshold r.2.mvHKL) r.2.mvHKL 0
          (List.replicate ((r.2.mvHKL.length + 4294967296 - self.mNbSpurious) % 4294967296) 0)
          (List.replicate ((r.2.mvHKL.length + 4294967296 - self.mNbSpurious) % 4294967296) 0)
        with
      | .error e => .error e
      | .ok out =>
        .ok { self with
              mpPeakList := r.2,
              mCalc := List.replicate
                ((r.2.mvHKL.length + 4294967296 - self.mNbSpurious) % 4294967296) 0,
              mObs := out.2.1, mWeight := out.2.2,
              mDeriv := List.replicate
                ((r.2.mvHKL.length + 4294967296 - self.mNbSpurious) % 4294967296) 0 } := by
  unfold CellExplorer.BeginOptimization
  simp only [h]

set_option maxHeartbeats 4000000 in
/-- The call `Score(..., 0, false, true, false)` on the single peak `brightPeak` with the
cubic cell a* = 1 indexes the peak as (0,0,1). -/
theorem brightPeak_score (sqrt : ℚ → ℚ) (fh fk fl : Nat) :
    (Score sqrt (fh+3) (fk+3) (fl+3) ⟨[brightPeak], []⟩ cubicUnit 0 true false).map Prod.snd
      = .ok ⟨[{ brightPeak with
                isIndexed := true, h := 0, k := 0, l := 1, d2calc := 1, d2diff := 0 }],
             []⟩ := by
  norm_num [Score, Score.reset, Score.cutoff, Score.enumerate, Score.loopH, Score.loopSK,
    Score.loopK, Score.loopSL, Score.loopL, Score.visit, Score.scanPeaks, Score.assign,
    Score.spurious, brightPeak, cubicUnit, PeakList.hkl.new, signK0,
    signL0, Score.slStart, RecUnitCell.hkl2dInt, RecUnitCell.hkl2dDeriv, RecUnitCell.hkl2d,
    okValue, Except.map, abs_div, Nat.abs_ofNat, abs_neg]

/-- When the first reflection (0,0,1) is beyond the cutoff, the enumeration of `Score` ends
at once, with no reflection counted. -/
theorem Score.enumerate_first_beyond (ruc : RecUnitCell K) (dmax : K) (storehkl sp : Bool)
    (fh fk fl : Nat) (peaks predicted : List (PeakList.hkl K))
    (h1 : ruc.hkl2dInt 0 0 1 > dmax) (h2 : ruc.hkl2dDeriv 0 0 1 3 ≥ 0)
    (h3 : ruc.hkl2dDeriv 0 0 0 2 ≥ 0) :
    Score.enumerate ruc dmax storehkl sp (fh+1) (fk+1) (fl+1) peaks predicted
      = some { nbCalc := 0, nbCalcK := 0, nbCalcH := 0, peaks := peaks,
               predicted := predicted } := by
  simp [Score.enumerate, Score.loopH, Score.loopSK, Score.loopK, Score.loopSL, Score.loopL,
    Score.slStart, h1, h2, h3]

/-- When the first reflection (0,0,1) is beyond the cutoff, `Score` returns 0 and leaves
the peaks as its first loop resets them (`nbSpurious = 0`). -/
theorem Score_first_beyond (sqrt : K → K) (fh fk fl : Nat) (dhkl : PeakList K)
    (ruc : RecUnitCell K) (storehkl sp : Bool) (dmax : K)
    (hcut : Score.cutoff sp (Score.reset storehkl dhkl.mvHKL) = .ok dmax)
    (h1 : ruc.hkl2dInt 0 0 1 > dmax) (h2 : ruc.hkl2dDeriv 0 0 1 3 ≥ 0)
    (h3 : ruc.hkl2dDeriv 0 0 0 2 ≥ 0) :
    Score sqrt (fh+1) (fk+1) (fl+1) dhkl ruc 0 storehkl sp
      = .ok (0, { mvHKL := Score.reset storehkl dhkl.mvHKL,
                  mvPredictedHKL := if sp then [] else dhkl.mvPredictedHKL }) := by
  simp only [Score, hcut,
    Score.enumerate_first_beyond ruc dmax storehkl sp fh fk fl _ _ h1 h2 h3]
  simp [Score.spurious]


/-- What one pass of the selection body of `Evolution` leaves. -/
theorem Evolution.select_spec (sqrt : K → K) (fh fk fl mnpar mNbSpurious pos : Nat)
    (trial : RecUnitCell K) (s s1 : Evolution.State K)
    (hrun : Evolution.select sqrt fh fk fl mnpar mNbSpurious pos trial s = .ok s1) :
    ∃ r member, Score sqrt fh fk fl s.peaks trial mNbSpurious false false = .ok r ∧
      s.vRUC[pos]? = some member ∧
      s1.vRUC = (if r.1 > member.2
        then s.vRUC.set pos (Evolution.copyPar mnpar trial member.1, r.1) else s.vRUC) ∧
      s1.peaks = r.2 ∧
      (s1.bestpos = s.bestpos ∨ (s1.bestpos = pos ∧ r.1 > member.2)) := by
  unfold Evolution.select at hrun
  cases hsc : Score sqrt fh fk fl s.peaks trial mNbSpurious false false with
  | error e => rw [hsc] at hrun; cases hrun
  | ok r =>
    rw [hsc] at hrun
    cases hm : s.vRUC[pos]? with
    | none => rw [hm] at hrun; cases hrun
    | some member =>
      rw [hm] at hrun
      refine ⟨r, member, rfl, rfl, ?_⟩
      simp only at hrun
      by_cases h1 : r.1 > member.2
      · simp only [h1, if_true] at hrun ⊢
        by_cases h2 : r.1 > s.bestScore
        · simp only [h2, if_true, Except.ok.injEq] at hrun
          subst hrun
          exact ⟨rfl, rfl, Or.inr ⟨rfl, trivial⟩⟩
        · simp only [h2, if_false, Except.ok.injEq] at hrun
          subst hrun
          exact ⟨rfl, rfl, Or.inl rfl⟩
      · simp only [h1, if_false, Except.ok.injEq] at hrun ⊢
        subst hrun
        exact ⟨rfl, rfl, Or.inl rfl⟩

/-- One pass of the selection body keeps the size of the population and lowers no stored
score. -/
theorem Evolution.select_mono (sqrt : K → K) (fh fk fl mnpar mNbSpurious pos : Nat)
    (trial : RecUnitCell K) (s s1 : Evolution.State K)
    (hrun : Evolution.select sqrt fh fk fl mnpar mNbSpurious pos trial s = .ok s1) :
    s1.vRUC.length = s.vRUC.length ∧
    ∀ (i : Nat) (member : RecUnitCell K × K), s.vRUC[i]? = some member →
      ∃ member1, s1.vRUC[i]? = some member1 ∧ member.2 ≤ member1.2 := by
  obtain ⟨r, member, _, hm, hv, _, _⟩ :=
    Evolution.select_spec sqrt fh fk fl mnpar mNbSpurious pos trial s s1 hrun
  by_cases h1 : r.1 > member.2
  · rw [if_pos h1] at hv
    refine ⟨by rw [hv, List.length_set], ?_⟩
    intro i m hi
    rw [hv, List.getElem?_set]
    by_cases hip : pos = i
    · subst hip
      have hlt : pos < s.vRUC.length := by
        by_contra hge
        rw [List.getElem?_eq_none (by omega)] at hm
        cases hm
      rw [hm] at hi
      cases hi
      simp only [if_true, hlt]
      exact ⟨_, rfl, le_of_lt h1⟩
    · simp only [hip, if_false]
      exact ⟨m, hi, le_refl _⟩
  · rw [if_neg h1] at hv
    rw [hv]
    exact ⟨rfl, fun i m hi => ⟨m, hi, le_refl _⟩⟩

/-- The selection loop keeps the size of the population and lowers no stored score. -/
theorem Evolution.selection_mono (sqrt : K → K) (fh fk fl mnpar mNbSpurious : Nat) :
    ∀ (trials : List (RecUnitCell K)) (pos : Nat) (s s1 : Evolution.State K),
      Evolution.selection sqrt fh fk fl mnpar mNbSpurious trials pos s = .ok s1 →
      s1.vRUC.length = s.vRUC.length ∧
      ∀ (i : Nat) (member : RecUnitCell K × K), s.vRUC[i]? = some member →
        ∃ member1, s1.vRUC[i]? = some member1 ∧ member.2 ≤ member1.2 := by
  intro trials
  induction trials with
  | nil =>
    intro pos s s1 hrun
    simp only [Evolution.selection, Except.ok.injEq] at hrun
    subst hrun
    exact ⟨rfl, fun i m hi => ⟨m, hi, le_refl _⟩⟩
  | cons trial rest ih =>
    intro pos s s1 hrun
    simp only [Evolution.selection] at hrun
    cases hsel : Evolution.select sqrt fh fk fl mnpar mNbSpurious pos trial s with
    | error e => rw [hsel] at hrun; cases hrun
    | ok s2 =>
      rw [hsel] at hrun
      obtain ⟨hl2, hm2⟩ :=
        Evolution.select_mono sqrt fh fk fl mnpar mNbSpurious pos trial s s2 hsel
      obtain ⟨hl1, hm1⟩ := ih (pos + 1) s2 s1 hrun
      refine ⟨hl1.trans hl2, ?_⟩
      intro i m hi
      obtain ⟨m2, hi2, hle2⟩ := hm2 i m hi
      obtain ⟨m1, hi1, hle1⟩ := hm1 i m2 hi2
      exact ⟨m1, hi1, le_trans hle2 hle1⟩

/-- The generations keep the size of the population and lower no stored score. -/
theorem Evolution.generations_mono (sqrt : K → K) (fh fk fl mnpar mNbSpurious : Nat) :
    ∀ (gens : List (List (RecUnitCell K))) (s s1 : Evolution.State K),
      Evolution.generations sqrt fh fk fl mnpar mNbSpurious gens s = .ok s1 →
      s1.vRUC.length = s.vRUC.length ∧
      ∀ (i : Nat) (member : RecUnitCell K × K), s.vRUC[i]? = some member →
        ∃ member1, s1.vRUC[i]? = some member1 ∧ member.2 ≤ member1.2 := by
  intro gens
  induction gens with
  | nil =>
    intro s s1 hrun
    simp only [Evolution.generations, Except.ok.injEq] at hrun
    subst hrun
    exact ⟨rfl, fun i m hi => ⟨m, hi, le_refl _⟩⟩
  | cons trials rest ih =>
    intro s s1 hrun
    simp only [Evolution.generations] at hrun
    cases hsel : Evolution.selection sqrt fh fk fl mnpar mNbSpurious trials 0 s with
    | error e => rw [hsel] at hrun; cases hrun
    | ok s2 =>
      rw [hsel] at hrun
      obtain ⟨hl2, hm2⟩ :=
        Evolution.selection_mono sqrt fh fk fl mnpar mNbSpurious trials 0 s s2 hsel
      obtain ⟨hl1, hm1⟩ := ih s2 s1 hrun
      refine ⟨hl1.trans hl2, ?_⟩
      intro i m hi
      obtain ⟨m2, hi2, hle2⟩ := hm2 i m hi
      obtain ⟨m1, hi1, hle1⟩ := hm1 i m2 hi2
      exact ⟨m1, hi1, le_trans hle2 hle1⟩

/-- The selection body returns as soon as its call of `Score` does and the member is in
the population. -/
theorem Evolution.select_returns (sqrt : K → K) (fh fk fl mnpar mNbSpurious pos : Nat)
    (trial : RecUnitCell K) (s : Evolution.State K) (r : K × PeakList K)
    (hsc : Score sqrt fh fk fl s.peaks trial mNbSpurious false false = .ok r)
    (hpos : pos < s.vRUC.length) :
    ∃ s1, Evolution.select sqrt fh fk fl mnpar mNbSpurious pos trial s = .ok s1 := by
  unfold Evolution.select
  rw [hsc, List.getElem?_eq_getElem hpos]
  simp only
  split_ifs <;> exact ⟨_, rfl⟩

/-- The selection body leaves the population and the tracking as they are when the score
of the trial is not above the stored score of the member. -/
theorem Evolution.select_keep (sqrt : K → K) (fh fk fl mnpar mNbSpurious pos : Nat)
    (trial : RecUnitCell K) (s : Evolution.State K) (r : K × PeakList K)
    (member : RecUnitCell K × K)
    (hsc : Score sqrt fh fk fl s.peaks trial mNbSpurious false false = .ok r)
    (hm : s.vRUC[pos]? = some member) (hle : ¬ r.1 > member.2) :
    Evolution.select sqrt fh fk fl mnpar mNbSpurious pos trial s
      = .ok { s with peaks := r.2 } := by
  unfold Evolution.select
  rw [hsc, hm]
  simp only [hle, if_false]

/-- The selection loop leaves the population and the tracking as they are when every trial
scores 0 on a peak list that `Score` leaves as it is, and no stored score is negative. -/
theorem Evolution.selection_idle (sqrt : K → K) (fh fk fl mnpar mNbSpurious : Nat)
    (s : Evolution.State K) :
    ∀ (trials : List (RecUnitCell K)) (pos : Nat),
      (∀ t ∈ trials, Score sqrt fh fk fl s.peaks t mNbSpurious false false
        = .ok (0, s.peaks)) →
      (∀ k : Nat, k < trials.length →
        ∃ member : RecUnitCell K × K, s.vRUC[pos + k]? = some member ∧ 0 ≤ member.2) →
      Evolution.selection sqrt fh fk fl mnpar mNbSpurious trials pos s = .ok s := by
  intro trials
  induction trials with
  | nil => intro pos _ _; rfl
  | cons t rest ih =>
    intro pos hsc hm
    obtain ⟨member, hmem, hnn⟩ := hm 0 (by simp)
    simp only [Evolution.selection]
    rw [Evolution.select_keep sqrt fh fk fl mnpar mNbSpurious pos t s (0, s.peaks) member
      (hsc t (by simp)) (by simpa using hmem) (not_lt.mpr hnn)]
    refine ih (pos + 1) (fun t1 ht1 => hsc t1 (List.mem_cons_of_mem _ ht1)) ?_
    intro k hk
    have := hm (k + 1) (by simpa using hk)
    rwa [show pos + (k + 1) = pos + 1 + k by omega] at this

/-- With no generation, the candidate taken as best is the first member of the population,
whatever the stored scores. -/
theorem Evolution.taken_nil (sqrt : K → K) (fh fk fl mnpar mNbSpurious : Nat)
    (peaks : PeakList K) (member : RecUnitCell K × K) (rest : List (RecUnitCell K × K)) :
    Evolution.taken sqrt fh fk fl mnpar mNbSpurious [] peaks (member :: rest)
      = .ok member := by
  simp only [Evolution.taken, Evolution.generations, Evolution.best, Evolution.start,
    List.getElem?_cons_zero]

/-- After one generation in which the selection leaves everything as it is, the candidate
taken as best is the first member of the population. -/
theorem Evolution.taken_idle (sqrt : K → K) (fh fk fl mnpar mNbSpurious : Nat)
    (trials : List (RecUnitCell K))
    (peaks : PeakList K) (member : RecUnitCell K × K) (rest : List (RecUnitCell K × K))
    (hidle : Evolution.selection sqrt fh fk fl mnpar mNbSpurious trials 0
      (Evolution.start peaks (member :: rest)) = .ok (Evolution.start peaks (member :: rest))) :
    Evolution.taken sqrt fh fk fl mnpar mNbSpurious [trials] peaks (member :: rest)
      = .ok member := by
  unfold Evolution.taken
  simp only [Evolution.generations, hidle]
  simp only [Evolution.best, Evolution.start, List.getElem?_cons_zero]

/-- The cubic cell a* = 1/5 scores 0 on the peak at dobs = 1/10: its first reflection has
d*² = 1/25, above the cutoff 0.0105. -/
theorem Score_fifth_tenth (sqrt : ℚ → ℚ) (fh fk fl : Nat) :
    Score sqrt (fh+1) (fk+1) (fl+1) ⟨[leftPeak (1/10)], []⟩ (cubicCell ℚ) 0 false false
      = .ok (0, ⟨[leftPeak (1/10)], []⟩) := by
  rw [Score_first_beyond sqrt fh fk fl ⟨[leftPeak (1/10)], []⟩ (cubicCell ℚ) false false
    (21/2000)
    (by norm_num [Score.cutoff, Score.reset, leftPeak, sharpPeak, PeakList.hkl.new])
    (by norm_num [RecUnitCell.hkl2dInt, RecUnitCell.hkl2d, okValue, cubicCell])
    (by norm_num [RecUnitCell.hkl2dDeriv, RecUnitCell.hkl2d, okValue, cubicCell])
    (by norm_num [RecUnitCell.hkl2dDeriv, RecUnitCell.hkl2d, okValue, cubicCell])]
  simp [Score.reset, leftPeak, sharpPeak, PeakList.hkl.new]

/-- The cubic cell a* = 1/4 scores 0 on the peak at dobs = 21/100: its first reflection
has d*² = 1/16, above the cutoff 0.046305. -/
theorem Score_quarter_fifth (sqrt : ℚ → ℚ) (fh fk fl : Nat) :
    Score sqrt (fh+1) (fk+1) (fl+1) ⟨[leftPeak (21/100)], []⟩ (cubicQuarter ℚ) 0 false false
      = .ok (0, ⟨[leftPeak (21/100)], []⟩) := by
  rw [Score_first_beyond sqrt fh fk fl ⟨[leftPeak (21/100)], []⟩ (cubicQuarter ℚ) false false
    (9261/200000)
    (by norm_num [Score.cutoff, Score.reset, leftPeak, sharpPeak, PeakList.hkl.new])
    (by norm_num [RecUnitCell.hkl2dInt, RecUnitCell.hkl2d, okValue, cubicQuarter])
    (by norm_num [RecUnitCell.hkl2dDeriv, RecUnitCell.hkl2d, okValue, cubicQuarter])
    (by norm_num [RecUnitCell.hkl2dDeriv, RecUnitCell.hkl2d, okValue, cubicQuarter])]
  simp [Score.reset, leftPeak, sharpPeak, PeakList.hkl.new]

omit [LinearOrderedField K] in
/-- The counter `deeperSolutions` after the calls on the child boxes is its value before
plus the sum of the returned values, modulo 2^32. -/
theorem RDicVol.descend_eq
    (call : RecUnitCell K → Nat → CellExplorer K →
      Option (Except Fault (Nat × Nat × CellExplorer K))) :
    ∀ (boxes : List (RecUnitCell K)) (d n : Nat) (s : CellExplorer K), d < 4294967296 →
      RDicVol.descend call boxes d n s =
        match RDicVol.childValues call boxes n s with
        | none => none
        | some (.error e) => some (.error e)
        | some (.ok out) => some (.ok ((d + out.1.sum) % 4294967296, out.2.1, out.2.2)) := by
  intro boxes
  induction boxes with
  | nil =>
    intro d n s hd
    simp [RDicVol.descend, RDicVol.childValues, Nat.mod_eq_of_lt hd]
  | cons uc rest ih =>
    intro d n s hd
    simp only [RDicVol.descend, RDicVol.childValues]
    cases hc : call uc n s with
    | none => rfl
    | some res =>
      cases res with
      | error e => rfl
      | ok r =>
        simp only []
        rw [ih ((d + r.1) % 4294967296) r.2.1 r.2.2 (Nat.mod_lt _ (by norm_num))]
        cases hv : RDicVol.childValues call rest r.2.1 r.2.2 with
        | none => rfl
        | some res1 =>
          cases res1 with
          | error e => rfl
          | ok out =>
            simp only [List.sum_cons]
            congr 3
            rw [Nat.mod_add_mod, Nat.add_assoc]

/-- The first turn of `RDicVol` for a box that the volume pre-check lets through and whose
start returns. -/
theorem RDicVol_of_prepare (sqrt acos : K → K) (lsq : CellExplorer K → CellExplorer K)
    (fh fk fl gas : Nat) (uc0 duc : RecUnitCell K) (depth nbCalc : Nat) (minV maxV : K)
    (vdepth : List Nat) (self : CellExplorer K) (node : RDicVol.Node K)
    (hvol : RDicVol.volumeRejected sqrt acos uc0 duc depth minV maxV = false)
    (hprep : RDicVol.prepare fh fk fl self uc0 duc depth vdepth = .ok node) :
    CellExplorer.RDicVol sqrt acos lsq fh fk fl (gas + 1) uc0 duc depth nbCalc minV maxV
        vdepth self =
      if node.indexed then
        match (if node.depth < self.mMaxDicVolDepth then
            match RDicVol.halve self.mnpar node.depth node.vdepth node.duc with
            | .error e => some (.error e)
            | .ok duc1 =>
              match RDicVol.childBoxes self.mnpar node.depth node.vdepth node.uc0 duc1 with
              | .error e => some (.error e)
              | .ok boxes =>
                RDicVol.descend
                  (fun uc n s =>
                    CellExplorer.RDicVol sqrt acos lsq fh fk fl gas uc duc1 (node.depth + 1)
                      n minV maxV node.vdepth s)
                  boxes 0 (nbCalc + 1) { self with mpPeakList := node.peaks }
          else some (.ok (0, nbCalc + 1, { self with mpPeakList := node.peaks })) :
            Option (Except Fault (Nat × Nat × CellExplorer K))) with
        | none => none
        | some (.error e) => some (.error e)
        | some (.ok d) =>
          if d.1 = 0 ∧ node.depth ≥ self.mDicVolDepthReport then
            match RDicVol.leaf sqrt lsq fh fk fl node.uc0 node.depth d.2.2 with
            | .error e => some (.error e)
            | .ok self1 => some (.ok ((d.1 + 1) % 4294967296, d.2.1, self1))
          else some (.ok ((d.1 + 1) % 4294967296, d.2.1, d.2.2))
      else some (.ok (0, nbCalc + 1, { self with mpPeakList := node.peaks })) := by
  rw [CellExplorer.RDicVol]
  simp only [hvol, hprep]
  rfl

/-- The start of a call of `RDicVol` at a depth other than 0: one call of `DichoIndexed` on
the stored candidates, and the per-parameter depths. -/
theorem RDicVol.prepare_stored (fh fk fl : Nat) (self : CellExplorer K)
    (uc0 duc : RecUnitCell K) (depth : Nat) (vdepth : List Nat) (hd : depth ≠ 0) :
    RDicVol.prepare fh fk fl self uc0 duc depth vdepth =
      .ok { indexed := (DichoIndexed.storedLoop uc0 duc self.mNbSpurious self.mpPeakList.mvHKL
              ((self.mpPeakList.mvHKL.length : Int) - (self.mNbSpurious : Int)) 0).1,
            uc0 := uc0, duc := duc, depth := depth,
            vdepth := RDicVol.initDepths self.mnpar depth vdepth,
            peaks := { self.mpPeakList with
              mvHKL := (DichoIndexed.storedLoop uc0 duc self.mNbSpurious
                self.mpPeakList.mvHKL
                ((self.mpPeakList.mvHKL.length : Int) - (self.mNbSpurious : Int)) 0).2 } } := by
  simp [RDicVol.prepare, DichoIndexed, hd]

/-- The first loop of `Score` does nothing more when run a second time. -/
theorem Score.reset_reset (storehkl : Bool) (peaks : List (PeakList.hkl K)) :
    Score.reset storehkl (Score.reset storehkl peaks) = Score.reset storehkl peaks := by
  simp only [Score.reset, List.map_map]
  apply List.map_congr_left
  intro p _
  cases storehkl <;> simp

/-- The cutoff of `Score` is the same after its first loop has run. -/
theorem Score.cutoff_reset_eq (storehkl sp : Bool) (peaks : List (PeakList.hkl K)) :
    Score.cutoff sp (Score.reset storehkl (Score.reset storehkl peaks))
      = Score.cutoff sp (Score.reset storehkl peaks) := by
  rw [Score.reset_reset]

/-- A leaf at a depth that is at least `mMaxDicVolDepth` and `mDicVolDepthReport`, whose
cell has its first reflection beyond the cutoff of `Score` and which the refinement leaves
in place: both calls of `Score` return 0, and the cell is appended with score 0. -/
theorem RDicVol.leaf_first_beyond (sqrt : K → K) (fh fk fl : Nat) (uc0 : RecUnitCell K)
    (depth : Nat) (self : CellExplorer K) (dmax : K) (count : Nat)
    (hcut : Score.cutoff false (Score.reset true self.mpPeakList.mvHKL) = .ok dmax)
    (h1 : uc0.hkl2dInt 0 0 1 > dmax) (h2 : uc0.hkl2dDeriv 0 0 1 3 ≥ 0)
    (h3 : uc0.hkl2dDeriv 0 0 0 2 ≥ 0) (hn : self.mNbSpurious = 0)
    (hmax : depth ≥ self.mMaxDicVolDepth) (hrep : depth ≥ self.mDicVolDepthReport)
    (hcount : self.mvNbSolutionDepth[depth]? = some count) :
    RDicVol.leaf sqrt (fun e => e) (fh+1) (fk+1) (fl+1) uc0 depth self =
      .ok { self with
            mRecUnitCell := uc0,
            mpPeakList := { mvHKL := Score.reset true self.mpPeakList.mvHKL,
                            mvPredictedHKL := self.mpPeakList.mvPredictedHKL },
            mBestScore := if 0 > self.mBestScore then 0 else self.mBestScore,
            mvSolution := self.mvSolution ++ [(uc0, 0)],
            mvNbSolutionDepth :=
              self.mvNbSolutionDepth.set depth ((count + 1) % 4294967296) } := by
  have hs1 := Score_first_beyond sqrt fh fk fl self.mpPeakList uc0 true false dmax hcut h1 h2 h3
  have hs2 := Score_first_beyond sqrt fh fk fl
    { mvHKL := Score.reset true self.mpPeakList.mvHKL,
      mvPredictedHKL := self.mpPeakList.mvPredictedHKL } uc0 true false dmax
    (by rw [Score.cutoff_reset_eq]; exact hcut) h1 h2 h3
  simp only [Bool.false_eq_true, if_false] at hs1 hs2
  rw [Score.reset_reset] at hs2
  unfold RDicVol.leaf
  simp only [hn] at hs1 hs2 ⊢
  rw [hs1]
  simp only [CellExplorer.LSQRefine, hmax, hrep, or_true, if_true, hn, hs2, hcount]

/-- The stored reflection (0,0,1) of `storedPeak` fits the box a* = 2 ± 3/2: its d*² lies
between 1/4 and 49/4. -/
theorem leafExplorer_storedLoop :
    DichoIndexed.storedLoop wideCell wideHalfWidth leafExplorer.mNbSpurious
      leafExplorer.mpPeakList.mvHKL
      ((leafExplorer.mpPeakList.mvHKL.length : Int) - (leafExplorer.mNbSpurious : Int)) 0
      = (true, [{ storedPeak with d2calc := 25/4, isIndexed := true }]) := by
  norm_num [DichoIndexed.storedLoop, DichoIndexed.overlaps, leafExplorer, explorerOn,
    storedPeak, sharpPeak, PeakList.hkl.new, wideCell, wideHalfWidth,
    RecUnitCell.hkl2d_delta, RecUnitCell.hkl2d, okValue]

/-- The leaf handling at depth 3 for `leafExplorer` and the cell a* = 2, with a refinement
that leaves the cell in place. -/
theorem leafExplorer_leaf (sqrt : ℚ → ℚ) (fh fk fl : Nat) :
    RDicVol.leaf sqrt (fun e => e) (fh+1) (fk+1) (fl+1) wideCell 3 leafExplorer
      = .ok { leafExplorer with
              mpPeakList := ⟨[{ storedPeak with d2diff := 1000 }], []⟩,
              mvSolution := [(wideCell, 0)], mvNbSolutionDepth := [0, 0, 0, 1] } := by
  have hleaf := RDicVol.leaf_first_beyond sqrt fh fk fl wideCell 3 leafExplorer (21/20) 0
    (by norm_num [Score.cutoff, Score.reset, leafExplorer, explorerOn, storedPeak, sharpPeak,
      PeakList.hkl.new])
    (by norm_num [RecUnitCell.hkl2dInt, RecUnitCell.hkl2d, okValue, wideCell])
    (by norm_num [RecUnitCell.hkl2dDeriv, RecUnitCell.hkl2d, okValue, wideCell])
    (by norm_num [RecUnitCell.hkl2dDeriv, RecUnitCell.hkl2d, okValue, wideCell])
    rfl (by simp [leafExplorer, explorerOn]) (by simp [leafExplorer, explorerOn])
    (by simp [leafExplorer, explorerOn])
  rw [hleaf]
  simp [leafExplorer, explorerOn, Score.reset, storedPeak, sharpPeak, PeakList.hkl.new,
    wideCell]

/-- The call of `RDicVol` at depth 3 on the box a* = 2 ± 3/2 for `leafExplorer`: the box is
feasible (the stored reflection (0,0,1) has d*² between 1/4 and 49/4, around the observed
1), there is no deeper call, and the leaf is handled: `Score` returns 0 before and after
the refinement (d*² = 4 is beyond the cutoff 1.05), and the cell is appended. -/
theorem leafExplorer_run (sqrt acos : ℚ → ℚ) (fh fk fl gas : Nat) (minV maxV : ℚ) :
    CellExplorer.RDicVol sqrt acos (fun e => e) (fh+1) (fk+1) (fl+1) (gas+1) wideCell
        wideHalfWidth 3 0 minV maxV [] leafExplorer
      = some (.ok (1, 1,
          { leafExplorer with
            mpPeakList := ⟨[{ storedPeak with d2diff := 1000 }], []⟩,
            mvSolution := [(wideCell, 0)], mvNbSolutionDepth := [0, 0, 0, 1] })) := by
  have hvol : RDicVol.volumeRejected sqrt acos wideCell wideHalfWidth 3 minV maxV = false := by
    simp [RDicVol.volumeRejected]
  have hprep := RDicVol.prepare_stored (fh+1) (fk+1) (fl+1) leafExplorer wideCell
    wideHalfWidth 3 [] (by decide)
  have hloop := leafExplorer_storedLoop
  rw [hloop] at hprep
  rw [RDicVol_of_prepare sqrt acos (fun e => e) (fh+1) (fk+1) (fl+1) gas wideCell
    wideHalfWidth 3 0 minV maxV [] leafExplorer _ hvol hprep]
  have hleaf := RDicVol.leaf_first_beyond sqrt fh fk fl wideCell 3
    { leafExplorer with
      mpPeakList := { leafExplorer.mpPeakList with
        mvHKL := [{ storedPeak with d2calc := 25/4, isIndexed := true }] } }
    (21/20) 0
    (by norm_num [Score.cutoff, Score.reset, storedPeak, sharpPeak, PeakList.hkl.new])
    (by norm_num [RecUnitCell.hkl2dInt, RecUnitCell.hkl2d, okValue, wideCell])
    (by norm_num [RecUnitCell.hkl2dDeriv, RecUnitCell.hkl2d, okValue, wideCell])
    (by norm_num [RecUnitCell.hkl2dDeriv, RecUnitCell.hkl2d, okValue, wideCell])
    rfl (by simp [leafExplorer, explorerOn]) (by simp [leafExplorer, explorerOn])
    (by simp [leafExplorer, explorerOn])
  simp only [leafExplorer, explorerOn, lt_irrefl, if_false, if_true, ge_iff_le, le_refl,
    and_self] at hleaf ⊢
  rw [hleaf]
  simp [Score.reset, storedPeak, sharpPeak, PeakList.hkl.new, wideCell]

/-- A write on a slot `par[i]`, `i <= 6`, is read back. -/
theorem RecUnitCell.par_setPar_self (c : RecUnitCell K) (i : Nat) (x : K) (hi : i ≤ 6) :
    (c.setPar i x).par i = x := by
  have h : i = 0 ∨ i = 1 ∨ i = 2 ∨ i = 3 ∨ i = 4 ∨ i = 5 ∨ i = 6 := by omega
  rcases h with h | h | h | h | h | h | h <;> subst h <;> rfl

/-- A write on a slot leaves the other slots as they are. -/
theorem RecUnitCell.par_setPar_ne (c : RecUnitCell K) (i j : Nat) (x : K) (hij : i ≠ j) :
    (c.setPar i x).par j = c.par j := by
  unfold RecUnitCell.setPar
  split <;> (unfold RecUnitCell.par; split <;> first | rfl | (exfalso; omega))

/-- The value of `fmod` for a non-negative `x` and a positive `y` lies in `[0, y)`. -/
theorem fmod_nonneg_lt [FloorRing K] (x y : K) (hx : 0 ≤ x) (hy : 0 < y) :
    0 ≤ fmod x y ∧ fmod x y < y := by
  have hq : 0 ≤ x / y := div_nonneg hx hy.le
  simp only [fmod, hq, if_true]
  have h1 : (⌊x / y⌋ : K) ≤ x / y := Int.floor_le _
  have h2 : x / y < (⌊x / y⌋ : K) + 1 := Int.lt_floor_add_one _
  have e : x / y * y = x := div_mul_cancel₀ x hy.ne'
  constructor
  · have h3 : (⌊x / y⌋ : K) * y ≤ x / y * y := mul_le_mul_of_nonneg_right h1 hy.le
    rw [e] at h3
    linarith
  · have h3 : x / y * y < ((⌊x / y⌋ : K) + 1) * y := mul_lt_mul_of_pos_right h2 hy
    rw [e, add_mul, one_mul] at h3
    linarith

/-- The copy loop of the mutation writes the slots 0 to 5 of the trial and leaves slot 6. -/
theorem Evolution.copy6_par (t0 c0 : RecUnitCell K) :
    (∀ i, i < 6 →
      ((List.range 6).foldl (fun t k => t.setPar k (c0.par k)) t0).par i = c0.par i) ∧
    ((List.range 6).foldl (fun t k => t.setPar k (c0.par k)) t0).par 6 = t0.par 6 := by
  have hr : List.range 6 = [0, 1, 2, 3, 4, 5] := by decide
  rw [hr]
  simp only [List.foldl]
  constructor
  · intro i hi
    have h : i = 0 ∨ i = 1 ∨ i = 2 ∨ i = 3 ∨ i = 4 ∨ i = 5 := by omega
    rcases h with h | h | h | h | h | h <;> subst h <;>
      simp [RecUnitCell.setPar, RecUnitCell.par]
  · simp [RecUnitCell.setPar, RecUnitCell.par]

/-- The trial after the mutation: the mutated slot holds the new value, the other slots
below 6 hold the parameters of the parent, and slot 6, when it is not the mutated one,
holds what the trial held before. -/
theorem Evolution.mutate_par [FloorRing K] (mMin mAmp : List K) (mnpar : Nat) (f : K)
    (ncr0 : Nat) (t0 c0 c1 c2 c3 : RecUnitCell K) :
    (ncr0 % mnpar ≤ 6 →
      (Evolution.mutate mMin mAmp mnpar f ncr0 t0 c0 c1 c2 c3).par (ncr0 % mnpar)
        = mMin.getD (ncr0 % mnpar) 0
          + fmod (c1.par (ncr0 % mnpar) - mMin.getD (ncr0 % mnpar) 0
              + f * (c2.par (ncr0 % mnpar) - mMin.getD (ncr0 % mnpar) 0
                - (c3.par (ncr0 % mnpar) - mMin.getD (ncr0 % mnpar) 0))
              + 3 * mAmp.getD (ncr0 % mnpar) 0) (mAmp.getD (ncr0 % mnpar) 0)) ∧
    (∀ i, i < 6 → i ≠ ncr0 % mnpar →
      (Evolution.mutate mMin mAmp mnpar f ncr0 t0 c0 c1 c2 c3).par i = c0.par i) ∧
    (ncr0 % mnpar ≠ 6 →
      (Evolution.mutate mMin mAmp mnpar f ncr0 t0 c0 c1 c2 c3).par 6 = t0.par 6) := by
  refine ⟨?_, ?_, ?_⟩
  · intro hl
    simp only [Evolution.mutate, Nat.add_zero]
    rw [RecUnitCell.par_setPar_self _ _ _ hl]
  · intro i hi hne
    simp only [Evolution.mutate, Nat.add_zero]
    rw [RecUnitCell.par_setPar_ne _ _ _ _ (Ne.symm hne)]
    exact (Evolution.copy6_par t0 c0).1 i hi
  · intro hne
    simp only [Evolution.mutate, Nat.add_zero]
    rw [RecUnitCell.par_setPar_ne _ _ _ _ hne]
    exact (Evolution.copy6_par t0 c0).2

/-- When `nbSpurious` is at least the number of peaks, the error sum of `Score` after the
removal of the worst fitting peaks is 0. -/
theorem Score.spurious_all_removed (nbSpurious : Nat) (storehkl : Bool)
    (peaks : List (PeakList.hkl K)) (hle : peaks.length ≤ nbSpurious) :
    (Score.spurious nbSpurious storehkl peaks).1 = 0 := by
  rw [Score.spurious_fst, Nat.sub_eq_zero_of_le hle]
  simp [sumSmallest]

set_option maxHeartbeats 8000000 in
/-- The enumeration of `Score` for the cubic cell a* = 1 and one peak at dobs = 1 (cutoff
1.05): three reflections are counted, and the peak is left with `d2diff = 0`. -/
theorem Score_enumerate_exact (fh fk fl : Nat) :
    (Score.enumerate cubicUnit (21/20) false false (fh+3) (fk+3) (fl+3)
        (Score.reset false [sharpPeak 1]) []).map
        (fun s => (s.nbCalc, s.peaks.map (fun p => p.d2diff)))
      = some (3, [0]) := by
  norm_num [Score.reset, Score.enumerate, Score.loopH, Score.loopSK,
    Score.loopK, Score.loopSL, Score.loopL, Score.visit, Score.scanPeaks, Score.assign,
    sharpPeak, cubicUnit, PeakList.hkl.new, signK0,
    signL0, Score.slStart, RecUnitCell.hkl2dInt, RecUnitCell.hkl2dDeriv, RecUnitCell.hkl2d,
    okValue, abs_div, Nat.abs_ofNat, abs_neg]

/-- The direct volume of an orthorhombic cell with positive a*, b*, c* is the inverse of
their product (with the real square root and arccosine). -/
theorem DirectUnitCell_volume_orthorhombic (c : RecUnitCell ℝ)
    (hlat : c.mlattice = ORTHOROMBIC) (h1 : 0 < c.par1) (h2 : 0 < c.par2) (h3 : 0 < c.par3) :
    (c.DirectUnitCell Real.sqrt Real.arccos).getD 6 0 = 1 / (c.par1 * c.par2 * c.par3) := by
  simp [RecUnitCell.DirectUnitCell, RecUnitCell.recipMetric, RecipMetric.vvArg,
    RecipMetric.directCosines, RecipMetric.volArg, hlat]
  field_simp
  ring

/-- The volume pre-check only rejects at depth 1 or 2. -/
theorem RDicVol.volumeRejected_iff (sqrt acos : K → K) (uc0 duc : RecUnitCell K) (depth : Nat)
    (minV maxV : K) :
    RDicVol.volumeRejected sqrt acos uc0 duc depth minV maxV = true ↔
      (depth = 1 ∨ depth = 2) ∧
      (((RDicVol.corner 1 uc0 duc).DirectUnitCell sqrt acos).getD 6 0 > maxV ∨
        ((RDicVol.corner (-1) uc0 duc).DirectUnitCell sqrt acos).getD 6 0 < minV) := by
  unfold RDicVol.volumeRejected
  by_cases hd : 0 < depth ∧ depth ≤ 2
  · have hd2 : depth = 1 ∨ depth = 2 := by omega
    simp [hd, hd2]
  · have hd2 : ¬ (depth = 1 ∨ depth = 2) := by omega
    simp [hd, hd2]

/-- `SimilarRUC` does not depend on the order of the two cells. -/
theorem SimilarRUC_comm (sqrt acos : K → K) (c0 c1 : RecUnitCell K) (delta : K) :
    SimilarRUC sqrt acos c0 c1 delta = SimilarRUC sqrt acos c1 c0 delta := by
  simp only [SimilarRUC]
  have h : (fun (d : K) (i : Nat) =>
        d + |(c0.DirectUnitCell sqrt acos).getD i 0 - (c1.DirectUnitCell sqrt acos).getD i 0|)
      = (fun (d : K) (i : Nat) =>
        d + |(c1.DirectUnitCell sqrt acos).getD i 0 - (c0.DirectUnitCell sqrt acos).getD i 0|) := by
    funext d i
    rw [abs_sub_comm]
  rw [h]

/-- Two cubic cells of direct lengths `a` and `b` are similar when `|a - b| / 2 < 0.005`. -/
theorem SimilarRUC_cubicDirect (a b : ℝ) :
    SimilarRUC Real.sqrt Real.arccos (cubicDirect ℝ a) (cubicDirect ℝ b) (5/1000)
      = decide (|a - b| / 2 < 5/1000) := by
  have ha := DirectUnitCell_cubic (1/a)
  have hb := DirectUnitCell_cubic (1/b)
  simp only [SimilarRUC, cubicDirect, ha, hb]
  have hr : List.range 6 = [0, 1, 2, 3, 4, 5] := by decide
  rw [hr]
  simp only [List.foldl_cons, List.foldl_nil, List.getD_cons_zero, List.getD_cons_succ,
    one_div_one_div, sub_self, abs_zero, add_zero, zero_add]
  congr 1
  apply propext
  constructor <;> intro h <;> linarith

/-- The inner loop of `ReduceSolutions` when no solution of the list has another lattice
or a higher score than `back`: `back` stays, and the solutions similar to it are erased. -/
theorem ReduceSolutions_inner_keep (sqrt acos : K → K) (back : RecUnitCell K × K) :
    ∀ (l : List (RecUnitCell K × K)),
      (∀ pos ∈ l, pos.1.mlattice = back.1.mlattice ∧ pos.2 ≤ back.2) →
      (CellExplorer.ReduceSolutions.inner sqrt acos back l).1 = back ∧
      (CellExplorer.ReduceSolutions.inner sqrt acos back l).2.1
        = l.filter (fun pos => !SimilarRUC sqrt acos pos.1 back.1 (5/1000)) := by
  intro l
  induction l with
  | nil => intro _; exact ⟨rfl, rfl⟩
  | cons pos rest ih =>
    intro h
    obtain ⟨hlat, hle⟩ := h pos (List.mem_cons_self _ _)
    have ih' := ih (fun q hq => h q (List.mem_cons_of_mem _ hq))
    simp only [CellExplorer.ReduceSolutions.inner]
    by_cases hs : SimilarRUC sqrt acos pos.1 back.1 (5/1000) = true
    · simp only [hs, if_true, hlat, not_lt.mpr hle, if_false, gt_iff_lt]
      refine ⟨ih'.1, ?_⟩
      rw [ih'.2]
      simp [List.filter, hs]
    · have hs' : SimilarRUC sqrt acos pos.1 back.1 (5/1000) = false := by
        simpa using hs
      simp only [hs', Bool.false_eq_true, if_false]
      refine ⟨ih'.1, ?_⟩
      rw [ih'.2]
      simp [List.filter, hs']

/-- The outer loop of `ReduceSolutions` on solutions of one lattice sorted by non-increasing
score: the solutions kept are a sublist of the input in which no solution is similar to
one before it. -/
theorem ReduceSolutions_loop_sorted (sqrt acos : K → K) (lat : CrystalSystem) :
    ∀ (n : Nat) (mv v2 : List (RecUnitCell K × K)), mv.length ≤ n →
      (∀ e ∈ mv, e.1.mlattice = lat) → mv.Pairwise (fun a b => b.2 ≤ a.2) →
      ∃ res, CellExplorer.ReduceSolutions.loop sqrt acos mv v2 = v2 ++ res ∧
        res.Sublist mv ∧
        res.Pairwise (fun a b => SimilarRUC sqrt acos b.1 a.1 (5/1000) = false) := by
  intro n
  induction n with
  | zero =>
    intro mv v2 hlen _ _
    have : mv = [] := List.length_eq_zero.1 (by omega)
    subst this
    refine ⟨[], ?_, List.Sublist.refl _, List.Pairwise.nil⟩
    rw [CellExplorer.ReduceSolutions.loop]
    simp
  | succ n ih =>
    intro mv v2 hlen hlat hsorted
    cases mv with
    | nil =>
      refine ⟨[], ?_, List.Sublist.refl _, List.Pairwise.nil⟩
      rw [CellExplorer.ReduceSolutions.loop]
      simp
    | cons front rest =>
      obtain ⟨hfront, hrest⟩ := List.pairwise_cons.1 hsorted
      have hin := ReduceSolutions_inner_keep sqrt acos front rest (fun pos hpos =>
        ⟨(hlat pos (List.mem_cons_of_mem _ hpos)).trans
          (hlat front (List.mem_cons_self _ _)).symm, hfront pos hpos⟩)
      have hsub : (rest.filter (fun pos => !SimilarRUC sqrt acos pos.1 front.1 (5/1000))).Sublist
          rest := List.filter_sublist _
      obtain ⟨res, hres, hsubres, hpair⟩ := ih
        (rest.filter (fun pos => !SimilarRUC sqrt acos pos.1 front.1 (5/1000)))
        (v2 ++ [front])
        (by have := hsub.length_le; simp only [List.length_cons] at hlen; omega)
        (fun e he => hlat e (List.mem_cons_of_mem _ (hsub.subset he)))
        (hrest.sublist hsub)
      refine ⟨front :: res, ?_, ?_, ?_⟩
      · rw [CellExplorer.ReduceSolutions.loop]
        simp only [hin.1, hin.2]
        rw [hres]
        simp
      · exact (hsubres.trans hsub).cons₂ front
      · refine List.pairwise_cons.2 ⟨?_, hpair⟩
        intro b hb
        have hb' := hsubres.subset hb
        simpa using (List.mem_filter.1 hb').2

/-- The sort of `ReduceSolutions` leaves a list sorted by non-increasing score as it is. -/
theorem listSort_compareRUCScore_of_sorted (l : List (RecUnitCell K × K))
    (h : l.Pairwise (fun a b => b.2 ≤ a.2)) : listSort compareRUCScore l = l := by
  have heq : (fun a b : RecUnitCell K × K => compareRUCScore b a = false)
      = (fun a b => b.2 ≤ a.2) := by
    funext a b
    simp [compareRUCScore]
  have hs : l.Sorted (fun a b : RecUnitCell K × K => compareRUCScore b a = false) := by
    rw [heq]; exact h
  simp only [listSort]
  exact List.Sorted.insertionSort_eq hs

/-- The function `ReduceSolutions` on solutions of one lattice sorted by non-increasing
score. -/
theorem ReduceSolutions_of_sorted (sqrt acos : K → K) (lat : CrystalSystem)
    (mv : List (RecUnitCell K × K)) (hlat : ∀ e ∈ mv, e.1.mlattice = lat)
    (hsorted : mv.Pairwise (fun a b => b.2 ≤ a.2)) :
    (CellExplorer.ReduceSolutions sqrt acos mv).Sublist mv ∧
    (CellExplorer.ReduceSolutions sqrt acos mv).Pairwise
      (fun a b => SimilarRUC sqrt acos b.1 a.1 (5/1000) = false) ∧
    CellExplorer.ReduceSolutions sqrt acos (CellExplorer.ReduceSolutions sqrt acos mv)
      = CellExplorer.ReduceSolutions sqrt acos mv := by
  obtain ⟨res, hres, hsub, hpair⟩ :=
    ReduceSolutions_loop_sorted sqrt acos lat mv.length mv [] (le_refl _) hlat hsorted
  have hred : CellExplorer.ReduceSolutions sqrt acos mv = res := by
    simp only [CellExplorer.ReduceSolutions, hres, List.nil_append]
    exact listSort_compareRUCScore_of_sorted res (hsorted.sublist hsub)
  rw [hred]
  refine ⟨hsub, hpair, ?_⟩
  simp only [CellExplorer.ReduceSolutions]
  rw [ReduceSolutions_loop_dissimilar sqrt acos res hpair []]
  simp only [List.nil_append]
  exact listSort_compareRUCScore_of_sorted res (hsorted.sublist hsub)

/-- On peaks sorted by `d2obs`, the scan of `Score` with its early exit does what the scan
over all peaks does. -/
theorem Score.scanPeaks_eq_scanAll (storehkl : Bool) (d2 : K) (h k l : Int) :
    ∀ ps : List (PeakList.hkl K), ps.Pairwise (fun a b => a.d2obs ≤ b.d2obs) →
      Score.scanPeaks storehkl d2 h k l ps = Score.scanAll storehkl d2 h k l ps := by
  intro ps
  induction ps with
  | nil => intro _; rfl
  | cons p rest ih =>
    intro hs
    obtain ⟨hp, hrest⟩ := List.pairwise_cons.1 hs
    have ih' := ih hrest
    simp only [Score.scanAll] at ih' ⊢
    simp only [Score.scanPeaks, List.map_cons]
    by_cases h1 : d2 - p.d2obs < 1/10
    · by_cases h2 : d2 - p.d2obs < -(1/10)
      · have hfp : Score.fitPeak storehkl d2 h k l p = p := by
          simp only [Score.fitPeak]
          rw [if_neg]
          intro hc
          linarith [hc.1]
        have hfr : rest.map (Score.fitPeak storehkl d2 h k l) = rest := by
          conv_rhs => rw [← List.map_id rest]
          apply List.map_congr_left
          intro q hq
          simp only [Score.fitPeak, id]
          rw [if_neg]
          intro hc
          have := hp q hq
          linarith [hc.1]
        simp only [h1, h2, if_true, hfp, hfr]
      · by_cases h3 : |d2 - p.d2obs| < |p.d2diff|
        · have hfp : Score.fitPeak storehkl d2 h k l p
              = Score.assign storehkl (d2 - p.d2obs) d2 h k l p := by
            simp only [Score.fitPeak]
            rw [if_pos ⟨not_lt.1 h2, h1, h3⟩]
          simp only [h1, h2, h3, if_true, if_false, hfp, ih']
        · have hfp : Score.fitPeak storehkl d2 h k l p = p := by
            simp only [Score.fitPeak]
            rw [if_neg]
            intro hc
            exact h3 hc.2.2
          simp only [h1, h2, h3, if_true, if_false, hfp, ih']
    · have hfp : Score.fitPeak storehkl d2 h k l p = p := by
        simp only [Score.fitPeak]
        rw [if_neg]
        intro hc
        exact h1 hc.2.1
      simp only [h1, if_false, hfp, ih']

/-- The update of a peak by a reflection leaves `d2obs` as it is. -/
theorem Score.fitPeak_d2obs (storehkl : Bool) (d2 : K) (h k l : Int) (p : PeakList.hkl K) :
    (Score.fitPeak storehkl d2 h k l p).d2obs = p.d2obs := by
  simp only [Score.fitPeak, Score.assign]
  split_ifs <;> rfl

/-- The value of `d2diff` after the update of a peak by a reflection. -/
theorem Score.fitPeak_d2diff (storehkl : Bool) (d2 : K) (h k l : Int) (p : PeakList.hkl K) :
    (Score.fitPeak storehkl d2 h k l p).d2diff
      = if -(1/10) ≤ d2 - p.d2obs ∧ d2 - p.d2obs < 1/10 ∧ |d2 - p.d2obs| < |p.d2diff|
        then d2 - p.d2obs else p.d2diff := by
  simp only [Score.fitPeak, Score.assign]
  split_ifs <;> rfl

/-- The updates of one peak by a list of reflections, one after the other: `d2obs` stays,
`|d2diff|` ends at most at `|d2 - d2obs|` for every reflection of the list within the
window, and `d2diff` is the one before or `d2 - d2obs` for a reflection within the
window. -/
theorem Score.fitPeak_foldl (storehkl : Bool) :
    ∀ (gen : List (K × Int × Int × Int)) (p : PeakList.hkl K),
      (gen.foldl (fun q g => Score.fitPeak storehkl g.1 g.2.1 g.2.2.1 g.2.2.2 q) p).d2obs
        = p.d2obs ∧
      |(gen.foldl (fun q g => Score.fitPeak storehkl g.1 g.2.1 g.2.2.1 g.2.2.2 q) p).d2diff|
        ≤ |p.d2diff| ∧
      (∀ g ∈ gen, -(1/10) ≤ g.1 - p.d2obs → g.1 - p.d2obs < 1/10 →
        |(gen.foldl (fun q g => Score.fitPeak storehkl g.1 g.2.1 g.2.2.1 g.2.2.2 q) p).d2diff|
          ≤ |g.1 - p.d2obs|) ∧
      ((gen.foldl (fun q g => Score.fitPeak storehkl g.1 g.2.1 g.2.2.1 g.2.2.2 q) p).d2diff
          = p.d2diff ∨
        ∃ g ∈ gen, -(1/10) ≤ g.1 - p.d2obs ∧ g.1 - p.d2obs < 1/10 ∧
          (gen.foldl (fun q g => Score.fitPeak storehkl g.1 g.2.1 g.2.2.1 g.2.2.2 q) p).d2diff
            = g.1 - p.d2obs) := by
  intro gen
  induction gen with
  | nil =>
    intro p
    exact ⟨rfl, le_refl _, fun g hg => by simp at hg, Or.inl rfl⟩
  | cons g0 rest ih =>
    intro p
    simp only [List.foldl_cons]
    obtain ⟨h1, h2, h3, h4⟩ := ih (Score.fitPeak storehkl g0.1 g0.2.1 g0.2.2.1 g0.2.2.2 p)
    have hobs := Score.fitPeak_d2obs storehkl g0.1 g0.2.1 g0.2.2.1 g0.2.2.2 p
    have hdiff := Score.fitPeak_d2diff storehkl g0.1 g0.2.1 g0.2.2.1 g0.2.2.2 p
    rw [hobs] at h1 h3 h4
    have hstep : |(Score.fitPeak storehkl g0.1 g0.2.1 g0.2.2.1 g0.2.2.2 p).d2diff|
        ≤ |p.d2diff| := by
      rw [hdiff]
      split_ifs with hc
      · exact le_of_lt hc.2.2
      · exact le_refl _
    refine ⟨h1, le_trans h2 hstep, ?_, ?_⟩
    · intro g hg hlo hhi
      rcases List.mem_cons.1 hg with rfl | hg
      · refine le_trans h2 ?_
        rw [hdiff]
        split_ifs with hc
        · exact le_refl _
        · by_contra hcon
          exact hc ⟨hlo, hhi, not_le.1 hcon⟩
      · exact h3 g hg hlo hhi
    · rcases h4 with h4 | ⟨g, hg, hlo, hhi, heq⟩
      · rw [h4, hdiff]
        split_ifs with hc
        · exact Or.inr ⟨g0, List.mem_cons_self _ _, hc.1, hc.2.1, rfl⟩
        · exact Or.inl rfl
      · exact Or.inr ⟨g, List.mem_cons_of_mem _ hg, hlo, hhi, heq⟩

/-- The scans over all peaks for a list of reflections update each peak on its own. -/
theorem Score.scanAll_foldl (storehkl : Bool) :
    ∀ (gen : List (K × Int × Int × Int)) (ps : List (PeakList.hkl K)),
      gen.foldl (fun qs g => Score.scanAll storehkl g.1 g.2.1 g.2.2.1 g.2.2.2 qs) ps
        = ps.map (fun p =>
            gen.foldl (fun q g => Score.fitPeak storehkl g.1 g.2.1 g.2.2.1 g.2.2.2 q) p) := by
  intro gen
  induction gen with
  | nil => intro ps; simp
  | cons g rest ih =>
    intro ps
    simp only [List.foldl_cons]
    rw [ih]
    simp only [Score.scanAll, List.map_map]
    rfl

/-- The peaks at the end of the enumeration of `Score`, for peaks sorted by `d2obs`: there
is a list of the reflections counted, in the order of the enumeration, such that the peaks
are the ones that the scans over all peaks for these reflections give; it has `nbCalc`
entries, and when the predicted reflections are stored they are its entries. -/
theorem Score.enumerate_scanAll (ruc : RecUnitCell K) (dmax : K) (storehkl sp : Bool)
    (fh fk fl : Nat) (peaks predicted : List (PeakList.hkl K)) (s : ScoreState K)
    (hsorted : peaks.Pairwise (fun a b => a.d2obs ≤ b.d2obs))
    (hrun : Score.enumerate ruc dmax storehkl sp fh fk fl peaks predicted = some s) :
    ∃ gen : List (K × Int × Int × Int),
      s.peaks = gen.foldl (fun qs g => Score.scanAll storehkl g.1 g.2.1 g.2.2.1 g.2.2.2 qs)
        peaks ∧
      s.nbCalc = gen.length ∧
      (sp = true → s.predicted = predicted ++
        gen.map (fun g => PeakList.hkl.new 0 0 0 0 g.2.1 g.2.2.1 g.2.2.2 g.1)) := by
  refine Score.loopH_inv (fun t => ∃ gen : List (K × Int × Int × Int),
      t.peaks = gen.foldl (fun qs g => Score.scanAll storehkl g.1 g.2.1 g.2.2.1 g.2.2.2 qs)
        peaks ∧
      t.nbCalc = gen.length ∧
      (sp = true → t.predicted = predicted ++
        gen.map (fun g => PeakList.hkl.new 0 0 0 0 g.2.1 g.2.2.1 g.2.2.2 g.1)))
    ruc dmax storehkl sp fk fl ?_ ?_ ?_ fh 0 _ s ⟨[], rfl, rfl, fun _ => by simp⟩ hrun
  · rintro d2 h k l t ⟨gen, hp, hn, hpred⟩
    refine ⟨gen ++ [(d2, h, k, l)], ?_, ?_, ?_⟩
    · simp only [Score.visit, List.foldl_append, List.foldl_cons, List.foldl_nil]
      rw [← hp]
      apply Score.scanPeaks_eq_scanAll
      rw [hp, Score.scanAll_foldl]
      rw [List.pairwise_map]
      refine hsorted.imp ?_
      intro a b hab
      rw [(Score.fitPeak_foldl storehkl gen a).1, (Score.fitPeak_foldl storehkl gen b).1]
      exact hab
    · simp only [Score.visit, hn, List.length_append, List.length_singleton]
    · intro hsp
      simp only [Score.visit, hsp, if_true, hpred hsp, List.map_append, List.map_cons,
        List.map_nil, List.append_assoc]
  · rintro t ⟨gen, hp, hn, hpred⟩
    exact ⟨gen, hp, hn, hpred⟩
  · rintro t ⟨gen, hp, hn, hpred⟩
    exact ⟨gen, hp, hn, hpred⟩

/-- The first loop of `Score` leaves `d2obs` as it is and sets `d2diff` to 1000. -/
theorem Score.reset_mem (storehkl : Bool) (peaks : List (PeakList.hkl K))
    (p : PeakList.hkl K) (hp : p ∈ Score.reset storehkl peaks) :
    p.d2diff = 1000 ∧ ∃ q ∈ peaks, p.d2obs = q.d2obs := by
  simp only [Score.reset, List.mem_map] at hp
  obtain ⟨q, hq, rfl⟩ := hp
  exact ⟨rfl, q, hq, rfl⟩

/-- A write on a slot leaves the lattice as it is. -/
theorem RecUnitCell.setPar_lattice (c : RecUnitCell K) (i : Nat) (x : K) :
    (c.setPar i x).mlattice = c.mlattice := by
  unfold RecUnitCell.setPar
  split <;> rfl

/-- The sums of the axis fast path when every counted peak lies at `h` times one value for
its axis: each sum is the count times the value. -/
theorem RDicVol.axisSums_exact (peaks : List (PeakList.hkl K)) (x y z : K)
    (hx : ∀ p ∈ peaks, ∀ h0 : PeakList.hkl0, p.vDicVolHKL = [h0] → h0.k = 0 → h0.l = 0 →
      h0.h ≠ 0 ∧ p.dobs = (h0.h : K) * x)
    (hy : ∀ p ∈ peaks, ∀ h0 : PeakList.hkl0, p.vDicVolHKL = [h0] → h0.h = 0 → h0.l = 0 →
      h0.k ≠ 0 → p.dobs = (h0.k : K) * y)
    (hz : ∀ p ∈ peaks, ∀ h0 : PeakList.hkl0, p.vDicVolHKL = [h0] → h0.h = 0 → h0.k = 0 →
      h0.l ≠ 0 → p.dobs = (h0.l : K) * z) :
    (RDicVol.axisSums peaks).q0 = ((RDicVol.axisSums peaks).n0 : K) * x ∧
    (RDicVol.axisSums peaks).q1 = ((RDicVol.axisSums peaks).n1 : K) * y ∧
    (RDicVol.axisSums peaks).q2 = ((RDicVol.axisSums peaks).n2 : K) * z := by
  unfold RDicVol.axisSums
  have key : ∀ (ps : List (PeakList.hkl K)) (init : RDicVol.AxisSums K),
      (∀ p ∈ ps, p ∈ peaks) →
      (init.q0 = (init.n0 : K) * x ∧ init.q1 = (init.n1 : K) * y ∧ init.q2 = (init.n2 : K) * z) →
      ∀ out, out = ps.foldl (fun vq0 pos =>
        if pos.vDicVolHKL.length = 1 then
          match pos.vDicVolHKL.head? with
          | none => vq0
          | some h0 =>
            if h0.k = 0 ∧ h0.l = 0 then
              { vq0 with n0 := vq0.n0 + 1, q0 := vq0.q0 + pos.dobs / (h0.h : K) }
            else if h0.h = 0 ∧ h0.l = 0 then
              { vq0 with n1 := vq0.n1 + 1, q1 := vq0.q1 + pos.dobs / (h0.k : K) }
            else if h0.h = 0 ∧ h0.k = 0 then
              { vq0 with n2 := vq0.n2 + 1, q2 := vq0.q2 + pos.dobs / (h0.l : K) }
            else vq0
        else vq0) init →
      (out.q0 = (out.n0 : K) * x ∧ out.q1 = (out.n1 : K) * y ∧ out.q2 = (out.n2 : K) * z) := by
    intro ps
    induction ps with
    | nil => intro init _ hinit out hout; subst hout; exact hinit
    | cons pos rest ih =>
      intro init hmem hinit out hout
      rw [List.foldl_cons] at hout
      refine ih _ (fun p hp => hmem p (List.mem_cons_of_mem _ hp)) ?_ out hout
      have hpos : pos ∈ peaks := hmem pos (List.mem_cons_self _ _)
      obtain ⟨i0, i1, i2⟩ := hinit
      rcases hl : pos.vDicVolHKL with _ | ⟨h0, _ | ⟨h1, t⟩⟩
      · simp [i0, i1, i2]
      · simp only [List.length_singleton, if_true, List.head?_cons]
        by_cases c0 : h0.k = 0 ∧ h0.l = 0
        · obtain ⟨hne, hd⟩ := hx pos hpos h0 hl c0.1 c0.2
          have hne2 : (h0.h : K) ≠ 0 := by exact_mod_cast hne
          rw [if_pos c0]
          refine ⟨?_, i1, i2⟩
          show init.q0 + pos.dobs / (h0.h : K) = ((init.n0 + 1 : Nat) : K) * x
          rw [hd, i0]
          field_simp
          ring
        · rw [if_neg c0]
          by_cases c1 : h0.h = 0 ∧ h0.l = 0
          · have hk : h0.k ≠ 0 := fun hk => c0 ⟨hk, c1.2⟩
            have hd := hy pos hpos h0 hl c1.1 c1.2 hk
            have hne2 : (h0.k : K) ≠ 0 := by exact_mod_cast hk
            rw [if_pos c1]
            refine ⟨i0, ?_, i2⟩
            show init.q1 + pos.dobs / (h0.k : K) = ((init.n1 + 1 : Nat) : K) * y
            rw [hd, i1]
            field_simp
            ring
          · rw [if_neg c1]
            by_cases c2 : h0.h = 0 ∧ h0.k = 0
            · have hlne : h0.l ≠ 0 := fun hl0 => c0 ⟨c2.2, hl0⟩
              have hd := hz pos hpos h0 hl c2.1 c2.2 hlne
              have hne2 : (h0.l : K) ≠ 0 := by exact_mod_cast hlne
              rw [if_pos c2]
              refine ⟨i0, i1, ?_⟩
              show init.q2 + pos.dobs / (h0.l : K) = ((init.n2 + 1 : Nat) : K) * z
              rw [hd, i2]
              field_simp
              ring
            · rw [if_neg c2]
              exact ⟨i0, i1, i2⟩
      · simp [i0, i1, i2]
  exact key peaks _ (fun p hp => hp) (by simp) _ rfl

/-- One line of the axis fast path keeps a cell inside the box when the sum is the count
times the cell's value on the slot. -/
theorem RDicVol.jump_inBox (report n : Nat) (q : K) (i v : Nat)
    (st st1 : RecUnitCell K × RecUnitCell K × List Nat) (c : RecUnitCell K) (S : List Nat)
    (hi : i ≤ 6) (hq : q = (n : K) * c.par i)
    (hjump : RDicVol.jump report n q i v st = .ok st1)
    (hbox : ∀ j ∈ S, st.1.par j - st.2.1.par j ≤ c.par j ∧ c.par j ≤ st.1.par j + st.2.1.par j) :
    st1.1.mlattice = st.1.mlattice ∧
    ∀ j ∈ S, st1.1.par j - st1.2.1.par j ≤ c.par j ∧ c.par j ≤ st1.1.par j + st1.2.1.par j := by
  unfold RDicVol.jump at hjump
  by_cases hn : n > 0
  · simp only [hn, if_true] at hjump
    cases hw : vecWrite st.2.2 v report with
    | error e => rw [hw] at hjump; simp at hjump
    | ok vd =>
      rw [hw] at hjump
      simp only [Except.ok.injEq] at hjump
      subst hjump
      refine ⟨RecUnitCell.setPar_lattice _ _ _, ?_⟩
      intro j hj
      by_cases hji : i = j
      · subst hji
        simp only [RecUnitCell.par_setPar_self _ _ _ hi]
        have hn2 : (n : K) ≠ 0 := by exact_mod_cast (Nat.pos_iff_ne_zero.1 hn)
        have hmean : q / (n : K) = c.par i := by rw [hq]; field_simp
        have hd : 0 ≤ st.2.1.par i := by
          have := hbox i hj
          linarith [this.1, this.2]
        have hd2 : 0 ≤ st.2.1.par i * (625/10000) := mul_nonneg hd (by norm_num)
        rw [hmean]
        constructor <;> linarith
      · simp only [RecUnitCell.par_setPar_ne _ _ _ _ hji]
        exact hbox j hj
  · simp only [hn, if_false, Except.ok.injEq] at hjump
    subst hjump
    exact ⟨rfl, hbox⟩

/-- The three lines of a case of the axis fast path keep a cell inside the box when each
sum is the count times the cell's value on the slot. -/
theorem RDicVol.jumps_inBox (report : Nat) (vq0 : RDicVol.AxisSums K) (v0 : Nat)
    (st st1 : RecUnitCell K × RecUnitCell K × List Nat) (c : RecUnitCell K) (S : List Nat)
    (hq : vq0.q0 = (vq0.n0 : K) * c.par 1 ∧ vq0.q1 = (vq0.n1 : K) * c.par 2 ∧
      vq0.q2 = (vq0.n2 : K) * c.par 3)
    (hjump : RDicVol.jumps report vq0 v0 st = .ok st1)
    (hbox : ∀ j ∈ S, st.1.par j - st.2.1.par j ≤ c.par j ∧ c.par j ≤ st.1.par j + st.2.1.par j) :
    st1.1.mlattice = st.1.mlattice ∧
    ∀ j ∈ S, st1.1.par j - st1.2.1.par j ≤ c.par j ∧ c.par j ≤ st1.1.par j + st1.2.1.par j := by
  unfold RDicVol.jumps at hjump
  cases h1 : RDicVol.jump report vq0.n0 vq0.q0 1 v0 st with
  | error e => rw [h1] at hjump; simp at hjump
  | ok s1 =>
    rw [h1] at hjump
    simp only at hjump
    obtain ⟨l1, b1⟩ := RDicVol.jump_inBox report _ _ 1 v0 st s1 c S (by omega) hq.1 h1 hbox
    cases h2 : RDicVol.jump report vq0.n1 vq0.q1 2 (v0 + 1) s1 with
    | error e => rw [h2] at hjump; simp at hjump
    | ok s2 =>
      rw [h2] at hjump
      simp only at hjump
      obtain ⟨l2, b2⟩ := RDicVol.jump_inBox report _ _ 2 (v0+1) s1 s2 c S (by omega) hq.2.1 h2 b1
      obtain ⟨l3, b3⟩ := RDicVol.jump_inBox report _ _ 3 (v0+2) s2 st1 c S (by omega) hq.2.2
        hjump b2
      exact ⟨l3.trans (l2.trans l1), b3⟩

/-- The `switch` of the axis fast path keeps a cell inside the box when each sum is the
count times the cell's value on the slot. -/
theorem RDicVol.axisJump_inBox (lattice : CrystalSystem) (report : Nat)
    (vq0 : RDicVol.AxisSums K)
    (st st1 : RecUnitCell K × RecUnitCell K × List Nat) (c : RecUnitCell K) (S : List Nat)
    (hq : vq0.q0 = (vq0.n0 : K) * c.par 1 ∧ vq0.q1 = (vq0.n1 : K) * c.par 2 ∧
      vq0.q2 = (vq0.n2 : K) * c.par 3)
    (hjump : RDicVol.axisJump lattice report vq0 st = .ok st1)
    (hbox : ∀ j ∈ S, st.1.par j - st.2.1.par j ≤ c.par j ∧ c.par j ≤ st.1.par j + st.2.1.par j) :
    st1.1.mlattice = st.1.mlattice ∧
    ∀ j ∈ S, st1.1.par j - st1.2.1.par j ≤ c.par j ∧ c.par j ≤ st1.1.par j + st1.2.1.par j := by
  cases lattice <;> simp only [RDicVol.axisJump] at hjump
  · exact RDicVol.jumps_inBox report vq0 1 st st1 c S hq hjump hbox
  · exact RDicVol.jumps_inBox report vq0 0 st st1 c S hq hjump hbox
  · exact RDicVol.jumps_inBox report vq0 0 st st1 c S hq hjump hbox
  all_goals
    simp only [Except.ok.injEq] at hjump
    subst hjump
    exact ⟨rfl, hbox⟩

/-- The box of the node that `RDicVol.prepare` leaves at depth 0: either the box of the
call, or the one that the axis fast path makes of it from the peaks of the first call of
`DichoIndexed`. -/
theorem RDicVol.prepare_box (fh fk fl : Nat) (self : CellExplorer K)
    (uc0 duc : RecUnitCell K) (vdepth : List Nat) (node : RDicVol.Node K)
    (hrun : RDicVol.prepare fh fk fl self uc0 duc 0 vdepth = .ok node) :
    (node.uc0 = uc0 ∧ node.duc = duc) ∨
    ∃ (r : Bool × PeakList K) (st : RecUnitCell K × RecUnitCell K × List Nat),
      DichoIndexed fh fk fl self.mpPeakList uc0 duc self.mNbSpurious 2 = .ok r ∧
      RDicVol.axisJump self.mlattice self.mDicVolDepthReport (RDicVol.axisSums r.2.mvHKL)
        (uc0, duc, RDicVol.initDepths self.mnpar 0 vdepth) = .ok st ∧
      node.uc0 = st.1 ∧ node.duc = st.2.1 := by
  unfold RDicVol.prepare at hrun
  simp only [if_true] at hrun
  cases hd : DichoIndexed fh fk fl self.mpPeakList uc0 duc self.mNbSpurious 2 with
  | error e => rw [hd] at hrun; simp at hrun
  | ok r =>
    rw [hd] at hrun
    simp only [true_and] at hrun
    by_cases hs : self.mNbSpurious = 0
    · simp only [hs, if_true] at hrun
      cases hj : RDicVol.axisJump self.mlattice self.mDicVolDepthReport
          (RDicVol.axisSums r.2.mvHKL) (uc0, duc, RDicVol.initDepths self.mnpar 0 vdepth) with
      | error e => rw [hj] at hrun; simp at hrun
      | ok st =>
        rw [hj] at hrun
        simp only at hrun
        right
        refine ⟨r, st, rfl, hj, ?_⟩
        split at hrun
        · split at hrun
          · simp at hrun
          · simp only [Except.ok.injEq] at hrun
            subst hrun
            exact ⟨rfl, rfl⟩
        · simp only [Except.ok.injEq] at hrun
          subst hrun
          exact ⟨rfl, rfl⟩
    · simp only [hs, if_false, Except.ok.injEq] at hrun
      subst hrun
      exact Or.inl ⟨rfl, rfl⟩

set_option maxHeartbeats 8000000 in
/-- The first call of `DichoIndexed` for `tallExplorer` on the box `tallCell` ±
`tallHalfWidth`: the peak gets the single candidate (0,0,1). -/
theorem tallExplorer_candidates (fh fk fl : Nat) :
    (DichoIndexed (fh+2) (fk+2) (fl+2) tallExplorer.mpPeakList tallCell tallHalfWidth
        tallExplorer.mNbSpurious 2).map
        (fun r => r.2.mvHKL.map (fun p => (p.dobs, p.vDicVolHKL)))
      = .ok [(1, [⟨0, 0, 1⟩])] := by
  norm_num [DichoIndexed, DichoIndexed.loopH, DichoIndexed.loopSK, DichoIndexed.loopK,
    DichoIndexed.loopSL, DichoIndexed.loopL, DichoIndexed.peakLoop, DichoIndexed.overlaps,
    broadPeak, tallCell, tallHalfWidth, tallExplorer, explorerOn,
    PeakList.hkl.new, signK0, signL0, Score.slStart, RecUnitCell.hkl2d_delta,
    Except.map]

set_option maxHeartbeats 8000000 in
/-- The start of `RDicVol` for `tallExplorer` on the box `tallCell` ± `tallHalfWidth` at
depth 0: the axis fast path sets c* to 1 and its half-width to 1/80. -/
theorem tallExplorer_prepare (fh fk fl : Nat) :
    (RDicVol.prepare (fh+2) (fk+2) (fl+2) tallExplorer tallCell tallHalfWidth 0 []).map
        (fun n => (n.uc0, n.duc))
      = .ok (tallCell, ⟨0, 0, 0, 1/80, 0, 0, 0, ORTHOROMBIC⟩) := by
  norm_num [RDicVol.prepare, RDicVol.axisSums, RDicVol.axisJump, RDicVol.jumps, RDicVol.jump,
    RDicVol.initDepths, vecWrite, RecUnitCell.setPar, RecUnitCell.par,
    DichoIndexed, DichoIndexed.loopH, DichoIndexed.loopSK, DichoIndexed.loopK,
    DichoIndexed.loopSL, DichoIndexed.loopL, DichoIndexed.peakLoop, DichoIndexed.overlaps,
    DichoIndexed.storedLoop,
    broadPeak, tallCell, tallHalfWidth, tallExplorer, explorerOn,
    PeakList.hkl.new, signK0, signL0, Score.slStart, RecUnitCell.hkl2d_delta,
    Except.map]

/-- The members that `Init` leaves as they are, and the range of the `mnpar` it sets. -/
theorem CellExplorer.Init_depths (cos : K → K) (self : CellExplorer K) :
    (CellExplorer.Init cos self).mMaxDicVolDepth = self.mMaxDicVolDepth ∧
    (CellExplorer.Init cos self).mDicVolDepthReport = self.mDicVolDepthReport ∧
    2 ≤ (CellExplorer.Init cos self).mnpar ∧ (CellExplorer.Init cos self).mnpar ≤ 7 := by
  unfold CellExplorer.Init
  cases self.mlattice <;> simp

/-- The object as the start of `DicVol` leaves it, for depths that fit in 32 bits. -/
theorem CellExplorer.DicVol.setup_depths (cos : K → K) (minScore : K) (minDepth : Nat)
    (self0 self : CellExplorer K)
    (hmin : minDepth < 4294967296) (hmax : self0.mMaxDicVolDepth < 4294967296)
    (hsetup : CellExplorer.DicVol.setup cos minScore minDepth self0 = .ok self) :
    self.mDicVolDepthReport = minDepth ∧
    self.mMaxDicVolDepth
      = (if minDepth > self0.mMaxDicVolDepth then minDepth else self0.mMaxDicVolDepth) ∧
    self.mvNbSolutionDepth.length = self.mMaxDicVolDepth + 1 ∧
    2 ≤ self.mnpar ∧ self.mnpar ≤ 7 := by
  obtain ⟨i1, i2, i3, i4⟩ := CellExplorer.Init_depths cos
    { self0 with mDicVolDepthReport := minDepth, mMinScoreReport := minScore }
  unfold CellExplorer.DicVol.setup at hsetup
  simp only [i1] at hsetup
  by_cases hsize : ((if minDepth > self0.mMaxDicVolDepth then minDepth
      else self0.mMaxDicVolDepth) + 1) % 4294967296 = 0
  · simp only [hsize, if_true] at hsetup
    cases hsetup
  · simp only [hsize, if_false, Except.ok.injEq] at hsetup
    subst hsetup
    simp only [List.length_replicate]
    refine ⟨i2, trivial, ?_, i3, i4⟩
    by_cases hgt : minDepth > self0.mMaxDicVolDepth
    · simp only [hgt, if_true] at hsize ⊢
      omega
    · simp only [hgt, if_false] at hsize ⊢
      omega

omit [LinearOrderedField K] in
/-- The minimum loop of the depth jump: its result is at most the start value and at most
every entry. -/
theorem RDicVol.newdepth_le (l : List Nat) :
    ∀ a : Nat, l.foldl (fun nd d => if d < nd then d else nd) a ≤ a ∧
      ∀ d ∈ l, l.foldl (fun nd d => if d < nd then d else nd) a ≤ d := by
  induction l with
  | nil => intro a; simp
  | cons x rest ih =>
    intro a
    simp only [List.foldl_cons, List.mem_cons]
    obtain ⟨h1, h2⟩ := ih (if x < a then x else a)
    by_cases hxa : x < a
    · simp only [hxa, if_true] at h1 h2 ⊢
      refine ⟨by omega, ?_⟩
      rintro d (rfl | hd)
      · exact h1
      · exact h2 d hd
    · simp only [hxa, if_false] at h1 h2 ⊢
      refine ⟨h1, ?_⟩
      rintro d (rfl | hd)
      · omega
      · exact h2 d hd

/-- One line of the axis fast path keeps the size of `vdepth`, and an entry of the new
vector is an old one or `mDicVolDepthReport`. -/
theorem RDicVol.jump_vdepth (report n : Nat) (q : K) (i v : Nat)
    (st st1 : RecUnitCell K × RecUnitCell K × List Nat)
    (hjump : RDicVol.jump report n q i v st = .ok st1) :
    st1.2.2.length = st.2.2.length ∧ ∀ d ∈ st1.2.2, d ∈ st.2.2 ∨ d = report := by
  unfold RDicVol.jump at hjump
  by_cases hn : n > 0
  · simp only [hn, if_true, vecWrite] at hjump
    by_cases hv : v < st.2.2.length
    · simp only [hv, if_true, Except.ok.injEq] at hjump
      subst hjump
      exact ⟨List.length_set _ _ _, fun d hd => List.mem_or_eq_of_mem_set hd⟩
    · simp only [hv, if_false] at hjump
      cases hjump
  · simp only [hn, if_false, Except.ok.injEq] at hjump
    subst hjump
    exact ⟨rfl, fun d hd => Or.inl hd⟩

/-- The `switch` of the axis fast path keeps the size of `vdepth`, and an entry of the new
vector is an old one or `mDicVolDepthReport`. -/
theorem RDicVol.axisJump_vdepth (lattice : CrystalSystem) (report : Nat)
    (vq0 : RDicVol.AxisSums K) (st st1 : RecUnitCell K × RecUnitCell K × List Nat)
    (hjump : RDicVol.axisJump lattice report vq0 st = .ok st1) :
    st1.2.2.length = st.2.2.length ∧ ∀ d ∈ st1.2.2, d ∈ st.2.2 ∨ d = report := by
  have key : ∀ v0, RDicVol.jumps report vq0 v0 st = .ok st1 →
      st1.2.2.length = st.2.2.length ∧ ∀ d ∈ st1.2.2, d ∈ st.2.2 ∨ d = report := by
    intro v0 hj
    unfold RDicVol.jumps at hj
    cases h1 : RDicVol.jump report vq0.n0 vq0.q0 1 v0 st with
    | error e => rw [h1] at hj; simp at hj
    | ok s1 =>
      rw [h1] at hj
      simp only at hj
      obtain ⟨l1, m1⟩ := RDicVol.jump_vdepth report _ _ 1 v0 st s1 h1
      cases h2 : RDicVol.jump report vq0.n1 vq0.q1 2 (v0 + 1) s1 with
      | error e => rw [h2] at hj; simp at hj
      | ok s2 =>
        rw [h2] at hj
        simp only at hj
        obtain ⟨l2, m2⟩ := RDicVol.jump_vdepth report _ _ 2 (v0+1) s1 s2 h2
        obtain ⟨l3, m3⟩ := RDicVol.jump_vdepth report _ _ 3 (v0+2) s2 st1 hj
        refine ⟨l3.trans (l2.trans l1), ?_⟩
        intro d hd
        rcases m3 d hd with h | h
        · rcases m2 d h with h | h
          · exact m1 d h
          · exact Or.inr h
        · exact Or.inr h
  cases lattice <;> simp only [RDicVol.axisJump] at hjump
  · exact key 1 hjump
  · exact key 0 hjump
  · exact key 0 hjump
  all_goals
    simp only [Except.ok.injEq] at hjump
    subst hjump
    exact ⟨rfl, fun d hd => Or.inl hd⟩

/-- The depth of the node that `RDicVol.prepare` leaves: the depth of the call, except at
depth 0, where it is 0 or the minimum that the depth jump takes over the per-parameter
depths after the axis fast path. -/
theorem RDicVol.prepare_depth (fh fk fl : Nat) (self : CellExplorer K)
    (uc0 duc : RecUnitCell K) (depth : Nat) (vdepth : List Nat) (node : RDicVol.Node K)
    (hrun : RDicVol.prepare fh fk fl self uc0 duc depth vdepth = .ok node) :
    node.depth = depth ∨
    (depth = 0 ∧ ∃ (vq0 : RDicVol.AxisSums K) (st : RecUnitCell K × RecUnitCell K × List Nat),
      RDicVol.axisJump self.mlattice self.mDicVolDepthReport vq0
        (uc0, duc, RDicVol.initDepths self.mnpar 0 vdepth) = .ok st ∧
      node.depth = st.2.2.foldl (fun nd d => if d < nd then d else nd) 40) := by
  by_cases hd0 : depth = 0
  · subst hd0
    unfold RDicVol.prepare at hrun
    simp only [if_true] at hrun
    cases hd : DichoIndexed fh fk fl self.mpPeakList uc0 duc self.mNbSpurious 2 with
    | error e => rw [hd] at hrun; simp at hrun
    | ok r =>
      rw [hd] at hrun
      simp only [true_and] at hrun
      by_cases hs : self.mNbSpurious = 0
      · simp only [hs, if_true] at hrun
        cases hj : RDicVol.axisJump self.mlattice self.mDicVolDepthReport
            (RDicVol.axisSums r.2.mvHKL) (uc0, duc, RDicVol.initDepths self.mnpar 0 vdepth) with
        | error e => rw [hj] at hrun; simp at hrun
        | ok st =>
          rw [hj] at hrun
          simp only at hrun
          right
          refine ⟨rfl, RDicVol.axisSums r.2.mvHKL, st, hj, ?_⟩
          have hnd : ∀ nd : Nat, (if nd > 0 then nd else 0) = nd := by
            intro nd; split <;> omega
          split at hrun
          · split at hrun
            · simp at hrun
            · simp only [Except.ok.injEq] at hrun
              subst hrun
              exact hnd _
          · simp only [Except.ok.injEq] at hrun
            subst hrun
            exact hnd _
      · simp only [hs, if_false, Except.ok.injEq] at hrun
        subst hrun
        exact Or.inl rfl
  · rw [RDicVol.prepare_stored fh fk fl self uc0 duc depth vdepth hd0] at hrun
    simp only [Except.ok.injEq] at hrun
    subst hrun
    exact Or.inl rfl

/-- The depth of the node is at least the depth of the call. -/
theorem RDicVol.prepare_depth_ge (fh fk fl : Nat) (self : CellExplorer K)
    (uc0 duc : RecUnitCell K) (depth : Nat) (vdepth : List Nat) (node : RDicVol.Node K)
    (hrun : RDicVol.prepare fh fk fl self uc0 duc depth vdepth = .ok node) :
    depth ≤ node.depth := by
  rcases RDicVol.prepare_depth fh fk fl self uc0 duc depth vdepth node hrun with h | h
  · omega
  · omega

/-- At depth 0 with no per-parameter depths passed and `mnpar` between 2 and 7, the depth
of the node is at most `mDicVolDepthReport`. -/
theorem RDicVol.prepare_depth_root (fh fk fl : Nat) (self : CellExplorer K)
    (uc0 duc : RecUnitCell K) (node : RDicVol.Node K)
    (hn : 2 ≤ self.mnpar ∧ self.mnpar ≤ 7)
    (hrun : RDicVol.prepare fh fk fl self uc0 duc 0 [] = .ok node) :
    node.depth ≤ self.mDicVolDepthReport := by
  rcases RDicVol.prepare_depth fh fk fl self uc0 duc 0 [] node hrun with h | ⟨_, vq0, st, hj, h⟩
  · omega
  · obtain ⟨hlen, hmem⟩ := RDicVol.axisJump_vdepth _ _ _ _ _ hj
    have hinit : RDicVol.initDepths self.mnpar 0 []
        = List.replicate ((self.mnpar + 4294967295) % 4294967296) 0 := by
      unfold RDicVol.initDepths
      exact if_pos rfl
    dsimp only at hlen hmem
    rw [hinit] at hmem
    rw [hinit, List.length_replicate] at hlen
    have hpos : 0 < st.2.2.length := by omega
    obtain ⟨d, hd⟩ := List.exists_mem_of_length_pos hpos
    have hle := (RDicVol.newdepth_le st.2.2 40).2 d hd
    rw [h]
    rcases hmem d hd with h0 | h0
    · have := List.eq_of_mem_replicate h0
      omega
    · omega

/-- The calls on the child boxes leave the depth members as every single call does. -/
theorem RDicVol.descend_frame
    (call : RecUnitCell K → Nat → CellExplorer K →
      Option (Except Fault (Nat × Nat × CellExplorer K)))
    (F : Nat × Nat × Nat × Nat)
    (hcall : ∀ uc n s r, s.depthFrame = F → call uc n s = some (.ok r) → r.2.2.depthFrame = F) :
    ∀ (boxes : List (RecUnitCell K)) (d n : Nat) (s : CellExplorer K)
      (r : Nat × Nat × CellExplorer K), s.depthFrame = F →
      RDicVol.descend call boxes d n s = some (.ok r) → r.2.2.depthFrame = F := by
  intro boxes
  induction boxes with
  | nil =>
    intro d n s r hs h
    simp only [RDicVol.descend, Option.some.injEq, Except.ok.injEq] at h
    subst h
    exact hs
  | cons uc rest ih =>
    intro d n s r hs h
    simp only [RDicVol.descend] at h
    cases hc : call uc n s with
    | none => rw [hc] at h; simp at h
    | some res =>
      cases res with
      | error e => rw [hc] at h; simp at h
      | ok r1 =>
        rw [hc] at h
        simp only at h
        exact ih _ _ _ r (hcall uc n s r1 hs hc) h

/-- The values of the calls on the child boxes: the object is left with the depth members
that every single call leaves. -/
theorem RDicVol.childValues_frame
    (call : RecUnitCell K → Nat → CellExplorer K →
      Option (Except Fault (Nat × Nat × CellExplorer K)))
    (F : Nat × Nat × Nat × Nat)
    (hcall : ∀ uc n s r, s.depthFrame = F → call uc n s = some (.ok r) → r.2.2.depthFrame = F) :
    ∀ (boxes : List (RecUnitCell K)) (n : Nat) (s : CellExplorer K)
      (r : List Nat × Nat × CellExplorer K), s.depthFrame = F →
      RDicVol.childValues call boxes n s = some (.ok r) → r.2.2.depthFrame = F := by
  intro boxes
  induction boxes with
  | nil =>
    intro n s r hs h
    simp only [RDicVol.childValues, Option.some.injEq, Except.ok.injEq] at h
    subst h
    exact hs
  | cons uc rest ih =>
    intro n s r hs h
    simp only [RDicVol.childValues] at h
    cases hc : call uc n s with
    | none => rw [hc] at h; simp at h
    | some res =>
      cases res with
      | error e => rw [hc] at h; simp at h
      | ok r1 =>
        rw [hc] at h
        simp only at h
        cases hv : RDicVol.childValues call rest r1.2.1 r1.2.2 with
        | none => rw [hv] at h; simp at h
        | some res1 =>
          cases res1 with
          | error e => rw [hv] at h; simp at h
          | ok out =>
            rw [hv] at h
            simp only [Option.some.injEq, Except.ok.injEq] at h
            subst h
            exact ih _ _ out (hcall uc n s r1 hs hc) hv

/-- The handling of a leaf leaves the depth members as they are. -/
theorem RDicVol.leaf_frame (sqrt : K → K) (lsq : CellExplorer K → CellExplorer K)
    (fh fk fl : Nat) (uc0 : RecUnitCell K) (depth : Nat) (self s1 : CellExplorer K)
    (h : RDicVol.leaf sqrt lsq fh fk fl uc0 depth self = .ok s1) :
    s1.depthFrame = self.depthFrame := by
  unfold RDicVol.leaf at h
  split at h
  · simp at h
  · split at h
    · simp only at h
      split at h
      · simp at h
      · split at h
        · split at h
          · simp at h
          · simp only [Except.ok.injEq] at h
            subst h
            simp [CellExplorer.depthFrame, CellExplorer.LSQRefine]
        · simp only [Except.ok.injEq] at h
          subst h
          simp [CellExplorer.depthFrame, CellExplorer.LSQRefine]
    · simp only [Except.ok.injEq] at h
      subst h
      simp [CellExplorer.depthFrame]

/-- A call of `RDicVol` that returns leaves the depth members of the object as they
are. -/
theorem RDicVol_frame (sqrt acos : K → K) (lsq : CellExplorer K → CellExplorer K)
    (fh fk fl : Nat) (minV maxV : K) :
    ∀ (gas : Nat) (uc0 duc : RecUnitCell K) (depth nbCalc : Nat) (vdepth : List Nat)
      (self : CellExplorer K) (r : Nat × Nat × CellExplorer K),
      CellExplorer.RDicVol sqrt acos lsq fh fk fl gas uc0 duc depth nbCalc minV maxV vdepth self
        = some (.ok r) → r.2.2.depthFrame = self.depthFrame := by
  intro gas
  induction gas with
  | zero =>
    intro uc0 duc depth nbCalc vdepth self r h
    simp [CellExplorer.RDicVol] at h
  | succ gas ih =>
    intro uc0 duc depth nbCalc vdepth self r h
    by_cases hvol : RDicVol.volumeRejected sqrt acos uc0 duc depth minV maxV = true
    · rw [CellExplorer.RDicVol] at h
      simp only [hvol, if_true, Option.some.injEq, Except.ok.injEq] at h
      subst h
      rfl
    · have hvol2 : RDicVol.volumeRejected sqrt acos uc0 duc depth minV maxV = false := by
        simpa using hvol
      cases hprep : RDicVol.prepare fh fk fl self uc0 duc depth vdepth with
      | error e =>
        rw [CellExplorer.RDicVol] at h
        simp only [hvol2, hprep] at h
        simp at h
      | ok node =>
        rw [RDicVol_of_prepare sqrt acos lsq fh fk fl gas uc0 duc depth nbCalc minV maxV vdepth
          self node hvol2 hprep] at h
        have hdeep : ∀ d : Nat × Nat × CellExplorer K,
            (if node.depth < self.mMaxDicVolDepth then
              match RDicVol.halve self.mnpar node.depth node.vdepth node.duc with
              | .error e => some (.error e)
              | .ok duc1 =>
                match RDicVol.childBoxes self.mnpar node.depth node.vdepth node.uc0 duc1 with
                | .error e => some (.error e)
                | .ok boxes =>
                  RDicVol.descend
                    (fun uc n s =>
                      CellExplorer.RDicVol sqrt acos lsq fh fk fl gas uc duc1 (node.depth + 1)
                        n minV maxV node.vdepth s)
                    boxes 0 (nbCalc + 1) { self with mpPeakList := node.peaks }
            else some (.ok (0, nbCalc + 1, { self with mpPeakList := node.peaks })) :
              Option (Except Fault (Nat × Nat × CellExplorer K))) = some (.ok d) →
            d.2.2.depthFrame = self.depthFrame := by
          intro d hd
          by_cases hlt : node.depth < self.mMaxDicVolDepth
          · simp only [hlt, if_true] at hd
            cases hh : RDicVol.halve self.mnpar node.depth node.vdepth node.duc with
            | error e => rw [hh] at hd; simp at hd
            | ok duc1 =>
              rw [hh] at hd
              simp only at hd
              cases hb : RDicVol.childBoxes self.mnpar node.depth node.vdepth node.uc0 duc1 with
              | error e => rw [hb] at hd; simp at hd
              | ok boxes =>
                rw [hb] at hd
                simp only at hd
                exact RDicVol.descend_frame _ self.depthFrame
                  (fun uc n s r hs hc =>
                    (ih uc duc1 (node.depth + 1) n node.vdepth s r hc).trans hs)
                  boxes 0 (nbCalc + 1) { self with mpPeakList := node.peaks } d rfl hd
          · simp only [hlt, if_false, Option.some.injEq, Except.ok.injEq] at hd
            subst hd
            rfl
        split at h
        · split at h
          · simp at h
          · simp at h
          · rename_i d hd
            have hfd := hdeep d hd
            split at h
            · split at h
              · simp at h
              · rename_i s1 hl
                simp only [Option.some.injEq, Except.ok.injEq] at h
                subst h
                exact (RDicVol.leaf_frame sqrt lsq fh fk fl node.uc0 node.depth d.2.2 s1
                  hl).trans hfd
            · simp only [Option.some.injEq, Except.ok.injEq] at h
              subst h
              exact hfd
        · simp only [Option.some.injEq, Except.ok.injEq] at h
          subst h
          rfl

/-- The calls on the child boxes all return when every single call does. -/
theorem RDicVol.descend_returns
    (call : RecUnitCell K → Nat → CellExplorer K →
      Option (Except Fault (Nat × Nat × CellExplorer K)))
    (F : Nat × Nat × Nat × Nat)
    (hframe : ∀ uc n s r, s.depthFrame = F → call uc n s = some (.ok r) → r.2.2.depthFrame = F)
    (hcall : ∀ uc n s, s.depthFrame = F → ∃ r, call uc n s = some r) :
    ∀ (boxes : List (RecUnitCell K)) (d n : Nat) (s : CellExplorer K), s.depthFrame = F →
      ∃ r, RDicVol.descend call boxes d n s = some r := by
  intro boxes
  induction boxes with
  | nil =>
    intro d n s _
    exact ⟨_, rfl⟩
  | cons uc rest ih =>
    intro d n s hs
    simp only [RDicVol.descend]
    obtain ⟨res, hc⟩ := hcall uc n s hs
    rw [hc]
    cases res with
    | error e => exact ⟨_, rfl⟩
    | ok r1 => exact ih _ _ _ (hframe uc n s r1 hs hc)

/-- A call of `RDicVol` returns when the budget of its recursion is above
`mMaxDicVolDepth - depth`. -/
theorem RDicVol_returns (sqrt acos : K → K) (lsq : CellExplorer K → CellExplorer K)
    (fh fk fl : Nat) (minV maxV : K) :
    ∀ (gas : Nat) (uc0 duc : RecUnitCell K) (depth nbCalc : Nat) (vdepth : List Nat)
      (self : CellExplorer K), self.mMaxDicVolDepth - depth < gas →
      ∃ r, CellExplorer.RDicVol sqrt acos lsq fh fk fl gas uc0 duc depth nbCalc minV maxV
        vdepth self = some r := by
  intro gas
  induction gas with
  | zero => intro uc0 duc depth nbCalc vdepth self h; omega
  | succ gas ih =>
    intro uc0 duc depth nbCalc vdepth self hgas
    by_cases hvol : RDicVol.volumeRejected sqrt acos uc0 duc depth minV maxV = true
    · rw [CellExplorer.RDicVol]
      simp only [hvol, if_true]
      exact ⟨_, rfl⟩
    · have hvol2 : RDicVol.volumeRejected sqrt acos uc0 duc depth minV maxV = false := by
        simpa using hvol
      cases hprep : RDicVol.prepare fh fk fl self uc0 duc depth vdepth with
      | error e =>
        rw [CellExplorer.RDicVol]
        simp only [hvol2, hprep]
        exact ⟨_, rfl⟩
      | ok node =>
        rw [RDicVol_of_prepare sqrt acos lsq fh fk fl gas uc0 duc depth nbCalc minV maxV vdepth
          self node hvol2 hprep]
        have hge := RDicVol.prepare_depth_ge fh fk fl self uc0 duc depth vdepth node hprep
        have hdeep : ∃ D,
            (if node.depth < self.mMaxDicVolDepth then
              match RDicVol.halve self.mnpar node.depth node.vdepth node.duc with
              | .error e => some (.error e)
              | .ok duc1 =>
                match RDicVol.childBoxes self.mnpar node.depth node.vdepth node.uc0 duc1 with
                | .error e => some (.error e)
                | .ok boxes =>
                  RDicVol.descend
                    (fun uc n s =>
                      CellExplorer.RDicVol sqrt acos lsq fh fk fl gas uc duc1 (node.depth + 1)
                        n minV maxV node.vdepth s)
                    boxes 0 (nbCalc + 1) { self with mpPeakList := node.peaks }
            else some (.ok (0, nbCalc + 1, { self with mpPeakList := node.peaks })) :
              Option (Except Fault (Nat × Nat × CellExplorer K))) = some D := by
          by_cases hlt : node.depth < self.mMaxDicVolDepth
          · simp only [hlt, if_true]
            cases hh : RDicVol.halve self.mnpar node.depth node.vdepth node.duc with
            | error e => exact ⟨_, rfl⟩
            | ok duc1 =>
              simp only
              cases hb : RDicVol.childBoxes self.mnpar node.depth node.vdepth node.uc0 duc1 with
              | error e => exact ⟨_, rfl⟩
              | ok boxes =>
                simp only
                refine RDicVol.descend_returns _ self.depthFrame
                  (fun uc n s r hs hc =>
                    (RDicVol_frame sqrt acos lsq fh fk fl minV maxV gas uc duc1 (node.depth + 1)
                      n node.vdepth s r hc).trans hs)
                  (fun uc n s hs => ih uc duc1 (node.depth + 1) n node.vdepth s ?_)
                  boxes 0 (nbCalc + 1) { self with mpPeakList := node.peaks } rfl
                have hm : s.mMaxDicVolDepth = self.mMaxDicVolDepth := congrArg Prod.fst hs
                omega
          · simp only [hlt, if_false]
            exact ⟨_, rfl⟩
        split
        · split
          · rename_i hnone
            obtain ⟨D, hD⟩ := hdeep
            have hbad : some D = none := hD.symm.trans hnone
            cases hbad
          · exact ⟨_, rfl⟩
          · split
            · split <;> exact ⟨_, rfl⟩
            · exact ⟨_, rfl⟩
        · exact ⟨_, rfl⟩

end Lemmas

section Theorems

variable {K : Type} [LinearOrderedField K]

/-- C1. For every lattice system and all h, k, l, `hkl2d` with no derivative requested
(`derivpar = NULL`, `derivhkl = 0`) returns the general reciprocal quadratic form
evaluated under that lattice's parameter sharing. -/
theorem hkl2d_eq_generalForm (c : RecUnitCell K) (h k l : K) :
    c.hkl2d h k l none 0 =
      .ok (generalForm c.par0 (sharedParameters c).1 (sharedParameters c).2.1
            (sharedParameters c).2.2.1 (sharedParameters c).2.2.2.1
            (sharedParameters c).2.2.2.2.1 (sharedParameters c).2.2.2.2.2 h k l) := by
  cases hl : c.mlattice <;>
    simp only [RecUnitCell.hkl2d, sharedParameters, generalForm, hl, and_self, if_true] <;>
    congr 1 <;> ring

/-- C2. For orthorhombic, hexagonal, tetragonal and cubic cells, all (h,k,l) and half-widths
with `0 ≤ delta.par[i] ≤ par[i]` on the metric slots and `delta.par[0] ≥ 0`, `hkl2d_delta`
returns `dmin ≤ dmax`, every cell of the box `c ± delta` has its `hkl2d(h,k,l)` in
`[dmin, dmax]`, and the two bounds are the values of `hkl2d` at the all-minus and all-plus
corners, which are cells of the box. -/
theorem hkl2d_delta_exact_range (c delta : RecUnitCell K) (h k l : K)
    (hlat : c.mlattice = ORTHOROMBIC ∨ c.mlattice = HEXAGONAL ∨
      c.mlattice = TETRAGONAL ∨ c.mlattice = CUBIC)
    (h0 : 0 ≤ delta.par 0)
    (hd : ∀ i ∈ metricSlots c.mlattice, 0 ≤ delta.par i ∧ delta.par i ≤ c.par i) :
    (c.hkl2d_delta h k l delta).1 ≤ (c.hkl2d_delta h k l delta).2 ∧
    (∀ c' : RecUnitCell K, c.inBox delta c' →
      ∃ v, c'.hkl2d h k l none 0 = .ok v ∧
        (c.hkl2d_delta h k l delta).1 ≤ v ∧ v ≤ (c.hkl2d_delta h k l delta).2) ∧
    (c.minusCorner delta).hkl2d h k l none 0 = .ok (c.hkl2d_delta h k l delta).1 ∧
    (c.plusCorner delta).hkl2d h k l none 0 = .ok (c.hkl2d_delta h k l delta).2 ∧
    c.inBox delta (c.minusCorner delta) ∧ c.inBox delta (c.plusCorner delta) := by
  have hh := hex_form_nonneg h k
  have hhh := mul_self_nonneg h
  have hkk := mul_self_nonneg k
  have hll := mul_self_nonneg l
  rcases hlat with hl | hl | hl | hl
  · simp only [hl, metricSlots, List.mem_cons, List.mem_singleton, List.not_mem_nil, or_false,
      forall_eq_or_imp, forall_eq, RecUnitCell.par] at hd h0
    obtain ⟨⟨a1, b1⟩, ⟨a2, b2⟩, ⟨a3, b3⟩⟩ := hd
    refine ⟨?_, ?_, ?_, ?_, ?_, ?_⟩
    · simp only [RecUnitCell.hkl2d_delta, hl]
      have e0 := sq_mul_sq_mono (x := h) (sub_nonneg.2 b1) (by linarith : c.par1 - delta.par1 ≤ c.par1 + delta.par1)
      have e1 := sq_mul_sq_mono (x := k) (sub_nonneg.2 b2) (by linarith : c.par2 - delta.par2 ≤ c.par2 + delta.par2)
      have e2 := sq_mul_sq_mono (x := l) (sub_nonneg.2 b3) (by linarith : c.par3 - delta.par3 ≤ c.par3 + delta.par3)
      linarith
    · intro c' hc'
      obtain ⟨hl', hb⟩ := hc'
      simp only [hl, metricSlots, List.mem_cons, List.mem_singleton, List.not_mem_nil, or_false,
        forall_eq_or_imp, forall_eq, RecUnitCell.par] at hb
      obtain ⟨⟨l0, u0⟩, ⟨l1, u1⟩, ⟨l2, u2⟩, ⟨l3, u3⟩⟩ := hb
      rw [hl] at hl'
      refine ⟨_, by simp only [RecUnitCell.hkl2d, hl', and_self, if_true]; rfl, ?_, ?_⟩
      · simp only [RecUnitCell.hkl2d_delta, hl]
        have e0 := sq_mul_sq_mono (x := h) (sub_nonneg.2 b1) l1
        have e1 := sq_mul_sq_mono (x := k) (sub_nonneg.2 b2) l2
        have e2 := sq_mul_sq_mono (x := l) (sub_nonneg.2 b3) l3
        linarith
      · simp only [RecUnitCell.hkl2d_delta, hl]
        have e0 := sq_mul_sq_mono (x := h) ((sub_nonneg.2 b1).trans l1) u1
        have e1 := sq_mul_sq_mono (x := k) ((sub_nonneg.2 b2).trans l2) u2
        have e2 := sq_mul_sq_mono (x := l) ((sub_nonneg.2 b3).trans l3) u3
        linarith
    · simp only [RecUnitCell.hkl2d, RecUnitCell.hkl2d_delta, RecUnitCell.minusCorner, hl,
        and_self, if_true]
    · simp only [RecUnitCell.hkl2d, RecUnitCell.hkl2d_delta, RecUnitCell.plusCorner, hl,
        and_self, if_true]
    · refine ⟨rfl, ?_⟩
      simp only [hl, metricSlots, List.mem_cons, List.mem_singleton, List.not_mem_nil, or_false,
        forall_eq_or_imp, forall_eq, RecUnitCell.par, RecUnitCell.minusCorner]
      refine ⟨⟨?_, ?_⟩, ⟨?_, ?_⟩, ⟨?_, ?_⟩, ⟨?_, ?_⟩⟩ <;> linarith
    · refine ⟨rfl, ?_⟩
      simp only [hl, metricSlots, List.mem_cons, List.mem_singleton, List.not_mem_nil, or_false,
        forall_eq_or_imp, forall_eq, RecUnitCell.par, RecUnitCell.plusCorner]
      refine ⟨⟨?_, ?_⟩, ⟨?_, ?_⟩, ⟨?_, ?_⟩, ⟨?_, ?_⟩⟩ <;> linarith
  · simp only [hl, metricSlots, List.mem_cons, List.mem_singleton, List.not_mem_nil, or_false,
      forall_eq_or_imp, forall_eq, RecUnitCell.par] at hd h0
    obtain ⟨⟨a1, b1⟩, ⟨a2, b2⟩⟩ := hd
    refine ⟨?_, ?_, ?_, ?_, ?_, ?_⟩
    · simp only [RecUnitCell.hkl2d_delta, hl]
      have e0 := sq_mul_nonneg_mono (sub_nonneg.2 b1) (by linarith : c.par1 - delta.par1 ≤ c.par1 + delta.par1) hh
      have e1 := sq_mul_sq_mono (x := l) (sub_nonneg.2 b2) (by linarith : c.par2 - delta.par2 ≤ c.par2 + delta.par2)
      linarith
    · intro c' hc'
      obtain ⟨hl', hb⟩ := hc'
      simp only [hl, metricSlots, List.mem_cons, List.mem_singleton, List.not_mem_nil, or_false,
        forall_eq_or_imp, forall_eq, RecUnitCell.par] at hb
      obtain ⟨⟨l0, u0⟩, ⟨l1, u1⟩, ⟨l2, u2⟩⟩ := hb
      rw [hl] at hl'
      refine ⟨_, by simp only [RecUnitCell.hkl2d, hl', and_self, if_true]; rfl, ?_, ?_⟩
      · simp only [RecUnitCell.hkl2d_delta, hl]
        have e0 := sq_mul_nonneg_mono (sub_nonneg.2 b1) l1 hh
        have e1 := sq_mul_sq_mono (x := l) (sub_nonneg.2 b2) l2
        linarith
      · simp only [RecUnitCell.hkl2d_delta, hl]
        have e0 := sq_mul_nonneg_mono ((sub_nonneg.2 b1).trans l1) u1 hh
        have e1 := sq_mul_sq_mono (x := l) ((sub_nonneg.2 b2).trans l2) u2
        linarith
    · simp only [RecUnitCell.hkl2d, RecUnitCell.hkl2d_delta, RecUnitCell.minusCorner, hl,
        and_self, if_true]
    · simp only [RecUnitCell.hkl2d, RecUnitCell.hkl2d_delta, RecUnitCell.plusCorner, hl,
        and_self, if_true]
    · refine ⟨rfl, ?_⟩
      simp only [hl, metricSlots, List.mem_cons, List.mem_singleton, List.not_mem_nil, or_false,
        forall_eq_or_imp, forall_eq, RecUnitCell.par, RecUnitCell.minusCorner]
      refine ⟨⟨?_, ?_⟩, ⟨?_, ?_⟩, ⟨?_, ?_⟩⟩ <;> linarith
    · refine ⟨rfl, ?_⟩
      simp only [hl, metricSlots, List.mem_cons, List.mem_singleton, List.not_mem_nil, or_false,
        forall_eq_or_imp, forall_eq, RecUnitCell.par, RecUnitCell.plusCorner]
      refine ⟨⟨?_, ?_⟩, ⟨?_, ?_⟩, ⟨?_, ?_⟩⟩ <;> linarith
  · simp only [hl, metricSlots, List.mem_cons, List.mem_singleton, List.not_mem_nil, or_false,
      forall_eq_or_imp, forall_eq, RecUnitCell.par] at hd h0
    obtain ⟨⟨a1, b1⟩, ⟨a2, b2⟩⟩ := hd
    refine ⟨?_, ?_, ?_, ?_, ?_, ?_⟩
    · simp only [RecUnitCell.hkl2d_delta, hl]
      have e0 := sq_mul_nonneg_mono (sub_nonneg.2 b1) (by linarith : c.par1 - delta.par1 ≤ c.par1 + delta.par1) (add_nonneg hhh hkk)
      have e1 := sq_mul_sq_mono (x := l) (sub_nonneg.2 b2) (by linarith : c.par2 - delta.par2 ≤ c.par2 + delta.par2)
      linarith
    · intro c' hc'
      obtain ⟨hl', hb⟩ := hc'
      simp only [hl, metricSlots, List.mem_cons, List.mem_singleton, List.not_mem_nil, or_false,
        forall_eq_or_imp, forall_eq, RecUnitCell.par] at hb
      obtain ⟨⟨l0, u0⟩, ⟨l1, u1⟩, ⟨l2, u2⟩⟩ := hb
      rw [hl] at hl'
      refine ⟨_, by simp only [RecUnitCell.hkl2d, hl', and_self, if_true]; rfl, ?_, ?_⟩
      · simp only [RecUnitCell.hkl2d_delta, hl]
        have e0 := sq_mul_nonneg_mono (sub_nonneg.2 b1) l1 (add_nonneg hhh hkk)
        have e1 := sq_mul_sq_mono (x := l) (sub_nonneg.2 b2) l2
        linarith
      · simp only [RecUnitCell.hkl2d_delta, hl]
        have e0 := sq_mul_nonneg_mono ((sub_nonneg.2 b1).trans l1) u1 (add_nonneg hhh hkk)
        have e1 := sq_mul_sq_mono (x := l) ((sub_nonneg.2 b2).trans l2) u2
        linarith
    · simp only [RecUnitCell.hkl2d, RecUnitCell.hkl2d_delta, RecUnitCell.minusCorner, hl,
        and_self, if_true]
    · simp only [RecUnitCell.hkl2d, RecUnitCell.hkl2d_delta, RecUnitCell.plusCorner, hl,
        and_self, if_true]
    · refine ⟨rfl, ?_⟩
      simp only [hl, metricSlots, List.mem_cons, List.mem_singleton, List.not_mem_nil, or_false,
        forall_eq_or_imp, forall_eq, RecUnitCell.par, RecUnitCell.minusCorner]
      refine ⟨⟨?_, ?_⟩, ⟨?_, ?_⟩, ⟨?_, ?_⟩⟩ <;> linarith
    · refine ⟨rfl, ?_⟩
      simp only [hl, metricSlots, List.mem_cons, List.mem_singleton, List.not_mem_nil, or_false,
        forall_eq_or_imp, forall_eq, RecUnitCell.par, RecUnitCell.plusCorner]
      refine ⟨⟨?_, ?_⟩, ⟨?_, ?_⟩, ⟨?_, ?_⟩⟩ <;> linarith
  · simp only [hl, metricSlots, List.mem_cons, List.mem_singleton, List.not_mem_nil, or_false,
      forall_eq_or_imp, forall_eq, RecUnitCell.par] at hd h0
    obtain ⟨a1, b1⟩ := hd
    refine ⟨?_, ?_, ?_, ?_, ?_, ?_⟩
    · simp only [RecUnitCell.hkl2d_delta, hl]
      have e0 := sq_mul_nonneg_mono (sub_nonneg.2 b1) (by linarith : c.par1 - delta.par1 ≤ c.par1 + delta.par1) (add_nonneg (add_nonneg hhh hkk) hll)
      linarith
    · intro c' hc'
      obtain ⟨hl', hb⟩ := hc'
      simp only [hl, metricSlots, List.mem_cons, List.mem_singleton, List.not_mem_nil, or_false,
        forall_eq_or_imp, forall_eq, RecUnitCell.par] at hb
      obtain ⟨⟨l0, u0⟩, ⟨l1, u1⟩⟩ := hb
      rw [hl] at hl'
      refine ⟨_, by simp only [RecUnitCell.hkl2d, hl', and_self, if_true]; rfl, ?_, ?_⟩
      · simp only [RecUnitCell.hkl2d_delta, hl]
        have e0 := sq_mul_nonneg_mono (sub_nonneg.2 b1) l1 (add_nonneg (add_nonneg hhh hkk) hll)
        linarith
      · simp only [RecUnitCell.hkl2d_delta, hl]
        have e0 := sq_mul_nonneg_mono ((sub_nonneg.2 b1).trans l1) u1 (add_nonneg (add_nonneg hhh hkk) hll)
        linarith
    · simp only [RecUnitCell.hkl2d, RecUnitCell.hkl2d_delta, RecUnitCell.minusCorner, hl,
        and_self, if_true]
    · simp only [RecUnitCell.hkl2d, RecUnitCell.hkl2d_delta, RecUnitCell.plusCorner, hl,
        and_self, if_true]
    · refine ⟨rfl, ?_⟩
      simp only [hl, metricSlots, List.mem_cons, List.mem_singleton, List.not_mem_nil, or_false,
        forall_eq_or_imp, forall_eq, RecUnitCell.par, RecUnitCell.minusCorner]
      refine ⟨⟨?_, ?_⟩, ⟨?_, ?_⟩⟩ <;> linarith
    · refine ⟨rfl, ?_⟩
      simp only [hl, metricSlots, List.mem_cons, List.mem_singleton, List.not_mem_nil, or_false,
        forall_eq_or_imp, forall_eq, RecUnitCell.par, RecUnitCell.plusCorner]
      refine ⟨⟨?_, ?_⟩, ⟨?_, ?_⟩⟩ <;> linarith

/-- Witness of C2: the orthorhombic cell (1/7, 1/8, 1/9) with half-widths 1/100 and the
reflection (1,2,3). -/
theorem hkl2d_delta_exact_range_witness :
    (0 ≤ orthorhombicHalfWidth.par 0 ∧
      ∀ i ∈ metricSlots orthorhombicCentre.mlattice,
        0 ≤ orthorhombicHalfWidth.par i ∧ orthorhombicHalfWidth.par i ≤ orthorhombicCentre.par i) ∧
    (orthorhombicCentre.hkl2d_delta 1 2 3 orthorhombicHalfWidth).1
      ≤ (orthorhombicCentre.hkl2d_delta 1 2 3 orthorhombicHalfWidth).2 ∧
    (orthorhombicCentre.minusCorner orthorhombicHalfWidth).hkl2d 1 2 3 none 0
      = .ok (orthorhombicCentre.hkl2d_delta 1 2 3 orthorhombicHalfWidth).1 := by
  have hyp0 : 0 ≤ orthorhombicHalfWidth.par 0 := by
    norm_num [orthorhombicHalfWidth, RecUnitCell.par]
  have hyp : ∀ i ∈ metricSlots orthorhombicCentre.mlattice,
      0 ≤ orthorhombicHalfWidth.par i ∧ orthorhombicHalfWidth.par i ≤ orthorhombicCentre.par i := by
    intro i hi
    simp only [orthorhombicCentre, metricSlots, List.mem_cons, List.mem_singleton,
      List.not_mem_nil, or_false] at hi
    rcases hi with rfl | rfl | rfl <;>
      norm_num [orthorhombicHalfWidth, orthorhombicCentre, RecUnitCell.par]
  have key := hkl2d_delta_exact_range orthorhombicCentre orthorhombicHalfWidth 1 2 3
    (Or.inl rfl) hyp0 hyp
  exact ⟨⟨hyp0, hyp⟩, key.1, key.2.2.1⟩

/-- C3 (failing inputs). Monoclinic and triclinic cells with a* = b* = c* = 1 and
cos β* = 9/10, reflection (1,0,-1), half-width 1 on a* only (so `0 ≤ delta.par[i] ≤ par[i]`
for every slot): `hkl2d_delta` returns `dmin = 1`, above the centre value `hkl2d = 1/5`.
Monoclinic cell a* = b* = 1, c* = 4/5, cos β* = 3/5, reflection (1,0,-2), half-width 1/5 on
a* only: `dmin = 208/125`, above the centre value `41/25`. -/
theorem hkl2d_delta_centre_below_dmin :
    (∀ i, 0 ≤ monoclinicHalfWidth.par i ∧ monoclinicHalfWidth.par i ≤ monoclinicCentre.par i) ∧
    monoclinicCentre.hkl2d 1 0 (-1) none 0 = .ok (1/5) ∧
    (monoclinicCentre.hkl2d_delta 1 0 (-1) monoclinicHalfWidth).1 = 1 ∧
    (∀ i, 0 ≤ triclinicHalfWidth.par i ∧ triclinicHalfWidth.par i ≤ triclinicCentre.par i) ∧
    triclinicCentre.hkl2d 1 0 (-1) none 0 = .ok (1/5) ∧
    (triclinicCentre.hkl2d_delta 1 0 (-1) triclinicHalfWidth).1 = 1 ∧
    (∀ i, 0 ≤ monoclinicFifth.par i ∧ monoclinicFifth.par i ≤ monoclinicOblique.par i) ∧
    monoclinicOblique.hkl2d 1 0 (-2) none 0 = .ok (41/25) ∧
    (monoclinicOblique.hkl2d_delta 1 0 (-2) monoclinicFifth).1 = 208/125 := by
  refine ⟨?_, ?_, ?_, ?_, ?_, ?_, ?_, ?_, ?_⟩
  · intro i
    rcases i with _ | _ | _ | _ | _ | _ | _ | i <;>
      first
        | exact ⟨le_of_eq (RecUnitCell.par_beyond _ _).symm, le_of_eq rfl⟩
        | norm_num [monoclinicHalfWidth, monoclinicCentre, RecUnitCell.par]
  · norm_num [RecUnitCell.hkl2d, monoclinicCentre]
  · norm_num [RecUnitCell.hkl2d_delta, monoclinicCentre, monoclinicHalfWidth]
  · intro i
    rcases i with _ | _ | _ | _ | _ | _ | _ | i <;>
      first
        | exact ⟨le_of_eq (RecUnitCell.par_beyond _ _).symm, le_of_eq rfl⟩
        | norm_num [triclinicHalfWidth, triclinicCentre, RecUnitCell.par]
  · norm_num [RecUnitCell.hkl2d, triclinicCentre]
  · norm_num [RecUnitCell.hkl2d_delta, triclinicCentre, triclinicHalfWidth]
  · intro i
    rcases i with _ | _ | _ | _ | _ | _ | _ | i <;>
      first
        | exact ⟨le_of_eq (RecUnitCell.par_beyond _ _).symm, le_of_eq rfl⟩
        | norm_num [monoclinicFifth, monoclinicOblique, RecUnitCell.par]
  · norm_num [RecUnitCell.hkl2d, monoclinicOblique]
  · norm_num [RecUnitCell.hkl2d_delta, monoclinicOblique, monoclinicFifth]

/-- C4 (counterexample). The interval does not always widen with the half-widths.
Rhombohedral cell a* = 1, cos α* = 4/5, reflection (1,-1,0): with half-widths (0, 4/5) the
lower bound is -6/5, with the wider (1, 4/5) it is 0.  Monoclinic cell a* = b* = c* = 1,
cos β* = 9/10, reflection (1,0,-1): with zero half-widths the lower bound is 1/5, with
half-width 1 on a* it is 1. -/
theorem hkl2d_delta_not_widening :
    (∀ i, 0 ≤ rhombohedralNarrow.par i ∧ rhombohedralNarrow.par i ≤ rhombohedralWide.par i ∧
      rhombohedralWide.par i ≤ rhombohedralCentre.par i) ∧
    (rhombohedralCentre.hkl2d_delta 1 (-1) 0 rhombohedralNarrow).1 = -6/5 ∧
    (rhombohedralCentre.hkl2d_delta 1 (-1) 0 rhombohedralWide).1 = 0 ∧
    ¬ ((rhombohedralCentre.hkl2d_delta 1 (-1) 0 rhombohedralWide).1
        ≤ (rhombohedralCentre.hkl2d_delta 1 (-1) 0 rhombohedralNarrow).1) ∧
    (∀ i, 0 ≤ (zeroHalfWidth MONOCLINIC).par i ∧
      (zeroHalfWidth MONOCLINIC).par i ≤ monoclinicHalfWidth.par i ∧
      monoclinicHalfWidth.par i ≤ monoclinicCentre.par i) ∧
    (monoclinicCentre.hkl2d_delta 1 0 (-1) (zeroHalfWidth MONOCLINIC)).1 = 1/5 ∧
    (monoclinicCentre.hkl2d_delta 1 0 (-1) monoclinicHalfWidth).1 = 1 ∧
    ¬ ((monoclinicCentre.hkl2d_delta 1 0 (-1) monoclinicHalfWidth).1
        ≤ (monoclinicCentre.hkl2d_delta 1 0 (-1) (zeroHalfWidth MONOCLINIC)).1) := by
  refine ⟨?_, ?_, ?_, ?_, ?_, ?_, ?_, ?_⟩
  · intro i
    rcases i with _ | _ | _ | _ | _ | _ | _ | i <;>
      first
        | exact ⟨le_of_eq (RecUnitCell.par_beyond _ _).symm, le_of_eq rfl, le_of_eq rfl⟩
        | norm_num [rhombohedralNarrow, rhombohedralWide, rhombohedralCentre, RecUnitCell.par]
  · norm_num [RecUnitCell.hkl2d_delta, rhombohedralCentre, rhombohedralNarrow]
  · norm_num [RecUnitCell.hkl2d_delta, rhombohedralCentre, rhombohedralWide]
  · norm_num [RecUnitCell.hkl2d_delta, rhombohedralCentre, rhombohedralWide, rhombohedralNarrow]
  · intro i
    rcases i with _ | _ | _ | _ | _ | _ | _ | i <;>
      first
        | exact ⟨le_of_eq (RecUnitCell.par_beyond _ _).symm, le_of_eq rfl, le_of_eq rfl⟩
        | norm_num [zeroHalfWidth, monoclinicHalfWidth, monoclinicCentre, RecUnitCell.par]
  · norm_num [RecUnitCell.hkl2d_delta, monoclinicCentre, zeroHalfWidth]
  · norm_num [RecUnitCell.hkl2d_delta, monoclinicCentre, monoclinicHalfWidth]
  · norm_num [RecUnitCell.hkl2d_delta, monoclinicCentre, monoclinicHalfWidth, zeroHalfWidth]

set_option maxHeartbeats 1000000 in
/-- C4 (amended). For every lattice system, all (h,k,l) and half-widths
`0 ≤ delta ≤ delta'` with `delta' ≤ par` on the metric slots, the interval returned for
`delta'` contains the one returned for `delta`, provided that for triclinic and monoclinic
cells no cross term has a negative index product, and that for a rhombohedral cell with
`h*k + k*l + h*l < 0` the cosine `par[2] + delta'.par[2]` does not exceed 1. -/
theorem hkl2d_delta_widens (c delta delta' : RecUnitCell K) (h k l : K)
    (h0 : 0 ≤ delta.par 0 ∧ delta.par 0 ≤ delta'.par 0)
    (hd : ∀ i ∈ metricSlots c.mlattice,
      0 ≤ delta.par i ∧ delta.par i ≤ delta'.par i ∧ delta'.par i ≤ c.par i)
    (hside : widenAdmissible c delta' h k l) :
    (c.hkl2d_delta h k l delta').1 ≤ (c.hkl2d_delta h k l delta).1 ∧
    (c.hkl2d_delta h k l delta).2 ≤ (c.hkl2d_delta h k l delta').2 := by
  have hh := hex_form_nonneg h k
  have hhh := mul_self_nonneg h
  have hkk := mul_self_nonneg k
  have hll := mul_self_nonneg l
  simp only [RecUnitCell.par] at h0
  obtain ⟨z0, z1⟩ := h0
  cases hl : c.mlattice <;>
    simp only [hl, metricSlots, List.mem_cons, List.mem_singleton, List.not_mem_nil, or_false,
      forall_eq_or_imp, forall_eq, RecUnitCell.par, widenAdmissible] at hd hside
  · -- TRICLINIC
    obtain ⟨⟨a1, b1, c1⟩, ⟨a2, b2, c2⟩, ⟨a3, b3, c3⟩, ⟨a4, b4, c4⟩, ⟨a5, b5, c5⟩,
      ⟨a6, b6, c6⟩⟩ := hd
    obtain ⟨hhk, hkl, hhl⟩ := hside
    rw [hkl2d_delta_triclinic_corners c delta h k l hl hhk hkl hhl ⟨a1, b1.trans c1⟩
        ⟨a2, b2.trans c2⟩ ⟨a3, b3.trans c3⟩ ⟨a4, b4.trans c4⟩ ⟨a5, b5.trans c5⟩
        ⟨a6, b6.trans c6⟩,
      hkl2d_delta_triclinic_corners c delta' h k l hl hhk hkl hhl ⟨a1.trans b1, c1⟩
        ⟨a2.trans b2, c2⟩ ⟨a3.trans b3, c3⟩ ⟨a4.trans b4, c4⟩ ⟨a5.trans b5, c5⟩
        ⟨a6.trans b6, c6⟩]
    constructor
    · apply triclinic_form_mono h k l <;> linarith
    · apply triclinic_form_mono h k l <;> linarith
  · -- MONOCLINIC
    obtain ⟨⟨a1, b1, c1⟩, ⟨a2, b2, c2⟩, ⟨a3, b3, c3⟩, ⟨a4, b4, c4⟩⟩ := hd
    rw [hkl2d_delta_monoclinic_corners c delta h k l hl hside ⟨a1, b1.trans c1⟩
        ⟨a3, b3.trans c3⟩ ⟨a4, b4.trans c4⟩,
      hkl2d_delta_monoclinic_corners c delta' h k l hl hside ⟨a1.trans b1, c1⟩
        ⟨a3.trans b3, c3⟩ ⟨a4.trans b4, c4⟩]
    constructor
    · apply monoclinic_form_mono h k l <;> linarith
    · apply monoclinic_form_mono h k l <;> linarith
  · -- ORTHOROMBIC
    obtain ⟨⟨a1, b1, c1⟩, ⟨a2, b2, c2⟩, ⟨a3, b3, c3⟩⟩ := hd
    simp only [RecUnitCell.hkl2d_delta, hl]
    constructor
    · have e1 := sq_mul_sq_mono (x := h) (sub_nonneg.2 c1) (sub_le_sub_left b1 c.par1)
      have e2 := sq_mul_sq_mono (x := k) (sub_nonneg.2 c2) (sub_le_sub_left b2 c.par2)
      have e3 := sq_mul_sq_mono (x := l) (sub_nonneg.2 c3) (sub_le_sub_left b3 c.par3)
      linarith
    · have e1 := sq_mul_sq_mono (x := h) (by linarith : 0 ≤ c.par1 + delta.par1)
        (add_le_add_left b1 c.par1)
      have e2 := sq_mul_sq_mono (x := k) (by linarith : 0 ≤ c.par2 + delta.par2)
        (add_le_add_left b2 c.par2)
      have e3 := sq_mul_sq_mono (x := l) (by linarith : 0 ≤ c.par3 + delta.par3)
        (add_le_add_left b3 c.par3)
      linarith
  · -- HEXAGONAL
    obtain ⟨⟨a1, b1, c1⟩, ⟨a2, b2, c2⟩⟩ := hd
    simp only [RecUnitCell.hkl2d_delta, hl]
    constructor
    · have e1 := sq_mul_nonneg_mono (sub_nonneg.2 c1) (sub_le_sub_left b1 c.par1) hh
      have e2 := sq_mul_sq_mono (x := l) (sub_nonneg.2 c2) (sub_le_sub_left b2 c.par2)
      linarith
    · have e1 := sq_mul_nonneg_mono (by linarith : 0 ≤ c.par1 + delta.par1)
        (add_le_add_left b1 c.par1) hh
      have e2 := sq_mul_sq_mono (x := l) (by linarith : 0 ≤ c.par2 + delta.par2)
        (add_le_add_left b2 c.par2)
      linarith
  · -- RHOMBOEDRAL
    obtain ⟨⟨a1, b1, c1⟩, ⟨a2, b2, c2⟩⟩ := hd
    have hS : 0 ≤ h*h + k*k + l*l := add_nonneg (add_nonneg hhh hkk) hll
    by_cases hT : h*k + k*l + h*l ≥ 0
    · simp only [RecUnitCell.hkl2d_delta, hl, hT, if_true]
      have m1 : (c.par2 - delta'.par2)*(h*k + k*l + h*l) ≤ (c.par2 - delta.par2)*(h*k + k*l + h*l) :=
        mul_le_mul_of_nonneg_right (sub_le_sub_left b2 c.par2) hT
      have m2 : (c.par2 + delta.par2)*(h*k + k*l + h*l) ≤ (c.par2 + delta'.par2)*(h*k + k*l + h*l) :=
        mul_le_mul_of_nonneg_right (add_le_add_left b2 c.par2) hT
      have n1 : 0 ≤ (c.par2 - delta'.par2)*(h*k + k*l + h*l) := mul_nonneg (sub_nonneg.2 c2) hT
      have n2 : 0 ≤ (c.par2 + delta.par2)*(h*k + k*l + h*l) := mul_nonneg (by linarith) hT
      constructor
      · have e1 := sq_mul_mono_both (sub_nonneg.2 c1) (sub_le_sub_left b1 c.par1)
          (by linarith : 0 ≤ h*h + k*k + l*l + 2*(c.par2 - delta'.par2)*(h*k + k*l + h*l))
          (by linarith : h*h + k*k + l*l + 2*(c.par2 - delta'.par2)*(h*k + k*l + h*l)
            ≤ h*h + k*k + l*l + 2*(c.par2 - delta.par2)*(h*k + k*l + h*l))
        linarith
      · have e1 := sq_mul_mono_both (by linarith : 0 ≤ c.par1 + delta.par1)
          (add_le_add_left b1 c.par1)
          (by linarith : 0 ≤ h*h + k*k + l*l + 2*(c.par2 + delta.par2)*(h*k + k*l + h*l))
          (by linarith : h*h + k*k + l*l + 2*(c.par2 + delta.par2)*(h*k + k*l + h*l)
            ≤ h*h + k*k + l*l + 2*(c.par2 + delta'.par2)*(h*k + k*l + h*l))
        linarith
    · simp only [RecUnitCell.hkl2d_delta, hl, hT, if_false]
      have hT' : h*k + k*l + h*l < 0 := not_le.1 hT
      have hcos := hside hT'
      have hsum := index_sum_sq h k l
      have m1 : (c.par2 + delta'.par2)*(h*k + k*l + h*l) ≤ (c.par2 + delta.par2)*(h*k + k*l + h*l) :=
        mul_nonpos_antitone (add_le_add_left b2 c.par2) hT'.le
      have m2 : (c.par2 - delta.par2)*(h*k + k*l + h*l) ≤ (c.par2 - delta'.par2)*(h*k + k*l + h*l) :=
        mul_nonpos_antitone (sub_le_sub_left b2 c.par2) hT'.le
      have n1 : 1*(h*k + k*l + h*l) ≤ (c.par2 + delta'.par2)*(h*k + k*l + h*l) :=
        mul_nonpos_antitone hcos hT'.le
      have n2 : (c.par2 + delta'.par2)*(h*k + k*l + h*l) ≤ (c.par2 - delta.par2)*(h*k + k*l + h*l) :=
        mul_nonpos_antitone (by linarith : c.par2 - delta.par2 ≤ c.par2 + delta'.par2) hT'.le
      constructor
      · have e1 := sq_mul_mono_both (sub_nonneg.2 c1) (sub_le_sub_left b1 c.par1)
          (by linarith : 0 ≤ h*h + k*k + l*l + 2*(c.par2 + delta'.par2)*(h*k + k*l + h*l))
          (by linarith : h*h + k*k + l*l + 2*(c.par2 + delta'.par2)*(h*k + k*l + h*l)
            ≤ h*h + k*k + l*l + 2*(c.par2 + delta.par2)*(h*k + k*l + h*l))
        linarith
      · have e1 := sq_mul_mono_both (by linarith : 0 ≤ c.par1 + delta.par1)
          (add_le_add_left b1 c.par1)
          (by linarith : 0 ≤ h*h + k*k + l*l + 2*(c.par2 - delta.par2)*(h*k + k*l + h*l))
          (by linarith : h*h + k*k + l*l + 2*(c.par2 - delta.par2)*(h*k + k*l + h*l)
            ≤ h*h + k*k + l*l + 2*(c.par2 - delta'.par2)*(h*k + k*l + h*l))
        linarith
  · -- TETRAGONAL
    obtain ⟨⟨a1, b1, c1⟩, ⟨a2, b2, c2⟩⟩ := hd
    simp only [RecUnitCell.hkl2d_delta, hl]
    constructor
    · have e1 := sq_mul_nonneg_mono (sub_nonneg.2 c1) (sub_le_sub_left b1 c.par1)
        (add_nonneg hhh hkk)
      have e2 := sq_mul_sq_mono (x := l) (sub_nonneg.2 c2) (sub_le_sub_left b2 c.par2)
      linarith
    · have e1 := sq_mul_nonneg_mono (by linarith : 0 ≤ c.par1 + delta.par1)
        (add_le_add_left b1 c.par1) (add_nonneg hhh hkk)
      have e2 := sq_mul_sq_mono (x := l) (by linarith : 0 ≤ c.par2 + delta.par2)
        (add_le_add_left b2 c.par2)
      linarith
  · -- CUBIC
    obtain ⟨a1, b1, c1⟩ := hd
    simp only [RecUnitCell.hkl2d_delta, hl]
    constructor
    · have e1 := sq_mul_nonneg_mono (sub_nonneg.2 c1) (sub_le_sub_left b1 c.par1)
        (add_nonneg (add_nonneg hhh hkk) hll)
      linarith
    · have e1 := sq_mul_nonneg_mono (by linarith : 0 ≤ c.par1 + delta.par1)
        (add_le_add_left b1 c.par1) (add_nonneg (add_nonneg hhh hkk) hll)
      linarith

/-- Witness of C4 (amended): the rhombohedral cell a* = 1, cos α* = 4/5 and the reflection
(1,-1,0), whose index sum is negative; the cosine stays at most 1 on the wider box. -/
theorem hkl2d_delta_widens_witness :
    widenAdmissible rhombohedralCentre rhombohedralModerate 1 (-1) 0 ∧
    (rhombohedralCentre.hkl2d_delta 1 (-1) 0 rhombohedralModerate).1
      ≤ (rhombohedralCentre.hkl2d_delta 1 (-1) 0 (zeroHalfWidth RHOMBOEDRAL)).1 ∧
    (rhombohedralCentre.hkl2d_delta 1 (-1) 0 (zeroHalfWidth RHOMBOEDRAL)).2
      ≤ (rhombohedralCentre.hkl2d_delta 1 (-1) 0 rhombohedralModerate).2 := by
  have hside : widenAdmissible rhombohedralCentre rhombohedralModerate 1 (-1) 0 := by
    intro _
    norm_num [rhombohedralCentre, rhombohedralModerate]
  refine ⟨hside, hkl2d_delta_widens rhombohedralCentre (zeroHalfWidth RHOMBOEDRAL)
    rhombohedralModerate 1 (-1) 0 ?_ ?_ hside⟩
  · norm_num [zeroHalfWidth, rhombohedralModerate, RecUnitCell.par]
  · intro i hi
    simp only [rhombohedralCentre, metricSlots, List.mem_cons, List.mem_singleton,
      List.not_mem_nil, or_false] at hi
    rcases hi with rfl | rfl <;>
      norm_num [zeroHalfWidth, rhombohedralModerate, rhombohedralCentre, RecUnitCell.par]

/-- C5 (failing inputs). The derivative returned for `derivpar = &par[2]` is not the
partial derivative of the value with respect to `par[2]`, for rhombohedral and for triclinic
cells.  Rhombohedral a* = 1, cos α* = 0, reflection (1,0,0): the value does not depend on
`par[2]` (derivative 0) but `hkl2d` returns 1.  Triclinic a* = b* = 1, c* = 2, cos α* = 1,
reflection (0,1,1): the derivative in `par[2]` is 6 but `hkl2d` returns 4. -/
theorem hkl2d_derivpar2_not_derivative :
    HasDerivAt (fun x : ℝ => okValue (((rhombohedralUnit ℝ).setPar 2 x).hkl2d 1 0 0 none 0)) 0
      ((rhombohedralUnit ℝ).par 2) ∧
    (rhombohedralUnit ℝ).hkl2d 1 0 0 (some 2) 0 = .ok 1 ∧
    HasDerivAt (fun x : ℝ => okValue (((triclinicSkew ℝ).setPar 2 x).hkl2d 0 1 1 none 0)) 6
      ((triclinicSkew ℝ).par 2) ∧
    (triclinicSkew ℝ).hkl2d 0 1 1 (some 2) 0 = .ok 4 := by
  refine ⟨?_, ?_, ?_, ?_⟩
  · have e : (fun x : ℝ => okValue (((rhombohedralUnit ℝ).setPar 2 x).hkl2d 1 0 0 none 0))
        = fun _ => (1 : ℝ) := by
      funext x
      norm_num [RecUnitCell.setPar, RecUnitCell.hkl2d, rhombohedralUnit, okValue]
    rw [e]
    exact hasDerivAt_const _ _
  · norm_num [RecUnitCell.hkl2d, rhombohedralUnit]
  · have e : (fun x : ℝ => okValue (((triclinicSkew ℝ).setPar 2 x).hkl2d 0 1 1 none 0))
        = fun x => x^2 + 4*x + 4 := by
      funext x
      simp only [RecUnitCell.setPar, RecUnitCell.hkl2d, triclinicSkew, okValue, and_self, if_true]
      ring
    have e2 : (triclinicSkew ℝ).par 2 = 1 := rfl
    rw [e, e2]
    have h1 : HasDerivAt (fun x : ℝ => x^2) (2 * (1:ℝ)) 1 := by
      simpa using hasDerivAt_pow 2 (1 : ℝ)
    have h2 : HasDerivAt (fun x : ℝ => 4*x) 4 1 := by
      simpa using (hasDerivAt_id (1 : ℝ)).const_mul 4
    have h3 := (h1.add h2).add_const 4
    convert h3 using 1
    norm_num
  · simp [RecUnitCell.hkl2d, triclinicSkew]
    norm_num

/-- C6 (failing input). For a rhombohedral cell, `derivhkl = 2` does not return the partial
derivative of the value with respect to k.  Cell a* = 1, cos α* = 0, at (h,k,l) = (0,0,1):
the value as a function of k is `k² + 1`, with derivative 0 at k = 0, but `hkl2d` returns 1. -/
theorem hkl2d_derivhkl2_not_derivative :
    HasDerivAt (fun y : ℝ => okValue ((rhombohedralUnit ℝ).hkl2d 0 y 1 none 0)) 0 0 ∧
    (rhombohedralUnit ℝ).hkl2d 0 0 1 none 2 = .ok 1 := by
  refine ⟨?_, ?_⟩
  · have e : (fun y : ℝ => okValue ((rhombohedralUnit ℝ).hkl2d 0 y 1 none 0))
        = fun y => y^2 + 1 := by
      funext y
      simp only [RecUnitCell.hkl2d, rhombohedralUnit, okValue, and_self, if_true]
      ring
    rw [e]
    have h1 : HasDerivAt (fun y : ℝ => y^2) (2 * (0:ℝ)) 0 := by
      simpa using hasDerivAt_pow 2 (0 : ℝ)
    have h3 := h1.add_const 1
    convert h3 using 1
    norm_num
  · norm_num [RecUnitCell.hkl2d, rhombohedralUnit]

/-- C7. With `derivhkl = 0` and `derivpar = &par[i]`, `1 ≤ i ≤ 6`, `hkl2d` throws exactly when
slot `i` is not a metric parameter of the lattice (cubic `i ≥ 2`; hexagonal, rhombohedral,
tetragonal `i ≥ 3`; orthorhombic `i ≥ 4`; monoclinic `i ≥ 5`; triclinic never);
`derivpar = &par[0]` returns 1 for `derivhkl = 0` (and for every `derivhkl` above 3) and
throws for no `derivhkl`; and
`derivpar = NULL` with `derivhkl` outside {0,1,2,3} throws. -/
theorem hkl2d_unsupported_derivative (c : RecUnitCell K) (h k l : K) (i : Nat)
    (h1 : 1 ≤ i) (h6 : i ≤ 6) :
    ((c.hkl2d h k l (some i) 0 = .error 0) ↔ firstUnsupportedSlot c.mlattice ≤ i) ∧
    ((∃ v, c.hkl2d h k l (some i) 0 = .ok v) ↔ i < firstUnsupportedSlot c.mlattice) ∧
    (∀ d, d = 0 ∨ 3 < d → c.hkl2d h k l (some 0) d = .ok 1) ∧
    (∀ d, ∃ v, c.hkl2d h k l (some 0) d = .ok v) ∧
    (∀ d, 3 < d → c.hkl2d h k l none d = .error 0) := by
  refine ⟨?_, ?_, ?_, ?_, ?_⟩
  · interval_cases i <;> cases hl : c.mlattice <;>
      simp [RecUnitCell.hkl2d, firstUnsupportedSlot, hl]
  · interval_cases i <;> cases hl : c.mlattice <;>
      simp [RecUnitCell.hkl2d, firstUnsupportedSlot, hl]
  · intro d hd
    have d1 : d ≠ 1 := by omega
    have d2 : d ≠ 2 := by omega
    have d3 : d ≠ 3 := by omega
    simp [RecUnitCell.hkl2d, d1, d2, d3]
  · intro d
    by_cases d1 : d = 1
    · subst d1; cases hl : c.mlattice <;> simp [RecUnitCell.hkl2d, hl]
    by_cases d2 : d = 2
    · subst d2; cases hl : c.mlattice <;> simp [RecUnitCell.hkl2d, hl]
    by_cases d3 : d = 3
    · subst d3; cases hl : c.mlattice <;> simp [RecUnitCell.hkl2d, hl]
    · exact ⟨1, by simp [RecUnitCell.hkl2d, d1, d2, d3]⟩
  · intro d hd
    have d0 : d ≠ 0 := by omega
    have d1 : d ≠ 1 := by omega
    have d2 : d ≠ 2 := by omega
    have d3 : d ≠ 3 := by omega
    simp [RecUnitCell.hkl2d, d0, d1, d2, d3]

/-- Witness of C7: a cubic cell and slot 2, which is unsupported. -/
theorem hkl2d_unsupported_derivative_witness :
    (1 ≤ 2 ∧ 2 ≤ 6) ∧ (cubicCell ℝ).hkl2d 1 1 1 (some 2) 0 = .error 0 :=
  ⟨⟨by decide, by decide⟩,
    (hkl2d_unsupported_derivative (cubicCell ℝ) 1 1 1 2 (by decide) (by decide)).1.2
      (by simp [firstUnsupportedSlot, cubicCell])⟩

/-- C8. For orthorhombic, tetragonal and cubic cells with positive reciprocal lengths
(a*, b*, c*) = (par1, par2, par3), (par1, par1, par2), (par1, par1, par1), `DirectUnitCell`
returns a = 1/a*, b = 1/b*, c = 1/c*, α = β = γ = π/2 and V = a·b·c, and V times the
reciprocal volume a*·b*·c* is 1 (with the real square root and arccosine). -/
theorem DirectUnitCell_orthogonal (c : RecUnitCell ℝ)
    (hlat : c.mlattice = ORTHOROMBIC ∨ c.mlattice = TETRAGONAL ∨ c.mlattice = CUBIC)
    (ha : 0 < (sharedParameters c).1) (hb : 0 < (sharedParameters c).2.1)
    (hc : 0 < (sharedParameters c).2.2.1) :
    c.DirectUnitCell Real.sqrt Real.arccos =
      [1 / (sharedParameters c).1, 1 / (sharedParameters c).2.1, 1 / (sharedParameters c).2.2.1,
        Real.pi / 2, Real.pi / 2, Real.pi / 2,
        1 / (sharedParameters c).1 * (1 / (sharedParameters c).2.1)
          * (1 / (sharedParameters c).2.2.1)] ∧
    1 / (sharedParameters c).1 * (1 / (sharedParameters c).2.1)
        * (1 / (sharedParameters c).2.2.1)
      * ((sharedParameters c).1 * (sharedParameters c).2.1 * (sharedParameters c).2.2.1) = 1 := by
  rcases hlat with hl | hl | hl <;>
    simp only [sharedParameters, hl] at ha hb hc ⊢ <;>
    refine ⟨?_, by field_simp⟩ <;>
    simp [RecUnitCell.DirectUnitCell, RecUnitCell.recipMetric, RecipMetric.vvArg,
      RecipMetric.directCosines, RecipMetric.volArg, hl]

/-- Witness of C8: the cubic cell with a* = 1/5 has a = b = c = 5, right angles and V = 125. -/
theorem DirectUnitCell_orthogonal_witness :
    (0 < (sharedParameters (cubicCell ℝ)).1) ∧
    (cubicCell ℝ).DirectUnitCell Real.sqrt Real.arccos =
      [5, 5, 5, Real.pi / 2, Real.pi / 2, Real.pi / 2, 125] := by
  have hp : (0:ℝ) < 1/5 := by norm_num
  have key := DirectUnitCell_orthogonal (cubicCell ℝ) (Or.inr (Or.inr rfl)) hp hp hp
  refine ⟨hp, ?_⟩
  rw [key.1]
  simp [sharedParameters, cubicCell]
  norm_num

/-- C9 (counterexample). Monoclinic cell with 5/3 in the cosine slot: the reciprocal sine
computed by `DirectUnitCell` is 4/3, not 0 as `sqrt(max(0, 1 - cos²))` is; the argument
of the arccosine for β is -5/3, outside [-1, 1]; and the argument of the last square root
is -16/9, negative.  Both are passed on as they are. -/
theorem DirectUnitCell_unclamped :
    ((monoclinicWideCosine ℝ).recipMetric Real.sqrt).cbetaa = 5/3 ∧
    ((monoclinicWideCosine ℝ).recipMetric Real.sqrt).sbetaa = 4/3 ∧
    clampedSine Real.sqrt (5/3 : ℝ) = 0 ∧
    ((monoclinicWideCosine ℝ).recipMetric Real.sqrt).sbetaa
      ≠ clampedSine Real.sqrt ((monoclinicWideCosine ℝ).recipMetric Real.sqrt).cbetaa ∧
    ((monoclinicWideCosine ℝ).recipMetric Real.sqrt).directCosines.2.1 = -5/3 ∧
    ((monoclinicWideCosine ℝ).recipMetric Real.sqrt).directCosines.2.1 < -1 ∧
    ((monoclinicWideCosine ℝ).recipMetric Real.sqrt).volArg = -16/9 ∧
    ((monoclinicWideCosine ℝ).recipMetric Real.sqrt).volArg < 0 ∧
    ∀ acos : ℝ → ℝ, (monoclinicWideCosine ℝ).DirectUnitCell Real.sqrt acos =
      [3/4, 1, 3/4, acos 0, acos (-5/3), acos 0, 3/4 * 1 * (3/4) * Real.sqrt (-16/9)] := by
  have habs : |(1:ℝ) - 5/3*(5/3)| = 16/9 := by
    rw [show (1:ℝ) - 5/3*(5/3) = -(16/9) by norm_num, abs_neg, abs_of_pos (by norm_num)]
  have hs : ((monoclinicWideCosine ℝ).recipMetric Real.sqrt).sbetaa = 4/3 := by
    simp only [RecUnitCell.recipMetric, monoclinicWideCosine]
    rw [habs, sqrt_sixteen_ninths]
  have hclamp : clampedSine Real.sqrt (5/3 : ℝ) = 0 := by
    simp only [clampedSine]
    rw [max_eq_left (by norm_num), Real.sqrt_zero]
  have hcos : ((monoclinicWideCosine ℝ).recipMetric Real.sqrt).directCosines.2.1 = -5/3 := by
    simp [RecipMetric.directCosines, RecUnitCell.recipMetric, monoclinicWideCosine]
    norm_num
  have hvolume : ((monoclinicWideCosine ℝ).recipMetric Real.sqrt).volArg = -16/9 := by
    simp [RecipMetric.volArg, RecipMetric.directCosines, RecUnitCell.recipMetric,
      monoclinicWideCosine]
    norm_num
  refine ⟨rfl, hs, hclamp, ?_, hcos, ?_, hvolume, ?_, ?_⟩
  · rw [hs, show ((monoclinicWideCosine ℝ).recipMetric Real.sqrt).cbetaa = 5/3 from rfl, hclamp]
    norm_num
  · rw [hcos]; norm_num
  · rw [hvolume]; norm_num
  · intro acos
    have hv : ((monoclinicWideCosine ℝ).recipMetric Real.sqrt).vvArg = -(16/9) := by
      simp [RecipMetric.vvArg, RecUnitCell.recipMetric, monoclinicWideCosine]
      norm_num
    have hvol : ((monoclinicWideCosine ℝ).recipMetric Real.sqrt).volArg = -16/9 := by
      simp [RecipMetric.volArg, RecipMetric.directCosines, RecUnitCell.recipMetric,
        monoclinicWideCosine]
      norm_num
    simp only [RecUnitCell.DirectUnitCell]
    rw [hv, hvol, hs, abs_neg, abs_of_pos (by norm_num : (0:ℝ) < 16/9), sqrt_sixteen_ninths]
    simp [RecipMetric.directCosines, RecUnitCell.recipMetric, monoclinicWideCosine]
    norm_num

/-- C9 (amended). `DirectUnitCell` guards its reciprocal-space square roots with an absolute
value: for triclinic, monoclinic and rhombohedral cells each reciprocal-angle sine is
`sqrt(|1 - cos²|)`, whose argument is never negative; it equals `sqrt(max(0, 1 - cos²))`
when `|cos| ≤ 1`, and is `sqrt(cos² - 1) > 0` when `|cos| > 1`; and the lengths a, b, c
divide by the volume factor `sqrt(|vvArg|)`. -/
theorem recipMetric_sines_abs (c : RecUnitCell ℝ)
    (hlat : c.mlattice = TRICLINIC ∨ c.mlattice = MONOCLINIC ∨ c.mlattice = RHOMBOEDRAL) :
    (c.recipMetric Real.sqrt).salphaa
        = Real.sqrt |1 - (c.recipMetric Real.sqrt).calphaa * (c.recipMetric Real.sqrt).calphaa| ∧
    (c.recipMetric Real.sqrt).sbetaa
        = Real.sqrt |1 - (c.recipMetric Real.sqrt).cbetaa * (c.recipMetric Real.sqrt).cbetaa| ∧
    (c.recipMetric Real.sqrt).sgammaa
        = Real.sqrt |1 - (c.recipMetric Real.sqrt).cgammaa * (c.recipMetric Real.sqrt).cgammaa| ∧
    (∀ x : ℝ, 0 ≤ |1 - x*x| ∧
      (|x| ≤ 1 → Real.sqrt |1 - x*x| = clampedSine Real.sqrt x) ∧
      (1 < |x| → Real.sqrt |1 - x*x| = Real.sqrt (x*x - 1) ∧ 0 < Real.sqrt |1 - x*x|)) ∧
    (∀ acos : ℝ → ℝ, (c.DirectUnitCell Real.sqrt acos).take 3 =
      [(c.recipMetric Real.sqrt).salphaa
          / ((c.recipMetric Real.sqrt).aa * Real.sqrt |(c.recipMetric Real.sqrt).vvArg|),
        (c.recipMetric Real.sqrt).sbetaa
          / ((c.recipMetric Real.sqrt).bb * Real.sqrt |(c.recipMetric Real.sqrt).vvArg|),
        (c.recipMetric Real.sqrt).sgammaa
          / ((c.recipMetric Real.sqrt).cc * Real.sqrt |(c.recipMetric Real.sqrt).vvArg|)]) := by
  refine ⟨?_, ?_, ?_, sine_cases, fun _ => rfl⟩ <;>
    rcases hlat with hl | hl | hl <;>
    simp [RecUnitCell.recipMetric, hl]

/-- Witness of C9 (amended): the monoclinic cell with 5/3 in the cosine slot. -/
theorem recipMetric_sines_abs_witness :
    (monoclinicWideCosine ℝ).mlattice = MONOCLINIC ∧
    ((monoclinicWideCosine ℝ).recipMetric Real.sqrt).sbetaa
      = Real.sqrt |1 - ((monoclinicWideCosine ℝ).recipMetric Real.sqrt).cbetaa
          * ((monoclinicWideCosine ℝ).recipMetric Real.sqrt).cbetaa| :=
  ⟨rfl, (recipMetric_sines_abs (monoclinicWideCosine ℝ) (Or.inr (Or.inl rfl))).2.1⟩

/-- C10 (failing input). Two rhombohedral cells that agree on `par[0]`, `par[1]`, `par[2]`
and differ only in `par[4]`: `hkl2d` and `hkl2d_delta` agree on them for all arguments, but
`DirectUnitCell` does not, because its rhombohedral branch reads the cosine from `par[4]`. -/
theorem DirectUnitCell_reads_par4 :
    (rhombohedralStray ℝ).mlattice = (rhombohedralUnit ℝ).mlattice ∧
    (∀ i ∈ 0 :: metricSlots (rhombohedralUnit ℝ).mlattice,
      (rhombohedralStray ℝ).par i = (rhombohedralUnit ℝ).par i) ∧
    (∀ (h k l : ℝ) (p : Option Nat) (d : Nat),
      (rhombohedralStray ℝ).hkl2d h k l p d = (rhombohedralUnit ℝ).hkl2d h k l p d) ∧
    (∀ (h k l : ℝ) (delta : RecUnitCell ℝ),
      (rhombohedralStray ℝ).hkl2d_delta h k l delta
        = (rhombohedralUnit ℝ).hkl2d_delta h k l delta) ∧
    (rhombohedralUnit ℝ).DirectUnitCell Real.sqrt Real.arccos
      = [1, 1, 1, Real.pi / 2, Real.pi / 2, Real.pi / 2, 1] ∧
    (rhombohedralStray ℝ).DirectUnitCell Real.sqrt Real.arccos
      ≠ (rhombohedralUnit ℝ).DirectUnitCell Real.sqrt Real.arccos := by
  have hunit : (rhombohedralUnit ℝ).DirectUnitCell Real.sqrt Real.arccos
      = [1, 1, 1, Real.pi / 2, Real.pi / 2, Real.pi / 2, 1] := by
    simp [RecUnitCell.DirectUnitCell, RecUnitCell.recipMetric, RecipMetric.vvArg,
      RecipMetric.directCosines, RecipMetric.volArg, rhombohedralUnit]
  refine ⟨rfl, ?_, ?_, ?_, hunit, ?_⟩
  · intro i hi
    simp only [rhombohedralUnit, metricSlots, List.mem_cons, List.mem_singleton,
      List.not_mem_nil, or_false] at hi
    rcases hi with rfl | rfl | rfl <;> rfl
  · intro h k l p d
    rfl
  · intro h k l delta
    rfl
  · rw [hunit]
    intro heq
    have hhead := congrArg List.head? heq
    simp only [RecUnitCell.DirectUnitCell, List.head?_cons, Option.some.injEq] at hhead
    have hs : ((rhombohedralStray ℝ).recipMetric Real.sqrt).salphaa = 4/5 := by
      simp only [RecUnitCell.recipMetric, rhombohedralStray]
      rw [show |(1:ℝ) - 3/5*(3/5)| = (4/5)^2 by
        rw [abs_of_pos (by norm_num)]; norm_num]
      exact Real.sqrt_sq (by norm_num)
    have hv : ((rhombohedralStray ℝ).recipMetric Real.sqrt).vvArg = 44/125 := by
      simp [RecipMetric.vvArg, RecUnitCell.recipMetric, rhombohedralStray]
      norm_num
    have haa : ((rhombohedralStray ℝ).recipMetric Real.sqrt).aa = 1 := rfl
    rw [hs, hv, haa, abs_of_pos (by norm_num : (0:ℝ) < 44/125), one_mul] at hhead
    have hpos : (0:ℝ) < Real.sqrt (44/125) := Real.sqrt_pos.2 (by norm_num)
    have h1 : Real.sqrt (44/125) = 4/5 := ((div_eq_one_iff_eq hpos.ne').1 hhead).symm
    have h2 : Real.sqrt (44/125) ^ 2 = 44/125 := Real.sq_sqrt (by norm_num)
    rw [h1] at h2
    norm_num at h2

/-- C11 (counterexample). One peak at dobs = 1 (a non-empty sorted list) and the
orthorhombic cell with all parameters 0: every reflection has d*² = 0, never above the
cutoff, so the loop `for(;;++l)` has no exit and `Score` does not return; whatever the
budgets, the run uses them up. -/
theorem Score_never_returns :
    ([sharpPeak 1] ≠ [] ∧ [sharpPeak 1].Pairwise (fun p q => p.dobs ≤ q.dobs)) ∧
    ∀ (sqrt : ℚ → ℚ) (fh fk fl : Nat) (nbSpurious : Nat) (storehkl sp : Bool),
      Score sqrt fh fk fl ⟨[sharpPeak 1], []⟩ (zeroHalfWidth ORTHOROMBIC) nbSpurious storehkl sp
        = .error Fault.outOfFuel := by
  refine ⟨⟨by simp, by simp⟩, ?_⟩
  intro sqrt fh fk fl nbSpurious storehkl sp
  obtain ⟨plast, hlast, hcut⟩ := Score.cutoff_reset storehkl sp [sharpPeak 1] (by simp)
  have hp : plast = sharpPeak 1 := by
    simp at hlast
    exact hlast.symm
  subst hp
  have hin : ∀ h k l : Int, ¬ (zeroHalfWidth ORTHOROMBIC).hkl2dInt h k l
      > (sharpPeak 1).d2obs * (if sp then 2 else 1) * (105/100) := by
    intro h k l
    cases sp <;>
      norm_num [zeroHalfWidth, sharpPeak, PeakList.hkl.new, RecUnitCell.hkl2dInt,
        RecUnitCell.hkl2d, okValue]
  simp only [Score, hcut, Score.enumerate_never _ _ storehkl sp hin]

/-- C11 (amended). For a non-empty peak list sorted by `dobs`, with `dobs >= 0` and
`d2obs = dobs²` for every peak, the last peak has the largest `d2obs`, and every call of
`Score` that returns, returns `sqrt(dmax) * N / (2 * eps * Ncalc)`, or 0 when `Ncalc = 0`,
where `dmax` is 1.05 times that largest `d2obs` (2.1 times when `storePredictedHKL` is set),
`N` is the number of peaks, `Ncalc` is the counter `nbCalc` of the reflections the
enumeration generated within `dmax` (the length of `mvPredictedHKL` when these are stored),
and `eps` is the sum of the `N - nbSpurious` smallest `|d2diff|` of the peaks.  The call
does return, given enough budget, for every orthorhombic cell with positive a*, b*, c*. -/
theorem Score_value [Archimedean K] (sqrt : K → K) (dhkl : PeakList K) (ruc : RecUnitCell K)
    (nbSpurious : Nat) (storehkl sp : Bool)
    (hne : dhkl.mvHKL ≠ [])
    (hsorted : dhkl.mvHKL.Pairwise (fun p q => p.dobs ≤ q.dobs))
    (hobs : ∀ p ∈ dhkl.mvHKL, 0 ≤ p.dobs ∧ p.d2obs = p.dobs * p.dobs) :
    ∃ plast ∈ dhkl.mvHKL, (∀ p ∈ dhkl.mvHKL, p.d2obs ≤ plast.d2obs) ∧
      (∀ (fh fk fl : Nat) (r : K × PeakList K),
        Score sqrt fh fk fl dhkl ruc nbSpurious storehkl sp = .ok r →
        ∃ s, Score.enumerate ruc (plast.d2obs * (if sp then 2 else 1) * (105/100)) storehkl sp
              fh fk fl (Score.reset storehkl dhkl.mvHKL)
              (if sp then [] else dhkl.mvPredictedHKL) = some s ∧
          (sp = true → r.2.mvPredictedHKL.length = s.nbCalc) ∧
          r.1 = if s.nbCalc = 0 then 0
            else sqrt (plast.d2obs * (if sp then 2 else 1) * (105/100))
                * (dhkl.mvHKL.length : K)
              / (2 * sumSmallest (dhkl.mvHKL.length - nbSpurious)
                      (r.2.mvHKL.map (fun p => |p.d2diff|)) * (s.nbCalc : K))) ∧
      (ruc.mlattice = ORTHOROMBIC → 0 < ruc.par1 → 0 < ruc.par2 → 0 < ruc.par3 →
        ∃ B : Nat, ∀ fh fk fl : Nat, B < fh → B < fk → B < fl →
          ∃ r, Score sqrt fh fk fl dhkl ruc nbSpurious storehkl sp = .ok r) := by
  obtain ⟨plast, hlast, hcut⟩ := Score.cutoff_reset storehkl sp dhkl.mvHKL hne
  have hsorted' : dhkl.mvHKL.Pairwise (fun p q => p.d2obs ≤ q.d2obs) := by
    refine hsorted.imp_of_mem ?_
    intro p q hp hq hpq
    rw [(hobs p hp).2, (hobs q hq).2]
    exact mul_le_mul hpq hpq (hobs p hp).1 (le_trans (hobs p hp).1 hpq)
  obtain ⟨hmem, hmax⟩ := pairwise_last_max (fun p q : PeakList.hkl K => p.d2obs ≤ q.d2obs)
    (fun _ => le_refl _) dhkl.mvHKL plast hsorted' hlast
  refine ⟨plast, hmem, hmax, ?_, fun hlat h1 h2 h3 =>
    Score_returns_orthorhombic sqrt dhkl ruc nbSpurious storehkl sp hne hlat h1 h2 h3⟩
  intro fh fk fl r hrun
  obtain ⟨dmax, s, hcut', hen, hval, hout⟩ :=
    Score_ok sqrt fh fk fl dhkl ruc nbSpurious storehkl sp r hrun
  rw [hcut] at hcut'
  cases hcut'
  refine ⟨s, hen, ?_, ?_⟩
  · intro hsp
    subst hsp
    rw [hout]
    exact Score.enumerate_predicted storehkl ruc _ fh fk fl _ s hen
  · rw [hval, Score.spurious_fst, hout]
    have hl : s.peaks.length = dhkl.mvHKL.length := by
      rw [Score.enumerate_length storehkl sp ruc _ fh fk fl _ _ s hen, Score.reset_length]
    have hm : (Score.spurious nbSpurious storehkl s.peaks).2.map (fun p => |p.d2diff|)
        = s.peaks.map (fun p => |p.d2diff|) :=
      Score.spurious_map_eq (fun p : PeakList.hkl K => |p.d2diff|) nbSpurious storehkl
        (fun p => rfl) s.peaks
    show _ = if s.nbCalc = 0 then 0 else _ / (2 * sumSmallest _
      ((Score.spurious nbSpurious storehkl s.peaks).2.map (fun p => |p.d2diff|)) * _)
    rw [hm, hl]

/-- Witness of C11: one peak at dobs = 1 and the orthorhombic cell (1/7, 1/8, 1/9), with
the identity in the place of `sqrt`; the cutoff is 2.1. -/
theorem Score_value_witness :
    (⟨[sharpPeak 1], []⟩ : PeakList ℚ).mvHKL ≠ [] ∧
    ∃ B : Nat, ∀ fh fk fl : Nat, B < fh → B < fk → B < fl →
      ∃ (r : ℚ × PeakList ℚ) (s : ScoreState ℚ),
        Score (fun x => x) fh fk fl ⟨[sharpPeak 1], []⟩ orthorhombicCentre 0 true true = .ok r ∧
        Score.enumerate orthorhombicCentre (21/10) true true fh fk fl
          (Score.reset true [sharpPeak 1]) [] = some s ∧
        r.2.mvPredictedHKL.length = s.nbCalc ∧
        r.1 = if s.nbCalc = 0 then 0
          else 21/10 * 1 / (2 * sumSmallest 1 (r.2.mvHKL.map (fun p => |p.d2diff|)) * s.nbCalc) := by
  have hne : (⟨[sharpPeak 1], []⟩ : PeakList ℚ).mvHKL ≠ [] := by simp
  obtain ⟨plast, hmem, _, hval, hterm⟩ :=
    Score_value (fun x : ℚ => x) ⟨[sharpPeak 1], []⟩ orthorhombicCentre 0 true true hne
      (by simp)
      (by
        intro p hp
        rw [List.mem_singleton.1 hp]
        norm_num [sharpPeak, PeakList.hkl.new])
  have hp : plast = sharpPeak 1 := List.mem_singleton.1 hmem
  subst hp
  obtain ⟨B, hB⟩ := hterm rfl (by norm_num [orthorhombicCentre])
    (by norm_num [orthorhombicCentre]) (by norm_num [orthorhombicCentre])
  refine ⟨hne, B, ?_⟩
  intro fh fk fl hfh hfk hfl
  obtain ⟨r, hr⟩ := hB fh fk fl hfh hfk hfl
  obtain ⟨s, hs, hpred, hscore⟩ := hval fh fk fl r hr
  have hd : (sharpPeak 1).d2obs * (if true = true then 2 else 1) * (105/100) = (21/10 : ℚ) := by
    norm_num [sharpPeak, PeakList.hkl.new]
  rw [hd] at hs hscore
  refine ⟨r, s, hr, hs, hpred rfl, ?_⟩
  rw [hscore]
  simp

/-- C12. For `0 < nbSpurious <= N`, in every call of `Score` that returns, the error sum
that the score divides by is the sum of the `N - nbSpurious` smallest `|d2diff|` of the
peaks: `nbSpurious` distinct positions `removed` are taken out, their `|d2diff|` are at
least those of all other peaks, and the `stats` of a peak after the call is the one before
the call plus one exactly at the positions of `removed`.  The call does return, given enough
budget, for every orthorhombic cell with positive a*, b*, c*. -/
theorem Score_spurious_removal [Archimedean K] (sqrt : K → K) (dhkl : PeakList K)
    (ruc : RecUnitCell K) (nbSpurious : Nat) (storehkl sp : Bool)
    (hpos : 0 < nbSpurious) (hle : nbSpurious ≤ dhkl.mvHKL.length) :
    (∀ (fh fk fl : Nat) (r : K × PeakList K),
      Score sqrt fh fk fl dhkl ruc nbSpurious storehkl sp = .ok r →
      ∃ (dmax : K) (s : ScoreState K) (removed : List Nat),
        Score.cutoff sp (Score.reset storehkl dhkl.mvHKL) = .ok dmax ∧
        Score.enumerate ruc dmax storehkl sp fh fk fl (Score.reset storehkl dhkl.mvHKL)
          (if sp then [] else dhkl.mvPredictedHKL) = some s ∧
        r.2.mvHKL.map (fun p => p.d2diff) = s.peaks.map (fun p => p.d2diff) ∧
        (Score.spurious nbSpurious storehkl s.peaks).1
          = sumSmallest (dhkl.mvHKL.length - nbSpurious) (r.2.mvHKL.map (fun p => |p.d2diff|)) ∧
        r.1 = (if s.nbCalc = 0 then 0
          else sqrt dmax * (dhkl.mvHKL.length : K)
            / (2 * sumSmallest (dhkl.mvHKL.length - nbSpurious)
                    (r.2.mvHKL.map (fun p => |p.d2diff|)) * (s.nbCalc : K))) ∧
        removed.Nodup ∧ removed.length = nbSpurious ∧
        (∀ i ∈ removed, i < dhkl.mvHKL.length) ∧
        (∀ i ∈ removed, ∀ j, j ∉ removed → ∀ p q, r.2.mvHKL[i]? = some p →
          r.2.mvHKL[j]? = some q → |q.d2diff| ≤ |p.d2diff|) ∧
        (∀ j, (r.2.mvHKL[j]?).map (fun p => p.stats)
          = (dhkl.mvHKL[j]?).map (fun p => p.stats + if j ∈ removed then 1 else 0))) ∧
    (ruc.mlattice = ORTHOROMBIC → 0 < ruc.par1 → 0 < ruc.par2 → 0 < ruc.par3 →
      ∃ B : Nat, ∀ fh fk fl : Nat, B < fh → B < fk → B < fl →
        ∃ r, Score sqrt fh fk fl dhkl ruc nbSpurious storehkl sp = .ok r) := by
  have hne : dhkl.mvHKL ≠ [] := by
    intro h
    rw [h] at hle
    simp at hle
    omega
  refine ⟨?_, fun hlat h1 h2 h3 =>
    Score_returns_orthorhombic sqrt dhkl ruc nbSpurious storehkl sp hne hlat h1 h2 h3⟩
  intro fh fk fl r hrun
  obtain ⟨dmax, s, hcut, hen, hval, hout⟩ :=
    Score_ok sqrt fh fk fl dhkl ruc nbSpurious storehkl sp r hrun
  have hl : s.peaks.length = dhkl.mvHKL.length := by
    rw [Score.enumerate_length storehkl sp ruc _ fh fk fl _ _ s hen, Score.reset_length]
  have hmv : r.2.mvHKL = (Score.spurious nbSpurious storehkl s.peaks).2 := by rw [hout]
  have hd : r.2.mvHKL.map (fun p => p.d2diff) = s.peaks.map (fun p => p.d2diff) := by
    rw [hmv]
    exact Score.spurious_map_eq (fun p : PeakList.hkl K => p.d2diff) nbSpurious storehkl
      (fun p => rfl) s.peaks
  have hm : r.2.mvHKL.map (fun p => |p.d2diff|) = s.peaks.map (fun p => |p.d2diff|) := by
    rw [hmv]
    exact Score.spurious_map_eq (fun p : PeakList.hkl K => |p.d2diff|) nbSpurious storehkl
      (fun p => rfl) s.peaks
  have hget : ∀ (i : Nat) (p : PeakList.hkl K), r.2.mvHKL[i]? = some p →
      ∃ q, s.peaks[i]? = some q ∧ q.d2diff = p.d2diff := by
    intro i p hp
    have h1 := congrArg (fun l => l[i]?) hd
    simp only [List.getElem?_map, hp, Option.map_some'] at h1
    cases hq : s.peaks[i]? with
    | none => rw [hq] at h1; simp at h1
    | some q =>
      rw [hq] at h1
      simp only [Option.map_some', Option.some.injEq] at h1
      exact ⟨q, rfl, h1.symm⟩
  obtain ⟨removed, _, hsum, hlen, hnd, hrl, hrlt, hworst, hstats⟩ :=
    Score.spurious_spec nbSpurious storehkl s.peaks hpos (by rw [hl]; exact hle)
  refine ⟨dmax, s, removed, hcut, hen, hd, ?_, ?_, hnd, hrl, ?_, ?_, ?_⟩
  · rw [hsum, hm, hl]
  · rw [hval, hsum, hm, hl]
  · intro i hi
    rw [← hl]
    exact hrlt i hi
  · intro i hi j hj p q hp hq
    obtain ⟨p', hp', hpe⟩ := hget i p hp
    obtain ⟨q', hq', hqe⟩ := hget j q hq
    rw [← hpe, ← hqe]
    exact hworst i hi j hj p' q' hp' hq'
  · intro j
    rw [hmv, hstats j]
    have hs := Score.enumerate_stats storehkl sp ruc dmax fh fk fl _ _ s hen
    have h1 := congrArg (fun l => l[j]?) hs
    simp only [List.getElem?_map] at h1
    cases hq : s.peaks[j]? with
    | none =>
      rw [hq] at h1
      cases hd0 : dhkl.mvHKL[j]? with
      | none => rfl
      | some d => rw [hd0] at h1; simp at h1
    | some q =>
      rw [hq] at h1
      cases hd0 : dhkl.mvHKL[j]? with
      | none => rw [hd0] at h1; simp at h1
      | some d =>
        rw [hd0] at h1
        simp only [Option.map_some', Option.some.injEq] at h1
        simp only [Option.map_some', h1]

/-- Witness of C12: two peaks, one of them removed, with the orthorhombic cell
(1/7, 1/8, 1/9). -/
theorem Score_spurious_removal_witness :
    (0 < 1 ∧ 1 ≤ (⟨[sharpPeak 1, sharpPeak 2], []⟩ : PeakList ℚ).mvHKL.length) ∧
    ∃ B : Nat, ∀ fh fk fl : Nat, B < fh → B < fk → B < fl →
      ∃ (r : ℚ × PeakList ℚ) (removed : List Nat),
        Score (fun x => x) fh fk fl ⟨[sharpPeak 1, sharpPeak 2], []⟩ orthorhombicCentre 1
          false false = .ok r ∧
        removed.length = 1 ∧
        ∀ j, (r.2.mvHKL[j]?).map (fun p => p.stats)
          = ([sharpPeak 1, sharpPeak 2][j]?).map
              (fun p => p.stats + if j ∈ removed then 1 else 0) := by
  have hle : 1 ≤ (⟨[sharpPeak 1, sharpPeak 2], []⟩ : PeakList ℚ).mvHKL.length := by simp
  obtain ⟨hval, hterm⟩ :=
    Score_spurious_removal (fun x : ℚ => x) ⟨[sharpPeak 1, sharpPeak 2], []⟩
      orthorhombicCentre 1 false false (by decide) hle
  obtain ⟨B, hB⟩ := hterm rfl (by norm_num [orthorhombicCentre])
    (by norm_num [orthorhombicCentre]) (by norm_num [orthorhombicCentre])
  refine ⟨⟨by decide, hle⟩, B, ?_⟩
  intro fh fk fl hfh hfk hfl
  obtain ⟨r, hr⟩ := hB fh fk fl hfh hfk hfl
  obtain ⟨_, _, removed, _, _, _, _, _, _, hlen, _, _, hstats⟩ := hval fh fk fl r hr
  exact ⟨r, removed, hr, hlen, hstats⟩

/-- C13 (failing input). Orthorhombic cell a* = b* = 1/10, c* = 1 and the single peak at
dobs = 1/10, whose `d2obs = 1/100` is `hkl2d(1,0,0)` of that cell; `nbSpurious = 0`,
`storehkl = true`.  The first reflection (0,0,1) has d*² = 1 above the cutoff 0.0105, so
`nbCalcK` and `nbCalcH` stay 0 and the `k` and `h` loops stop at once: `Score` returns 0 and
the peak is left with `isIndexed = false`, `d2calc = 0` and `d2diff = 1000`. -/
theorem Score_misses_exact_peak :
    (sharpPeak (1/10)).d2obs = longAxisCell.hkl2dInt 1 0 0 ∧
    ∀ (sqrt : ℚ → ℚ) (fh fk fl : Nat),
      Score sqrt (fh+1) (fk+1) (fl+1) ⟨[sharpPeak (1/10)], []⟩ longAxisCell 0 true false
        = .ok (0, ⟨[{ sharpPeak (1/10) with isIndexed := false, d2calc := 0, d2diff := 1000 }],
                   []⟩) := by
  constructor
  · norm_num [sharpPeak, longAxisCell, PeakList.hkl.new, RecUnitCell.hkl2dInt,
      RecUnitCell.hkl2d, okValue]
  · intro sqrt fh fk fl
    norm_num [Score, Score.reset, Score.cutoff, Score.enumerate, Score.loopH, Score.loopSK,
      Score.loopK, Score.loopSL, Score.loopL, Score.visit, Score.scanPeaks, Score.assign,
      Score.spurious, sharpPeak, longAxisCell, PeakList.hkl.new, signK0, signL0, Score.slStart,
      RecUnitCell.hkl2dInt, RecUnitCell.hkl2dDeriv, RecUnitCell.hkl2d, okValue]

set_option maxHeartbeats 4000000 in
/-- C14 (counterexample). Cubic cell a* = 1, one peak at dobs = 101/100 that enters
with `d2calc = 5`, `d2diff = 0` and `stats = 0`, `nbSpurious = 1`, `storehkl = false`: the
peak leaves the call with `d2calc = 0`, `d2diff = -201/10000` and `stats = 1`. -/
theorem Score_mutates_without_storehkl :
    ((usedPeak (101/100)).d2calc = 5 ∧ (usedPeak (101/100)).d2diff = 0 ∧
      (usedPeak (101/100)).stats = 0) ∧
    ∀ (sqrt : ℚ → ℚ) (fh fk fl : Nat),
      (Score sqrt (fh+3) (fk+3) (fl+3) ⟨[usedPeak (101/100)], []⟩ cubicUnit 1 false false).map
          Prod.snd
        = .ok ⟨[{ usedPeak (101/100) with d2calc := 0, d2diff := -(201/10000), stats := 1 }],
                []⟩ := by
  refine ⟨⟨rfl, rfl, rfl⟩, ?_⟩
  intro sqrt fh fk fl
  norm_num [Score, Score.reset, Score.cutoff, Score.enumerate, Score.loopH, Score.loopSK,
      Score.loopK, Score.loopSL, Score.loopL, Score.visit, Score.scanPeaks, Score.assign,
      Score.spurious, Score.sortedDiffs, Score.dropWorst, Score.markSpurious, modifyAt,
      listSort, comparePairFirst, usedPeak, cubicUnit, PeakList.hkl.new, signK0, signL0,
      Score.slStart, RecUnitCell.hkl2dInt, RecUnitCell.hkl2dDeriv, RecUnitCell.hkl2d, okValue,
      Except.map, abs_div, Nat.abs_ofNat, abs_neg]

/-- C14 (amended). With `storehkl = false`, every call of `Score` that returns leaves
`h`, `k`, `l`, `isIndexed` (and the observed data, `isSpurious` and the candidate list) of
every peak as they were; `d2calc` of every peak is reset to 0 and `d2diff` is overwritten
(by a value of magnitude at most 1000); `stats` is unchanged when `nbSpurious = 0`, and the
predicted list is unchanged when `storePredictedHKL` is false.  The call does return, given
enough budget, for a non-empty list and an orthorhombic cell with positive a*, b*, c*. -/
theorem Score_frame [Archimedean K] (sqrt : K → K) (dhkl : PeakList K) (ruc : RecUnitCell K)
    (nbSpurious : Nat) (sp : Bool) :
    (∀ (fh fk fl : Nat) (r : K × PeakList K),
      Score sqrt fh fk fl dhkl ruc nbSpurious false sp = .ok r →
        r.2.mvHKL.map PeakList.hkl.assigned = dhkl.mvHKL.map PeakList.hkl.assigned ∧
        (∀ p ∈ r.2.mvHKL, p.d2calc = 0 ∧ |p.d2diff| ≤ 1000) ∧
        (nbSpurious = 0 →
          r.2.mvHKL.map (fun p => p.stats) = dhkl.mvHKL.map (fun p => p.stats)) ∧
        (sp = false → r.2.mvPredictedHKL = dhkl.mvPredictedHKL)) ∧
    (dhkl.mvHKL ≠ [] → ruc.mlattice = ORTHOROMBIC → 0 < ruc.par1 → 0 < ruc.par2 →
      0 < ruc.par3 →
      ∃ B : Nat, ∀ fh fk fl : Nat, B < fh → B < fk → B < fl →
        ∃ r, Score sqrt fh fk fl dhkl ruc nbSpurious false sp = .ok r) := by
  refine ⟨?_, fun hne hlat h1 h2 h3 =>
    Score_returns_orthorhombic sqrt dhkl ruc nbSpurious false sp hne hlat h1 h2 h3⟩
  intro fh fk fl r hrun
  obtain ⟨dmax, s, hcut, hen, hval, hout⟩ :=
    Score_ok sqrt fh fk fl dhkl ruc nbSpurious false sp r hrun
  rw [hout]
  refine ⟨?_, ?_, ?_, ?_⟩
  · show (Score.spurious nbSpurious false s.peaks).2.map PeakList.hkl.assigned = _
    rw [Score.spurious_map_eq PeakList.hkl.assigned nbSpurious false (fun p => rfl),
      Score.enumerate_map_eq PeakList.hkl.assigned false sp (fun _ _ _ _ _ p => rfl)
        ruc dmax fh fk fl _ _ s hen]
    simp only [Score.reset, List.map_map]
    rfl
  · intro p hp
    have hp' : p ∈ (Score.spurious nbSpurious false s.peaks).2 := hp
    have hmap := Score.spurious_map_eq (fun p : PeakList.hkl K => (p.d2calc, p.d2diff))
      nbSpurious false (fun p => rfl) s.peaks
    have hmem : (p.d2calc, p.d2diff) ∈ s.peaks.map (fun p => (p.d2calc, p.d2diff)) := by
      rw [← hmap]; exact List.mem_map.2 ⟨p, hp', rfl⟩
    obtain ⟨q, hq, hqe⟩ := List.mem_map.1 hmem
    simp only [Prod.mk.injEq] at hqe
    rw [← hqe.1, ← hqe.2]
    constructor
    · have h0 := Score.enumerate_map_eq (fun p : PeakList.hkl K => p.d2calc) false sp
        (fun _ _ _ _ _ p => rfl) ruc dmax fh fk fl _ _ s hen
      have : q.d2calc ∈ s.peaks.map (fun p => p.d2calc) := List.mem_map.2 ⟨q, hq, rfl⟩
      rw [h0] at this
      simp only [Score.reset, List.map_map, List.mem_map, Function.comp] at this
      obtain ⟨_, _, he⟩ := this
      exact he.symm
    · have hb : ∀ p ∈ s.peaks, |p.d2diff| ≤ 1000 := by
        refine Score.loopH_inv (fun t => ∀ p ∈ t.peaks, |p.d2diff| ≤ 1000) ruc dmax false sp
          fk fl ?_ (fun _ h => h) (fun _ h => h) fh 0 _ s ?_ hen
        · intro d2 h k l t ht
          exact Score.scanPeaks_bound false d2 h k l t.peaks ht
        · intro p hp
          simp only [Score.reset, List.mem_map] at hp
          obtain ⟨_, _, rfl⟩ := hp
          simp
      exact hb q hq
  · intro hz
    subst hz
    show (Score.spurious 0 false s.peaks).2.map (fun p => p.stats) = _
    have h0 := Score.enumerate_map_eq (fun p : PeakList.hkl K => p.stats) false sp
        (fun _ _ _ _ _ p => rfl) ruc dmax fh fk fl _ _ s hen
    simp only [Score.spurious, gt_iff_lt, lt_self_iff_false, if_false]
    rw [h0]
    simp only [Score.reset, List.map_map]
    rfl
  · intro hsp
    subst hsp
    show s.predicted = _
    refine Score.loopH_inv (fun t => t.predicted = dhkl.mvPredictedHKL) ruc dmax false false
      fk fl ?_ (fun _ h => h) (fun _ h => h) fh 0 _ s ?_ hen
    · intro d2 h k l t ht
      simpa [Score.visit] using ht
    · simp

/-- Witness of C14: one peak at dobs = 1 and the orthorhombic cell (1/7, 1/8, 1/9). -/
theorem Score_frame_witness :
    ∃ B : Nat, ∀ fh fk fl : Nat, B < fh → B < fk → B < fl →
      ∃ r : ℚ × PeakList ℚ,
        Score (fun x => x) fh fk fl ⟨[sharpPeak 1], []⟩ orthorhombicCentre 0 false false = .ok r ∧
        r.2.mvHKL.map PeakList.hkl.assigned = [(sharpPeak 1).assigned] ∧
        r.2.mvPredictedHKL = [] := by
  obtain ⟨hval, hterm⟩ :=
    Score_frame (fun x : ℚ => x) ⟨[sharpPeak 1], []⟩ orthorhombicCentre 0 false
  obtain ⟨B, hB⟩ := hterm (by simp) rfl (by norm_num [orthorhombicCentre])
    (by norm_num [orthorhombicCentre]) (by norm_num [orthorhombicCentre])
  refine ⟨B, ?_⟩
  intro fh fk fl hfh hfk hfl
  obtain ⟨r, hr⟩ := hB fh fk fl hfh hfk hfl
  obtain ⟨hass, _, _, hpred⟩ := hval fh fk fl r hr
  exact ⟨r, hr, hass, hpred rfl⟩

/-- C15. In stored-candidate mode (`useStoredHKL = 1`) with `nbUnindexed < N`,
`DichoIndexed` returns (no budget is used), and it returns true if and only if at least
`N - nbUnindexed` peaks have a stored candidate in `vDicVolHKL` whose `hkl2d_delta` interval
`[d0,d1]` overlaps the observed interval of the peak (`d2obsmax >= d0` and
`d1 >= d2obsmin`). -/
theorem DichoIndexed_stored_iff (fh fk fl : Nat) (dhkl : PeakList K) (uc duc : RecUnitCell K)
    (nbUnindexed : Nat) (hlt : nbUnindexed < dhkl.mvHKL.length) :
    ∃ (b : Bool) (out : PeakList K),
      DichoIndexed fh fk fl dhkl uc duc nbUnindexed 1 = .ok (b, out) ∧
      (b = true ↔ dhkl.mvHKL.length - nbUnindexed
          ≤ (dhkl.mvHKL.filter (hasStoredMatch uc duc)).length) := by
  refine ⟨_, _, by simp only [DichoIndexed, if_true]; rfl, ?_⟩
  have key := storedLoop_true_iff uc duc nbUnindexed dhkl.mvHKL
    ((dhkl.mvHKL.length : Int) - (nbUnindexed : Int)) 0 (by omega) (le_refl _)
    (Int.natCast_nonneg _) (by omega)
  rw [key]
  omega

/-- Witness of C15: one peak at dobs = 1 with the stored candidate (0,0,1), the cubic
cell a* = 1 and zero half-widths. -/
theorem DichoIndexed_stored_iff_witness :
    0 < (⟨[storedPeak], []⟩ : PeakList ℚ).mvHKL.length ∧
    ∃ (b : Bool) (out : PeakList ℚ),
      DichoIndexed 0 0 0 ⟨[storedPeak], []⟩ cubicUnit (zeroHalfWidth CUBIC) 0 1 = .ok (b, out) ∧
      (b = true ↔ (⟨[storedPeak], []⟩ : PeakList ℚ).mvHKL.length - 0
          ≤ ((⟨[storedPeak], []⟩ : PeakList ℚ).mvHKL.filter
              (hasStoredMatch cubicUnit (zeroHalfWidth CUBIC))).length) :=
  ⟨by simp, DichoIndexed_stored_iff 0 0 0 ⟨[storedPeak], []⟩ cubicUnit (zeroHalfWidth CUBIC) 0
    (by simp)⟩

set_option maxHeartbeats 4000000 in
/-- C16 (failing input). Orthorhombic cell a* = b* = 2, c* = 19/20, zero half-widths,
one peak at dobs = 1 of width 1/5 (observed interval [0.81, 1.21]), `useStoredHKL = 2`.  The
first reflection of the enumeration, (0,0,1), has the interval [0.9025, 0.9025], which
overlaps the observed one; but `dmin` starts as `d2obs = 1`, so `d1 < dmin` skips it: the
call returns false and the `vDicVolHKL` of the peak is left empty. -/
theorem DichoIndexed_store_skips_candidate :
    DichoIndexed.overlaps (broadPeak 1 (1/5))
        (shortAxisCell.hkl2d_delta 0 0 1 (zeroHalfWidth ORTHOROMBIC)).1
        (shortAxisCell.hkl2d_delta 0 0 1 (zeroHalfWidth ORTHOROMBIC)).2 = true ∧
    ∀ fh fk fl : Nat,
      DichoIndexed (fh+2) (fk+2) (fl+2) ⟨[broadPeak 1 (1/5)], []⟩ shortAxisCell
        (zeroHalfWidth ORTHOROMBIC) 0 2 = .ok (false, ⟨[broadPeak 1 (1/5)], []⟩) := by
  constructor
  · norm_num [DichoIndexed.overlaps, broadPeak, shortAxisCell, zeroHalfWidth,
      PeakList.hkl.new, RecUnitCell.hkl2d_delta]
  · intro fh fk fl
    norm_num [DichoIndexed, DichoIndexed.loopH, DichoIndexed.loopSK, DichoIndexed.loopK,
      DichoIndexed.loopSL, DichoIndexed.loopL, DichoIndexed.peakLoop, broadPeak, shortAxisCell,
      zeroHalfWidth, PeakList.hkl.new, signK0, signL0, Score.slStart, RecUnitCell.hkl2d_delta]

/-- C17 (failing input). Orthorhombic cell a* = b* = 1/10, c* = 1 as the centre of the
box, zero half-widths, the single peak at dobs = 1/10 whose `d2obs = 1/100` is `hkl2d(1,0,0)`
of that cell, `nbUnindexed = 0`, `useStoredHKL = 0`.  The first reflection (0,0,1) has
`d0 = 1 > dmax`, which sets `break_l` and then `break_k` at `h = k = 0`: `DichoIndexed`
returns false and the peak stays unindexed. -/
theorem DichoIndexed_misses_exact_cell :
    (sharpPeak (1/10)).d2obs = longAxisCell.hkl2dInt 1 0 0 ∧
    ∀ fh fk fl : Nat,
      DichoIndexed (fh+1) (fk+1) (fl+1) ⟨[sharpPeak (1/10)], []⟩ longAxisCell
        (zeroHalfWidth ORTHOROMBIC) 0 0 = .ok (false, ⟨[sharpPeak (1/10)], []⟩) := by
  constructor
  · norm_num [sharpPeak, longAxisCell, PeakList.hkl.new, RecUnitCell.hkl2dInt,
      RecUnitCell.hkl2d, okValue]
  · intro fh fk fl
    norm_num [DichoIndexed, DichoIndexed.loopH, DichoIndexed.loopSK, DichoIndexed.loopK,
      DichoIndexed.loopSL, DichoIndexed.loopL, DichoIndexed.peakLoop, sharpPeak, longAxisCell,
      zeroHalfWidth, PeakList.hkl.new, signK0, signL0, Score.slStart, RecUnitCell.hkl2d_delta]

/-- C18 (failing input). On an empty peak list, `DichoIndexed` in the modes
`useStoredHKL = 0` and `useStoredHKL = 2` reads `GetPeakList()[nb-1]` and `GetPeakList()[0]`
of an empty vector, out of range, before any loop; only the mode `useStoredHKL = 1`
returns false. -/
theorem DichoIndexed_empty_list (fh fk fl : Nat) (predicted : List (PeakList.hkl K))
    (uc duc : RecUnitCell K) (nbUnindexed : Nat) :
    DichoIndexed fh fk fl ⟨[], predicted⟩ uc duc nbUnindexed 0 = .error Fault.outOfRange ∧
    DichoIndexed fh fk fl ⟨[], predicted⟩ uc duc nbUnindexed 2 = .error Fault.outOfRange ∧
    DichoIndexed fh fk fl ⟨[], predicted⟩ uc duc nbUnindexed 1 = .ok (false, ⟨[], predicted⟩) := by
  refine ⟨?_, ?_, ?_⟩ <;> simp [DichoIndexed, DichoIndexed.storedLoop]

/-- C19 (counterexample). The orthorhombic cell a* = b* = c* = 1/5 with score 100 and
the cubic cell a* = 1/5 with score 1 have the same direct cell, so they are similar;
`ReduceSolutions` keeps the cubic one, of score 1. -/
theorem ReduceSolutions_keeps_lower_score :
    SimilarRUC Real.sqrt Real.arccos (cubicCell ℝ) (orthorhombicFifth ℝ) (5/1000) = true ∧
    CellExplorer.ReduceSolutions Real.sqrt Real.arccos
        [(orthorhombicFifth ℝ, 100), (cubicCell ℝ, 1)] = [(cubicCell ℝ, 1)] := by
  have hsim : SimilarRUC Real.sqrt Real.arccos (cubicCell ℝ) (orthorhombicFifth ℝ) (5/1000)
      = true := by
    have h := SimilarRUC_self Real.sqrt Real.arccos (cubicCell ℝ)
    simp only [SimilarRUC, DirectUnitCell_orthorhombicFifth] at h ⊢
    exact h
  refine ⟨hsim, ?_⟩
  rw [ReduceSolutions_pair Real.sqrt Real.arccos (orthorhombicFifth ℝ, 100) (cubicCell ℝ, 1) hsim]
  simp [orthorhombicFifth, cubicCell, CrystalSystem.toNat]

/-- C19 (amended). For every list of two solutions whose cells are similar,
`ReduceSolutions` leaves exactly one solution: when the two cells have the same lattice, the
one with the higher score (the first one on a tie); when the lattices differ, the one whose
lattice has the larger `CrystalSystem` value (the more symmetric one), whatever the
scores. -/
theorem ReduceSolutions_similar_pair (sqrt acos : K → K) (s1 s2 : RecUnitCell K × K)
    (hsim : SimilarRUC sqrt acos s2.1 s1.1 (5/1000) = true) :
    CellExplorer.ReduceSolutions sqrt acos [s1, s2] =
      [if s1.1.mlattice = s2.1.mlattice then (if s2.2 > s1.2 then s2 else s1)
        else if s1.1.mlattice.toNat < s2.1.mlattice.toNat then s2 else s1] :=
  ReduceSolutions_pair sqrt acos s1 s2 hsim

/-- Witness of C19: the cubic cell a* = 1/5 twice, with scores 1 and 2; the solution of
score 2 is kept. -/
theorem ReduceSolutions_similar_pair_witness :
    SimilarRUC Real.sqrt Real.arccos (cubicCell ℝ) (cubicCell ℝ) (5/1000) = true ∧
    CellExplorer.ReduceSolutions Real.sqrt Real.arccos [(cubicCell ℝ, 1), (cubicCell ℝ, 2)]
      = [(cubicCell ℝ, 2)] := by
  have hsim := SimilarRUC_self Real.sqrt Real.arccos (cubicCell ℝ)
  refine ⟨hsim, ?_⟩
  rw [ReduceSolutions_similar_pair Real.sqrt Real.arccos (cubicCell ℝ, 1) (cubicCell ℝ, 2) hsim]
  norm_num

/-- C20. If no solution of the list is similar to one before it (`SimilarRUC` false for
every pair), `ReduceSolutions` removes nothing: the resulting list is a permutation of the
input. -/
theorem ReduceSolutions_dissimilar_perm (sqrt acos : K → K) (mv : List (RecUnitCell K × K))
    (h : mv.Pairwise (fun a b => SimilarRUC sqrt acos b.1 a.1 (5/1000) = false)) :
    (CellExplorer.ReduceSolutions sqrt acos mv).Perm mv := by
  simp only [CellExplorer.ReduceSolutions]
  refine (listSort_perm _ _).trans ?_
  rw [ReduceSolutions_loop_dissimilar sqrt acos mv h []]
  simp

/-- Witness of C20: the cubic cells a* = 1/5 and a* = 1/4 (a = 5 and a = 4, a mean
difference of 1/2 over the six direct parameters) are both kept. -/
theorem ReduceSolutions_dissimilar_perm_witness :
    SimilarRUC Real.sqrt Real.arccos (cubicQuarter ℝ) (cubicCell ℝ) (5/1000) = false ∧
    (CellExplorer.ReduceSolutions Real.sqrt Real.arccos
        [(cubicCell ℝ, 1), (cubicQuarter ℝ, 2)]).Perm [(cubicCell ℝ, 1), (cubicQuarter ℝ, 2)] := by
  have hdis : SimilarRUC Real.sqrt Real.arccos (cubicQuarter ℝ) (cubicCell ℝ) (5/1000)
      = false := by
    have h4 := DirectUnitCell_cubic (1/4)
    have h5 := DirectUnitCell_cubic (1/5)
    simp only [SimilarRUC, cubicQuarter, cubicCell, h4, h5]
    norm_num [List.range, List.range.loop]
  refine ⟨hdis, ReduceSolutions_dissimilar_perm Real.sqrt Real.arccos _ ?_⟩
  simp [hdis]

/-- C21. After `ReduceSolutions`, whatever the input list, `mvSolution` is sorted by
non-increasing score (for two entries, the earlier one has a score at least that of the
later one), and every entry of the result is an entry of the input list. -/
theorem ReduceSolutions_sorted_entries (sqrt acos : K → K)
    (mvSolution : List (RecUnitCell K × K)) :
    (CellExplorer.ReduceSolutions sqrt acos mvSolution).Sorted (fun a b => b.2 ≤ a.2) ∧
    ∀ e ∈ CellExplorer.ReduceSolutions sqrt acos mvSolution, e ∈ mvSolution := by
  refine ⟨listSort_compareRUCScore_sorted _, ?_⟩
  intro e he
  have he' : e ∈ CellExplorer.ReduceSolutions.loop sqrt acos mvSolution [] :=
    (listSort_perm _ _).mem_iff.1 he
  rcases ReduceSolutions_loop_mem sqrt acos mvSolution.length mvSolution [] (le_refl _) e he'
    with h | h
  · simp at h
  · exact h

/-- C22. On a peak list sorted by ascending `dobs`: after `AddPeak` the list is sorted
again and is a permutation of the old peaks and one new peak with `dobs = d`; `RemovePeak`
of a position `idx` of the list returns, the list it leaves is the old one without its
entry `idx`, and it is sorted. -/
theorem AddPeak_RemovePeak_sorted (self : PeakList K) (d iobs dobssigma iobssigma : K)
    (h k l : Int) (d2calc : K) (idx : Nat)
    (hsorted : self.mvHKL.Sorted (fun a b => a.dobs ≤ b.dobs))
    (hidx : idx < self.mvHKL.length) :
    ((self.AddPeak d iobs dobssigma iobssigma h k l d2calc).mvHKL.Sorted
        (fun a b => a.dobs ≤ b.dobs) ∧
      ∃ pk : PeakList.hkl K, pk.dobs = d ∧
        (self.AddPeak d iobs dobssigma iobssigma h k l d2calc).mvHKL.Perm
          (self.mvHKL ++ [pk])) ∧
    (self.RemovePeak idx = .ok { self with mvHKL := self.mvHKL.eraseIdx idx } ∧
      (self.mvHKL.eraseIdx idx).Sorted (fun a b => a.dobs ≤ b.dobs)) := by
  refine ⟨?_, RemovePeak_eq_eraseIdx self idx hidx,
    hsorted.sublist (List.eraseIdx_sublist _ _)⟩
  simp only [PeakList.AddPeak]
  split_ifs
  · exact ⟨vectorSort_compareHKL_d_sorted _, _, rfl, vectorSort_perm _ _⟩
  · exact ⟨vectorSort_compareHKL_d_sorted _, _, rfl, vectorSort_perm _ _⟩

/-- Witness of C22: the peaks at dobs = 3/5, 1, 6/5; a peak at 4/5 is added, and the
peak at position 1 is removed. -/
theorem AddPeak_RemovePeak_sorted_witness :
    (shiftedPeaks.mvHKL.Sorted (fun a b => a.dobs ≤ b.dobs) ∧ 1 < shiftedPeaks.mvHKL.length) ∧
    (shiftedPeaks.AddPeak (4/5) 1 (1/100) 0 0 0 0 0).mvHKL.Sorted (fun a b => a.dobs ≤ b.dobs) ∧
    shiftedPeaks.RemovePeak 1 = .ok ⟨[sharpPeak (3/5), sharpPeak (6/5)], []⟩ := by
  have hs : shiftedPeaks.mvHKL.Sorted (fun a b => a.dobs ≤ b.dobs) := by
    norm_num [shiftedPeaks, sharpPeak, PeakList.hkl.new, List.Sorted]
  have hi : 1 < shiftedPeaks.mvHKL.length := by simp [shiftedPeaks]
  have key := AddPeak_RemovePeak_sorted shiftedPeaks (4/5) 1 (1/100) 0 0 0 0 0 1 hs hi
  refine ⟨⟨hs, hi⟩, key.1.1, ?_⟩
  rw [key.2.1]
  rfl

set_option maxHeartbeats 4000000 in
/-- C23 (counterexample). Peaks at dobs = 3/5, 1, 6/5 and the cubic cell a* = 1, whose
reflections have d*² = 1, 2, ...: with `nbSpurious = 2` the peaks at 3/5 and 6/5 are the two
worst fitting ones (`d2diff = 1000`), their `stats` goes from 0 to 1, and `isSpurious` is
false for all three peaks after the call. -/
theorem Score_flags_no_spurious :
    (shiftedPeaks.mvHKL.map (fun p => p.d2obs) = [9/25, 1, 36/25] ∧
      cubicUnit.hkl2dInt 0 0 1 = 1 ∧ cubicUnit.hkl2dInt 0 1 1 = 2) ∧
    ∀ (sqrt : ℚ → ℚ) (fh fk fl : Nat),
      (Score sqrt (fh+3) (fk+3) (fl+3) shiftedPeaks cubicUnit 2 false false).map
          (fun r => r.2.mvHKL.map (fun p => (p.d2diff, p.stats, p.isSpurious)))
        = .ok [(1000, 1, false), (0, 0, false), (1000, 1, false)] := by
  refine ⟨⟨?_, ?_, ?_⟩, ?_⟩
  · norm_num [shiftedPeaks, sharpPeak, PeakList.hkl.new]
  · norm_num [cubicUnit, RecUnitCell.hkl2dInt, RecUnitCell.hkl2d, okValue]
  · norm_num [cubicUnit, RecUnitCell.hkl2dInt, RecUnitCell.hkl2d, okValue]
  · intro sqrt fh fk fl
    norm_num [Score, Score.reset, Score.cutoff, Score.enumerate, Score.loopH, Score.loopSK,
      Score.loopK, Score.loopSL, Score.loopL, Score.visit, Score.scanPeaks, Score.assign,
      Score.spurious, Score.sortedDiffs, Score.dropWorst, Score.markSpurious, modifyAt,
      listSort, comparePairFirst, shiftedPeaks, sharpPeak, cubicUnit, PeakList.hkl.new, signK0,
      signL0, Score.slStart, RecUnitCell.hkl2dInt, RecUnitCell.hkl2dDeriv, RecUnitCell.hkl2d,
      okValue, Except.map, abs_div, Nat.abs_ofNat, abs_neg]

/-- C23 (amended). With `nbSpurious = 2` and at least two peaks, every call of `Score`
that returns leaves `isSpurious` of every peak as it was (false for a peak as the
constructor builds it), and adds 1 to `stats` exactly at two distinct positions `removed`,
whose `|d2diff|` are at least those of all other peaks.  The call does return, given enough
budget, for every orthorhombic cell with positive a*, b*, c*. -/
theorem Score_spurious_stats_only [Archimedean K] (sqrt : K → K) (dhkl : PeakList K)
    (ruc : RecUnitCell K) (storehkl sp : Bool) (hle : 2 ≤ dhkl.mvHKL.length) :
    (∀ (fh fk fl : Nat) (r : K × PeakList K),
      Score sqrt fh fk fl dhkl ruc 2 storehkl sp = .ok r →
        r.2.mvHKL.map (fun p => p.isSpurious) = dhkl.mvHKL.map (fun p => p.isSpurious) ∧
        ∃ removed : List Nat, removed.Nodup ∧ removed.length = 2 ∧
          (∀ i ∈ removed, i < dhkl.mvHKL.length) ∧
          (∀ i ∈ removed, ∀ j, j ∉ removed → ∀ p q, r.2.mvHKL[i]? = some p →
            r.2.mvHKL[j]? = some q → |q.d2diff| ≤ |p.d2diff|) ∧
          (∀ j, (r.2.mvHKL[j]?).map (fun p => p.stats)
            = (dhkl.mvHKL[j]?).map (fun p => p.stats + if j ∈ removed then 1 else 0))) ∧
    (∀ (d i ds is : K) (h k l : Int) (dc : K),
      (PeakList.hkl.new d i ds is h k l dc).isSpurious = false) ∧
    (ruc.mlattice = ORTHOROMBIC → 0 < ruc.par1 → 0 < ruc.par2 → 0 < ruc.par3 →
      ∃ B : Nat, ∀ fh fk fl : Nat, B < fh → B < fk → B < fl →
        ∃ r, Score sqrt fh fk fl dhkl ruc 2 storehkl sp = .ok r) := by
  have hne : dhkl.mvHKL ≠ [] := by
    intro h
    rw [h] at hle
    simp at hle
  refine ⟨?_, fun _ _ _ _ _ _ _ _ => rfl, fun hlat h1 h2 h3 =>
    Score_returns_orthorhombic sqrt dhkl ruc 2 storehkl sp hne hlat h1 h2 h3⟩
  intro fh fk fl r hrun
  exact ⟨Score_isSpurious sqrt fh fk fl dhkl ruc 2 storehkl sp r hrun,
    Score_stats sqrt fh fk fl dhkl ruc 2 storehkl sp r (by decide) hle hrun⟩

/-- Witness of C23: the peaks at dobs = 3/5, 1, 6/5 with the orthorhombic cell
(1/7, 1/8, 1/9). -/
theorem Score_spurious_stats_only_witness :
    2 ≤ shiftedPeaks.mvHKL.length ∧
    ∃ B : Nat, ∀ fh fk fl : Nat, B < fh → B < fk → B < fl →
      ∃ r : ℚ × PeakList ℚ,
        Score (fun x => x) fh fk fl shiftedPeaks orthorhombicCentre 2 false false = .ok r ∧
        r.2.mvHKL.map (fun p => p.isSpurious) = [false, false, false] := by
  have hle : 2 ≤ shiftedPeaks.mvHKL.length := by simp [shiftedPeaks]
  obtain ⟨hval, _, hterm⟩ :=
    Score_spurious_stats_only (fun x : ℚ => x) shiftedPeaks orthorhombicCentre false false hle
  obtain ⟨B, hB⟩ := hterm rfl (by norm_num [orthorhombicCentre])
    (by norm_num [orthorhombicCentre]) (by norm_num [orthorhombicCentre])
  refine ⟨hle, B, ?_⟩
  intro fh fk fl hfh hfk hfl
  obtain ⟨r, hr⟩ := hB fh fk fl hfh hfk hfl
  refine ⟨r, hr, ?_⟩
  rw [(hval fh fk fl r hr).1]
  rfl

/-- C27. With `mNbSpurious <= N < 2^32`: every call of `Score(...,mNbSpurious,false,true,
false)` that returns has cleared `isIndexed` on `mNbSpurious` distinct peaks, so at most
`N - mNbSpurious` peaks are indexed; `BeginOptimization` then returns, its four vectors have
length `N - mNbSpurious`, the entries of `mObs` written by the loop are the `d2obs` of the
indexed peaks in order, and `GetLSQCalc` and `GetLSQDeriv` write within the vectors too (no
out-of-range fault).  The call of `Score` does return, given enough budget, for a non-empty
list and an orthorhombic cell with positive a*, b*, c*. -/
theorem BeginOptimization_in_range [Archimedean K] (sqrt : K → K) (self : CellExplorer K)
    (hle : self.mNbSpurious ≤ self.mpPeakList.mvHKL.length)
    (h32 : self.mpPeakList.mvHKL.length < 4294967296) :
    (∀ (fh fk fl : Nat) (r : K × PeakList K),
      Score sqrt fh fk fl self.mpPeakList self.mRecUnitCell self.mNbSpurious true false = .ok r →
        (∃ removed : List Nat, removed.Nodup ∧ removed.length = self.mNbSpurious ∧
          (∀ i ∈ removed, ∀ j, j ∉ removed → ∀ p q, r.2.mvHKL[i]? = some p →
            r.2.mvHKL[j]? = some q → |q.d2diff| ≤ |p.d2diff|) ∧
          (∀ i ∈ removed, ∃ p, r.2.mvHKL[i]? = some p ∧ p.isIndexed = false)) ∧
        (r.2.mvHKL.filter (fun p => p.isIndexed)).length
          ≤ self.mpPeakList.mvHKL.length - self.mNbSpurious ∧
        ∃ self1, CellExplorer.BeginOptimization sqrt fh fk fl self = .ok self1 ∧
          self1.mpPeakList = r.2 ∧ self1.mRecUnitCell = self.mRecUnitCell ∧
          self1.mObs.length = self.mpPeakList.mvHKL.length - self.mNbSpurious ∧
          self1.mWeight.length = self.mpPeakList.mvHKL.length - self.mNbSpurious ∧
          self1.mCalc.length = self.mpPeakList.mvHKL.length - self.mNbSpurious ∧
          self1.mDeriv.length = self.mpPeakList.mvHKL.length - self.mNbSpurious ∧
          self1.mObs.take (r.2.mvHKL.filter (fun p => p.isIndexed)).length
            = (r.2.mvHKL.filter (fun p => p.isIndexed)).map (fun p => p.d2obs) ∧
          (∃ self2, self1.GetLSQCalc = .ok self2) ∧
          (∀ (par : Option Nat) (f : Fault), self1.GetLSQDeriv par ≠ .error (Sum.inl f))) ∧
    (self.mpPeakList.mvHKL ≠ [] → self.mRecUnitCell.mlattice = ORTHOROMBIC →
      0 < self.mRecUnitCell.par1 → 0 < self.mRecUnitCell.par2 → 0 < self.mRecUnitCell.par3 →
      ∃ B : Nat, ∀ fh fk fl : Nat, B < fh → B < fk → B < fl →
        ∃ self1, CellExplorer.BeginOptimization sqrt fh fk fl self = .ok self1) := by
  have hmain : ∀ (fh fk fl : Nat) (r : K × PeakList K),
      Score sqrt fh fk fl self.mpPeakList self.mRecUnitCell self.mNbSpurious true false = .ok r →
        (∃ removed : List Nat, removed.Nodup ∧ removed.length = self.mNbSpurious ∧
          (∀ i ∈ removed, ∀ j, j ∉ removed → ∀ p q, r.2.mvHKL[i]? = some p →
            r.2.mvHKL[j]? = some q → |q.d2diff| ≤ |p.d2diff|) ∧
          (∀ i ∈ removed, ∃ p, r.2.mvHKL[i]? = some p ∧ p.isIndexed = false)) ∧
        (r.2.mvHKL.filter (fun p => p.isIndexed)).length
          ≤ self.mpPeakList.mvHKL.length - self.mNbSpurious ∧
        ∃ self1, CellExplorer.BeginOptimization sqrt fh fk fl self = .ok self1 ∧
          self1.mpPeakList = r.2 ∧ self1.mRecUnitCell = self.mRecUnitCell ∧
          self1.mObs.length = self.mpPeakList.mvHKL.length - self.mNbSpurious ∧
          self1.mWeight.length = self.mpPeakList.mvHKL.length - self.mNbSpurious ∧
          self1.mCalc.length = self.mpPeakList.mvHKL.length - self.mNbSpurious ∧
          self1.mDeriv.length = self.mpPeakList.mvHKL.length - self.mNbSpurious ∧
          self1.mObs.take (r.2.mvHKL.filter (fun p => p.isIndexed)).length
            = (r.2.mvHKL.filter (fun p => p.isIndexed)).map (fun p => p.d2obs) ∧
          (∃ self2, self1.GetLSQCalc = .ok self2) ∧
          (∀ (par : Option Nat) (f : Fault), self1.GetLSQDeriv par ≠ .error (Sum.inl f)) := by
    intro fh fk fl r hrun
    obtain ⟨hlen, removed, hnd, hrl, hworst, hidx, hcount⟩ :=
      Score_indexed_count sqrt fh fk fl self.mpPeakList self.mRecUnitCell self.mNbSpurious
        false r hle hrun
    have hc : (r.2.mvHKL.filter (fun p => p.isIndexed)).length
        ≤ self.mpPeakList.mvHKL.length - self.mNbSpurious := by omega
    have hsize : (r.2.mvHKL.length + 4294967296 - self.mNbSpurious) % 4294967296
        = self.mpPeakList.mvHKL.length - self.mNbSpurious := by
      rw [hlen]
      omega
    obtain ⟨o, w, hfill, hol, hwl, ho, _⟩ := BeginOptimization_fill_take
      (CellExplorer.BeginOptimization.threshold r.2.mvHKL) r.2.mvHKL
      (self.mpPeakList.mvHKL.length - self.mNbSpurious) hc
    refine ⟨⟨removed, hnd, hrl, hworst, hidx⟩, hc, ?_⟩
    refine ⟨{ self with
        mpPeakList := r.2,
        mCalc := List.replicate (self.mpPeakList.mvHKL.length - self.mNbSpurious) 0,
        mObs := o, mWeight := w,
        mDeriv := List.replicate (self.mpPeakList.mvHKL.length - self.mNbSpurious) 0 },
      by simp only [CellExplorer.BeginOptimization, hrun, hsize, hfill], rfl, rfl, hol,
      hwl, by simp, by simp, ho, ?_, ?_⟩
    · obtain ⟨c, hcalc, _⟩ := GetLSQCalc_fill_ok self.mRecUnitCell r.2.mvHKL 0
        (List.replicate (self.mpPeakList.mvHKL.length - self.mNbSpurious) 0)
        (by simpa using hc)
      simp only [CellExplorer.GetLSQCalc, hcalc]
      exact ⟨_, rfl⟩
    · intro par f hbad
      have hok := GetLSQDeriv_fill_in_range self.mRecUnitCell par r.2.mvHKL 0
        (List.replicate (self.mpPeakList.mvHKL.length - self.mNbSpurious) 0)
        (by simpa using hc) f
      simp only [CellExplorer.GetLSQDeriv] at hbad
      split at hbad
      · rename_i e he
        cases hbad
        exact hok he
      · cases hbad
  refine ⟨hmain, ?_⟩
  intro hne hlat h1 h2 h3
  obtain ⟨B, hB⟩ := Score_returns_orthorhombic sqrt self.mpPeakList self.mRecUnitCell
    self.mNbSpurious true false hne hlat h1 h2 h3
  refine ⟨B, ?_⟩
  intro fh fk fl hfh hfk hfl
  obtain ⟨r, hr⟩ := hB fh fk fl hfh hfk hfl
  obtain ⟨_, _, self1, hs1, _⟩ := hmain fh fk fl r hr
  exact ⟨self1, hs1⟩

/-- Witness of C27. -/
theorem BeginOptimization_in_range_witness :
    ((explorerOn shiftedPeaks orthorhombicCentre 2 4 7 6 []).mNbSpurious
        ≤ (explorerOn shiftedPeaks orthorhombicCentre 2 4 7 6 []).mpPeakList.mvHKL.length ∧
      (explorerOn shiftedPeaks orthorhombicCentre 2 4 7 6 []).mpPeakList.mvHKL.length
        < 4294967296) ∧
    ∃ B : Nat, ∀ fh fk fl : Nat, B < fh → B < fk → B < fl →
      ∃ self1, CellExplorer.BeginOptimization (fun x => x) fh fk fl
        (explorerOn shiftedPeaks orthorhombicCentre 2 4 7 6 []) = .ok self1 := by
  have h1 : (explorerOn shiftedPeaks orthorhombicCentre 2 4 7 6 []).mNbSpurious
      ≤ (explorerOn shiftedPeaks orthorhombicCentre 2 4 7 6 []).mpPeakList.mvHKL.length := by
    simp [explorerOn, shiftedPeaks]
  have h2 : (explorerOn shiftedPeaks orthorhombicCentre 2 4 7 6 []).mpPeakList.mvHKL.length
      < 4294967296 := by
    simp [explorerOn, shiftedPeaks]
  have key := BeginOptimization_in_range (fun x : ℚ => x)
    (explorerOn shiftedPeaks orthorhombicCentre 2 4 7 6 []) h1 h2
  exact ⟨⟨h1, h2⟩, key.2 (by simp [explorerOn, shiftedPeaks]) rfl
    (by norm_num [explorerOn, orthorhombicCentre])
    (by norm_num [explorerOn, orthorhombicCentre])
    (by norm_num [explorerOn, orthorhombicCentre])⟩

set_option maxHeartbeats 4000000 in
/-- C26 (failing input). One peak at dobs = 1 (`d2obs = 1`) with intensity 100, the
largest of the list, so the threshold is 10; cubic cell a* = 1, which indexes the peak as
(0,0,1).  `BeginOptimization` stores `mObs = [1]` and the weight 1/10: the weight is
computed from `mObs(j)`, that is `d2obs`, against the threshold on the intensities, and not
from the intensity 100 of the peak, which is above the threshold.  In general the weight of
an indexed peak is 1 if `d2obs > thres` and `d2obs / thres` otherwise. -/
theorem BeginOptimization_weight_from_d2obs :
    (brightPeak.iobs = 100 ∧ brightPeak.d2obs = 1 ∧
      CellExplorer.BeginOptimization.threshold [brightPeak] = 10) ∧
    (∀ (sqrt : ℚ → ℚ) (fh fk fl : Nat),
      (CellExplorer.BeginOptimization sqrt (fh+3) (fk+3) (fl+3)
          (explorerOn ⟨[brightPeak], []⟩ cubicUnit 0 2 7 6 [])).map
          (fun e => (e.mpPeakList.mvHKL.map (fun p => p.isIndexed), e.mObs, e.mWeight))
        = .ok ([true], [1], [1/10])) ∧
    ∀ (thres : ℚ) (ps : List (PeakList.hkl ℚ)) (size : Nat),
      (ps.filter (fun p => p.isIndexed)).length ≤ size →
      ∃ o w, CellExplorer.BeginOptimization.fill thres ps 0 (List.replicate size 0)
            (List.replicate size 0)
          = .ok ((ps.filter (fun p => p.isIndexed)).length, o, w) ∧
        w.take (ps.filter (fun p => p.isIndexed)).length
          = (ps.filter (fun p => p.isIndexed)).map
              (fun p => if p.d2obs > thres then 1 else p.d2obs / thres) := by
  refine ⟨⟨rfl, ?_, ?_⟩, ?_, ?_⟩
  · norm_num [brightPeak, PeakList.hkl.new]
  · norm_num [CellExplorer.BeginOptimization.threshold, brightPeak, PeakList.hkl.new]
  · intro sqrt fh fk fl
    obtain ⟨r, hr, hr2⟩ := Except_map_eq_ok _ _ _ (brightPeak_score sqrt fh fk fl)
    have hsize : (1 + 4294967296 - 0) % 4294967296 = 1 := by norm_num
    rw [BeginOptimization_of_score sqrt _ _ _ _ r hr, hr2]
    simp only [explorerOn, List.length_singleton, hsize]
    norm_num [CellExplorer.BeginOptimization.threshold, CellExplorer.BeginOptimization.fill,
      vecWrite, brightPeak, PeakList.hkl.new, Except.map, List.replicate]
  · intro thres ps size hroom
    obtain ⟨o, w, hrun, _, _, _, hw⟩ := BeginOptimization_fill_take thres ps size hroom
    exact ⟨o, w, hrun, hw⟩

/-- C24 (counterexample). One peak at dobs = 1/10 (cutoff 0.0105), a population of four
cubic cells a* = 1/4 with stored score 0, and for the member at position 1 the trial a* =
1/5: the score of the trial is 0, equal to the stored score, and the selection leaves the
member (a* = 1/4) and the whole population as they are. -/
theorem Evolution_tie_keeps_member :
    (((cubicCell ℚ).par1 = 1/5 ∧ (cubicQuarter ℚ).par1 = 1/4) ∧
      idlePopulation[1]? = some (cubicQuarter ℚ, 0)) ∧
    ∀ (sqrt : ℚ → ℚ) (fh fk fl : Nat),
      (Score sqrt (fh+1) (fk+1) (fl+1) ⟨[leftPeak (1/10)], []⟩ (cubicCell ℚ) 0 false false).map
          Prod.fst = .ok 0 ∧
      Evolution.select sqrt (fh+1) (fk+1) (fl+1) 2 0 1 (cubicCell ℚ)
          (Evolution.start ⟨[leftPeak (1/10)], []⟩ idlePopulation)
        = .ok (Evolution.start ⟨[leftPeak (1/10)], []⟩ idlePopulation) := by
  refine ⟨⟨⟨rfl, rfl⟩, by simp [idlePopulation, List.replicate]⟩, ?_⟩
  intro sqrt fh fk fl
  constructor
  · rw [Score_fifth_tenth]; rfl
  · rw [Evolution.select_keep sqrt (fh+1) (fk+1) (fl+1) 2 0 1 (cubicCell ℚ)
      (Evolution.start ⟨[leftPeak (1/10)], []⟩ idlePopulation) (0, ⟨[leftPeak (1/10)], []⟩)
      (cubicQuarter ℚ, 0) (Score_fifth_tenth sqrt fh fk fl)
      (by simp [Evolution.start, idlePopulation, List.replicate]) (lt_irrefl _)]
    rfl

/-- C24 (amended). In the selection of `Evolution`, every pass of the body that returns
replaces the member by its trial (the first `mnpar` parameters and the score) if and only
if the score of the trial is strictly above the stored score of the member; on a tie the
member is kept.  Over any number of generations the population keeps its size and no stored
score decreases.  A pass does return, given enough budget, for a non-empty peak list, a
member of the population and an orthorhombic trial with positive a*, b*, c*. -/
theorem Evolution_select_strict [Archimedean K] (sqrt : K → K) (mnpar mNbSpurious pos : Nat)
    (trial : RecUnitCell K) (s : Evolution.State K) :
    (∀ (fh fk fl : Nat) (s1 : Evolution.State K),
      Evolution.select sqrt fh fk fl mnpar mNbSpurious pos trial s = .ok s1 →
      ∃ r member, Score sqrt fh fk fl s.peaks trial mNbSpurious false false = .ok r ∧
        s.vRUC[pos]? = some member ∧
        s1.vRUC = (if r.1 > member.2
          then s.vRUC.set pos (Evolution.copyPar mnpar trial member.1, r.1) else s.vRUC)) ∧
    (∀ (fh fk fl : Nat) (gens : List (List (RecUnitCell K))) (s1 : Evolution.State K),
      Evolution.generations sqrt fh fk fl mnpar mNbSpurious gens s = .ok s1 →
      s1.vRUC.length = s.vRUC.length ∧
      ∀ (i : Nat) (member : RecUnitCell K × K), s.vRUC[i]? = some member →
        ∃ member1, s1.vRUC[i]? = some member1 ∧ member.2 ≤ member1.2) ∧
    (s.peaks.mvHKL ≠ [] → pos < s.vRUC.length → trial.mlattice = ORTHOROMBIC →
      0 < trial.par1 → 0 < trial.par2 → 0 < trial.par3 →
      ∃ B : Nat, ∀ fh fk fl : Nat, B < fh → B < fk → B < fl →
        ∃ s1, Evolution.select sqrt fh fk fl mnpar mNbSpurious pos trial s = .ok s1) := by
  refine ⟨?_, ?_, ?_⟩
  · intro fh fk fl s1 hrun
    obtain ⟨r, member, h1, h2, h3, _, _⟩ :=
      Evolution.select_spec sqrt fh fk fl mnpar mNbSpurious pos trial s s1 hrun
    exact ⟨r, member, h1, h2, h3⟩
  · intro fh fk fl gens s1 hrun
    exact Evolution.generations_mono sqrt fh fk fl mnpar mNbSpurious gens s s1 hrun
  · intro hne hpos hlat h1 h2 h3
    obtain ⟨B, hB⟩ := Score_returns_orthorhombic sqrt s.peaks trial mNbSpurious false false
      hne hlat h1 h2 h3
    refine ⟨B, ?_⟩
    intro fh fk fl hfh hfk hfl
    obtain ⟨r, hr⟩ := hB fh fk fl hfh hfk hfl
    exact Evolution.select_returns sqrt fh fk fl mnpar mNbSpurious pos trial s r hr hpos

/-- Witness of C24: one peak at dobs = 1, a population of one orthorhombic cell, and the
orthorhombic trial (1/7, 1/8, 1/9). -/
theorem Evolution_select_strict_witness :
    ∃ B : Nat, ∀ fh fk fl : Nat, B < fh → B < fk → B < fl →
      ∃ s1 : Evolution.State ℚ,
        Evolution.select (fun x => x) fh fk fl 4 0 0 orthorhombicCentre
          (Evolution.start ⟨[sharpPeak 1], []⟩ [(longAxisCell, 0)]) = .ok s1 ∧
        s1.vRUC.length = 1 := by
  obtain ⟨hsel, _, hterm⟩ := Evolution_select_strict (fun x : ℚ => x) 4 0 0
    orthorhombicCentre (Evolution.start ⟨[sharpPeak 1], []⟩ [(longAxisCell, 0)])
  obtain ⟨B, hB⟩ := hterm (by simp [Evolution.start]) (by simp [Evolution.start]) rfl
    (by norm_num [orthorhombicCentre]) (by norm_num [orthorhombicCentre])
    (by norm_num [orthorhombicCentre])
  refine ⟨B, ?_⟩
  intro fh fk fl hfh hfk hfl
  obtain ⟨s1, hs1⟩ := hB fh fk fl hfh hfk hfl
  obtain ⟨r, member, _, _, hv⟩ := hsel fh fk fl s1 hs1
  refine ⟨s1, hs1, ?_⟩
  rw [hv]
  split_ifs <;> simp [Evolution.start]

/-- C25 (failing input). One peak at dobs = 21/100 and the population of four cubic
cells a* = 1/4, 1/5, 1/4, 1/4 with stored scores 0, s, 0, 0.  With no generation, for every
`s`, the candidate taken as best is the first member, of score 0.  With one generation
whose four trials are the cell a* = 1/4 (score 0: d*² = 1/16 is above the cutoff
0.046305), for every `s > 0` no trial is accepted and the candidate taken as best is again
the first member, of score 0, although the second member has the stored score `s > 0`. -/
theorem Evolution_best_is_first_member :
    (∀ (sqrt : ℚ → ℚ) (fh fk fl : Nat) (s : ℚ),
      Evolution.taken sqrt fh fk fl 2 0 [] ⟨[leftPeak (21/100)], []⟩ (unevenPopulation s)
        = .ok (cubicQuarter ℚ, 0)) ∧
    (∀ (sqrt : ℚ → ℚ) (fh fk fl : Nat) (s : ℚ), 0 < s →
      Evolution.taken sqrt (fh+1) (fk+1) (fl+1) 2 0
          [[cubicQuarter ℚ, cubicQuarter ℚ, cubicQuarter ℚ, cubicQuarter ℚ]]
          ⟨[leftPeak (21/100)], []⟩ (unevenPopulation s)
        = .ok (cubicQuarter ℚ, 0)) ∧
    (∀ (sqrt : ℚ → ℚ) (fh fk fl : Nat),
      Score sqrt (fh+1) (fk+1) (fl+1) ⟨[leftPeak (21/100)], []⟩ (cubicQuarter ℚ) 0
          false false = .ok (0, ⟨[leftPeak (21/100)], []⟩)) := by
  refine ⟨?_, ?_, ?_⟩
  · intro sqrt fh fk fl s
    exact Evolution.taken_nil sqrt fh fk fl 2 0 _ _ _
  · intro sqrt fh fk fl s hs
    refine Evolution.taken_idle sqrt (fh+1) (fk+1) (fl+1) 2 0 _ _ _ _ ?_
    refine Evolution.selection_idle sqrt (fh+1) (fk+1) (fl+1) 2 0
      (Evolution.start ⟨[leftPeak (21/100)], []⟩ (unevenPopulation s)) _ 0 ?_ ?_
    · intro t ht
      simp only [List.mem_cons, List.mem_singleton, List.not_mem_nil, or_false, or_self] at ht
      subst ht
      exact Score_quarter_fifth sqrt fh fk fl
    · intro k hk
      simp only [List.length_cons, List.length_nil] at hk
      have hk4 : k = 0 ∨ k = 1 ∨ k = 2 ∨ k = 3 := by omega
      rcases hk4 with h | h | h | h <;> subst h
      · exact ⟨(cubicQuarter ℚ, 0), by simp [Evolution.start, unevenPopulation], le_refl _⟩
      · exact ⟨(cubicCell ℚ, s), by simp [Evolution.start, unevenPopulation], hs.le⟩
      · exact ⟨(cubicQuarter ℚ, 0), by simp [Evolution.start, unevenPopulation], le_refl _⟩
      · exact ⟨(cubicQuarter ℚ, 0), by simp [Evolution.start, unevenPopulation], le_refl _⟩
  · intro sqrt fh fk fl
    exact Score_quarter_fifth sqrt fh fk fl

/-- C28. A call of `RDicVol` whose box the volume pre-check rejects returns 0 (and leaves
`nbCalc` and the object as they are); one whose box `DichoIndexed` finds infeasible returns
0.  For a feasible box, every call that returns, returns 1 plus the sum of the values
returned by its child calls (in 32-bit unsigned arithmetic, so exactly that number when it is
below 2^32), the child calls being the ones on the boxes of the subdivision when `depth <
mMaxDicVolDepth` and none otherwise; and the leaf handling is run exactly when that sum is 0
(modulo 2^32) and `depth >= mDicVolDepthReport`. -/
theorem RDicVol_return_value (sqrt acos : K → K) (lsq : CellExplorer K → CellExplorer K)
    (fh fk fl gas : Nat) (uc0 duc : RecUnitCell K) (depth nbCalc : Nat) (minV maxV : K)
    (vdepth : List Nat) (self : CellExplorer K) :
    (RDicVol.volumeRejected sqrt acos uc0 duc depth minV maxV = true →
      CellExplorer.RDicVol sqrt acos lsq fh fk fl (gas + 1) uc0 duc depth nbCalc minV maxV
        vdepth self = some (.ok (0, nbCalc, self))) ∧
    (RDicVol.volumeRejected sqrt acos uc0 duc depth minV maxV = false →
      ∀ node : RDicVol.Node K,
        RDicVol.prepare fh fk fl self uc0 duc depth vdepth = .ok node →
        (node.indexed = false →
          CellExplorer.RDicVol sqrt acos lsq fh fk fl (gas + 1) uc0 duc depth nbCalc minV
            maxV vdepth self
            = some (.ok (0, nbCalc + 1, { self with mpPeakList := node.peaks }))) ∧
        (node.indexed = true → ∀ (r n1 : Nat) (self1 : CellExplorer K),
          CellExplorer.RDicVol sqrt acos lsq fh fk fl (gas + 1) uc0 duc depth nbCalc minV
            maxV vdepth self = some (.ok (r, n1, self1)) →
          ∃ (rs : List Nat) (mid : CellExplorer K),
            (if node.depth < self.mMaxDicVolDepth then
              ∃ duc1 boxes,
                RDicVol.halve self.mnpar node.depth node.vdepth node.duc = .ok duc1 ∧
                RDicVol.childBoxes self.mnpar node.depth node.vdepth node.uc0 duc1
                  = .ok boxes ∧
                RDicVol.childValues
                  (fun uc n s =>
                    CellExplorer.RDicVol sqrt acos lsq fh fk fl gas uc duc1 (node.depth + 1)
                      n minV maxV node.vdepth s)
                  boxes (nbCalc + 1) { self with mpPeakList := node.peaks }
                  = some (.ok (rs, n1, mid))
              else rs = [] ∧ n1 = nbCalc + 1 ∧ mid = { self with mpPeakList := node.peaks }) ∧
            r = (rs.sum + 1) % 4294967296 ∧
            (rs.sum + 1 < 4294967296 → r = rs.sum + 1) ∧
            (if rs.sum % 4294967296 = 0 ∧ node.depth ≥ self.mDicVolDepthReport
              then RDicVol.leaf sqrt lsq fh fk fl node.uc0 node.depth mid = .ok self1
              else self1 = mid))) := by
  refine ⟨?_, ?_⟩
  · intro hvol
    rw [CellExplorer.RDicVol]
    simp only [hvol, if_true]
  · intro hvol node hprep
    have hunf := RDicVol_of_prepare sqrt acos lsq fh fk fl gas uc0 duc depth nbCalc minV maxV
      vdepth self node hvol hprep
    refine ⟨?_, ?_⟩
    · intro hix
      rw [hunf]
      simp only [hix, Bool.false_eq_true, if_false]
    · intro hix r n1 self1 hrun
      rw [hunf] at hrun
      simp only [hix, if_true] at hrun
      by_cases hdepth : node.depth < self.mMaxDicVolDepth
      · simp only [hdepth, if_true] at hrun ⊢
        cases hh : RDicVol.halve self.mnpar node.depth node.vdepth node.duc with
        | error e => rw [hh] at hrun; simp at hrun
        | ok duc1 =>
          rw [hh] at hrun
          simp only at hrun
          cases hb : RDicVol.childBoxes self.mnpar node.depth node.vdepth node.uc0 duc1 with
          | error e => rw [hb] at hrun; simp at hrun
          | ok boxes =>
            rw [hb] at hrun
            simp only at hrun
            rw [RDicVol.descend_eq _ boxes 0 (nbCalc + 1) _ (by norm_num)] at hrun
            cases hv : RDicVol.childValues
                (fun uc n s =>
                  CellExplorer.RDicVol sqrt acos lsq fh fk fl gas uc duc1 (node.depth + 1)
                    n minV maxV node.vdepth s)
                boxes (nbCalc + 1) { self with mpPeakList := node.peaks } with
            | none => rw [hv] at hrun; simp at hrun
            | some res =>
              rw [hv] at hrun
              cases res with
              | error e => simp at hrun
              | ok out =>
                obtain ⟨rs, n2, mid⟩ := out
                simp only [zero_add] at hrun
                by_cases hleaf : rs.sum % 4294967296 = 0 ∧ node.depth ≥ self.mDicVolDepthReport
                · simp only [hleaf, and_self, if_true] at hrun
                  cases hl : RDicVol.leaf sqrt lsq fh fk fl node.uc0 node.depth mid with
                  | error e => rw [hl] at hrun; simp at hrun
                  | ok self2 =>
                    rw [hl] at hrun
                    simp only [Option.some.injEq, Except.ok.injEq, Prod.mk.injEq] at hrun
                    obtain ⟨h1, h2, h3⟩ := hrun
                    subst h2 h3
                    have hz := hleaf.1
                    refine ⟨rs, mid, ⟨duc1, boxes, rfl, hb, hv⟩, ?_, ?_, ?_⟩
                    · omega
                    · intro hlt
                      omega
                    · simp only [hleaf, and_self, if_true]
                      exact hl
                · simp only [hleaf, if_false, Option.some.injEq, Except.ok.injEq,
                    Prod.mk.injEq] at hrun
                  obtain ⟨h1, h2, h3⟩ := hrun
                  subst h2 h3
                  refine ⟨rs, mid, ⟨duc1, boxes, rfl, hb, hv⟩, ?_, ?_, ?_⟩
                  · omega
                  · intro hlt
                    omega
                  · simp only [hleaf, if_false]
      · simp only [hdepth, if_false] at hrun ⊢
        by_cases hleaf : node.depth ≥ self.mDicVolDepthReport
        · simp only [hleaf, and_self, if_true, true_and] at hrun
          cases hl : RDicVol.leaf sqrt lsq fh fk fl node.uc0 node.depth
              { self with mpPeakList := node.peaks } with
          | error e => rw [hl] at hrun; simp at hrun
          | ok self2 =>
            rw [hl] at hrun
            simp only [Option.some.injEq, Except.ok.injEq, Prod.mk.injEq] at hrun
            obtain ⟨h1, h2, h3⟩ := hrun
            subst h2 h3
            refine ⟨[], _, ⟨rfl, rfl, rfl⟩, ?_, ?_, ?_⟩
            · simp at h1 ⊢; omega
            · intro _; simp at h1 ⊢; omega
            · simp only [List.sum_nil, Nat.zero_mod, hleaf, and_self, if_true]
              exact hl
        · simp only [hleaf, and_false, if_false, Option.some.injEq, Except.ok.injEq,
            Prod.mk.injEq] at hrun
          obtain ⟨h1, h2, h3⟩ := hrun
          subst h2 h3
          refine ⟨[], _, ⟨rfl, rfl, rfl⟩, ?_, ?_, ?_⟩
          · simp at h1 ⊢; omega
          · intro _; simp at h1 ⊢; omega
          · simp only [List.sum_nil, Nat.zero_mod, hleaf, and_false, if_false]

/-- Witness of C28: the cubic box a* = 2 ± 3/2 at depth 3 = `mMaxDicVolDepth` =
`mDicVolDepthReport` with the peak at dobs = 1 and its stored reflection (0,0,1); the box is
feasible, there is no child call, the call returns 1 and handles the leaf. -/
theorem RDicVol_return_value_witness :
    ∃ (r n1 : Nat) (self1 : CellExplorer ℚ) (rs : List Nat),
      CellExplorer.RDicVol (fun x => x) (fun x => x) (fun e => e) 1 1 1 1 wideCell
        wideHalfWidth 3 0 0 1600 [] leafExplorer = some (.ok (r, n1, self1)) ∧
      r = 1 ∧ n1 = 1 ∧ r = (rs.sum + 1) % 4294967296 ∧
      self1.mvSolution = [(wideCell, 0)] := by
  have hrun := leafExplorer_run (fun x => x) (fun x => x) 0 0 0 0 0 1600
  have hprep := RDicVol.prepare_stored 1 1 1 leafExplorer wideCell wideHalfWidth 3 []
    (by decide)
  rw [leafExplorer_storedLoop] at hprep
  obtain ⟨rs, _, _, hr, _, _⟩ :=
    ((RDicVol_return_value (fun x : ℚ => x) (fun x => x) (fun e => e) 1 1 1 0 wideCell
      wideHalfWidth 3 0 0 1600 [] leafExplorer).2 (by simp [RDicVol.volumeRejected]) _
      hprep).2 rfl 1 1 _ hrun
  exact ⟨1, 1, _, rs, hrun, rfl, rfl, hr, rfl⟩

/-- C29 (counterexample). The leaf a* = 2 (cubic) at depth 3 = `mMaxDicVolDepth` =
`mDicVolDepthReport`, one peak at dobs = 1, `mMinScoreReport = 10`, and a refinement that
leaves the cell in place.  `Score` returns 0 (d*² = 4 is beyond the cutoff 1.05), not above
half the threshold; the refinement is run all the same, the score after it is 0 again, and
the cell is appended to `mvSolution` with score 0 and the counter of depth 3 goes to 1. -/
theorem RDicVol_leaf_appends_zero_score :
    (leafExplorer.mMinScoreReport = 10 ∧ leafExplorer.mDicVolDepthReport = 3 ∧
      leafExplorer.mMaxDicVolDepth = 3 ∧ leafExplorer.mvSolution = []) ∧
    ∀ (sqrt : ℚ → ℚ) (fh fk fl : Nat),
      (Score sqrt (fh+1) (fk+1) (fl+1) leafExplorer.mpPeakList wideCell 0 true false).map
          Prod.fst = .ok 0 ∧
      (RDicVol.leaf sqrt (fun e => e) (fh+1) (fk+1) (fl+1) wideCell 3 leafExplorer).map
          (fun e => (e.mvSolution, e.mvNbSolutionDepth))
        = .ok ([(wideCell, 0)], [0, 0, 0, 1]) := by
  refine ⟨⟨rfl, rfl, rfl, rfl⟩, ?_⟩
  intro sqrt fh fk fl
  constructor
  · rw [Score_first_beyond sqrt fh fk fl leafExplorer.mpPeakList wideCell true false (21/20)
      (by norm_num [Score.cutoff, Score.reset, leafExplorer, explorerOn, storedPeak,
        sharpPeak, PeakList.hkl.new])
      (by norm_num [RecUnitCell.hkl2dInt, RecUnitCell.hkl2d, okValue, wideCell])
      (by norm_num [RecUnitCell.hkl2dDeriv, RecUnitCell.hkl2d, okValue, wideCell])
      (by norm_num [RecUnitCell.hkl2dDeriv, RecUnitCell.hkl2d, okValue, wideCell])]
    rfl
  · rw [leafExplorer_leaf]
    rfl

/-- C29 (amended). For a leaf handled by `RDicVol` (`depth >= mDicVolDepthReport`), every
run of the leaf handling that returns: refines the cell if and only if its score is above
half of `mMinScoreReport` or `depth >= mMaxDicVolDepth`; when it refines, it appends the
refined cell with the score recomputed after the refinement, whatever that score, and adds
1 to the counter of its depth; when it does not refine, the solution list and the counters
are left as they are. -/
theorem RDicVol_leaf_reported (sqrt : K → K) (lsq : CellExplorer K → CellExplorer K)
    (fh fk fl : Nat) (uc0 : RecUnitCell K) (depth : Nat) (self self1 : CellExplorer K)
    (hrep : depth ≥ self.mDicVolDepthReport)
    (hrun : RDicVol.leaf sqrt lsq fh fk fl uc0 depth self = .ok self1) :
    ∃ r1 : K × PeakList K,
      Score sqrt fh fk fl self.mpPeakList uc0 self.mNbSpurious true false = .ok r1 ∧
      (if r1.1 > self.mMinScoreReport * (1/2) ∨ depth ≥ self.mMaxDicVolDepth then
        ∃ (r2 : K × PeakList K) (count : Nat),
          Score sqrt fh fk fl
              (CellExplorer.LSQRefine lsq
                { self with mRecUnitCell := uc0, mpPeakList := r1.2 }).mpPeakList
              (CellExplorer.LSQRefine lsq
                { self with mRecUnitCell := uc0, mpPeakList := r1.2 }).mRecUnitCell
              self.mNbSpurious true false = .ok r2 ∧
          self.mvNbSolutionDepth[depth]? = some count ∧
          self1.mvSolution = self.mvSolution ++
            [((CellExplorer.LSQRefine lsq
                { self with mRecUnitCell := uc0, mpPeakList := r1.2 }).mRecUnitCell, r2.1)] ∧
          self1.mvNbSolutionDepth
            = self.mvNbSolutionDepth.set depth ((count + 1) % 4294967296)
      else self1.mvSolution = self.mvSolution ∧
        self1.mvNbSolutionDepth = self.mvNbSolutionDepth) := by
  unfold RDicVol.leaf at hrun
  cases hs1 : Score sqrt fh fk fl self.mpPeakList uc0 self.mNbSpurious true false with
  | error e => rw [hs1] at hrun; cases hrun
  | ok r1 =>
    rw [hs1] at hrun
    refine ⟨r1, rfl, ?_⟩
    simp only [hrep, and_true] at hrun
    by_cases hc : r1.1 > self.mMinScoreReport * (1/2) ∨ depth ≥ self.mMaxDicVolDepth
    · simp only [hc, if_true] at hrun ⊢
      simp only [CellExplorer.LSQRefine] at hrun ⊢
      cases hs2 : Score sqrt fh fk fl (lsq { self with mRecUnitCell := uc0, mpPeakList := r1.2 }).mpPeakList
          (lsq { self with mRecUnitCell := uc0, mpPeakList := r1.2 }).mRecUnitCell
          self.mNbSpurious true false with
      | error e => rw [hs2] at hrun; cases hrun
      | ok r2 =>
        rw [hs2] at hrun
        simp only [hrep, or_true, if_true] at hrun
        cases hcnt : self.mvNbSolutionDepth[depth]? with
        | none => rw [hcnt] at hrun; cases hrun
        | some count =>
          rw [hcnt] at hrun
          simp only [Except.ok.injEq] at hrun
          subst hrun
          exact ⟨r2, count, rfl, rfl, rfl, rfl⟩
    · simp only [hc, if_false, Except.ok.injEq] at hrun ⊢
      subst hrun
      exact ⟨rfl, rfl⟩

/-- Witness of C29: the leaf a* = 2 (cubic) at depth 3 with one peak at dobs = 1. -/
theorem RDicVol_leaf_reported_witness :
    3 ≥ leafExplorer.mDicVolDepthReport ∧
    ∃ (self1 : CellExplorer ℚ) (r1 : ℚ × PeakList ℚ),
      RDicVol.leaf (fun x => x) (fun e => e) 1 1 1 wideCell 3 leafExplorer = .ok self1 ∧
      Score (fun x => x) 1 1 1 leafExplorer.mpPeakList wideCell leafExplorer.mNbSpurious
        true false = .ok r1 := by
  have hrep : 3 ≥ leafExplorer.mDicVolDepthReport := by simp [leafExplorer, explorerOn]
  have hrun := leafExplorer_leaf (fun x => x) 0 0 0
  obtain ⟨r1, hr1, _⟩ := RDicVol_leaf_reported (fun x : ℚ => x) (fun e => e) 1 1 1 wideCell
    3 leafExplorer _ hrep hrun
  exact ⟨hrep, _, r1, hrun, hr1⟩

/-- C30 (failing input). For the triclinic lattice `Init` sets `mnpar = 7`, and a call of
`RDicVol` that starts with an empty `vdepth` gets six per-parameter depths equal to `depth`.
The subdivision then makes 32 child calls, not 64, and `par[6]` of every child is the one of
the parent box, although the half-width `duc.par[6]` has been halved: the test `mnpar==7`
sits inside the loop on `par[5]`, so the loop on `par[6]` is never run.  For `mnpar` = 2, 3,
4, 5 the subdivision makes 2, 4, 8, 16 child calls. -/
theorem RDicVol_triclinic_children (cos : K → K) (self : CellExplorer K) (depth : Nat)
    (uc0 duc : RecUnitCell K) :
    (CellExplorer.Init cos { self with mlattice := TRICLINIC }).mnpar = 7 ∧
    RDicVol.initDepths 7 depth [] = List.replicate 6 depth ∧
    (∃ boxes, RDicVol.childBoxes 7 depth (List.replicate 6 depth) uc0 duc = .ok boxes ∧
      boxes.length = 32 ∧ ∀ uc ∈ boxes, uc.par6 = uc0.par6) ∧
    (∃ duc1, RDicVol.halve 7 depth (List.replicate 6 depth) duc = .ok duc1 ∧
      duc1.par6 = duc.par6 * (1/2)) ∧
    (∃ b2 b3 b4 b5,
      RDicVol.childBoxes 2 depth (List.replicate 1 depth) uc0 duc = .ok b2 ∧ b2.length = 2 ∧
      RDicVol.childBoxes 3 depth (List.replicate 2 depth) uc0 duc = .ok b3 ∧ b3.length = 4 ∧
      RDicVol.childBoxes 4 depth (List.replicate 3 depth) uc0 duc = .ok b4 ∧ b4.length = 8 ∧
      RDicVol.childBoxes 5 depth (List.replicate 4 depth) uc0 duc = .ok b5 ∧
      b5.length = 16) := by
  refine ⟨rfl, by simp [RDicVol.initDepths], ?_, ?_, ?_⟩
  · refine ⟨_, by simp [RDicVol.childBoxes, List.replicate]; rfl, ?_, ?_⟩
    · simp [RDicVol.branch]
    · intro uc huc
      simp only [RDicVol.branch, if_true, List.mem_append, List.mem_singleton] at huc
      rcases huc with ((((h | h) | (h | h)) | ((h | h) | (h | h))) | (((h | h) | (h | h)) | ((h | h) | (h | h)))) | ((((h | h) | (h | h)) | ((h | h) | (h | h))) | (((h | h) | (h | h)) | ((h | h) | (h | h)))) <;>
        (subst h; rfl)
  · refine ⟨_, by simp [RDicVol.halve, List.range, List.range.loop, List.replicate]; rfl, ?_⟩
    simp [RecUnitCell.setPar, RecUnitCell.par]
  · refine ⟨_, _, _, _, by simp [RDicVol.childBoxes, List.replicate]; rfl, by simp [RDicVol.branch],
      by simp [RDicVol.childBoxes, List.replicate]; rfl, by simp [RDicVol.branch],
      by simp [RDicVol.childBoxes, List.replicate]; rfl, by simp [RDicVol.branch],
      by simp [RDicVol.childBoxes, List.replicate]; rfl, by simp [RDicVol.branch]⟩

/-- C31. The volume pre-check of `RDicVol` rejects a box exactly when the depth is 1 or
2 and the direct-cell volume of the cell at centre plus half-widths is above `maxV` or that
of the cell at centre minus half-widths is below `minV` (so at depth 0 and from depth 3 on
no box is rejected); a rejected call returns 0 at once, with `nbCalc` and the object as they
were.  For an orthorhombic box with `0 <= duc.par[i] < uc0.par[i]` on the three lengths and
`minV <= maxV`, at depth 1 or 2 the box is rejected exactly when no volume lies both in
`[1/prod(par+delta), 1/prod(par-delta)]` and in `[minV, maxV]`. -/
theorem RDicVol_volume_precheck (lsq : CellExplorer ℝ → CellExplorer ℝ) (fh fk fl gas : Nat)
    (uc0 duc : RecUnitCell ℝ) (depth nbCalc : Nat) (minV maxV : ℝ) (vdepth : List Nat)
    (self : CellExplorer ℝ) :
    (RDicVol.volumeRejected Real.sqrt Real.arccos uc0 duc depth minV maxV = true ↔
      (depth = 1 ∨ depth = 2) ∧
      (((RDicVol.corner 1 uc0 duc).DirectUnitCell Real.sqrt Real.arccos).getD 6 0 > maxV ∨
        ((RDicVol.corner (-1) uc0 duc).DirectUnitCell Real.sqrt Real.arccos).getD 6 0
          < minV)) ∧
    (RDicVol.volumeRejected Real.sqrt Real.arccos uc0 duc depth minV maxV = true →
      CellExplorer.RDicVol Real.sqrt Real.arccos lsq fh fk fl (gas + 1) uc0 duc depth nbCalc
        minV maxV vdepth self = some (.ok (0, nbCalc, self))) ∧
    (uc0.mlattice = ORTHOROMBIC →
      (0 ≤ duc.par1 ∧ duc.par1 < uc0.par1) → (0 ≤ duc.par2 ∧ duc.par2 < uc0.par2) →
      (0 ≤ duc.par3 ∧ duc.par3 < uc0.par3) → minV ≤ maxV → (depth = 1 ∨ depth = 2) →
      (RDicVol.volumeRejected Real.sqrt Real.arccos uc0 duc depth minV maxV = true ↔
        ¬ ∃ v : ℝ,
          1 / ((uc0.par1 + duc.par1) * (uc0.par2 + duc.par2) * (uc0.par3 + duc.par3)) ≤ v ∧
          v ≤ 1 / ((uc0.par1 - duc.par1) * (uc0.par2 - duc.par2) * (uc0.par3 - duc.par3)) ∧
          minV ≤ v ∧ v ≤ maxV)) := by
  refine ⟨RDicVol.volumeRejected_iff _ _ _ _ _ _ _, ?_, ?_⟩
  · intro hvol
    rw [CellExplorer.RDicVol]
    simp only [hvol, if_true]
  · intro hlat h1 h2 h3 hV hd
    rw [RDicVol.volumeRejected_iff]
    have hp := DirectUnitCell_volume_orthorhombic (RDicVol.corner 1 uc0 duc) hlat
      (by simp only [RDicVol.corner]; linarith [h1.1, h1.2])
      (by simp only [RDicVol.corner]; linarith [h2.1, h2.2])
      (by simp only [RDicVol.corner]; linarith [h3.1, h3.2])
    have hm := DirectUnitCell_volume_orthorhombic (RDicVol.corner (-1) uc0 duc) hlat
      (by simp only [RDicVol.corner]; linarith [h1.1, h1.2])
      (by simp only [RDicVol.corner]; linarith [h2.1, h2.2])
      (by simp only [RDicVol.corner]; linarith [h3.1, h3.2])
    rw [hp, hm]
    simp only [RDicVol.corner, one_mul, neg_one_mul, ← sub_eq_add_neg]
    have a1 : 0 < uc0.par1 - duc.par1 := by linarith [h1.2]
    have a2 : 0 < uc0.par2 - duc.par2 := by linarith [h2.2]
    have a3 : 0 < uc0.par3 - duc.par3 := by linarith [h3.2]
    have b1 : uc0.par1 - duc.par1 ≤ uc0.par1 + duc.par1 := by linarith [h1.1]
    have b2 : uc0.par2 - duc.par2 ≤ uc0.par2 + duc.par2 := by linarith [h2.1]
    have b3 : uc0.par3 - duc.par3 ≤ uc0.par3 + duc.par3 := by linarith [h3.1]
    have hprod : (uc0.par1 - duc.par1) * (uc0.par2 - duc.par2) * (uc0.par3 - duc.par3)
        ≤ (uc0.par1 + duc.par1) * (uc0.par2 + duc.par2) * (uc0.par3 + duc.par3) := by
      apply mul_le_mul _ b3 a3.le
      · exact mul_nonneg (by linarith) (by linarith)
      · exact mul_le_mul b1 b2 a2.le (by linarith)
    have hpos : 0 < (uc0.par1 - duc.par1) * (uc0.par2 - duc.par2) * (uc0.par3 - duc.par3) :=
      mul_pos (mul_pos a1 a2) a3
    have hlohi :
        1 / ((uc0.par1 + duc.par1) * (uc0.par2 + duc.par2) * (uc0.par3 + duc.par3))
          ≤ 1 / ((uc0.par1 - duc.par1) * (uc0.par2 - duc.par2) * (uc0.par3 - duc.par3)) :=
      one_div_le_one_div_of_le hpos hprod
    constructor
    · rintro ⟨_, hrej⟩ ⟨v, hv1, hv2, hv3, hv4⟩
      rcases hrej with h | h <;> linarith
    · intro hno
      refine ⟨hd, ?_⟩
      by_contra hcon
      push_neg at hcon
      apply hno
      refine ⟨max (1 / ((uc0.par1 + duc.par1) * (uc0.par2 + duc.par2)
        * (uc0.par3 + duc.par3))) minV, le_max_left _ _, max_le hlohi hcon.2, le_max_right _ _,
        max_le hcon.1 hV⟩

/-- Witness of C31: the orthorhombic box a* = b* = c* = 1/5 ± 1/10 at depth 1 with
volumes allowed between 0 and 20; its smallest direct volume is 1/(3/10)³ > 20, and the box
is rejected. -/
theorem RDicVol_volume_precheck_witness :
    ((orthorhombicFifth ℝ).mlattice = ORTHOROMBIC ∧ (0:ℝ) ≤ 20) ∧
    RDicVol.volumeRejected Real.sqrt Real.arccos (orthorhombicFifth ℝ) (tenthHalfWidth ℝ) 1
      0 20 = true := by
  refine ⟨⟨rfl, by norm_num⟩, ?_⟩
  have key := (RDicVol_volume_precheck (fun e => e) 0 0 0 0 (orthorhombicFifth ℝ)
    (tenthHalfWidth ℝ) 1 0 0 20 []
    { mnpar := 4, mpPeakList := ⟨[], []⟩, mLengthMin := 4, mLengthMax := 25,
      mAngleMin := 0, mAngleMax := 0, mVolumeMin := 0, mVolumeMax := 20,
      mZeroShiftMin := 0, mZeroShiftMax := 0, mlattice := ORTHOROMBIC, mNbSpurious := 0,
      mObs := [], mCalc := [], mWeight := [], mDeriv := [], mBestScore := 0,
      mMinScoreReport := 10, mMaxDicVolDepth := 7, mDicVolDepthReport := 6,
      mRecUnitCell := orthorhombicFifth ℝ, mMin := [], mAmp := [], mvSolution := [],
      mvNbSolutionDepth := [] }).2.2 rfl
    (by norm_num [orthorhombicFifth, tenthHalfWidth])
    (by norm_num [orthorhombicFifth, tenthHalfWidth])
    (by norm_num [orthorhombicFifth, tenthHalfWidth]) (by norm_num) (Or.inl rfl)
  rw [key]
  rintro ⟨v, hv1, _, _, hv4⟩
  have : (20:ℝ) < 1 / (((orthorhombicFifth ℝ).par1 + (tenthHalfWidth ℝ).par1)
      * ((orthorhombicFifth ℝ).par2 + (tenthHalfWidth ℝ).par2)
      * ((orthorhombicFifth ℝ).par3 + (tenthHalfWidth ℝ).par3)) := by
    norm_num [orthorhombicFifth, tenthHalfWidth]
  linarith

/-- C32 (counterexample). Cubic lattice with `mMin[1] = 1/25` and `mAmp[1] = 21/100`,
mutation factor `f = 10`, mutated index 1, and the three members drawn a* = 1/25, 1/25 and
6/25, all inside `[1/25, 1/4)`: the argument of `fmod` is -137/100, `fmod` keeps its sign,
and the trial gets a* = -7/100, below `mMin[1]`. -/
theorem Evolution_mutate_below_range :
    ((1/25 : ℚ) ≤ (cubicOf (1/25)).par 1 ∧ (cubicOf (1/25)).par 1 < 1/25 + 21/100 ∧
      (1/25 : ℚ) ≤ (cubicOf (6/25)).par 1 ∧ (cubicOf (6/25)).par 1 < 1/25 + 21/100) ∧
    (Evolution.mutate [0, 1/25] [0, 21/100] 2 10 1 (cubicOf (1/25)) (cubicOf (1/25))
      (cubicOf (1/25)) (cubicOf (1/25)) (cubicOf (6/25))).par 1 = -(7/100) := by
  have hc : ⌈(-(137/21) : ℚ)⌉ = -6 := by
    rw [Int.ceil_eq_iff]
    norm_num
  refine ⟨by norm_num [cubicOf, RecUnitCell.par], ?_⟩
  rw [(Evolution.mutate_par [0, 1/25] [0, 21/100] 2 10 1 (cubicOf (1/25)) (cubicOf (1/25))
      (cubicOf (1/25)) (cubicOf (1/25)) (cubicOf (6/25))).1 (by decide)]
  have hx : ((cubicOf (1/25)).par (1 % 2) - [(0:ℚ), 1/25].getD (1 % 2) 0
      + 10 * ((cubicOf (1/25)).par (1 % 2) - [(0:ℚ), 1/25].getD (1 % 2) 0
        - ((cubicOf (6/25)).par (1 % 2) - [(0:ℚ), 1/25].getD (1 % 2) 0))
      + 3 * [(0:ℚ), 21/100].getD (1 % 2) 0) = -(137/100) := by
    norm_num [cubicOf, RecUnitCell.par]
  rw [hx]
  have hq : (-(137/100) : ℚ) / (21/100) = -(137/21) := by norm_num
  have hneg : ¬ (0 : ℚ) ≤ -(137/21) := by norm_num
  simp only [fmod, List.getD_cons_succ, List.getD_cons_zero, Nat.one_mod, hq, hneg, if_false,
    hc]
  norm_num

/-- C32 (amended). When the mutation factor has `|f| <= 3`, the mutated index `l` is a
slot of the cell with `mAmp[l] > 0`, and the three members drawn have their parameter `l` in
`[mMin[l], mMin[l]+mAmp[l])`, the parameter `l` of the trial after the mutation lies in
`[mMin[l], mMin[l]+mAmp[l])`. -/
theorem Evolution_mutate_in_range [FloorRing K] (mMin mAmp : List K) (mnpar : Nat) (f : K)
    (ncr0 : Nat) (t0 c0 c1 c2 c3 : RecUnitCell K)
    (hl : ncr0 % mnpar ≤ 6) (hamp : 0 < mAmp.getD (ncr0 % mnpar) 0) (hf : |f| ≤ 3)
    (h1 : mMin.getD (ncr0 % mnpar) 0 ≤ c1.par (ncr0 % mnpar) ∧
      c1.par (ncr0 % mnpar) < mMin.getD (ncr0 % mnpar) 0 + mAmp.getD (ncr0 % mnpar) 0)
    (h2 : mMin.getD (ncr0 % mnpar) 0 ≤ c2.par (ncr0 % mnpar) ∧
      c2.par (ncr0 % mnpar) < mMin.getD (ncr0 % mnpar) 0 + mAmp.getD (ncr0 % mnpar) 0)
    (h3 : mMin.getD (ncr0 % mnpar) 0 ≤ c3.par (ncr0 % mnpar) ∧
      c3.par (ncr0 % mnpar) < mMin.getD (ncr0 % mnpar) 0 + mAmp.getD (ncr0 % mnpar) 0) :
    mMin.getD (ncr0 % mnpar) 0
        ≤ (Evolution.mutate mMin mAmp mnpar f ncr0 t0 c0 c1 c2 c3).par (ncr0 % mnpar) ∧
    (Evolution.mutate mMin mAmp mnpar f ncr0 t0 c0 c1 c2 c3).par (ncr0 % mnpar)
        < mMin.getD (ncr0 % mnpar) 0 + mAmp.getD (ncr0 % mnpar) 0 := by
  rw [(Evolution.mutate_par mMin mAmp mnpar f ncr0 t0 c0 c1 c2 c3).1 hl]
  have hd : |c2.par (ncr0 % mnpar) - mMin.getD (ncr0 % mnpar) 0
      - (c3.par (ncr0 % mnpar) - mMin.getD (ncr0 % mnpar) 0)| ≤ mAmp.getD (ncr0 % mnpar) 0 := by
    rw [abs_le]
    constructor <;> linarith [h2.1, h2.2, h3.1, h3.2]
  have hprod : |f * (c2.par (ncr0 % mnpar) - mMin.getD (ncr0 % mnpar) 0
      - (c3.par (ncr0 % mnpar) - mMin.getD (ncr0 % mnpar) 0))|
      ≤ 3 * mAmp.getD (ncr0 % mnpar) 0 := by
    rw [abs_mul]
    exact mul_le_mul hf hd (abs_nonneg _) (by norm_num)
  have hx : 0 ≤ c1.par (ncr0 % mnpar) - mMin.getD (ncr0 % mnpar) 0
      + f * (c2.par (ncr0 % mnpar) - mMin.getD (ncr0 % mnpar) 0
        - (c3.par (ncr0 % mnpar) - mMin.getD (ncr0 % mnpar) 0))
      + 3 * mAmp.getD (ncr0 % mnpar) 0 := by
    have := (abs_le.1 hprod).1
    linarith [h1.1]
  obtain ⟨hlo, hhi⟩ := fmod_nonneg_lt _ _ hx hamp
  constructor <;> linarith

/-- Witness of C32: the lattice and the members of the counterexample with the mutation
factor `f = 1/2`. -/
theorem Evolution_mutate_in_range_witness :
    (1 % 2 ≤ 6 ∧ (0:ℚ) < [(0:ℚ), 21/100].getD (1 % 2) 0 ∧ |(1/2 : ℚ)| ≤ 3) ∧
    (1/25 : ℚ) ≤ (Evolution.mutate [0, 1/25] [0, 21/100] 2 (1/2) 1 (cubicOf (1/25))
      (cubicOf (1/25)) (cubicOf (1/25)) (cubicOf (1/25)) (cubicOf (6/25))).par (1 % 2) ∧
    (Evolution.mutate [0, 1/25] [0, 21/100] 2 (1/2) 1 (cubicOf (1/25))
      (cubicOf (1/25)) (cubicOf (1/25)) (cubicOf (1/25)) (cubicOf (6/25))).par (1 % 2)
      < 1/25 + 21/100 := by
  have ha : (0:ℚ) < [(0:ℚ), 21/100].getD (1 % 2) 0 := by norm_num
  have hf : |(1/2 : ℚ)| ≤ 3 := by rw [abs_le]; constructor <;> norm_num
  have key := Evolution_mutate_in_range [(0:ℚ), 1/25] [0, 21/100] 2 (1/2) 1 (cubicOf (1/25))
    (cubicOf (1/25)) (cubicOf (1/25)) (cubicOf (1/25)) (cubicOf (6/25)) (by decide) ha hf
    (by norm_num [cubicOf, RecUnitCell.par]) (by norm_num [cubicOf, RecUnitCell.par])
    (by norm_num [cubicOf, RecUnitCell.par])
  refine ⟨⟨by decide, ha, hf⟩, ?_, ?_⟩
  · simpa using key.1
  · simpa using key.2

/-- C39 (failing input). After the mutation, the trial has the parameters of its parent
in the slots 0 to 5 other than the mutated index, and slot 6 is the one the trial had
before, unless it is the mutated index: the copy loop runs over `k < 6`.  For the triclinic
lattice (`mnpar = 7`), a parent with `par[6] = 3/10`, a trial that holds `par[6] = 0` and
the mutated index 1, the trial has `par[6] = 0` after the mutation, not the 3/10 of its
parent. -/
theorem Evolution_mutate_stale_par6 [FloorRing K] (mMin mAmp : List K) (mnpar : Nat) (f : K)
    (ncr0 : Nat) (t0 c0 c1 c2 c3 : RecUnitCell K) :
    ((∀ i, i < 6 → i ≠ ncr0 % mnpar →
        (Evolution.mutate mMin mAmp mnpar f ncr0 t0 c0 c1 c2 c3).par i = c0.par i) ∧
      (ncr0 % mnpar ≠ 6 →
        (Evolution.mutate mMin mAmp mnpar f ncr0 t0 c0 c1 c2 c3).par 6 = t0.par 6)) ∧
    (∀ (g : ℚ) (lo amp : List ℚ),
      (Evolution.mutate lo amp 7 g 1 triclinicTrial triclinicParent triclinicParent
        triclinicParent triclinicParent).par 6 = 0 ∧ triclinicParent.par 6 = 3/10) := by
  refine ⟨⟨(Evolution.mutate_par mMin mAmp mnpar f ncr0 t0 c0 c1 c2 c3).2.1,
    (Evolution.mutate_par mMin mAmp mnpar f ncr0 t0 c0 c1 c2 c3).2.2⟩, ?_⟩
  intro g lo amp
  refine ⟨?_, rfl⟩
  rw [(Evolution.mutate_par lo amp 7 g 1 triclinicTrial triclinicParent triclinicParent
    triclinicParent triclinicParent).2.2 (by decide)]
  rfl

set_option maxHeartbeats 8000000 in
/-- C33 (failing input). The hexagonal cell a* = c* = 1 and one peak at dobs = 4/5
(cutoff 168/125), with the predicted reflections stored: for all budgets of at least 4 the
call of `Score` returns, it counts five reflections, listed in the order of their
generation as (0,0,1), (0,1,0), (1,0,0), (1,-1,0), (1,0,0), and its value has `Ncalc = 5`:
the triple (1,0,0) with d*² = 1 is generated twice. -/
theorem Score_counts_reflection_twice :
    (hexagonalUnit.hkl2dInt 1 0 0 = 1 ∧
      Score.cutoff true (Score.reset false [sharpPeak (4/5)]) = .ok (168/125)) ∧
    ∀ (sqrt : ℚ → ℚ) (fh fk fl : Nat),
      (Score sqrt (fh+4) (fk+4) (fl+4) ⟨[sharpPeak (4/5)], []⟩ hexagonalUnit 0 false true).map
          (fun r => (r.1, r.2.mvPredictedHKL.map (fun p => (p.h, p.k, p.l))))
        = .ok (sqrt (168/125) * 1 / (2 * 1000 * 5),
            [(0, 0, 1), (0, 1, 0), (1, 0, 0), (1, -1, 0), (1, 0, 0)]) := by
  refine ⟨⟨?_, ?_⟩, ?_⟩
  · norm_num [RecUnitCell.hkl2dInt, RecUnitCell.hkl2d, okValue, hexagonalUnit]
  · norm_num [Score.cutoff, Score.reset, sharpPeak, PeakList.hkl.new]
  · intro sqrt fh fk fl
    norm_num [Score, Score.reset, Score.cutoff, Score.enumerate, Score.loopH, Score.loopSK,
      Score.loopK, Score.loopSL, Score.loopL, Score.visit, Score.scanPeaks, Score.assign,
      Score.spurious, sharpPeak, hexagonalUnit, PeakList.hkl.new, signK0,
      signL0, Score.slStart, RecUnitCell.hkl2dInt, RecUnitCell.hkl2dDeriv, RecUnitCell.hkl2d,
      okValue, Except.map, abs_div, Nat.abs_ofNat, abs_neg]

/-- C35 (failing input). The cubic cell a* = 1 and one peak at dobs = 1 (cutoff 21/20):
for all budgets of at least 3 the enumeration of `Score` ends with `Ncalc = 3` and the peak
matched exactly (`d2diff = 0`), so that the error sum is 0 and the denominator
`2 * eps * Ncalc` of the returned score is 0, with `nbSpurious = 0` and with
`nbSpurious = 1`; in general the error sum is 0 whenever `nbSpurious` is at least the number
of peaks. -/
theorem Score_zero_denominator :
    (Score.cutoff false (Score.reset false [sharpPeak 1]) = .ok (21/20) ∧
      ∀ fh fk fl : Nat, ∃ s : ScoreState ℚ,
        Score.enumerate cubicUnit (21/20) false false (fh+3) (fk+3) (fl+3)
          (Score.reset false [sharpPeak 1]) [] = some s ∧
        s.nbCalc = 3 ∧
        2 * (Score.spurious 0 false s.peaks).1 * (s.nbCalc : ℚ) = 0 ∧
        2 * (Score.spurious 1 false s.peaks).1 * (s.nbCalc : ℚ) = 0) ∧
    ∀ (nbSpurious : Nat) (storehkl : Bool) (peaks : List (PeakList.hkl ℚ)),
      peaks.length ≤ nbSpurious → (Score.spurious nbSpurious storehkl peaks).1 = 0 := by
  refine ⟨⟨?_, ?_⟩, fun n b ps h => Score.spurious_all_removed n b ps h⟩
  · norm_num [Score.cutoff, Score.reset, sharpPeak, PeakList.hkl.new]
  · intro fh fk fl
    have hen := Score_enumerate_exact fh fk fl
    cases hs : Score.enumerate cubicUnit (21/20) false false (fh+3) (fk+3) (fl+3)
        (Score.reset false [sharpPeak 1]) [] with
    | none => rw [hs] at hen; simp at hen
    | some s =>
      rw [hs] at hen
      simp only [Option.map_some', Option.some.injEq, Prod.mk.injEq] at hen
      obtain ⟨hn, hd⟩ := hen
      have hlen : s.peaks.length = 1 := by
        have := congrArg List.length hd
        simpa using this
      have h0 : (Score.spurious 0 false s.peaks).1 = 0 := by
        simp only [Score.spurious, Nat.lt_irrefl, if_false, gt_iff_lt]
        rw [Score.epsilon_eq_sum]
        have : s.peaks.map (fun p => |p.d2diff|) = (s.peaks.map (fun p => p.d2diff)).map abs := by
          rw [List.map_map]; rfl
        rw [this, hd]
        simp
      have h1 : (Score.spurious 1 false s.peaks).1 = 0 :=
        Score.spurious_all_removed 1 false s.peaks (by omega)
      refine ⟨s, rfl, hn, ?_, ?_⟩
      · rw [h0]; ring
      · rw [h1]; ring

set_option maxHeartbeats 8000000 in
/-- C38 (failing input). The monoclinic cell a* = 1, b* = c* = 9/10, cos β* = 0 with
zero half-widths and one peak at dobs = 1, in store mode (`useStoredHKL = 2`): for all
budgets of at least 3 the call of `DichoIndexed` returns true and leaves the candidate list
[(1,0,0), (1,0,0)] on the peak, the reflection (1,0,0) with d*² = 1 twice; the list has
size 2 and the axis fast path of `RDicVol` counts no peak for the axis a*. -/
theorem DichoIndexed_stores_candidate_twice :
    (monoclinicUpright.hkl2dInt 1 0 0 = 1 ∧ (sharpPeak 1).d2obs = 1) ∧
    ∀ (fh fk fl : Nat),
      (DichoIndexed (fh+3) (fk+3) (fl+3) ⟨[sharpPeak 1], []⟩ monoclinicUpright
          (zeroHalfWidth MONOCLINIC) 0 2).map
          (fun r => (r.1, r.2.mvHKL.map (fun p => p.vDicVolHKL),
            (RDicVol.axisSums r.2.mvHKL).n0))
        = .ok (true, [[⟨1, 0, 0⟩, ⟨1, 0, 0⟩]], 0) := by
  refine ⟨⟨?_, ?_⟩, ?_⟩
  · norm_num [RecUnitCell.hkl2dInt, RecUnitCell.hkl2d, okValue, monoclinicUpright]
  · norm_num [sharpPeak, PeakList.hkl.new]
  · intro fh fk fl
    norm_num [DichoIndexed, DichoIndexed.loopH, DichoIndexed.loopSK, DichoIndexed.loopK,
      DichoIndexed.loopSL, DichoIndexed.loopL, DichoIndexed.peakLoop, DichoIndexed.overlaps,
      sharpPeak, monoclinicUpright, RDicVol.axisSums,
      zeroHalfWidth, PeakList.hkl.new, signK0, signL0, Score.slStart, RecUnitCell.hkl2d_delta,
      Except.map]

/-- C34. For a peak list sorted by ascending `dobs` with `dobs >= 0` and
`d2obs = dobs²`: the peak scan of `Score` with its early exit gives, on the peaks as the
first loop leaves them, the same list as the scan `Score.scanAll` that visits every peak;
after every call of `Score` that returns there is the list `gen` of the reflections
generated (the predicted reflections when they are stored) such that the peaks have the
`d2obs` and `d2diff` that scanning all peaks for every reflection of `gen` gives, and for
every peak `d2diff` is at most, in magnitude, every `d2calc - d2obs` of `gen` with
`-0.1 <= d2calc - d2obs < 0.1`, and is 1000 when `gen` has no such reflection, else one of
these differences.  The call returns, given enough budget, for a non-empty peak list and an
orthorhombic cell with positive a*, b*, c*. -/
theorem Score_scan_early_exit [Archimedean K] (sqrt : K → K) (dhkl : PeakList K)
    (ruc : RecUnitCell K) (nbSpurious : Nat) (storehkl sp : Bool)
    (hsorted : dhkl.mvHKL.Pairwise (fun p q => p.dobs ≤ q.dobs))
    (hobs : ∀ p ∈ dhkl.mvHKL, 0 ≤ p.dobs ∧ p.d2obs = p.dobs * p.dobs) :
    (∀ (d2 : K) (h k l : Int),
      Score.scanPeaks storehkl d2 h k l (Score.reset storehkl dhkl.mvHKL)
        = Score.scanAll storehkl d2 h k l (Score.reset storehkl dhkl.mvHKL)) ∧
    (∀ (fh fk fl : Nat) (r : K × PeakList K),
      Score sqrt fh fk fl dhkl ruc nbSpurious storehkl sp = .ok r →
      ∃ gen : List (K × Int × Int × Int),
        r.2.mvHKL.map (fun p => (p.d2obs, p.d2diff))
          = (gen.foldl (fun qs g => Score.scanAll storehkl g.1 g.2.1 g.2.2.1 g.2.2.2 qs)
              (Score.reset storehkl dhkl.mvHKL)).map (fun p => (p.d2obs, p.d2diff)) ∧
        (sp = true → r.2.mvPredictedHKL
          = gen.map (fun g => PeakList.hkl.new 0 0 0 0 g.2.1 g.2.2.1 g.2.2.2 g.1)) ∧
        ∀ p ∈ r.2.mvHKL,
          (∀ g ∈ gen, -(1/10) ≤ g.1 - p.d2obs → g.1 - p.d2obs < 1/10 →
            |p.d2diff| ≤ |g.1 - p.d2obs|) ∧
          ((p.d2diff = 1000 ∧
              ∀ g ∈ gen, ¬ (-(1/10) ≤ g.1 - p.d2obs ∧ g.1 - p.d2obs < 1/10)) ∨
            ∃ g ∈ gen, -(1/10) ≤ g.1 - p.d2obs ∧ g.1 - p.d2obs < 1/10 ∧
              p.d2diff = g.1 - p.d2obs)) ∧
    (dhkl.mvHKL ≠ [] → ruc.mlattice = ORTHOROMBIC → 0 < ruc.par1 → 0 < ruc.par2 →
      0 < ruc.par3 →
      ∃ B : Nat, ∀ fh fk fl : Nat, B < fh → B < fk → B < fl →
        ∃ r, Score sqrt fh fk fl dhkl ruc nbSpurious storehkl sp = .ok r) := by
  have hsorted2 : dhkl.mvHKL.Pairwise (fun p q => p.d2obs ≤ q.d2obs) := by
    refine hsorted.imp_of_mem ?_
    intro p q hp hq hpq
    rw [(hobs p hp).2, (hobs q hq).2]
    exact mul_le_mul hpq hpq (hobs p hp).1 (le_trans (hobs p hp).1 hpq)
  have hreset : (Score.reset storehkl dhkl.mvHKL).Pairwise (fun p q => p.d2obs ≤ q.d2obs) := by
    simp only [Score.reset]
    rw [List.pairwise_map]
    exact hsorted2
  refine ⟨fun d2 h k l => Score.scanPeaks_eq_scanAll storehkl d2 h k l _ hreset, ?_,
    fun hne hlat h1 h2 h3 =>
      Score_returns_orthorhombic sqrt dhkl ruc nbSpurious storehkl sp hne hlat h1 h2 h3⟩
  intro fh fk fl r hrun
  obtain ⟨dmax, s, _, hen, _, hr2⟩ :=
    Score_ok sqrt fh fk fl dhkl ruc nbSpurious storehkl sp r hrun
  obtain ⟨gen, hpeaks, _, hpred⟩ :=
    Score.enumerate_scanAll ruc dmax storehkl sp fh fk fl _ _ s hreset hen
  have hmap : r.2.mvHKL.map (fun p => (p.d2obs, p.d2diff))
      = s.peaks.map (fun p => (p.d2obs, p.d2diff)) := by
    rw [hr2]
    exact Score.spurious_map_eq (fun p => (p.d2obs, p.d2diff)) nbSpurious storehkl
      (fun p => rfl) s.peaks
  refine ⟨gen, by rw [hmap, hpeaks], ?_, ?_⟩
  · intro hsp
    rw [hr2]
    simp only
    rw [hpred hsp]
    simp [hsp]
  · intro p hp
    have hmem : (p.d2obs, p.d2diff) ∈ s.peaks.map (fun p => (p.d2obs, p.d2diff)) := by
      rw [← hmap]
      exact List.mem_map.2 ⟨p, hp, rfl⟩
    obtain ⟨q, hq, hqp⟩ := List.mem_map.1 hmem
    simp only [Prod.mk.injEq] at hqp
    rw [hpeaks, Score.scanAll_foldl] at hq
    obtain ⟨p0, hp0, rfl⟩ := List.mem_map.1 hq
    obtain ⟨hd0, _⟩ := Score.reset_mem storehkl dhkl.mvHKL p0 hp0
    obtain ⟨f1, _, f3, f4⟩ := Score.fitPeak_foldl storehkl gen p0
    rw [hqp.1] at f1
    rw [hqp.2] at f3 f4
    rw [← f1] at f3 f4
    refine ⟨f3, ?_⟩
    rcases f4 with f4 | f4
    · left
      refine ⟨f4.trans hd0, ?_⟩
      rintro g hg ⟨hlo, hhi⟩
      have h1 := f3 g hg hlo hhi
      rw [f4, hd0] at h1
      have h2 : |g.1 - p.d2obs| ≤ 1/10 := abs_le.2 ⟨hlo, le_of_lt hhi⟩
      have h3 : |(1000 : K)| = 1000 := abs_of_pos (by norm_num)
      rw [h3] at h1
      linarith
    · right
      exact f4

/-- Witness of C34: the peaks at dobs = 3/5 and 1 and the reflection (0,0,1) with
d*² = 1. -/
theorem Score_scan_early_exit_witness :
    ((⟨[sharpPeak (3/5), sharpPeak 1], []⟩ : PeakList ℚ).mvHKL.Pairwise
        (fun p q => p.dobs ≤ q.dobs)) ∧
    Score.scanPeaks false 1 0 0 1 (Score.reset false [sharpPeak (3/5), sharpPeak 1])
      = Score.scanAll false 1 0 0 1 (Score.reset false [sharpPeak (3/5), sharpPeak 1]) := by
  have hs : (⟨[sharpPeak (3/5), sharpPeak 1], []⟩ : PeakList ℚ).mvHKL.Pairwise
      (fun p q => p.dobs ≤ q.dobs) := by
    norm_num [sharpPeak, PeakList.hkl.new]
  have ho : ∀ p ∈ (⟨[sharpPeak (3/5), sharpPeak 1], []⟩ : PeakList ℚ).mvHKL,
      0 ≤ p.dobs ∧ p.d2obs = p.dobs * p.dobs := by
    intro p hp
    simp only [List.mem_cons, List.mem_singleton, List.not_mem_nil, or_false] at hp
    rcases hp with h | h <;> subst h <;> norm_num [sharpPeak, PeakList.hkl.new]
  exact ⟨hs, (Score_scan_early_exit (fun x : ℚ => x) ⟨[sharpPeak (3/5), sharpPeak 1], []⟩
    orthorhombicCentre 0 false false hs ho).1 1 0 0 1⟩

/-- C36 (amended). At depth 0, let the cell `c` lie in the box `uc0 ± duc`, and let
every peak whose candidate list after the first call of `DichoIndexed` is a single axis
reflection (h,0,0), (0,k,0) or (0,0,l) have `dobs` equal to `h*c.par[1]`, `k*c.par[2]` or
`l*c.par[3]` (the cell predicts the observed position of the peak with that reflection).
Then the box of the node that the start of `RDicVol` returns, after the axis fast path,
contains `c`. -/
theorem RDicVol_fast_path_keeps_exact (fh fk fl : Nat) (self : CellExplorer K)
    (uc0 duc c : RecUnitCell K) (vdepth : List Nat) (node : RDicVol.Node K)
    (hbox : uc0.inBox duc c)
    (hrun : RDicVol.prepare fh fk fl self uc0 duc 0 vdepth = .ok node)
    (hexact : ∀ r, DichoIndexed fh fk fl self.mpPeakList uc0 duc self.mNbSpurious 2 = .ok r →
      ∀ p ∈ r.2.mvHKL, ∀ h0 : PeakList.hkl0, p.vDicVolHKL = [h0] →
        (h0.k = 0 → h0.l = 0 → h0.h ≠ 0 ∧ p.dobs = (h0.h : K) * c.par 1) ∧
        (h0.h = 0 → h0.l = 0 → h0.k ≠ 0 → p.dobs = (h0.k : K) * c.par 2) ∧
        (h0.h = 0 → h0.k = 0 → h0.l ≠ 0 → p.dobs = (h0.l : K) * c.par 3)) :
    node.uc0.inBox node.duc c := by
  rcases RDicVol.prepare_box fh fk fl self uc0 duc vdepth node hrun with h | h
  · rw [h.1, h.2]
    exact hbox
  · obtain ⟨r, st, hd, hj, h1, h2⟩ := h
    have hq := RDicVol.axisSums_exact r.2.mvHKL (c.par 1) (c.par 2) (c.par 3)
      (fun p hp h0 hl => (hexact r hd p hp h0 hl).1)
      (fun p hp h0 hl => (hexact r hd p hp h0 hl).2.1)
      (fun p hp h0 hl => (hexact r hd p hp h0 hl).2.2)
    obtain ⟨hlat, hb⟩ := RDicVol.axisJump_inBox self.mlattice self.mDicVolDepthReport
      (RDicVol.axisSums r.2.mvHKL) (uc0, duc, RDicVol.initDepths self.mnpar 0 vdepth) st c
      (0 :: metricSlots uc0.mlattice) hq hj hbox.2
    rw [h1, h2]
    refine ⟨hbox.1.trans hlat.symm, ?_⟩
    rw [hlat]
    exact hb

/-- Witness of C36: the box and the peak of the counterexample with the cell at the
centre, c* = 1, whose reflection (0,0,1) lies at dobs = 1; the new box, of half-width 1/80
on c*, contains it. -/
theorem RDicVol_fast_path_keeps_exact_witness :
    tallCell.inBox tallHalfWidth tallCell ∧
    ∃ node, RDicVol.prepare 2 2 2 tallExplorer tallCell tallHalfWidth 0 [] = .ok node ∧
      node.duc.par 3 = 1/80 ∧ node.uc0.inBox node.duc tallCell := by
  have hbox : tallCell.inBox tallHalfWidth tallCell := by
    refine ⟨rfl, ?_⟩
    intro i hi
    simp only [tallCell, metricSlots, List.mem_cons, List.mem_singleton, List.not_mem_nil,
      or_false] at hi
    rcases hi with h | h | h | h <;> subst h <;>
      norm_num [tallCell, tallHalfWidth, RecUnitCell.par]
  obtain ⟨node, hrun, hnode⟩ := Except_map_eq_ok _ _ _ (tallExplorer_prepare 0 0 0)
  obtain ⟨r0, hr0, hc⟩ := Except_map_eq_ok _ _ _ (tallExplorer_candidates 0 0 0)
  simp only [Prod.mk.injEq] at hnode
  refine ⟨hbox, node, hrun, by rw [hnode.2]; rfl, ?_⟩
  refine RDicVol_fast_path_keeps_exact 2 2 2 tallExplorer tallCell tallHalfWidth tallCell []
    node hbox hrun ?_
  intro r hr p hp h0 hl
  have hrr : r = r0 := by
    have := hr.symm.trans hr0
    simpa using this
  subst hrr
  have hmem : (p.dobs, p.vDicVolHKL) ∈ r.2.mvHKL.map (fun p => (p.dobs, p.vDicVolHKL)) :=
    List.mem_map.2 ⟨p, hp, rfl⟩
  rw [hc] at hmem
  simp only [List.mem_singleton, Prod.mk.injEq] at hmem
  have h01 : h0 = ⟨0, 0, 1⟩ := by
    have := hl.symm.trans hmem.2
    simpa using this
  subst h01
  refine ⟨fun _ h => absurd h (by decide), fun _ h => absurd h (by decide), fun _ _ _ => ?_⟩
  rw [hmem.1]
  norm_num [tallCell, RecUnitCell.par]

/-- C36 (counterexample). Orthorhombic box with centre (a*, b*, c*) = (3, 3, 1) and
half-width 1/5 on c*, one peak at dobs = 1 of width 1/2 (d*² interval [9/16, 25/16]), no
spurious peak, depth 0.  The cell c* = 23/20 lies in the box and its reflection (0,0,1) has
d*² = 529/400 inside the interval of the peak; for all budgets of at least 2 the start of
`RDicVol` returns a node whose box has centre c* = 1 and half-width 1/80 on c*, which does
not contain that cell. -/
theorem RDicVol_fast_path_drops_cell :
    (tallCell.inBox tallHalfWidth tallCellOff ∧
      (broadPeak 1 (1/2)).d2obsmin ≤ tallCellOff.hkl2dInt 0 0 1 ∧
      tallCellOff.hkl2dInt 0 0 1 ≤ (broadPeak 1 (1/2)).d2obsmax) ∧
    ∀ fh fk fl : Nat, ∃ node,
      RDicVol.prepare (fh+2) (fk+2) (fl+2) tallExplorer tallCell tallHalfWidth 0 []
        = .ok node ∧
      node.uc0.par 3 = 1 ∧ node.duc.par 3 = 1/80 ∧ ¬ node.uc0.inBox node.duc tallCellOff := by
  refine ⟨⟨⟨rfl, ?_⟩, ?_, ?_⟩, ?_⟩
  · intro i hi
    simp only [tallCell, metricSlots, List.mem_cons, List.mem_singleton, List.not_mem_nil,
      or_false] at hi
    rcases hi with h | h | h | h <;> subst h <;>
      norm_num [tallCell, tallCellOff, tallHalfWidth, RecUnitCell.par]
  · norm_num [broadPeak, PeakList.hkl.new, RecUnitCell.hkl2dInt, RecUnitCell.hkl2d, okValue,
      tallCellOff]
  · norm_num [broadPeak, PeakList.hkl.new, RecUnitCell.hkl2dInt, RecUnitCell.hkl2d, okValue,
      tallCellOff]
  · intro fh fk fl
    obtain ⟨node, hrun, hnode⟩ := Except_map_eq_ok _ _ _ (tallExplorer_prepare fh fk fl)
    simp only [Prod.mk.injEq] at hnode
    refine ⟨node, hrun, by rw [hnode.1]; rfl, by rw [hnode.2]; rfl, ?_⟩
    intro hin
    have h3 := hin.2 3 (by rw [hnode.1]; simp [tallCell, metricSlots])
    rw [hnode.1, hnode.2] at h3
    norm_num [tallCell, tallCellOff, RecUnitCell.par] at h3

/-- C37. Let the start of `DicVol` return (the depths fit in 32 bits).  Then
`mDicVolDepthReport <= mMaxDicVolDepth` and `mvNbSolutionDepth` has `mMaxDicVolDepth+1`
entries; a call of `RDicVol` that returns leaves these members and the size of the vector
as they are; and for a root call `RDicVol(uc0,duc,0,nbCalc,minV,maxV)` on an object with
these members: every call reached from it through the recursive calls has a depth of at
most `mMaxDicVolDepth`; the depth of its node, after the depth jump of the axis fast path,
is at least the depth of the call, at most `mMaxDicVolDepth`, and below the size of
`mvNbSolutionDepth`; each of its child calls is made with the depth of the node plus 1,
and only when the depth of the node is below `mMaxDicVolDepth`; and the root call returns
for every budget of the recursion above `mMaxDicVolDepth`. -/
theorem RDicVol_depth_bounded (cos sqrt acos : K → K) (lsq : CellExplorer K → CellExplorer K)
    (fh fk fl : Nat) (minV maxV minScore : K) (minDepth : Nat) (self0 self : CellExplorer K)
    (hmin : minDepth < 4294967296) (hmax : self0.mMaxDicVolDepth < 4294967296)
    (hsetup : CellExplorer.DicVol.setup cos minScore minDepth self0 = .ok self) :
    (self.mDicVolDepthReport ≤ self.mMaxDicVolDepth ∧
      self.mvNbSolutionDepth.length = self.mMaxDicVolDepth + 1) ∧
    (∀ (gas : Nat) (uc0 duc : RecUnitCell K) (depth nbCalc : Nat) (vdepth : List Nat)
        (s : CellExplorer K) (r : Nat × Nat × CellExplorer K),
      CellExplorer.RDicVol sqrt acos lsq fh fk fl gas uc0 duc depth nbCalc minV maxV vdepth s
        = some (.ok r) → r.2.2.depthFrame = s.depthFrame) ∧
    ∀ (s : CellExplorer K) (uc0 duc : RecUnitCell K) (nbCalc : Nat),
      s.depthFrame = self.depthFrame →
      (∀ call : RDicVol.Call K,
        Relation.ReflTransGen
          (fun p c => ∃ gas, RDicVol.Calls sqrt acos lsq fh fk fl gas minV maxV p c)
          { uc0 := uc0, duc := duc, depth := 0, nbCalc := nbCalc, vdepth := [], self := s }
          call →
        call.self.depthFrame = self.depthFrame ∧
        call.depth ≤ call.self.mMaxDicVolDepth ∧
        (∀ node, RDicVol.prepare fh fk fl call.self call.uc0 call.duc call.depth call.vdepth
            = .ok node →
          call.depth ≤ node.depth ∧ node.depth ≤ call.self.mMaxDicVolDepth ∧
          node.depth < call.self.mvNbSolutionDepth.length) ∧
        (∀ (gas : Nat) (child : RDicVol.Call K),
          RDicVol.Calls sqrt acos lsq fh fk fl gas minV maxV call child →
          ∃ node, RDicVol.prepare fh fk fl call.self call.uc0 call.duc call.depth call.vdepth
              = .ok node ∧
            node.depth < call.self.mMaxDicVolDepth ∧ child.depth = node.depth + 1)) ∧
      (∀ gas : Nat, self.mMaxDicVolDepth < gas →
        ∃ r, CellExplorer.RDicVol sqrt acos lsq fh fk fl gas uc0 duc 0 nbCalc minV maxV [] s
          = some r) := by
  obtain ⟨hrep, hmaxeq, hlen, hn2, hn7⟩ :=
    CellExplorer.DicVol.setup_depths cos minScore minDepth self0 self hmin hmax hsetup
  have hrm : self.mDicVolDepthReport ≤ self.mMaxDicVolDepth := by
    rw [hrep, hmaxeq]
    split <;> omega
  refine ⟨⟨hrm, hlen⟩, RDicVol_frame sqrt acos lsq fh fk fl minV maxV, ?_⟩
  intro s uc0 duc nbCalc hs
  have inv : ∀ call : RDicVol.Call K,
      Relation.ReflTransGen
        (fun p c => ∃ gas, RDicVol.Calls sqrt acos lsq fh fk fl gas minV maxV p c)
        { uc0 := uc0, duc := duc, depth := 0, nbCalc := nbCalc, vdepth := [], self := s }
        call →
      call.self.depthFrame = self.depthFrame ∧ call.depth ≤ self.mMaxDicVolDepth ∧
        (call.depth = 0 → call.vdepth = []) := by
    intro call hreach
    induction hreach with
    | refl => exact ⟨hs, Nat.zero_le _, fun _ => rfl⟩
    | @tail b c _ hbc ih =>
      obtain ⟨gas, _, node, duc1, before, after, uc, rs, n, s1, hprep, _, hlt, _, _, hvals,
        hchild⟩ := hbc
      obtain ⟨hfb, _, _⟩ := ih
      have hfs : s1.depthFrame = b.self.depthFrame :=
        RDicVol.childValues_frame _ b.self.depthFrame
          (fun uc n s r hs hc =>
            (RDicVol_frame sqrt acos lsq fh fk fl minV maxV gas uc duc1 (node.depth + 1) n
              node.vdepth s r hc).trans hs)
          before (b.nbCalc + 1) { b.self with mpPeakList := node.peaks } (rs, n, s1) rfl hvals
      have hbm : b.self.mMaxDicVolDepth = self.mMaxDicVolDepth := congrArg Prod.fst hfb
      rw [hchild]
      refine ⟨hfs.trans hfb, ?_, ?_⟩
      · show node.depth + 1 ≤ self.mMaxDicVolDepth
        omega
      · intro h0
        exact absurd h0 (Nat.succ_ne_zero _)
  refine ⟨?_, fun gas hgas => RDicVol_returns sqrt acos lsq fh fk fl minV maxV gas uc0 duc 0
    nbCalc [] s (by
      have hm : s.mMaxDicVolDepth = self.mMaxDicVolDepth := congrArg Prod.fst hs
      omega)⟩
  intro call hreach
  obtain ⟨hf, hd, hv⟩ := inv call hreach
  have hf2 := hf
  simp only [CellExplorer.depthFrame, Prod.mk.injEq] at hf2
  obtain ⟨f1, f2, f3, f4⟩ := hf2
  refine ⟨hf, by omega, ?_, ?_⟩
  · intro node hrun
    have hge := RDicVol.prepare_depth_ge fh fk fl call.self call.uc0 call.duc call.depth
      call.vdepth node hrun
    have hle : node.depth ≤ call.self.mMaxDicVolDepth := by
      by_cases h0 : call.depth = 0
      · have hv0 := hv h0
        rw [h0, hv0] at hrun
        have := RDicVol.prepare_depth_root fh fk fl call.self call.uc0 call.duc node
          (by omega) hrun
        omega
      · rcases RDicVol.prepare_depth fh fk fl call.self call.uc0 call.duc call.depth
          call.vdepth node hrun with h | h
        · omega
        · exact absurd h.1 h0
    exact ⟨hge, hle, by omega⟩
  · intro gas child hcalls
    obtain ⟨_, node, duc1, before, after, uc, rs, n, s1, hprep, _, hlt, _, _, _, hchild⟩ :=
      hcalls
    exact ⟨node, hprep, hlt, by rw [hchild]⟩

/-- Witness of C37: `DicVol(10,6)` on the orthorhombic object `tallExplorer`
(`mMaxDicVolDepth = 7`): the start returns, the vector has 8 entries, and the root call on
the box c* = 1 ± 1/5 returns for every budget above 7. -/
theorem RDicVol_depth_bounded_witness :
    CellExplorer.DicVol.setup (fun x => x) 10 6 tallExplorer
      = .ok (CellExplorer.Init (fun x => x) tallExplorer) ∧
    (CellExplorer.Init (fun x : ℚ => x) tallExplorer).mvNbSolutionDepth.length = 7 + 1 ∧
    ∀ gas : Nat, 7 < gas →
      ∃ r, CellExplorer.RDicVol (fun x => x) (fun x => x) (fun e => e) 2 2 2 gas tallCell
        tallHalfWidth 0 0 0 1600 [] (CellExplorer.Init (fun x => x) tallExplorer) = some r := by
  have hsetup : CellExplorer.DicVol.setup (fun x => x) 10 6 tallExplorer
      = .ok (CellExplorer.Init (fun x => x) tallExplorer) := by
    simp [CellExplorer.DicVol.setup, CellExplorer.Init, tallExplorer, explorerOn, tallCell]
  have h := RDicVol_depth_bounded (fun x => x) (fun x => x) (fun x => x) (fun e => e) 2 2 2
    0 1600 10 6 tallExplorer (CellExplorer.Init (fun x => x) tallExplorer) (by norm_num)
    (by simp [tallExplorer, explorerOn]) hsetup
  refine ⟨hsetup, h.1.2, fun gas hgas => ?_⟩
  exact (h.2.2 _ tallCell tallHalfWidth 0 rfl).2 gas hgas

/-- C40 (counterexample). Three cubic cells of direct length a = 5, 5.012 and 5.006
with scores 1, 1/2 and 2, in this order.  The cell 5.012 is not similar to 5, the cell 5.006
is; `ReduceSolutions` returns the cells 5.006 (score 2) and 5.012 (score 1/2), which are
similar to each other, and a second call removes the cell 5.012. -/
theorem ReduceSolutions_leaves_similar_pair :
    (SimilarRUC Real.sqrt Real.arccos (cubicDirect ℝ (5012/1000)) (cubicDirect ℝ 5) (5/1000)
        = false ∧
      SimilarRUC Real.sqrt Real.arccos (cubicDirect ℝ (5006/1000)) (cubicDirect ℝ 5) (5/1000)
        = true) ∧
    CellExplorer.ReduceSolutions Real.sqrt Real.arccos
        [(cubicDirect ℝ 5, 1), (cubicDirect ℝ (5012/1000), 1/2),
          (cubicDirect ℝ (5006/1000), 2)]
      = [(cubicDirect ℝ (5006/1000), 2), (cubicDirect ℝ (5012/1000), 1/2)] ∧
    SimilarRUC Real.sqrt Real.arccos (cubicDirect ℝ (5012/1000)) (cubicDirect ℝ (5006/1000))
      (5/1000) = true ∧
    CellExplorer.ReduceSolutions Real.sqrt Real.arccos
        [(cubicDirect ℝ (5006/1000), 2), (cubicDirect ℝ (5012/1000), 1/2)]
      = [(cubicDirect ℝ (5006/1000), 2)] := by
  have hCA : SimilarRUC Real.sqrt Real.arccos (cubicDirect ℝ (5012/1000)) (cubicDirect ℝ 5)
      (5/1000) = false := by
    rw [SimilarRUC_cubicDirect]
    norm_num [abs_of_pos]
  have hBA : SimilarRUC Real.sqrt Real.arccos (cubicDirect ℝ (5006/1000)) (cubicDirect ℝ 5)
      (5/1000) = true := by
    rw [SimilarRUC_cubicDirect]
    norm_num [abs_of_pos]
  have hCB : SimilarRUC Real.sqrt Real.arccos (cubicDirect ℝ (5012/1000))
      (cubicDirect ℝ (5006/1000)) (5/1000) = true := by
    rw [SimilarRUC_cubicDirect]
    norm_num [abs_of_pos]
  refine ⟨⟨hCA, hBA⟩, ?_, hCB, ?_⟩
  · simp only [CellExplorer.ReduceSolutions]
    rw [CellExplorer.ReduceSolutions.loop]
    simp only [CellExplorer.ReduceSolutions.inner, hCA, hBA, Bool.false_eq_true, if_false,
      if_true]
    have h21 : (2:ℝ) > 1 := by norm_num
    simp only [cubicDirect, h21, if_true]
    rw [CellExplorer.ReduceSolutions.loop]
    simp only [CellExplorer.ReduceSolutions.inner]
    rw [CellExplorer.ReduceSolutions.loop]
    simp only [List.nil_append, List.cons_append]
    apply listSort_compareRUCScore_of_sorted
    simp only [List.pairwise_cons, List.mem_singleton, forall_eq, List.not_mem_nil,
      IsEmpty.forall_iff, implies_true, List.Pairwise.nil, and_true]
    norm_num
  · rw [ReduceSolutions_pair Real.sqrt Real.arccos (cubicDirect ℝ (5006/1000), 2)
      (cubicDirect ℝ (5012/1000), 1/2) hCB]
    have h : ¬ ((1/2 : ℝ) > 2) := by norm_num
    simp only [cubicDirect, if_true, h, if_false]

/-- C40 (amended). For a list of solutions of one lattice system that is sorted by
non-increasing score, no two entries that `ReduceSolutions` leaves are similar to each
other (`SimilarRUC` is false for every pair, in both orders), and a second call of
`ReduceSolutions` changes nothing. -/
theorem ReduceSolutions_sorted_idempotent (sqrt acos : K → K) (lat : CrystalSystem)
    (mvSolution : List (RecUnitCell K × K))
    (hlat : ∀ e ∈ mvSolution, e.1.mlattice = lat)
    (hsorted : mvSolution.Pairwise (fun a b => b.2 ≤ a.2)) :
    (CellExplorer.ReduceSolutions sqrt acos mvSolution).Pairwise
      (fun a b => SimilarRUC sqrt acos b.1 a.1 (5/1000) = false ∧
        SimilarRUC sqrt acos a.1 b.1 (5/1000) = false) ∧
    CellExplorer.ReduceSolutions sqrt acos (CellExplorer.ReduceSolutions sqrt acos mvSolution)
      = CellExplorer.ReduceSolutions sqrt acos mvSolution := by
  obtain ⟨_, hpair, hid⟩ := ReduceSolutions_of_sorted sqrt acos lat mvSolution hlat hsorted
  refine ⟨hpair.imp ?_, hid⟩
  intro a b hab
  exact ⟨hab, by rw [SimilarRUC_comm]; exact hab⟩

/-- Witness of C40: the cubic cells a* = 1/5 with score 2 and a* = 1/4 with score 1. -/
theorem ReduceSolutions_sorted_idempotent_witness :
    ((∀ e ∈ [(cubicCell ℚ, (2:ℚ)), (cubicQuarter ℚ, 1)], e.1.mlattice = CUBIC) ∧
      [(cubicCell ℚ, (2:ℚ)), (cubicQuarter ℚ, 1)].Pairwise (fun a b => b.2 ≤ a.2)) ∧
    CellExplorer.ReduceSolutions (fun x => x) (fun x => x)
        (CellExplorer.ReduceSolutions (fun x => x) (fun x => x)
          [(cubicCell ℚ, 2), (cubicQuarter ℚ, 1)])
      = CellExplorer.ReduceSolutions (fun x => x) (fun x => x)
          [(cubicCell ℚ, 2), (cubicQuarter ℚ, 1)] := by
  have h1 : ∀ e ∈ [(cubicCell ℚ, (2:ℚ)), (cubicQuarter ℚ, 1)], e.1.mlattice = CUBIC := by
    intro e he
    simp only [List.mem_cons, List.mem_singleton, List.not_mem_nil, or_false] at he
    rcases he with h | h <;> subst h <;> rfl
  have h2 : [(cubicCell ℚ, (2:ℚ)), (cubicQuarter ℚ, 1)].Pairwise (fun a b => b.2 ≤ a.2) := by
    simp
  exact ⟨⟨h1, h2⟩, (ReduceSolutions_sorted_idempotent (fun x : ℚ => x) (fun x => x) CUBIC
    [(cubicCell ℚ, 2), (cubicQuarter ℚ, 1)] h1 h2).2⟩

end Theorems

end ObjCryst
